import Mathlib

/-!
# Bitfighter bot navigation core: A* over navigation-mesh zones, the adjacency builders,
# the removal of unused zones, the bot event manager, the waypoints of a bot and the
# teleporter

Shallow embedding of `AStar::findPath`, `AStar::findGateway`, `AStar::heuristic`,
`BotNavMeshZone::getNeighborIndex`, `BotNavMeshZone::buildBotNavMeshZoneConnections`,
`buildBotNavMeshZoneConnectionsRecastStyle`, `removeUnusedNavMeshZones`,
`BotNavMeshZone::findZoneContaining`, the bounds check and the coordinate offset of
`makeBotMeshZones3` (src/zap/BotNavMeshZone.cpp), of `EventManager`, the event bookkeeping
of `LuaRobot`, `LuaRobot::getGatewayFromZoneToZone`, `LuaRobot::getWaypoint` and
`LuaRobot::findClosestZone` (src/zap/robot.cpp), and of `Teleporter::processArguments`,
`damageObject`, `onConstructed`, `setEndpoint` and the choice of the destination in `idle`
(src/zap/teleporter.cpp), followed by theorems about them.

Conventions of the embedding

* `F32` values live in an arbitrary linearly ordered ring `α` with a floor function: the
  arithmetic is exact, the rounding of machine floats is not modelled.  `ℤ` and `ℚ` are
  instances.  The functions that halve coordinates (border centres, rectangle centres) take
  a linearly ordered field.  `Point::distanceTo` is a parameter of every definition that
  needs it.
* The static C arrays of `findPath` are total functions `Nat → _`; an array write is
  `setAt`.  Indices are natural numbers: the source indexes with `S32`/`S16` values that
  are never negative and, on a graph of at most `MAX_ZONES` zones, stay inside the arrays.
* The body of `findPath` is cut into `startSearch`, `searchLoop` (with `closeTop`,
  `visitNeighbor` and `expandTop` for one round) and `walkBack`.
* Loops whose termination is not structural carry a fuel argument.  The search loop and
  the parent walk return `none` when the fuel is used up; `searchLoop_total` and
  `findPath_spec` show that this does not happen, and the `_fuel_enough` lemmas show that
  the heap loops have left through their exit before their fuel ends.  The same holds for
  the chain walk of the edge matching (`buildEdges_total`), for the loop over
  `inProcessList` (`processZones_induct`) and for the two passes of `findClosestZone`
  (`findClosestZone_spec`).
* The debug assertions of the source (`TNLAssert`) are not modelled, except for the bounds
  check, whose condition is `levelInBounds`, and the assertion on the number of open list
  items in `findPath`, whose condition is `assertNotFull`; where the source would read
  outside a vector, the embedding reads a default value, and a write outside a vector
  changes nothing.
* The polygons and extents of the zones and the object database are not modelled: the tests
  on them (`intersectsOrBorders`, `zonesTouch`, `contains`) and the database queries
  (`fillVector`, `findZoneContainingPoint`) are arguments, functions of zone indices and
  points.  Calls that only act on the database or on rendering members
  (`removeFromDatabase`, `addToGame`, `mConvex`) are left out.
* The visibility tests of a bot (`pointCanSeePoint` of the grid database,
  `Robot::canSeePoint`), the global `findZoneContaining` used by `getWaypoint`, the C
  function `atof` and the random number source `Random::readI` are arguments as well.
* Interpreter handles (`lua_State *`) are natural numbers.  A firing of an event returns
  the list of handles whose callback was called; whether a callback ends in an error is
  given by a function `ok`.
-/

namespace Zap

/-! ## Geometry and zone records -/

/-- Point of the engine: two `F32` coordinates. -/
structure Point (α : Type) where
  x : α
  y : α
  deriving DecidableEq

/-- Record `NeighboringZone` stored in `BotNavMeshZone::mNeighbors`. -/
structure NeighboringZone (α : Type) where
  zoneID : Nat
  borderStart : Point α
  borderEnd : Point α
  borderCenter : Point α
  center : Point α
  distTo : α
  deriving DecidableEq

/-- A navigation-mesh zone, reduced to the members that the pathfinder, the adjacency
builders and the pruning read or write: its id, the centre of its extent
(`getExtent().getCenter()`, computed by `Rect`), its list of neighbour records, the mark
`flag` of the pruning and the member `mCentroid`.  The polygon `mPolyBounds` and the extent
are not part of the record: the functions that test them take the outcome of the test as
an argument.  A zone written without `mCentroid` has the centre of its extent there. -/
structure BotNavMeshZone (α : Type) where
  mZoneId : Nat
  extentCenter : Point α
  mNeighbors : List (NeighboringZone α)
  flag : Bool := false
  mCentroid : Point α := extentCenter
  deriving DecidableEq

/-- Capacity of the static arrays of `AStar::findPath`. -/
def MAX_ZONES : Nat := 10000

/-- Largest value of an unsigned 16-bit integer. -/
def U16_MAX : Nat := 65535

/-- Array write `a[i] = v` on an array represented as a function. -/
def setAt {β : Type} (a : Nat → β) (i : Nat) (v : β) : Nat → β :=
  fun j => if j = i then v else a j

/-- Exchange of the array slots `i` and `j` (the three-assignment swap through `temp`). -/
def swapAt {β : Type} (a : Nat → β) (i j : Nat) : Nat → β :=
  setAt (setAt a i (a j)) j (a i)

section AStar

variable {α : Type} [LinearOrderedRing α] [FloorRing α]

/-- Method `BotNavMeshZone::getCenter` of zone `gBotNavMeshZones[i]`
(an index outside the vector is undefined in the source; the origin stands in). -/
def getCenter (zones : List (BotNavMeshZone α)) (i : Nat) : Point α :=
  match zones.get? i with
  | some z => z.extentCenter
  | none => ⟨0, 0⟩

/-- Member `gBotNavMeshZones[i]->mNeighbors` (empty outside the vector). -/
def neighborsOf (zones : List (BotNavMeshZone α)) (i : Nat) : List (NeighboringZone α) :=
  match zones.get? i with
  | some z => z.mNeighbors
  | none => []

/-- Method `BotNavMeshZone::getNeighborIndex`: index of the first neighbour record
whose `zoneID` is the given one, or `-1`. -/
def getNeighborIndex (nbrs : List (NeighboringZone α)) (zoneID : Nat) : Int :=
  let i := nbrs.findIdx (fun n => n.zoneID == zoneID)
  if i < nbrs.length then (i : Int) else -1

/-- Function `AStar::findGateway`: border centre of the first neighbour record of
`zone1` that leads to `zone2` (the source asserts that the index is not negative;
the origin stands in when it is). -/
def findGateway (zones : List (BotNavMeshZone α)) (zone1 zone2 : Nat) : Point α :=
  let neighborIndex := getNeighborIndex (neighborsOf zones zone1) zone2
  if neighborIndex < 0 then ⟨0, 0⟩
  else
    match (neighborsOf zones zone1)[neighborIndex.toNat]? with
    | some n => n.borderCenter
    | none => ⟨0, 0⟩

/-- Function `AStar::heuristic`: distance between the two zone centres.  `Point::distanceTo`
is a parameter (it is declared in a header outside the sources at hand). -/
def heuristic (distanceTo : Point α → Point α → α) (zones : List (BotNavMeshZone α))
    (fromZone toZone : Nat) : α :=
  distanceTo (getCenter zones fromZone) (getCenter zones toZone)

/-- Conversion `(S32) x` of a float: truncation toward zero. -/
def truncS32 (x : α) : Int :=
  if 0 ≤ x then Int.floor x else Int.ceil x

/-- The static variables and arrays of `AStar::findPath`, together with its two
counters `numberOfOpenListItems` and `newOpenListItemID`. -/
structure AStar (α : Type) where
  onClosedList : Nat
  onOpenList : Nat
  whichList : Nat → Nat
  openList : Nat → Nat
  openZone : Nat → Nat
  parentZones : Nat → Nat
  Fcost : Nat → α
  Gcost : Nat → α
  Hcost : Nat → α
  numberOfOpenListItems : Nat
  newOpenListItemID : Nat

/-- Static state at program start: zero-initialised statics. -/
def AStar.init : AStar α :=
  { onClosedList := 0, onOpenList := 0, whichList := fun _ => 0, openList := fun _ => 0,
    openZone := fun _ => 0, parentZones := fun _ => 0, Fcost := fun _ => 0,
    Gcost := fun _ => 0, Hcost := fun _ => 0, numberOfOpenListItems := 0,
    newOpenListItemID := 0 }

/-- The generation step at the head of `findPath`: clear `whichList` when the `U16`
counter has no headroom left, then advance `onClosedList` by two and set
`onOpenList = onClosedList - 1` (both in `U16` arithmetic). -/
def nextGeneration (s : AStar α) : AStar α :=
  let s1 : AStar α :=
    if s.onClosedList > U16_MAX - 3 then
      { s with whichList := fun i => if i < MAX_ZONES then 0 else s.whichList i,
               onClosedList := 0 }
    else s
  let c := (s1.onClosedList + 2) % 65536
  { s1 with onClosedList := c, onOpenList := (c + 65535) % 65536 }

/-- One round of the inner loop marked `***`, up to the comparison `u != v`: the slot
that the item in slot `u` is to be exchanged with (`u` itself when it stays).  `n` is
`numberOfOpenListItems`, already decremented. -/
def lowerChild (Fcost : Nat → α) (n : Nat) (openList : Nat → Nat) (u : Nat) : Nat :=
  if 2 * u + 1 < n then
    let v := if Fcost (openList u) ≥ Fcost (openList (2 * u)) then 2 * u else u
    if Fcost (openList v) ≥ Fcost (openList (2 * u + 1)) then 2 * u + 1 else v
  else if 2 * u < n then
    if Fcost (openList u) ≥ Fcost (openList (2 * u)) then 2 * u else u
  else u

/-- The inner loop marked `***`: the item moved to slot `v` sinks until `lowerChild`
leaves it in place.  Each round at least doubles `v`, so `n + 1` units of fuel are never
used up. -/
def siftDown (Fcost : Nat → α) (n : Nat) : Nat → Nat → (Nat → Nat) → (Nat → Nat)
  | 0, _, openList => openList
  | fuel + 1, v, openList =>
    let u := v
    let v1 := lowerChild Fcost n openList u
    if u ≠ v1 then siftDown Fcost n fuel v1 (swapAt openList u v1) else openList

/-- The loop that lets a new item rise: `while(m > 1 && Fcost[openList[m]] <= Fcost[openList[m/2]])`.
Each round halves `m`, so `m` units of fuel are never used up. -/
def bubbleUpLE (Fcost : Nat → α) : Nat → Nat → (Nat → Nat) → (Nat → Nat)
  | 0, _, openList => openList
  | fuel + 1, m, openList =>
    if m > 1 ∧ Fcost (openList m) ≤ Fcost (openList (m / 2)) then
      bubbleUpLE Fcost fuel (m / 2) (swapAt openList (m / 2) m)
    else openList

/-- The loop that lets an item with a lowered F cost rise:
`while(m > 1 && Fcost[openList[m]] < Fcost[openList[m/2]])`. -/
def bubbleUpLT (Fcost : Nat → α) : Nat → Nat → (Nat → Nat) → (Nat → Nat)
  | 0, _, openList => openList
  | fuel + 1, m, openList =>
    if m > 1 ∧ Fcost (openList m) < Fcost (openList (m / 2)) then
      bubbleUpLT Fcost fuel (m / 2) (swapAt openList (m / 2) m)
    else openList

/-- Body of the loop over the neighbour records of `parentZone`, for one record.  The
static arrays of `MAX_ZONES` entries (`openList`: `MAX_ZONES + 1`) are total functions
here, so the embedding follows the source as long as every index stays within them; it
does on a graph of at most `MAX_ZONES` zones with valid neighbour ids.  The assertion
`TNLAssert(newOpenListItemID < MAX_ZONES, ...)` that stands between the two tests changes
no state; its condition is `assertNotFull`. -/
def visitNeighbor (distanceTo : Point α → Point α → α) (zones : List (BotNavMeshZone α))
    (parentZone targetZone : Nat) (s : AStar α) (zone : NeighboringZone α) : AStar α :=
  let zoneID := zone.zoneID
  if s.whichList zoneID = s.onClosedList then s
  else if s.whichList zoneID ≠ s.onOpenList ∧ s.newOpenListItemID < MAX_ZONES then
    let newOpenListItemID := s.newOpenListItemID + 1
    let m := s.numberOfOpenListItems + 1
    let openList := setAt s.openList m newOpenListItemID
    let openZone := setAt s.openZone newOpenListItemID zoneID
    let Hcost := setAt s.Hcost (openList m) (heuristic distanceTo zones zoneID targetZone)
    let Gcost := setAt s.Gcost zoneID (s.Gcost parentZone + zone.distTo)
    let Fcost := setAt s.Fcost (openList m) (Gcost zoneID + Hcost (openList m))
    let parentZones := setAt s.parentZones zoneID parentZone
    let openList := bubbleUpLE Fcost m m openList
    { s with
      newOpenListItemID := newOpenListItemID, openList := openList, openZone := openZone,
      Hcost := Hcost, Gcost := Gcost, Fcost := Fcost, parentZones := parentZones,
      whichList := setAt s.whichList zoneID s.onOpenList,
      numberOfOpenListItems := s.numberOfOpenListItems + 1 }
  else
    let tempGcost : Int := truncS32 (s.Gcost parentZone + zone.distTo)
    if (tempGcost : α) < s.Gcost zoneID then
      let parentZones := setAt s.parentZones zoneID parentZone
      let Gcost := setAt s.Gcost zoneID (tempGcost : α)
      match (List.range' 1 s.numberOfOpenListItems).find?
          (fun i => s.openZone (s.openList i) == zoneID) with
      | some i =>
        let Fcost := setAt s.Fcost (s.openList i) (Gcost zoneID + s.Hcost (s.openList i))
        { s with parentZones := parentZones, Gcost := Gcost, Fcost := Fcost,
                 openList := bubbleUpLT Fcost i i s.openList }
      | none => { s with parentZones := parentZones, Gcost := Gcost }
    else s

/-- First half of a round of the search loop, once the top item is known not to be the
target: put `parentZone` on the closed list and delete the top item of the binary heap. -/
def closeTop (s : AStar α) : AStar α :=
  let parentZone := s.openZone (s.openList 1)
  let whichList := setAt s.whichList parentZone s.onClosedList
  let numberOfOpenListItems := s.numberOfOpenListItems - 1
  let openList := setAt s.openList 1 (s.openList (numberOfOpenListItems + 1))
  { s with
    whichList := whichList, numberOfOpenListItems := numberOfOpenListItems,
    openList := siftDown s.Fcost numberOfOpenListItems (numberOfOpenListItems + 1) 1 openList }

/-- One round of the search loop, once the top item is known not to be the target:
`closeTop`, then the loop over the neighbour records of `parentZone`. -/
def expandTop (distanceTo : Point α → Point α → α) (zones : List (BotNavMeshZone α))
    (targetZone : Nat) (s : AStar α) : AStar α :=
  let parentZone := s.openZone (s.openList 1)
  (neighborsOf zones parentZone).foldl (visitNeighbor distanceTo zones parentZone targetZone)
    (closeTop s)

/-- The search loop `while(true)` of `findPath`.  The result is `foundPath` and the state
at the `break`; `none` means that the fuel was used up. -/
def searchLoop (distanceTo : Point α → Point α → α) (zones : List (BotNavMeshZone α))
    (targetZone : Nat) : Nat → AStar α → Option (Bool × AStar α)
  | 0, _ => none
  | fuel + 1, s =>
    if s.numberOfOpenListItems = 0 then some (false, s)
    else if s.openZone (s.openList 1) = targetZone then some (true, s)
    else
      let s1 := expandTop distanceTo zones targetZone s
      if s1.whichList targetZone = s1.onOpenList then some (true, s1)
      else searchLoop distanceTo zones targetZone fuel s1

/-- The assertion `TNLAssert(newOpenListItemID < MAX_ZONES, ...)` in the loop over the
neighbour records, for one record in state `s`: it is evaluated unless the record is left
by the `continue` for a closed zone, and it holds when fewer than `MAX_ZONES` open list
items have been issued. -/
def assertNotFull (s : AStar α) (zone : NeighboringZone α) : Bool :=
  decide (s.whichList zone.zoneID = s.onClosedList ∨ s.newOpenListItemID < MAX_ZONES)

/-- Whether the assertion holds every time it is evaluated in one round of the search
loop: the loop over the neighbour records of `expandTop`, with the conjunction of the
assertions carried along. -/
def expandTopAsserts (distanceTo : Point α → Point α → α) (zones : List (BotNavMeshZone α))
    (targetZone : Nat) (s : AStar α) : Bool :=
  let parentZone := s.openZone (s.openList 1)
  ((neighborsOf zones parentZone).foldl
    (fun (acc : Bool × AStar α) zone =>
      (acc.1 && assertNotFull acc.2 zone,
        visitNeighbor distanceTo zones parentZone targetZone acc.2 zone))
    (true, closeTop s)).1

/-- Whether the assertion holds every time it is evaluated in the search loop, as far as
the fuel reaches: the rounds are those of `searchLoop`. -/
def searchLoopAsserts (distanceTo : Point α → Point α → α) (zones : List (BotNavMeshZone α))
    (targetZone : Nat) : Nat → AStar α → Bool
  | 0, _ => true
  | fuel + 1, s =>
    if s.numberOfOpenListItems = 0 then true
    else if s.openZone (s.openList 1) = targetZone then true
    else
      let s1 := expandTop distanceTo zones targetZone s
      expandTopAsserts distanceTo zones targetZone s &&
        (if s1.whichList targetZone = s1.onOpenList then true
          else searchLoopAsserts distanceTo zones targetZone fuel s1)

/-- The loop `while(zone != startZone)` that walks `parentZones` back from the target,
pushing the gateway from the parent and the parent's centre.  `none`: fuel used up. -/
def walkBack (zones : List (BotNavMeshZone α)) (parentZones : Nat → Nat) (startZone : Nat) :
    Nat → Nat → List (Point α) → Option (List (Point α))
  | fuel, zone, path =>
    if zone = startZone then some path
    else
      match fuel with
      | 0 => none
      | fuel + 1 =>
        walkBack zones parentZones startZone fuel (parentZones zone)
          ((path ++ [findGateway zones (parentZones zone) zone]) ++
            [getCenter zones (parentZones zone)])

/-- State of `findPath` on entry to the search loop. -/
def startSearch (distanceTo : Point α → Point α → α) (zones : List (BotNavMeshZone α))
    (st : AStar α) (startZone targetZone : Nat) : AStar α :=
  let s := nextGeneration st
  let h := heuristic distanceTo zones startZone targetZone
  { s with
    Gcost := setAt s.Gcost startZone 0, Hcost := setAt s.Hcost 0 h, Fcost := setAt s.Fcost 0 h,
    numberOfOpenListItems := 1, newOpenListItemID := 0,
    openList := setAt s.openList 1 0, openZone := setAt s.openZone 0 startZone }

/-- Function `AStar::findPath`: the returned vector of points together with the static
state it leaves behind.  `none` only if a loop ran out of fuel. -/
def findPath (distanceTo : Point α → Point α → α) (zones : List (BotNavMeshZone α))
    (st : AStar α) (startZone targetZone : Nat) (target : Point α) :
    Option (List (Point α) × AStar α) :=
  match searchLoop distanceTo zones targetZone (MAX_ZONES + 2)
      (startSearch distanceTo zones st startZone targetZone) with
  | none => none
  | some (false, s) => some ([], s)
  | some (true, s) =>
    match walkBack zones s.parentZones startZone (MAX_ZONES + 1) targetZone
        [target, getCenter zones targetZone] with
    | none => none
    | some path => some (path ++ [getCenter zones startZone], s)

end AStar

/-! ## Event manager (src/zap/robot.cpp) -/

/-- Interpreter handle `lua_State *`; the event manager only compares handles. -/
abbrev Handle := Nat

/-- Enumeration `EventManager::EventType` (`EventTypes` counts its five members). -/
inductive EventType where
  | ShipSpawnedEvent
  | ShipKilledEvent
  | MsgReceivedEvent
  | PlayerJoinedEvent
  | PlayerLeftEvent
  deriving DecidableEq

/-- Method `Vector<T>::erase_fast(index)` of the TNL vector (declared in tnlVector.h of the
network library, used here as by the three `removeFrom...List` methods): the last element is
copied into slot `index` and the vector shrinks by one; the order of the elements is not
kept. -/
def erase_fast {β : Type} (v : List β) (index : Nat) : List β :=
  match v.getLast? with
  | none => v
  | some last => (v.set index last).dropLast

/-- The loop shared by the three `removeFrom...List` methods: `erase_fast` the first
slot holding the handle and return; nothing happens when no slot holds it. -/
def removeFirstMatch (v : List Handle) (L : Handle) : List Handle :=
  if v.indexOf L < v.length then erase_fast v (v.indexOf L) else v

/-- The static members of `EventManager`: the flag `anyPending` and, per event type, the
vectors `subscriptions`, `pendingSubscriptions` and `pendingUnsubscriptions`. -/
structure EventManager where
  anyPending : Bool
  subscriptions : EventType → List Handle
  pendingSubscriptions : EventType → List Handle
  pendingUnsubscriptions : EventType → List Handle

namespace EventManager

/-- State at program start: `anyPending = false` and empty vectors. -/
def init : EventManager :=
  { anyPending := false, subscriptions := fun _ => [], pendingSubscriptions := fun _ => [],
    pendingUnsubscriptions := fun _ => [] }

/-- Write `v` into the slot of event type `e` of an array of vectors. -/
def setList (a : EventType → List Handle) (e : EventType) (v : List Handle) :
    EventType → List Handle :=
  fun e1 => if e1 = e then v else a e1

/-- Method `EventManager::isSubscribed`. -/
def isSubscribed (s : EventManager) (L : Handle) (eventType : EventType) : Bool :=
  (s.subscriptions eventType).contains L

/-- Method `EventManager::isPendingSubscribed`. -/
def isPendingSubscribed (s : EventManager) (L : Handle) (eventType : EventType) : Bool :=
  (s.pendingSubscriptions eventType).contains L

/-- Method `EventManager::isPendingUnsubscribed`. -/
def isPendingUnsubscribed (s : EventManager) (L : Handle) (eventType : EventType) : Bool :=
  (s.pendingUnsubscriptions eventType).contains L

/-- Method `EventManager::removeFromPendingSubscribeList`. -/
def removeFromPendingSubscribeList (s : EventManager) (subscriber : Handle)
    (eventType : EventType) : EventManager :=
  let v := removeFirstMatch (s.pendingSubscriptions eventType) subscriber
  { s with pendingSubscriptions := setList s.pendingSubscriptions eventType v }

/-- Method `EventManager::removeFromPendingUnsubscribeList`. -/
def removeFromPendingUnsubscribeList (s : EventManager) (unsubscriber : Handle)
    (eventType : EventType) : EventManager :=
  let v := removeFirstMatch (s.pendingUnsubscriptions eventType) unsubscriber
  { s with pendingUnsubscriptions := setList s.pendingUnsubscriptions eventType v }

/-- Method `EventManager::removeFromSubscribedList`. -/
def removeFromSubscribedList (s : EventManager) (subscriber : Handle)
    (eventType : EventType) : EventManager :=
  let v := removeFirstMatch (s.subscriptions eventType) subscriber
  { s with subscriptions := setList s.subscriptions eventType v }

/-- Method `EventManager::subscribe`. -/
def subscribe (s : EventManager) (L : Handle) (eventType : EventType) : EventManager :=
  if !isSubscribed s L eventType && !isPendingSubscribed s L eventType then
    let s1 := removeFromPendingUnsubscribeList s L eventType
    { s1 with
      pendingSubscriptions :=
        setList s1.pendingSubscriptions eventType (s1.pendingSubscriptions eventType ++ [L]),
      anyPending := true }
  else s

/-- Method `EventManager::unsubscribe`. -/
def unsubscribe (s : EventManager) (L : Handle) (eventType : EventType) : EventManager :=
  if isSubscribed s L eventType && !isPendingUnsubscribed s L eventType then
    let s1 := removeFromPendingSubscribeList s L eventType
    { s1 with
      pendingUnsubscriptions :=
        setList s1.pendingUnsubscriptions eventType (s1.pendingUnsubscriptions eventType ++ [L]),
      anyPending := true }
  else s

/-- Method `EventManager::unsubscribeImmediate`. -/
def unsubscribeImmediate (s : EventManager) (L : Handle) (eventType : EventType) :
    EventManager :=
  removeFromPendingUnsubscribeList
    (removeFromPendingSubscribeList (removeFromSubscribedList s L eventType) L eventType)
    L eventType

/-- Method `EventManager::update`.  The three loops over the event types act on each type
separately: the pending unsubscribers are removed from the subscribers one after the
other, the pending subscribers are appended, and both pending vectors are cleared. -/
def update (s : EventManager) : EventManager :=
  if s.anyPending then
    { anyPending := false,
      subscriptions := fun i =>
        ((s.pendingUnsubscriptions i).foldl removeFirstMatch (s.subscriptions i)) ++
          s.pendingSubscriptions i,
      pendingSubscriptions := fun _ => [],
      pendingUnsubscriptions := fun _ => [] }
  else s

/-- The delivery loop of `fireEvent(eventType)` and `fireEvent(eventType, ship)` over the
subscriber vector.  `ok L` tells whether the script callback of `L` ran without error
(`lua_pcall` returned 0); on an error the `catch` block logs it and returns.  The result is
the list of handles whose callback was called, in call order. -/
def deliver (ok : Handle → Bool) : List Handle → List Handle
  | [] => []
  | L :: rest => if ok L then L :: deliver ok rest else [L]

/-- The delivery loop of the two `fireEvent` overloads that take the calling handle
`caller_L`: that handle is skipped (`continue`). -/
def deliverExcept (caller_L : Handle) (ok : Handle → Bool) : List Handle → List Handle
  | [] => []
  | L :: rest =>
    if L = caller_L then deliverExcept caller_L ok rest
    else if ok L then L :: deliverExcept caller_L ok rest
    else [L]

/-- Overload `EventManager::fireEvent(EventType)`: handles called, in order. -/
def fireEvent (s : EventManager) (eventType : EventType) (ok : Handle → Bool) : List Handle :=
  deliver ok (s.subscriptions eventType)

/-- Overload `EventManager::fireEvent(EventType, Ship *)`: handles called, in order. -/
def fireEventShip (s : EventManager) (eventType : EventType) (ok : Handle → Bool) :
    List Handle :=
  deliver ok (s.subscriptions eventType)

/-- Overload `EventManager::fireEvent(caller_L, eventType, message, player, global)`, fired by
`globalMsg` and `teamMsg` with `MsgReceivedEvent`: handles called, in order. -/
def fireEventMsg (s : EventManager) (caller_L : Handle) (eventType : EventType)
    (ok : Handle → Bool) : List Handle :=
  deliverExcept caller_L ok (s.subscriptions eventType)

/-- Overload `EventManager::fireEvent(caller_L, eventType, player)` (player joined or left):
handles called, in order. -/
def fireEventPlayer (s : EventManager) (caller_L : Handle) (eventType : EventType)
    (ok : Handle → Bool) : List Handle :=
  deliverExcept caller_L ok (s.subscriptions eventType)

/-- The state-changing operations of the event manager. -/
inductive Op where
  | subscribe (L : Handle) (e : EventType)
  | unsubscribe (L : Handle) (e : EventType)
  | unsubscribeImmediate (L : Handle) (e : EventType)
  | update

/-- Effect of one operation. -/
def step (s : EventManager) : Op → EventManager
  | Op.subscribe L e => s.subscribe L e
  | Op.unsubscribe L e => s.unsubscribe L e
  | Op.unsubscribeImmediate L e => s.unsubscribeImmediate L e
  | Op.update => s.update

/-- Effect of a history of operations, oldest first. -/
def run (ops : List Op) (s : EventManager) : EventManager :=
  ops.foldl step s

/-- A state is reachable when some history of operations leads to it from the initial state. -/
def Reachable (s : EventManager) : Prop :=
  ∃ ops : List Op, s = run ops init

end EventManager

/-! ## Bot script object and its event bookkeeping (src/zap/robot.cpp) -/

/-- The number `EventManager::EventTypes` of event types. -/
def EventManager.EventTypes : Int := 5

/-- The event type with a given number.  The numbering is that of the table
`eventFunctions`, which the `fireEvent` overloads index with the event type. -/
def EventType.ofInt (i : Int) : Option EventType :=
  if i = 0 then some EventType.ShipSpawnedEvent
  else if i = 1 then some EventType.ShipKilledEvent
  else if i = 2 then some EventType.PlayerJoinedEvent
  else if i = 3 then some EventType.PlayerLeftEvent
  else if i = 4 then some EventType.MsgReceivedEvent
  else none

/-- The event types in the order of their numbers, as the loops
`for(S32 i = 0; i < EventManager::EventTypes; i++)` visit them. -/
def EventType.all : List EventType :=
  [EventType.ShipSpawnedEvent, EventType.ShipKilledEvent, EventType.PlayerJoinedEvent,
    EventType.PlayerLeftEvent, EventType.MsgReceivedEvent]

/-- The members of `LuaRobot` that take part in event handling: the interpreter handle of
its robot (`thisRobot->getL()`) and the array `subscriptions` of flags, one per event type. -/
structure LuaRobot where
  L : Handle
  subscriptions : EventType → Bool

namespace LuaRobot

/-- Write `v` into the flag of event type `e`. -/
def setFlag (a : EventType → Bool) (e : EventType) (v : Bool) : EventType → Bool :=
  fun e1 => if e1 = e then v else a e1

/-- Constructor `LuaRobot::LuaRobot`: all subscriptions are initialised to unsubscribed. -/
def new (L : Handle) : LuaRobot :=
  { L := L, subscriptions := fun _ => false }

/-- Method `LuaRobot::subscribe`, called by the script of the bot with an event number: the
script object and the shared event manager after the call. -/
def subscribe (bot : LuaRobot) (em : EventManager) (eventType : Int) :
    LuaRobot × EventManager :=
  if eventType < 0 ∨ eventType ≥ EventManager.EventTypes then (bot, em)
  else
    match EventType.ofInt eventType with
    | some e =>
      ({ bot with subscriptions := setFlag bot.subscriptions e true }, em.subscribe bot.L e)
    | none => (bot, em)

/-- Method `LuaRobot::unsubscribe`. -/
def unsubscribe (bot : LuaRobot) (em : EventManager) (eventType : Int) :
    LuaRobot × EventManager :=
  if eventType < 0 ∨ eventType ≥ EventManager.EventTypes then (bot, em)
  else
    match EventType.ofInt eventType with
    | some e =>
      ({ bot with subscriptions := setFlag bot.subscriptions e false },
        em.unsubscribe bot.L e)
    | none => (bot, em)

/-- Destructor `LuaRobot::~LuaRobot`: for every event type whose flag is set,
`unsubscribeImmediate`; the result is the event manager the dead bot leaves behind. -/
def destroy (bot : LuaRobot) (em : EventManager) : EventManager :=
  EventType.all.foldl
    (fun m e => if bot.subscriptions e then m.unsubscribeImmediate bot.L e else m) em

end LuaRobot

/-! ## Rectangles, the 16-bit limits and the gateway query -/

/-- Modelled from the spec: the largest signed 16-bit value, the offset `FIX` that the
builder adds to every coordinate before the aggregation. -/
def S16_MAX : Int := 32767

/-- Modelled from the spec: the smallest signed 16-bit value (coordinates inside the
aggregator are 16-bit signed integers). -/
def S16_MIN : Int := -32768

/-- Modelled from the spec: axis-aligned rectangle with the corners `min` and `max`. -/
structure Rect (α : Type) where
  min : Point α
  max : Point α
  deriving DecidableEq

section Bounds

variable {α : Type} [LinearOrderedRing α]

/-- Modelled from the spec: the rectangle spanned by two points, as built by the
constructor `Rect(p1, p2)` and by `Rect::set(p1, p2)`. -/
def Rect.ofPoints (p1 p2 : Point α) : Rect α :=
  { min := ⟨Min.min p1.x p2.x, Min.min p1.y p2.y⟩,
    max := ⟨Max.max p1.x p2.x, Max.max p1.y p2.y⟩ }

/-- Modelled from the spec: `Rect::expand(delta)` moves `min` down and `max` up by
`delta`. -/
def Rect.expand (r : Rect α) (delta : Point α) : Rect α :=
  { min := ⟨r.min.x - delta.x, r.min.y - delta.y⟩,
    max := ⟨r.max.x + delta.x, r.max.y + delta.y⟩ }

/-- The condition of the assertion "Level out of bounds!" in `makeBotMeshZones3`. -/
def levelInBounds (bounds : Rect α) : Bool :=
  decide (bounds.min.x > (S16_MIN : α) ∧ bounds.min.y > (S16_MIN : α) ∧
    bounds.max.x < (S16_MAX : α) ∧ bounds.max.y < (S16_MAX : α))

/-- Outcome of the bounds check of `makeBotMeshZones3(bounds, game, useRecast)`: the
assertion is only made on the branch `useRecast`; the other branch makes no check. -/
def makeBotMeshZones3_boundsOk (bounds : Rect α) (useRecast : Bool) : Bool :=
  if useRecast then levelInBounds bounds else true

/-- Outcome of the bounds check in `BotNavMeshZone::buildBotMeshZones` for a generator mode
and the world extents `game->computeWorldObjectExtents()`: the extents are expanded by
`Point(30,30)`; the modes 5 and 6 call `makeBotMeshZones3` with `useRecast` for mode 6, the
other modes return without any check. -/
def buildBotMeshZones_boundsOk (botZoneGeneratorMode : Int) (worldExtents : Rect α) : Bool :=
  let bounds := worldExtents.expand ⟨30, 30⟩
  if botZoneGeneratorMode = 0 then true
  else if botZoneGeneratorMode = 1 ∨ botZoneGeneratorMode = 2 then true
  else if botZoneGeneratorMode = 3 ∨ botZoneGeneratorMode = 4 then true
  else if botZoneGeneratorMode = 5 ∨ botZoneGeneratorMode = 6 then
    makeBotMeshZones3_boundsOk bounds (decide (botZoneGeneratorMode = 6))
  else true

end Bounds

section Gateway

variable {α : Type} [LinearOrderedField α]

/-- Modelled from the spec: sum of two points (`Point operator+`). -/
def Point.add (p q : Point α) : Point α := ⟨p.x + q.x, p.y + q.y⟩

/-- Modelled from the spec: a point times a number (`Point operator*`). -/
def Point.scale (p : Point α) (k : α) : Point α := ⟨p.x * k, p.y * k⟩

/-- Modelled from the spec: `Rect::getCenter`, the point halfway between `min` and
`max`. -/
def Rect.getCenter (r : Rect α) : Point α := Point.scale (Point.add r.min r.max) (1 / 2)

/-- The loop of `LuaRobot::getGatewayFromZoneToZone` over the neighbour records of the
zone `from`: at the first record whose `zoneID` is `to`, the centre of the rectangle
spanned by `borderStart` and `borderEnd` is returned; `none` stands for `returnNil`. -/
def gatewayScan : List (NeighboringZone α) → Int → Option (Point α)
  | [], _ => none
  | n :: rest, toId =>
    if (n.zoneID : Int) = toId then some (Rect.ofPoints n.borderStart n.borderEnd).getCenter
    else gatewayScan rest toId

/-- Method `LuaRobot::getGatewayFromZoneToZone` with the two integer arguments `from`
(here `fromId`) and `to` (here `toId`) read from the script. -/
def getGatewayFromZoneToZone (zones : List (BotNavMeshZone α)) (fromId toId : Int) :
    Option (Point α) :=
  if zones.length = 0 then none
  else if fromId < 0 ∨ fromId ≥ zones.length ∨ toId < 0 ∨ toId ≥ zones.length then none
  else gatewayScan (neighborsOf zones fromId.toNat) toId

end Gateway

/-! ## Adjacency builders (src/zap/BotNavMeshZone.cpp) -/

/-- Modelled from the spec: the sentinel that ends the vertex list of a polygon slot, the
largest unsigned 16-bit value; the source names it `RC_MESH_NULL_IDX`. -/
def RC_MESH_NULL_IDX : Nat := 0xffff

/-- The members of a teleporter that the builders read: its position `getActualPos()` and
its destinations `mDest`. -/
structure Teleporter (α : Type) where
  actualPos : Point α
  mDest : List (Point α)

/-- The members of `rcPolyMesh` that the adjacency builder reads: the vertex coordinates
`verts` (two 16-bit values per vertex), the vertex indices `polys` (`nvp` slots per
polygon), and the counts `nverts`, `npolys`, `nvp`. -/
structure rcPolyMesh where
  verts : Nat → Nat
  polys : Nat → Nat
  nverts : Nat
  npolys : Nat
  nvp : Nat

/-- Record `rcEdge`: `vert[0]`, `vert[1]` (from and to vertex) and `poly[0]`, `poly[1]`
(left and right polygon). -/
structure rcEdge where
  vert0 : Nat
  vert1 : Nat
  poly0 : Nat
  poly1 : Nat
  deriving DecidableEq

/-- The working arrays of `buildBotNavMeshZoneConnectionsRecastStyle`: `edges` (its length
is `edgeCount`), `firstEdge` and `nextEdge`.  The two index arrays are kept apart; in the
source they are two regions of one allocation. -/
structure EdgeTable where
  edges : List rcEdge
  firstEdge : Nat → Nat
  nextEdge : Nat → Nat

section Builders

variable {α : Type} [LinearOrderedField α]

/-- The zone vector after `gBotNavMeshZones[i]->mNeighbors.push_back(nb)` (no zone changes
when `i` is outside the vector, where the source is undefined). -/
def pushNeighbor (zones : List (BotNavMeshZone α)) (i : Nat) (nb : NeighboringZone α) :
    List (BotNavMeshZone α) :=
  zones.modify (fun z => { z with mNeighbors := z.mNeighbors ++ [nb] }) i

/-- Member `gBotNavMeshZones[i]->mZoneId` (0 outside the vector). -/
def zoneIdOf (zones : List (BotNavMeshZone α)) (i : Nat) : Nat :=
  match zones.get? i with
  | some z => z.mZoneId
  | none => 0

/-- Body of the double loop of `BotNavMeshZone::buildBotNavMeshZoneConnections` for the
zone indices `i` and `j`.  The geometry is given by index: `intersectsOrBorders i j` is
the test of the two extents, `zonesTouch i j` the result of `zonesTouch` on the two
polygons with tolerance 1.0, with the border points it writes when it returns true. -/
def connectZones (distanceTo : Point α → Point α → α)
    (intersectsOrBorders : Nat → Nat → Bool)
    (zonesTouch : Nat → Nat → Option (Point α × Point α))
    (zones : List (BotNavMeshZone α)) (i j : Nat) : List (BotNavMeshZone α) :=
  if i = j then zones
  else if !intersectsOrBorders i j then zones
  else
    match zonesTouch i j with
    | none => zones
    | some (bordStart, bordEnd) =>
      let bordCen := (Rect.ofPoints bordStart bordEnd).getCenter
      let zones1 := pushNeighbor zones i
        { zoneID := j, borderStart := bordStart, borderEnd := bordEnd, borderCenter := bordCen,
          distTo := distanceTo (getCenter zones i) bordCen, center := getCenter zones j }
      pushNeighbor zones1 j
        { zoneID := i, borderStart := bordStart, borderEnd := bordEnd, borderCenter := bordCen,
          distTo := distanceTo (getCenter zones1 j) bordCen, center := getCenter zones1 i }

/-- First part of `buildBotNavMeshZoneConnections`: the loops
`for(i = 0; i < size; i++) for(j = i; j < size; j++)` over the zone pairs. -/
def connectAllZones (distanceTo : Point α → Point α → α)
    (intersectsOrBorders : Nat → Nat → Bool)
    (zonesTouch : Nat → Nat → Option (Point α × Point α))
    (zones : List (BotNavMeshZone α)) : List (BotNavMeshZone α) :=
  (List.range zones.length).foldl
    (fun zs i => (List.range' i (zones.length - i)).foldl
      (fun zs1 j => connectZones distanceTo intersectsOrBorders zonesTouch zs1 i j) zs)
    zones

/-- The neighbour record that the teleporter loop builds for a teleporter and one of its
destinations lying in the zone with index `destZone`. -/
def teleporterRecord (zones : List (BotNavMeshZone α)) (t : Teleporter α) (d : Point α)
    (destZone : Nat) : NeighboringZone α :=
  { zoneID := zoneIdOf zones destZone, borderStart := t.actualPos, borderEnd := d,
    borderCenter := t.actualPos, distTo := 0, center := t.actualPos }

/-- Body of the teleporter loop of `buildBotNavMeshZoneConnections` for one teleporter.
`findZoneContainingPoint` gives the index of the zone it returns a pointer to, or
`none` for `NULL`. -/
def connectTeleporter (findZoneContainingPoint : Point α → Option Nat)
    (zones : List (BotNavMeshZone α)) (t : Teleporter α) : List (BotNavMeshZone α) :=
  match findZoneContainingPoint t.actualPos with
  | none => zones
  | some origZone =>
    t.mDest.foldl
      (fun zs d =>
        match findZoneContainingPoint d with
        | none => zs
        | some destZone =>
          if origZone ≠ destZone then pushNeighbor zs origZone (teleporterRecord zs t d destZone)
          else zs)
      zones

/-- Function `BotNavMeshZone::buildBotNavMeshZoneConnections`: nothing on an empty zone
vector; else the zone pairs, then the teleporters. -/
def buildBotNavMeshZoneConnections (distanceTo : Point α → Point α → α)
    (intersectsOrBorders : Nat → Nat → Bool)
    (zonesTouch : Nat → Nat → Option (Point α × Point α))
    (findZoneContainingPoint : Point α → Option Nat) (teleporters : List (Teleporter α))
    (zones : List (BotNavMeshZone α)) : List (BotNavMeshZone α) :=
  if zones.length = 0 then zones
  else
    teleporters.foldl (connectTeleporter findZoneContainingPoint)
      (connectAllZones distanceTo intersectsOrBorders zonesTouch zones)

/-! ### Edge matching on the polygon mesh -/

/-- Slot `t[j]` of polygon `i`, where `t = &mesh.polys[i*mesh.nvp]`. -/
def rcPolyMesh.vertAt (mesh : rcPolyMesh) (i j : Nat) : Nat :=
  mesh.polys (i * mesh.nvp + j)

/-- The vertex `v1` that follows slot `j` of polygon `i`:
`(j+1 >= nvp || t[j+1] == RC_MESH_NULL_IDX) ? t[0] : t[j+1]`. -/
def rcPolyMesh.nextVert (mesh : rcPolyMesh) (i j : Nat) : Nat :=
  if j + 1 ≥ mesh.nvp ∨ mesh.vertAt i (j + 1) = RC_MESH_NULL_IDX then mesh.vertAt i 0
  else mesh.vertAt i (j + 1)

/-- The pairs `(v0, v1)` that the loop `for (j = 0; j < nvp; ++j)` over polygon `i` visits
before it ends or meets `v0 == RC_MESH_NULL_IDX`. -/
def rcPolyMesh.sides (mesh : rcPolyMesh) (i : Nat) : List (Nat × Nat) :=
  ((List.range mesh.nvp).takeWhile (fun j => mesh.vertAt i j != RC_MESH_NULL_IDX)).map
    (fun j => (mesh.vertAt i j, mesh.nextVert i j))

/-- The polygons that the two loops over the mesh do not skip as "missing", each with the
pairs it visits. -/
def rcPolyMesh.visits (mesh : rcPolyMesh) : List (Nat × Nat × Nat) :=
  ((List.range mesh.npolys).filter (fun i => mesh.vertAt i 0 != U16_MAX)).flatMap
    (fun i => (mesh.sides i).map (fun s => (i, s.1, s.2)))

/-- First loop, body for polygon `i` and the pair `(v0, v1)`: when `v0 < v1` a new edge
with both polygons `i` is appended and linked in front of the chain of `v0`. -/
def addEdge (t : EdgeTable) (i v0 v1 : Nat) : EdgeTable :=
  if v0 < v1 then
    { edges := t.edges ++ [{ vert0 := v0, vert1 := v1, poly0 := i % 65536, poly1 := i % 65536 }],
      nextEdge := setAt t.nextEdge t.edges.length (t.firstEdge v0),
      firstEdge := setAt t.firstEdge v0 (t.edges.length % 65536) }
  else t

/-- The walk `for (e = firstEdge[v1]; e != RC_MESH_NULL_IDX; e = nextEdge[e])` of the
second loop, from edge `e` on: the first edge of the chain that ends in `v0` and still has
two equal polygons gets `poly[1] = i`.  An index past the created edges, where the source
would read unset memory, ends the walk.  `none` when the fuel is used up. -/
def matchEdge (nextEdge : Nat → Nat) (i v0 : Nat) :
    Nat → Nat → List rcEdge → Option (List rcEdge)
  | 0, _, _ => none
  | fuel + 1, e, edges =>
    if e = RC_MESH_NULL_IDX then some edges
    else
      match edges.get? e with
      | none => some edges
      | some edge =>
        if edge.vert1 = v0 ∧ edge.poly0 = edge.poly1 then
          some (edges.set e { edge with poly1 := i % 65536 })
        else matchEdge nextEdge i v0 fuel (nextEdge e) edges

/-- Second loop, body for polygon `i` and the pair `(v0, v1)`. -/
def closeEdge (t : EdgeTable) (i v0 v1 : Nat) : Option EdgeTable :=
  if v0 > v1 then
    match matchEdge t.nextEdge i v0 (t.edges.length + 1) (t.firstEdge v1) t.edges with
    | some edges => some { t with edges := edges }
    | none => none
  else some t

/-- The first two loops of `buildBotNavMeshZoneConnectionsRecastStyle`: the edge table
after all edges have been created and matched. -/
def buildEdges (mesh : rcPolyMesh) : Option EdgeTable :=
  let t0 : EdgeTable :=
    { edges := [], firstEdge := fun _ => RC_MESH_NULL_IDX, nextEdge := fun _ => RC_MESH_NULL_IDX }
  let t1 := mesh.visits.foldl (fun t v => addEdge t v.1 v.2.1 v.2.2) t0
  mesh.visits.foldl
    (fun t v =>
      match t with
      | some t2 => closeEdge t2 v.1 v.2.1 v.2.2
      | none => none)
    (some t1)

/-- Third loop, body for one edge: when its two polygons differ, a record is pushed to each
of the two zones that `polyToZoneMap` names.  `neighbor` is the content of the local
variable of that name, whose members `distTo` and `center` the function never assigns. -/
def connectEdge (mesh : rcPolyMesh) (polyToZoneMap : Nat → Nat) (neighbor : NeighboringZone α)
    (zones : List (BotNavMeshZone α)) (e : rcEdge) : List (BotNavMeshZone α) :=
  if e.poly0 ≠ e.poly1 then
    let borderStart : Point α :=
      ⟨(((mesh.verts (e.vert0 * 2) : Int) - S16_MAX : Int) : α),
        (((mesh.verts (e.vert0 * 2 + 1) : Int) - S16_MAX : Int) : α)⟩
    let borderEnd : Point α :=
      ⟨(((mesh.verts (e.vert1 * 2) : Int) - S16_MAX : Int) : α),
        (((mesh.verts (e.vert1 * 2 + 1) : Int) - S16_MAX : Int) : α)⟩
    let borderCenter := Point.scale (Point.add borderStart borderEnd) (1 / 2)
    let zones1 := pushNeighbor zones (polyToZoneMap e.poly0)
      { neighbor with borderStart := borderStart, borderEnd := borderEnd,
                      borderCenter := borderCenter, zoneID := polyToZoneMap e.poly1 }
    pushNeighbor zones1 (polyToZoneMap e.poly1)
      { neighbor with borderStart := borderStart, borderEnd := borderEnd,
                      borderCenter := borderCenter, zoneID := polyToZoneMap e.poly0 }
  else zones

/-- Function `buildBotNavMeshZoneConnectionsRecastStyle(mesh, polyToZoneMap)`: `some` of the
zone vector it leaves behind.  The failure of the two allocations is not modelled.  The
block that would add the teleporter records is commented out in the source, so teleporters
are no input of this function. -/
def buildBotNavMeshZoneConnectionsRecastStyle (mesh : rcPolyMesh) (polyToZoneMap : Nat → Nat)
    (neighbor : NeighboringZone α) (zones : List (BotNavMeshZone α)) :
    Option (List (BotNavMeshZone α)) :=
  if zones.length = 0 then some zones
  else
    match buildEdges mesh with
    | some t => some (t.edges.foldl (connectEdge mesh polyToZoneMap neighbor) zones)
    | none => none

end Builders

/-! ## Removal of unused zones (src/zap/BotNavMeshZone.cpp) -/

/-- Member `spawnPoints` of a team. -/
structure Team (α : Type) where
  spawnPoints : List (Point α)

/-- Member `mTeams` of the game type. -/
structure GameType (α : Type) where
  mTeams : List (Team α)

section Pruning

variable {α : Type}

/-- The zone vector after `gBotNavMeshZones[i]->flag = v` (no zone changes when `i` is
outside the vector, where the source is undefined). -/
def setFlag (zones : List (BotNavMeshZone α)) (i : Nat) (v : Bool) : List (BotNavMeshZone α) :=
  zones.modify (fun z => { z with flag := v }) i

/-- Member `gBotNavMeshZones[i]->flag` (false outside the vector). -/
def flagOf (zones : List (BotNavMeshZone α)) (i : Nat) : Bool :=
  match zones.get? i with
  | some z => z.flag
  | none => false

/-- Function `BotNavMeshZone::findZoneContaining(p)`.  `fillVector p` lists the zones (by
index in the zone vector) that the object database finds near `p`, `contains i p` is the
test `getExtent().contains(p) && PolygonContains2(...)` on zone `i`.  The id of the first
zone that passes is returned as a `U16`, or `U16_MAX`. -/
def findZoneContaining (fillVector : Point α → List Nat) (contains : Nat → Point α → Bool)
    (zones : List (BotNavMeshZone α)) (p : Point α) : Nat :=
  match (fillVector p).find? (fun i => contains i p) with
  | some i =>
    match zones.get? i with
    | some z => z.mZoneId % 65536
    | none => 0
  | none => U16_MAX

/-- The points at which a bot can appear, in the order in which `removeUnusedNavMeshZones`
visits them: the spawn points of all teams, then the destinations of all teleporters. -/
def seedPoints (gameType : GameType α) (teleporters : List (Teleporter α)) : List (Point α) :=
  gameType.mTeams.flatMap (fun t => t.spawnPoints) ++ teleporters.flatMap (fun t => t.mDest)

/-- Body of the two seeding loops for one point: the zone found for it is marked and put
on `inProcessList`.  The state is the zone vector with `inProcessList`. -/
def seedZone (fillVector : Point α → List Nat) (contains : Nat → Point α → Bool)
    (st : List (BotNavMeshZone α) × List Nat) (p : Point α) :
    List (BotNavMeshZone α) × List Nat :=
  let zoneIndex := findZoneContaining fillVector contains st.1 p
  if zoneIndex < U16_MAX then (setFlag st.1 zoneIndex true, st.2 ++ [zoneIndex]) else st

/-- Body of the loop `for(i = 0; i < gBotNavMeshZones.size(); i++)` that visits the zones
around zone `zoneIndex`.  The geometry is given by index: `intersectsOrBorders a b` is the
test of the two extents, `zonesTouch a b` the result of `zonesTouch` on the two polygons
with tolerance `1 / getGridSize()`.  `inProcessList` holds `U16` values. -/
def visitZone (intersectsOrBorders zonesTouch : Nat → Nat → Bool) (zoneIndex : Nat)
    (st : List (BotNavMeshZone α) × List Nat) (i : Nat) : List (BotNavMeshZone α) × List Nat :=
  if i = zoneIndex then st
  else if !intersectsOrBorders zoneIndex i then st
  else if zonesTouch zoneIndex i then
    if !flagOf st.1 i then (setFlag st.1 i true, st.2 ++ [i % 65536]) else st
  else st

/-- The loop `while(inProcessList.size() > 0)`: the last entry is taken off the list and
the zones around it are visited.  `none` when the fuel is used up. -/
def processZones (intersectsOrBorders zonesTouch : Nat → Nat → Bool) :
    Nat → List (BotNavMeshZone α) × List Nat → Option (List (BotNavMeshZone α))
  | 0, _ => none
  | fuel + 1, st =>
    match st.2.getLast? with
    | none => some st.1
    | some zoneIndex =>
      processZones intersectsOrBorders zonesTouch fuel
        ((List.range st.1.length).foldl (visitZone intersectsOrBorders zonesTouch zoneIndex)
          (st.1, st.2.dropLast))

/-- The loop that deletes what is not marked: `if(!v[i]->flag) { v.erase_fast(i); i--; }`
for `i` from the given index on, written for any element type with its mark `keep`.  The
fuel is the number of rounds; `size - i` rounds are all the loop can make. -/
def removeLoop {β : Type} (keep : β → Bool) : Nat → Nat → List β → List β
  | 0, _, v => v
  | fuel + 1, i, v =>
    match v.get? i with
    | none => v
    | some z =>
      if !keep z then removeLoop keep fuel i (erase_fast v i)
      else removeLoop keep fuel (i + 1) v

/-- The deletion loop of `removeUnusedNavMeshZones` on the zone vector. -/
def removeUnflagged (zones : List (BotNavMeshZone α)) : List (BotNavMeshZone α) :=
  removeLoop (fun z => z.flag) zones.length 0 zones

/-- The final pass of `removeUnusedNavMeshZones` from index `i` on: `setZoneId(i)` and
`mCentroid.set(getExtent().getCenter())` (the extent is computed anew from the unchanged
polygon, so that its centre stays). -/
def renumberFrom : Nat → List (BotNavMeshZone α) → List (BotNavMeshZone α)
  | _, [] => []
  | i, z :: zs => { z with mZoneId := i, mCentroid := z.extentCenter } :: renumberFrom (i + 1) zs

/-- Function `removeUnusedNavMeshZones`: `some` of the zone vector it leaves behind.
`gameType` is `none` when `getGameType()` returns a null pointer. -/
def removeUnusedNavMeshZones (fillVector : Point α → List Nat)
    (contains : Nat → Point α → Bool) (intersectsOrBorders zonesTouch : Nat → Nat → Bool)
    (gameType : Option (GameType α)) (teleporters : List (Teleporter α))
    (zones : List (BotNavMeshZone α)) : Option (List (BotNavMeshZone α)) :=
  let zones0 := zones.map (fun z => { z with flag := false })
  match gameType with
  | none => some zones0
  | some gt =>
    let st := (seedPoints gt teleporters).foldl (seedZone fillVector contains) (zones0, [])
    match processZones intersectsOrBorders zonesTouch (st.2.length + st.1.length + 1) st with
    | none => none
    | some zones1 => some (renumberFrom 0 (removeUnflagged zones1))

end Pruning

/-! ## Teleporter (src/zap/teleporter.cpp) -/

/-- The members of class `Teleporter` that teleporter.cpp reads and writes in loading,
construction, damage and relocation: the two vertices `getVert(0)` (the entry) and
`getVert(1)`, the destinations `mDests`, `mTeleporterDelay`, `mNeedsEndpoint`,
`mHasExploded`, `mStartingHealth`, `mLastDest`, and of the base class `Engineerable` the
flag `mEngineered` and whether the pointer `mResource` is valid.  (BotNavMeshZone.cpp is
written against an earlier declaration of the class, with `mDest` and `getActualPos()`;
that one is `Teleporter`.) -/
structure TeleporterObj (α : Type) where
  vert0 : Point α
  vert1 : Point α
  mDests : List (Point α)
  mTeleporterDelay : Nat
  mNeedsEndpoint : Bool
  mHasExploded : Bool
  mStartingHealth : α
  mEngineered : Bool
  mResourceValid : Bool
  mLastDest : Int
  deriving DecidableEq

/-- The test `(firstChar >= 'a' && firstChar <= 'z') || (firstChar >= 'A' && firstChar <= 'Z')`
on the first character of an argument; an empty argument starts with the terminating zero,
which is no letter. -/
def startsWithLetter (arg : List Char) : Bool :=
  match arg with
  | [] => false
  | firstChar :: _ =>
    (decide ('a' ≤ firstChar) && decide (firstChar ≤ 'z')) ||
      (decide ('A' ≤ firstChar) && decide (firstChar ≤ 'Z'))

/-- The test `!strnicmp(arg, "Delay=", 6)`: the first six characters are those of
`Delay=`, whatever their case. -/
def isDelayArg (arg : List Char) : Bool :=
  decide ((arg.take 6).map Char.toLower = ['d', 'e', 'l', 'a', 'y', '='])

/-- The array `argv` that the first loop of `processArguments` fills: the arguments that do
not start with a letter, the first eight of them at most (`argc` is its length). -/
def coordinateArgs (argv2 : List (List Char)) : List (List Char) :=
  (argv2.filter (fun arg => !startsWithLetter arg)).take 8

section TeleporterDefs

variable {α : Type} [LinearOrderedRing α]

/-- Modelled from the spec: `Point::distSquared`, the square of the distance of two
points. -/
def Point.distSquared (p q : Point α) : α :=
  (p.x - q.x) * (p.x - q.x) + (p.y - q.y) * (p.y - q.y)

namespace TeleporterObj

/-- Constructor `Teleporter(pos, dest)`: no destination is stored; `TeleporterDelay` is the
constant of that name, and the members of `Engineerable` start out as given. -/
def new (TeleporterDelay : Nat) (mEngineered mResourceValid : Bool) (pos dest : Point α) :
    TeleporterObj α :=
  { vert0 := pos, vert1 := dest, mDests := [], mTeleporterDelay := TeleporterDelay,
    mNeedsEndpoint := false, mHasExploded := false, mStartingHealth := 1,
    mEngineered := mEngineered, mResourceValid := mResourceValid, mLastDest := 0 }

/-- The delay that the first loop of `processArguments` leaves in `mTeleporterDelay`: every
argument `Delay=...` sets it.  `delayOf` stands for `U32(atof(...) * 1000)` on the text
after the sixth character. -/
def readDelay (delayOf : List Char → Nat) (mTeleporterDelay : Nat) (argv2 : List (List Char)) :
    Nat :=
  argv2.foldl
    (fun d arg => if startsWithLetter arg ∧ isDelayArg arg then delayOf (arg.drop 6) else d)
    mTeleporterDelay

/-- The loop of `processArguments` over the teleporters that the database query names (by
index in the list `db` of teleporters in the database): the first one whose entry is closer
than 1 to `pos` gets `dest` as a further destination.  The result is the database after the
loop, or `none` when no teleporter is that close. -/
def addToExisting (db : List (TeleporterObj α)) (pos dest : Point α) :
    List Nat → Option (List (TeleporterObj α))
  | [] => none
  | i :: rest =>
    match db.get? i with
    | none => addToExisting db pos dest rest
    | some tel =>
      if tel.vert0.distSquared pos < 1 then
        some (db.set i { tel with mDests := tel.mDests ++ [dest] })
      else addToExisting db pos dest rest

/-- Method `Teleporter::processArguments(argc2, argv2, game)`: the return value, the
teleporter afterwards (`none` after `destroySelf()`) and the teleporters of the database
afterwards.  `atof` is the C function, `gridSize` is `game->getGridSize()`,
`isClientGame` tells whether `game` is a `ClientGame` (the editor), and `findObjects pos`
lists what the database query around `pos` finds, by index in `db`. -/
def processArguments (atof : List Char → α) (delayOf : List Char → Nat) (gridSize : α)
    (isClientGame : Bool) (findObjects : Point α → List Nat) (db : List (TeleporterObj α))
    (t : TeleporterObj α) (argv2 : List (List Char)) :
    Bool × Option (TeleporterObj α) × List (TeleporterObj α) :=
  let t1 := { t with mTeleporterDelay := readDelay delayOf t.mTeleporterDelay argv2 }
  let argv := coordinateArgs argv2
  match argv with
  | [a0, a1, a2, a3] =>
    let pos : Point α := ⟨atof a0 * gridSize, atof a1 * gridSize⟩
    let dest : Point α := ⟨atof a2 * gridSize, atof a3 * gridSize⟩
    let t2 := { t1 with vert0 := pos, vert1 := dest }
    if !isClientGame then
      match addToExisting db pos dest (findObjects pos) with
      | some db1 => (true, none, db1)
      | none => (true, some { t2 with mDests := t2.mDests ++ [dest] }, db)
    else (true, some { t2 with mDests := t2.mDests ++ [dest] }, db)
  | _ => (false, some t1, db)

/-- Method `Teleporter::damageObject(theInfo)` with `theInfo->damageAmount`. -/
def damageObject (t : TeleporterObj α) (damageAmount : α) : TeleporterObj α :=
  if !t.mEngineered then t
  else if t.mHasExploded then t
  else
    let t1 := { t with mStartingHealth := t.mStartingHealth - damageAmount }
    if t1.mStartingHealth ≤ 0 ∧ t1.mResourceValid = true then { t1 with mHasExploded := true }
    else t1

/-- Method `Teleporter::onConstructed`. -/
def onConstructed (t : TeleporterObj α) : TeleporterObj α :=
  { t with mDests := t.mDests ++ [t.vert0], mNeedsEndpoint := true }

/-- Method `Teleporter::setEndpoint(point)`. -/
def setEndpoint (t : TeleporterObj α) (point : Point α) : TeleporterObj α :=
  if t.mNeedsEndpoint then
    { t with mDests := [point], vert1 := point, mNeedsEndpoint := false }
  else t

/-- The relocation of one ship in `Teleporter::idle`, for a ship that is in range:
`mLastDest = TNL::Random::readI(0, mDests.size() - 1)` and
`newPos = ship->getActualPos() - pos + mDests[mLastDest]`.  `readI` stands for the random
number generator; the new position is `none` when the index is outside `mDests`, where the
source is undefined. -/
def relocateShip (readI : Int → Int → Int) (t : TeleporterObj α) (shipPos : Point α) :
    TeleporterObj α × Option (Point α) :=
  let mLastDest := readI 0 ((t.mDests.length : Int) - 1)
  let newPos :=
    if mLastDest < 0 then none
    else
      match t.mDests.get? mLastDest.toNat with
      | some d => some (⟨shipPos.x - t.vert0.x + d.x, shipPos.y - t.vert0.y + d.y⟩ : Point α)
      | none => none
  ({ t with mLastDest := mLastDest }, newPos)

end TeleporterObj

end TeleporterDefs

/-! ## Coordinates of the polygon mesh (makeBotMeshZones3, src/zap/BotNavMeshZone.cpp) -/

section Quantise

variable {α : Type} [LinearOrderedField α] [FloorRing α]

/-- The statement `intPoints[i] = S32(p < 0 ? p - 0.5 : p + 0.5) + FIX` of
`makeBotMeshZones3`, with `FIX = S16_MAX`. -/
def quantise (p : α) : Int :=
  truncS32 (if p < 0 then p - 1 / 2 else p + 1 / 2) + S16_MAX

end Quantise

/-- Modelled from the spec: the value that the aggregation stores for a coordinate in the
unsigned 16-bit array `mesh.verts`. -/
def storeU16 (v : Int) : Nat := (v % 65536).toNat

/-- The coordinate `vert[0] - FIX` that the zone gets for a stored value when it is
materialised. -/
def materialise (vert : Nat) : Int := (vert : Int) - S16_MAX

/-! ## Waypoints of a bot (src/zap/robot.cpp) -/

/-- The members of `Robot` that `LuaRobot::getWaypoint` reads and writes: the flight plan,
the zone `flightPlanTo` it leads to, and `mCurrentZone`. -/
structure Robot (α : Type) where
  flightPlan : List (Point α)
  flightPlanTo : Int
  mCurrentZone : Int
  deriving DecidableEq

section Waypoint

variable {α : Type} [LinearOrderedRing α] [FloorRing α]

/-- One pass `for(i = 0; i < gBotNavMeshZones.size(); i++)` of `LuaRobot::findClosestZone`
over the zones; the state is `closest` with `distsq`.  `pointCanSeePoint` is the test of
the grid database. -/
def closestPass (pointCanSeePoint : Point α → Point α → Bool) (zones : List (BotNavMeshZone α))
    (point : Point α) (st : Int × α) : Int × α :=
  (List.range zones.length).foldl
    (fun st i =>
      let center := getCenter zones i
      let d := center.distSquared point
      if d < st.2 then
        if pointCanSeePoint center point then ((i : Int), d) else st
      else st)
    st

/-- The loop `while(closest < -1)` of `findClosestZone`: a pass, after which a `closest`
that is still negative is raised by one and `distsq` becomes `F32_MAX`.  Every pass takes
one unit of fuel; `none`: fuel used up. -/
def closestLoop (pointCanSeePoint : Point α → Point α → Bool) (zones : List (BotNavMeshZone α))
    (F32_MAX : α) (point : Point α) : Nat → Int × α → Option Int
  | fuel, st =>
    if st.1 < -1 then
      match fuel with
      | 0 => none
      | fuel + 1 =>
        let st1 := closestPass pointCanSeePoint zones point st
        if st1.1 < 0 then closestLoop pointCanSeePoint zones F32_MAX point fuel (st1.1 + 1, F32_MAX)
        else closestLoop pointCanSeePoint zones F32_MAX point fuel st1
    else some st.1

/-- Method `LuaRobot::findClosestZone(point)`, with fuel for two passes.  `F32_MAX` is the
constant of that name. -/
def findClosestZone (pointCanSeePoint : Point α → Point α → Bool)
    (zones : List (BotNavMeshZone α)) (F32_MAX : α) (point : Point α) : Option Int :=
  closestLoop pointCanSeePoint zones F32_MAX point 2 (-3, 262144)

/-- Method `Robot::getCurrentZone`: the zone and the robot afterwards. -/
def Robot.getCurrentZone (findZoneContaining : Point α → Int) (actualPos : Point α)
    (robot : Robot α) : Int × Robot α :=
  if robot.mCurrentZone = -1 then
    (findZoneContaining actualPos, { robot with mCurrentZone := findZoneContaining actualPos })
  else (robot.mCurrentZone, robot)

/-- The loop `while(thisRobot->flightPlan.size() > 0)` of `getWaypoint`.  The flight plan
is given back to front (its last entry first); the state is `first`, the plan and `dest`
(`none` while `found` is false).  The result is the plan that is left, back to front, and
`dest`. -/
def popVisible (canSeePoint : Point α → Bool) :
    Bool → List (Point α) → Option (Point α) → List (Point α) × Option (Point α)
  | _, [], dest => ([], dest)
  | first, last :: rest, dest =>
    if first || canSeePoint last then popVisible canSeePoint false rest (some last)
    else (last :: rest, dest)

/-- The computation of `targetZone` in `getWaypoint`: the zone that holds the target, or,
when there is none, the closest zone whose centre sees it.  `findZoneContaining` is the
global function of that name, which returns -1 for a point in no zone. -/
def targetZoneOf (pointCanSeePoint : Point α → Point α → Bool)
    (findZoneContaining : Point α → Int) (zones : List (BotNavMeshZone α)) (F32_MAX : α)
    (target : Point α) : Option Int :=
  if findZoneContaining target = -1 then findClosestZone pointCanSeePoint zones F32_MAX target
  else some (findZoneContaining target)

/-- The computation of `currentZone` in `getWaypoint`, with the robot afterwards. -/
def currentZoneOf (pointCanSeePoint : Point α → Point α → Bool)
    (findZoneContaining : Point α → Int) (zones : List (BotNavMeshZone α)) (F32_MAX : α)
    (actualPos : Point α) (robot : Robot α) : Option (Int × Robot α) :=
  let r := robot.getCurrentZone findZoneContaining actualPos
  if r.1 = -1 then
    match findClosestZone pointCanSeePoint zones F32_MAX actualPos with
    | some z => some (z, r.2)
    | none => none
  else some r

/-- The second half of `getWaypoint`, from the comment "We need to calculate a new
flightplan" on: the returned point (`none` for nil), the robot and the statics of
`findPath` afterwards. -/
def newFlightPlan (distanceTo : Point α → Point α → α) (zones : List (BotNavMeshZone α))
    (pointCanSeePoint : Point α → Point α → Bool) (canSeePoint : Point α → Bool)
    (findZoneContaining : Point α → Int) (F32_MAX : α) (actualPos : Point α) (st : AStar α)
    (robot : Robot α) (targetZone : Int) (target : Point α) :
    Option (Option (Point α) × Robot α × AStar α) :=
  let robot1 := { robot with flightPlan := [] }
  match currentZoneOf pointCanSeePoint findZoneContaining zones F32_MAX actualPos robot1 with
  | none => none
  | some (currentZone, robot2) =>
    if currentZone = -1 then some (none, robot2, st)
    else if currentZone = targetZone then
      if !canSeePoint target then
        let p := getCenter zones targetZone.toNat
        some (some p, { robot2 with flightPlan := [p, target] }, st)
      else some (some target, { robot2 with flightPlan := [target] }, st)
    else
      match findPath distanceTo zones st currentZone.toNat targetZone.toNat target with
      | none => none
      | some (path, st1) =>
        some (path.getLast?, { robot2 with flightPlanTo := targetZone, flightPlan := path }, st1)

/-- Method `LuaRobot::getWaypoint` for the target read from the script: the returned point
(`none` for nil), the robot and the statics of `findPath` afterwards.  `actualPos` is
`thisRobot->getActualPos()`, `canSeePoint` is `thisRobot->canSeePoint`.  The outer `none`
means that a loop ran out of fuel. -/
def getWaypoint (distanceTo : Point α → Point α → α) (zones : List (BotNavMeshZone α))
    (pointCanSeePoint : Point α → Point α → Bool) (canSeePoint : Point α → Bool)
    (findZoneContaining : Point α → Int) (F32_MAX : α) (actualPos : Point α) (st : AStar α)
    (robot : Robot α) (target : Point α) : Option (Option (Point α) × Robot α × AStar α) :=
  if pointCanSeePoint actualPos target then some (some target, robot, st)
  else
    match targetZoneOf pointCanSeePoint findZoneContaining zones F32_MAX target with
    | none => none
    | some targetZone =>
      if targetZone = -1 then some (none, robot, st)
      else if robot.flightPlan.length > 0 ∧ targetZone = robot.flightPlanTo then
        let r := popVisible canSeePoint true (robot.flightPlan.set 0 target).reverse none
        match r.2 with
        | some dest => some (some dest, { robot with flightPlan := r.1.reverse ++ [dest] }, st)
        | none =>
          newFlightPlan distanceTo zones pointCanSeePoint canSeePoint findZoneContaining F32_MAX
            actualPos st { robot with flightPlan := r.1.reverse } targetZone target
      else
        newFlightPlan distanceTo zones pointCanSeePoint canSeePoint findZoneContaining F32_MAX
          actualPos st robot targetZone target

end Waypoint

/-! ## Event manager: notions used in the statements -/

namespace EventManager

/-- The handles subscribed to an event type in subscription order: the active
subscribers followed by those waiting for the next `update`. -/
def subscriptionQueue (s : EventManager) (e : EventType) : List Handle :=
  s.subscriptions e ++ s.pendingSubscriptions e

/-- Operations that remove nobody: `subscribe` and `update`. -/
def Op.removesNobody : Op → Bool
  | Op.subscribe _ _ => true
  | Op.update => true
  | _ => false

/-- No handle occurs twice among the active and pending subscribers of an event type. -/
def NoDuplicates (s : EventManager) : Prop :=
  ∀ e, (s.subscriptions e).Nodup ∧ (s.pendingSubscriptions e).Nodup ∧
    ∀ x ∈ s.subscriptions e, x ∉ s.pendingSubscriptions e

end EventManager

namespace EventManager

/-- While the flag `anyPending` is down, both pending lists of every event type are empty. -/
def PendingFlagged (s : EventManager) : Prop :=
  s.anyPending = false →
    ∀ e, s.pendingSubscriptions e = [] ∧ s.pendingUnsubscriptions e = []

end EventManager

/-! ## Pathfinder: notions used in the statements -/

section AStarSpec

variable {α : Type} [LinearOrderedRing α] [FloorRing α]

/-- Zone `u` has a neighbour record that leads to zone `v`. -/
def Edge (zones : List (BotNavMeshZone α)) (u v : Nat) : Prop :=
  ∃ nb ∈ neighborsOf zones u, nb.zoneID = v

/-- A directed path of neighbour records leads from zone `a` to zone `b`
(the empty path when `a = b`). -/
def Reach (zones : List (BotNavMeshZone α)) (a b : Nat) : Prop :=
  Relation.ReflTransGen (Edge zones) a b

/-- The zone graph fits the static arrays, and every neighbour record names a zone of
the graph. -/
def ValidGraph (zones : List (BotNavMeshZone α)) : Prop :=
  zones.length ≤ MAX_ZONES ∧ ∀ z ∈ zones, ∀ nb ∈ z.mNeighbors, nb.zoneID < zones.length

/-- Condition on the statics between two calls of `findPath`: no entry of `whichList`
is ahead of the generation counter.  It holds at program start and every call keeps it. -/
def Fresh (st : AStar α) : Prop :=
  ∀ z, z < MAX_ZONES → st.whichList z ≤ st.onClosedList

/-- Every edge cost of the graph is a whole number. -/
def WholeCosts (zones : List (BotNavMeshZone α)) : Prop :=
  ∀ z ∈ zones, ∀ nb ∈ z.mNeighbors, ∃ k : Int, nb.distTo = (k : α)

/-- The chain of parent links from a zone back to the start zone, as the list of the
neighbour records it follows: the first record leads from the zone's parent to the zone,
the last one leaves the start zone. -/
inductive ParentChain (zones : List (BotNavMeshZone α)) (parentZones : Nat → Nat)
    (startZone : Nat) : Nat → List (NeighboringZone α) → Prop where
  | start : ParentChain zones parentZones startZone startZone []
  | step {z : Nat} {nb : NeighboringZone α} {recs : List (NeighboringZone α)} :
      z ≠ startZone → nb ∈ neighborsOf zones (parentZones z) → nb.zoneID = z →
      ParentChain zones parentZones startZone (parentZones z) recs →
      ParentChain zones parentZones startZone z (nb :: recs)

/-- The points pushed for a chain of zones `[zk, ..., z1, z0]`: for every step from a
zone to its parent, the gateway from the parent to the zone and then the parent's centre. -/
def chainPoints (zones : List (BotNavMeshZone α)) : List Nat → List (Point α)
  | c :: p :: rest => findGateway zones p c :: getCenter zones p :: chainPoints zones (p :: rest)
  | _ => []

/-- The chain of zones `[zk, ..., z1, z0]` that a chain of neighbour records runs through:
the zones the records lead to, and the start zone at the end. -/
def chainOf (startZone : Nat) (recs : List (NeighboringZone α)) : List Nat :=
  recs.map (fun nb => nb.zoneID) ++ [startZone]

/-- The list `[zk, ..., z1, z0]` is the chain of parent links from `zk` back to the start
zone: each zone but the last differs from the start zone and is followed by its parent,
and the last one is the start zone. -/
def IsParentChain (parentZones : Nat → Nat) (startZone : Nat) : List Nat → Prop
  | [] => False
  | [z] => z = startZone
  | c :: p :: rest =>
    c ≠ startZone ∧ p = parentZones c ∧ IsParentChain parentZones startZone (p :: rest)

/-- Every step of the chain `[zk, ..., z0]` has a neighbour record from the parent to the
child, and the point `findGateway` returns for the step is the `borderCenter` of such a
record. -/
def GatewaysOnEdges (zones : List (BotNavMeshZone α)) : List Nat → Prop
  | c :: p :: rest =>
    (∃ nb ∈ neighborsOf zones p, nb.zoneID = c ∧ findGateway zones p c = nb.borderCenter) ∧
      GatewaysOnEdges zones (p :: rest)
  | _ => True

/-- Zone `z` carries the open or the closed mark of the current search. -/
def Marked (s : AStar α) (z : Nat) : Prop :=
  s.whichList z = s.onOpenList ∨ s.whichList z = s.onClosedList

/-- Slots `1..n` of `ol2` hold the same values as slots `1..n` of `ol1`. -/
def HeapPerm (n : Nat) (ol1 ol2 : Nat → Nat) : Prop :=
  (∀ i, 1 ≤ i → i ≤ n → ∃ j, 1 ≤ j ∧ j ≤ n ∧ ol2 i = ol1 j) ∧
  (∀ j, 1 ≤ j → j ≤ n → ∃ i, 1 ≤ i ∧ i ≤ n ∧ ol2 i = ol1 j)

/-- Invariant of the search of `findPath` from the first closing on. -/
structure SearchInv (zones : List (BotNavMeshZone α)) (startZone targetZone : Nat)
    (s : AStar α) : Prop where
  gen : s.onOpenList + 1 = s.onClosedList
  startClosed : s.whichList startZone = s.onClosedList
  targetNotClosed : s.whichList targetZone ≠ s.onClosedList
  heapMarked : ∀ i, 1 ≤ i → i ≤ s.numberOfOpenListItems →
    s.openZone (s.openList i) < zones.length ∧ Marked s (s.openZone (s.openList i))
  heapCover : ∀ z, z < zones.length → s.whichList z = s.onOpenList →
    ∃ i, 1 ≤ i ∧ i ≤ s.numberOfOpenListItems ∧ s.openZone (s.openList i) = z
  heapIds : ∀ i, 1 ≤ i → i ≤ s.numberOfOpenListItems → s.openList i ≤ s.newOpenListItemID
  count : ((Finset.range zones.length).filter
    (fun z => s.whichList z = s.onOpenList ∨ s.whichList z = s.onClosedList)).card =
      s.newOpenListItemID + 1
  parent : ∀ z, z < zones.length → Marked s z → z ≠ startZone →
    s.parentZones z < zones.length ∧ s.whichList (s.parentZones z) = s.onClosedList ∧
    ∃ nb ∈ neighborsOf zones (s.parentZones z), nb.zoneID = z ∧
      (WholeCosts zones → s.Gcost z = s.Gcost (s.parentZones z) + nb.distTo)
  whole : WholeCosts zones → ∀ z, z < zones.length → Marked s z → ∃ k : Int, s.Gcost z = (k : α)
  gStart : s.Gcost startZone = 0
  rank : ∃ rank : Nat → Nat, ∀ z, z < zones.length → s.whichList z = s.onClosedList →
    rank z + s.numberOfOpenListItems ≤ s.newOpenListItemID ∧
    (z ≠ startZone → rank (s.parentZones z) < rank z)

/-- Every neighbour of a closed zone other than `except` carries a mark. -/
def ClosedExpanded (zones : List (BotNavMeshZone α)) (s : AStar α) (except : Nat) : Prop :=
  ∀ z, z < zones.length → s.whichList z = s.onClosedList → z ≠ except →
    ∀ nb ∈ neighborsOf zones z, Marked s nb.zoneID

/-- Every neighbour of a closed zone carries a mark. -/
def AllExpanded (zones : List (BotNavMeshZone α)) (s : AStar α) : Prop :=
  ∀ z, z < zones.length → s.whichList z = s.onClosedList →
    ∀ nb ∈ neighborsOf zones z, Marked s nb.zoneID

/-- Invariant of the search at the head of the loop, from the second round on. -/
def SearchHead (zones : List (BotNavMeshZone α)) (startZone targetZone : Nat)
    (s : AStar α) : Prop :=
  SearchInv zones startZone targetZone s ∧ AllExpanded zones s

/-- State of the search on entry to the loop. -/
structure SearchStart (startZone : Nat) (s : AStar α) : Prop where
  gen : s.onOpenList + 1 = s.onClosedList
  unmarked : ∀ z, z < MAX_ZONES → s.whichList z < s.onOpenList
  one : s.numberOfOpenListItems = 1
  noId : s.newOpenListItemID = 0
  top : s.openZone (s.openList 1) = startZone
  gStart : s.Gcost startZone = 0

end AStarSpec

section AStarSteps

variable {α : Type} [LinearOrderedRing α] [FloorRing α]

/-- Effect of `visitNeighbor` when it puts the zone of the record on the open list. -/
structure Opened (parentZone : Nat) (zone : NeighboringZone α) (s s1 : AStar α) : Prop where
  notClosed : s.whichList zone.zoneID ≠ s.onClosedList
  notOpen : s.whichList zone.zoneID ≠ s.onOpenList
  room : s.newOpenListItemID < MAX_ZONES
  onClosedList : s1.onClosedList = s.onClosedList
  onOpenList : s1.onOpenList = s.onOpenList
  whichList : s1.whichList = setAt s.whichList zone.zoneID s.onOpenList
  newOpenListItemID : s1.newOpenListItemID = s.newOpenListItemID + 1
  numberOfOpenListItems : s1.numberOfOpenListItems = s.numberOfOpenListItems + 1
  openZone : s1.openZone = setAt s.openZone (s.newOpenListItemID + 1) zone.zoneID
  openList : HeapPerm (s.numberOfOpenListItems + 1)
    (setAt s.openList (s.numberOfOpenListItems + 1) (s.newOpenListItemID + 1)) s1.openList
  parentZones : s1.parentZones = setAt s.parentZones zone.zoneID parentZone
  Gcost : s1.Gcost = setAt s.Gcost zone.zoneID (s.Gcost parentZone + zone.distTo)

/-- Effect of `visitNeighbor` when it lowers the G cost of the zone of the record. -/
structure Relaxed (parentZone : Nat) (zone : NeighboringZone α) (s s1 : AStar α) : Prop where
  notClosed : s.whichList zone.zoneID ≠ s.onClosedList
  openOrFull : s.whichList zone.zoneID = s.onOpenList ∨ MAX_ZONES ≤ s.newOpenListItemID
  onClosedList : s1.onClosedList = s.onClosedList
  onOpenList : s1.onOpenList = s.onOpenList
  whichList : s1.whichList = s.whichList
  newOpenListItemID : s1.newOpenListItemID = s.newOpenListItemID
  numberOfOpenListItems : s1.numberOfOpenListItems = s.numberOfOpenListItems
  openZone : s1.openZone = s.openZone
  openList : HeapPerm s.numberOfOpenListItems s.openList s1.openList
  parentZones : s1.parentZones = setAt s.parentZones zone.zoneID parentZone
  Gcost : s1.Gcost =
    setAt s.Gcost zone.zoneID ((truncS32 (s.Gcost parentZone + zone.distTo) : Int) : α)

end AStarSteps


/-! ## Navigation mesh: vocabulary of the statements -/

/-- The midpoint of the segment from `s` to `e`. -/
def segmentMidpoint {α : Type} [LinearOrderedField α] (s e : Point α) : Point α :=
  ⟨(s.x + e.x) / 2, (s.y + e.y) / 2⟩

/-- Every neighbour record has a counterpart in the zone it leads to: a record that leads
back and has the same border points. -/
def Reciprocal {α : Type} (zones : List (BotNavMeshZone α)) : Prop :=
  ∀ a nb, nb ∈ neighborsOf zones a →
    ∃ nb1 ∈ neighborsOf zones nb.zoneID,
      nb1.zoneID = a ∧ nb1.borderStart = nb.borderStart ∧ nb1.borderEnd = nb.borderEnd

/-- No zone has a neighbour record yet, as when the zones have just been created. -/
def NoNeighbors {α : Type} (zones : List (BotNavMeshZone α)) : Prop :=
  ∀ z ∈ zones, z.mNeighbors = []

section MeshSpec

variable {α : Type} [LinearOrderedField α]

/-- Every neighbour record carries as cost the distance from the centre of the extent of
its zone to its border centre, has the midpoint of its border as border centre, and caches
the centre of the extent of the zone it leads to. -/
def ExtentCosts (distanceTo : Point α → Point α → α) (zones : List (BotNavMeshZone α)) : Prop :=
  ∀ a nb, nb ∈ neighborsOf zones a →
    nb.distTo = distanceTo (getCenter zones a) nb.borderCenter ∧
    nb.borderCenter = segmentMidpoint nb.borderStart nb.borderEnd ∧
    nb.center = getCenter zones nb.zoneID

/-- The teleporter records that belong to the zone with index `a`, in the order of the
teleporters and their destinations: one for each destination that lies in a zone other
than `a`, for each teleporter whose entry lies in `a`. -/
def teleporterRecordsOf (findZoneContainingPoint : Point α → Option Nat)
    (zones : List (BotNavMeshZone α)) (teleporters : List (Teleporter α)) (a : Nat) :
    List (NeighboringZone α) :=
  teleporters.flatMap (fun t =>
    if findZoneContainingPoint t.actualPos = some a then
      t.mDest.filterMap (fun d =>
        match findZoneContainingPoint d with
        | some destZone => if a ≠ destZone then some (teleporterRecord zones t d destZone) else none
        | none => none)
    else [])

/-- The records that the edge loop of the aggregated builder makes carry the midpoint of
their border as border centre; cost and cached centre are those of the record `neighbor`
the loop starts from. -/
def EdgeRecords (neighbor : NeighboringZone α) (zones : List (BotNavMeshZone α)) : Prop :=
  ∀ a nb, nb ∈ neighborsOf zones a →
    nb.borderCenter = segmentMidpoint nb.borderStart nb.borderEnd ∧
    nb.distTo = neighbor.distTo ∧ nb.center = neighbor.center

/-- What the loop over the zone pairs keeps true. -/
structure PlainInv (distanceTo : Point α → Point α → α) (zones0 zs : List (BotNavMeshZone α)) :
    Prop where
  len : zs.length = zones0.length
  ids : ∀ i, zoneIdOf zs i = zoneIdOf zones0 i
  centers : ∀ i, getCenter zs i = getCenter zones0 i
  recip : Reciprocal zs
  costs : ExtentCosts distanceTo zs

/-- What the loop over the edges keeps true. -/
structure EdgeInv (neighbor : NeighboringZone α) (zones0 zs : List (BotNavMeshZone α)) :
    Prop where
  len : zs.length = zones0.length
  recip : Reciprocal zs
  recs : EdgeRecords neighbor zs

end MeshSpec

/-- Polygon `i` of the mesh is present: the loops over the mesh do not skip it. -/
def PolyPresent (mesh : rcPolyMesh) (i : Nat) : Prop :=
  i < mesh.npolys ∧ mesh.vertAt i 0 ≠ U16_MAX

/-- The chains of the edge table lead to created edges and go down: `firstEdge` names a
created edge or is the null index, and `nextEdge` of a created edge names an earlier edge
or is the null index; the polygons of every edge are present ones. -/
structure ChainsOk (mesh : rcPolyMesh) (t : EdgeTable) : Prop where
  first : ∀ v, t.firstEdge v = RC_MESH_NULL_IDX ∨ t.firstEdge v < t.edges.length
  next : ∀ e, e < t.edges.length → t.nextEdge e = RC_MESH_NULL_IDX ∨ t.nextEdge e < e
  polys : ∀ e ∈ t.edges, (∃ i, PolyPresent mesh i ∧ e.poly0 = i % 65536) ∧
    ∃ i, PolyPresent mesh i ∧ e.poly1 = i % 65536



/-! ## Removal of unused zones: vocabulary of the statements -/

section PruneSpec

variable {α : Type}

/-- The zone vector with all marks taken off (the first loop of
`removeUnusedNavMeshZones`). -/
def clearFlags (zones : List (BotNavMeshZone α)) : List (BotNavMeshZone α) :=
  zones.map (fun z => { z with flag := false })

/-- Zone `b` is found from zone `a` by the visiting loop: it is another zone of the vector
whose extent meets that of `a` and whose polygon touches that of `a`. -/
def TouchStep (intersectsOrBorders zonesTouch : Nat → Nat → Bool) (n a b : Nat) : Prop :=
  a ≠ b ∧ b < n ∧ intersectsOrBorders a b = true ∧ zonesTouch a b = true

/-- Zone `s` is found to contain a spawn point or a teleporter destination. -/
def SeedZone (fillVector : Point α → List Nat) (contains : Nat → Point α → Bool)
    (zones : List (BotNavMeshZone α)) (gameType : GameType α) (teleporters : List (Teleporter α))
    (s : Nat) : Prop :=
  ∃ p ∈ seedPoints gameType teleporters,
    findZoneContaining fillVector contains zones p = s ∧ s < U16_MAX

/-- Zone `i` can be reached from a zone that contains a spawn point or a teleporter
destination by going from zone to touching zone. -/
def Appears (fillVector : Point α → List Nat) (contains : Nat → Point α → Bool)
    (intersectsOrBorders zonesTouch : Nat → Nat → Bool)
    (zones : List (BotNavMeshZone α)) (gameType : GameType α) (teleporters : List (Teleporter α))
    (i : Nat) : Prop :=
  ∃ s, SeedZone fillVector contains zones gameType teleporters s ∧
    Relation.ReflTransGen (TouchStep intersectsOrBorders zonesTouch zones.length) s i

/-- Zone `z` of the pruned vector is the zone that had index `i` before: it has the same
extent centre and the same neighbour records. -/
def SameZone (zones : List (BotNavMeshZone α)) (i : Nat) (z : BotNavMeshZone α) : Prop :=
  ∃ z0, zones.get? i = some z0 ∧ z.extentCenter = z0.extentCenter ∧
    z.mNeighbors = z0.mNeighbors

/-- Number of rounds the loop over `inProcessList` can still make: the entries of the
list and the zones not yet marked. -/
def pruneMeasure (st : List (BotNavMeshZone α) × List Nat) : Nat :=
  st.2.length + (List.range st.1.length).countP (fun i => !flagOf st.1 i)

end PruneSpec

section PruneSpec2

variable {α : Type}

/-- What the loop over `inProcessList` keeps true of the zone vector `st.1` and the list
`st.2`: only marks change; every marked zone can be reached from a seed zone; every seed
zone is marked; a marked zone is still on the list or all zones that touch it are marked;
every entry of the list is marked. -/
structure PruneInv (fillVector : Point α → List Nat) (contains : Nat → Point α → Bool)
    (intersectsOrBorders zonesTouch : Nat → Nat → Bool)
    (zones : List (BotNavMeshZone α)) (gameType : GameType α) (teleporters : List (Teleporter α))
    (st : List (BotNavMeshZone α) × List Nat) : Prop where
  same : clearFlags st.1 = clearFlags zones
  sound : ∀ i, flagOf st.1 i = true →
    Appears fillVector contains intersectsOrBorders zonesTouch zones gameType teleporters i
  seeds : ∀ s, SeedZone fillVector contains zones gameType teleporters s → flagOf st.1 s = true
  closed : ∀ i, flagOf st.1 i = true →
    i ∈ st.2 ∨ ∀ j, TouchStep intersectsOrBorders zonesTouch zones.length i j →
      flagOf st.1 j = true
  listed : ∀ i ∈ st.2, flagOf st.1 i = true

end PruneSpec2

section PruneSpec3

variable {α : Type}

/-- What holds inside one round of the loop over `inProcessList`, while the zones `done`
have been visited around zone `z`: as `PruneInv`, except that zone `z` itself waits for
the end of the round; the zones of `done` that touch `z` are marked. -/
structure VisitInv (fillVector : Point α → List Nat) (contains : Nat → Point α → Bool)
    (intersectsOrBorders zonesTouch : Nat → Nat → Bool)
    (zones : List (BotNavMeshZone α)) (gameType : GameType α) (teleporters : List (Teleporter α))
    (z : Nat) (done : List Nat) (st : List (BotNavMeshZone α) × List Nat) : Prop where
  same : clearFlags st.1 = clearFlags zones
  sound : ∀ i, flagOf st.1 i = true →
    Appears fillVector contains intersectsOrBorders zonesTouch zones gameType teleporters i
  seeds : ∀ s, SeedZone fillVector contains zones gameType teleporters s → flagOf st.1 s = true
  closed : ∀ i, flagOf st.1 i = true →
    i ∈ st.2 ∨ i = z ∨ ∀ j, TouchStep intersectsOrBorders zonesTouch zones.length i j →
      flagOf st.1 j = true
  listed : ∀ i ∈ st.2, flagOf st.1 i = true
  seen : ∀ j ∈ done, TouchStep intersectsOrBorders zonesTouch zones.length z j →
    flagOf st.1 j = true

end PruneSpec3

/-! ## Pathfinder: example graphs -/

/-- Example graph of three zones with whole-number coordinates and costs: zone 0 has a
neighbour record to zone 2 of cost 10 and one to zone 1 of cost 1; zone 1 has a record to
zone 2 of cost 1; zone 2 has none. -/
def exampleZones : List (BotNavMeshZone Int) :=
  [ { mZoneId := 0, extentCenter := ⟨0, 0⟩,
      mNeighbors :=
        [ { zoneID := 2, borderStart := ⟨4, 0⟩, borderEnd := ⟨4, 2⟩, borderCenter := ⟨4, 1⟩,
            center := ⟨8, 0⟩, distTo := 10 },
          { zoneID := 1, borderStart := ⟨0, 1⟩, borderEnd := ⟨2, 1⟩, borderCenter := ⟨1, 1⟩,
            center := ⟨0, 2⟩, distTo := 1 } ] },
    { mZoneId := 1, extentCenter := ⟨0, 2⟩,
      mNeighbors :=
        [ { zoneID := 2, borderStart := ⟨4, 2⟩, borderEnd := ⟨4, 4⟩, borderCenter := ⟨4, 3⟩,
            center := ⟨8, 0⟩, distTo := 1 } ] },
    { mZoneId := 2, extentCenter := ⟨8, 0⟩, mNeighbors := [] } ]

/-- Distance used with the example graphs (a stand-in for `Point::distanceTo` with whole
values): the larger of the two coordinate differences. -/
def exampleDistance (p q : Point Int) : Int :=
  max (Int.natAbs (p.x - q.x)) (Int.natAbs (p.y - q.y))

/-- Example graph of 10001 zones, one more than `MAX_ZONES`: zone 0 has a neighbour record
to zone 1, the other zones have none. -/
def exampleManyZones : List (BotNavMeshZone Int) :=
  { mZoneId := 0, extentCenter := ⟨0, 0⟩,
    mNeighbors :=
      [ { zoneID := 1, borderStart := ⟨1, 0⟩, borderEnd := ⟨1, 2⟩, borderCenter := ⟨1, 1⟩,
          center := ⟨2, 1⟩, distTo := 1 } ] } ::
    List.replicate 10000 { mZoneId := 1, extentCenter := ⟨2, 1⟩, mNeighbors := [] }

/-- Example graph with a fractional edge cost, over the rationals: zone 0 has neighbour
records to zone 1 (cost 5) and zone 2 (cost 1), zone 2 has a record to zone 1 of cost 3/2,
zone 1 has a record to zone 3 of cost 1. -/
def exampleFractionZones : List (BotNavMeshZone Rat) :=
  [ { mZoneId := 0, extentCenter := ⟨0, 0⟩,
      mNeighbors :=
        [ { zoneID := 1, borderStart := ⟨0, 0⟩, borderEnd := ⟨0, 0⟩, borderCenter := ⟨0, 0⟩,
            center := ⟨0, 0⟩, distTo := 5 },
          { zoneID := 2, borderStart := ⟨0, 0⟩, borderEnd := ⟨0, 0⟩, borderCenter := ⟨0, 0⟩,
            center := ⟨0, 0⟩, distTo := 1 } ] },
    { mZoneId := 1, extentCenter := ⟨0, 0⟩,
      mNeighbors :=
        [ { zoneID := 3, borderStart := ⟨0, 0⟩, borderEnd := ⟨0, 0⟩, borderCenter := ⟨0, 0⟩,
            center := ⟨0, 0⟩, distTo := 1 } ] },
    { mZoneId := 2, extentCenter := ⟨0, 0⟩,
      mNeighbors :=
        [ { zoneID := 1, borderStart := ⟨0, 0⟩, borderEnd := ⟨0, 0⟩, borderCenter := ⟨0, 0⟩,
            center := ⟨0, 0⟩, distTo := 3 / 2 } ] },
    { mZoneId := 3, extentCenter := ⟨0, 0⟩, mNeighbors := [] } ]

/-! ## Notions of the specification used for the mesh coordinates and the waypoints -/

section SpecQuantise

variable {α : Type} [LinearOrderedField α] [FloorRing α]

/-- Rounding to the nearest integer, halves away from zero, in the words of the
specification. -/
def roundHalfAway (x : α) : Int :=
  if x < 0 then -Int.floor (-x + 1 / 2) else Int.floor (x + 1 / 2)

end SpecQuantise

/-! ## Navigation mesh: example levels -/

/-- Three zones in a row that have just been created: the squares with the corners
(0,0)-(10,10), (10,0)-(20,10) and (20,0)-(30,10). -/
def exampleRowZones : List (BotNavMeshZone Rat) :=
  [ { mZoneId := 0, extentCenter := ⟨5, 5⟩, mNeighbors := [] },
    { mZoneId := 1, extentCenter := ⟨15, 5⟩, mNeighbors := [] },
    { mZoneId := 2, extentCenter := ⟨25, 5⟩, mNeighbors := [] } ]

/-- The extents of two zones of the row meet when the zones are the same or next to each
other. -/
def exampleRowBorders (i j : Nat) : Bool :=
  decide (i = j ∨ i + 1 = j ∨ j + 1 = i)

/-- The polygons of two zones of the row touch when the zones are next to each other; the
border is the side they share. -/
def exampleRowTouch (i j : Nat) : Option (Point Rat × Point Rat) :=
  if (i = 0 ∧ j = 1) ∨ (i = 1 ∧ j = 0) then some (⟨10, 0⟩, ⟨10, 10⟩)
  else if (i = 1 ∧ j = 2) ∨ (i = 2 ∧ j = 1) then some (⟨20, 0⟩, ⟨20, 10⟩)
  else none

/-- The zone of the row that contains a point. -/
def exampleRowFind (p : Point Rat) : Option Nat :=
  if p.x < 0 ∨ 30 < p.x then none
  else if p.x ≤ 10 then some 0
  else if p.x ≤ 20 then some 1
  else some 2

/-- One teleporter with its entry at (5,5) in zone 0 and one destination at (25,5) in
zone 2. -/
def exampleRowTeleporters : List (Teleporter Rat) :=
  [ { actualPos := ⟨5, 5⟩, mDest := [⟨25, 5⟩] } ]

/-- The polygon mesh of the row: eight vertices (coordinates offset by 32767), three
polygons of four vertices each in slots of six. -/
def exampleRowMesh : rcPolyMesh :=
  { verts := fun k =>
      [32767, 32767, 32777, 32767, 32787, 32767, 32797, 32767,
        32767, 32777, 32777, 32777, 32787, 32777, 32797, 32777].getD k 0,
    polys := fun k =>
      [0, 1, 5, 4, 0xffff, 0xffff, 1, 2, 6, 5, 0xffff, 0xffff,
        2, 3, 7, 6, 0xffff, 0xffff].getD k 0xffff,
    nverts := 8, npolys := 3, nvp := 6 }

/-- Content of the local record `neighbor` at the start of the edge loop in the examples. -/
def exampleNeighbor : NeighboringZone Rat :=
  { zoneID := 0, borderStart := ⟨0, 0⟩, borderEnd := ⟨0, 0⟩, borderCenter := ⟨0, 0⟩,
    center := ⟨0, 0⟩, distTo := 0 }

/-- Whole square root, by search (exact on squares). -/
def exampleRoot (n : Nat) : Nat :=
  ((List.range (n + 1)).filter (fun k => k * k ≤ n)).length - 1

/-- Euclidean distance of two points with rational coordinates, exact whenever the
distance is rational. -/
def exampleEuclid (p q : Point Rat) : Rat :=
  let s := (p.x - q.x) * (p.x - q.x) + (p.y - q.y) * (p.y - q.y)
  (exampleRoot s.num.toNat : Rat) / (exampleRoot s.den : Rat)

/-- Two triangular zones that have just been created: the triangle (0,0), (18,0), (0,12)
with centroid (6,4) and extent centre (9,6), and the triangle (0,0), (18,0), (18,-12) with
centroid (12,-4) and extent centre (9,-6).  They share the side from (0,0) to (18,0). -/
def exampleTriangleZones : List (BotNavMeshZone Rat) :=
  [ { mZoneId := 0, extentCenter := ⟨9, 6⟩, mNeighbors := [], mCentroid := ⟨6, 4⟩ },
    { mZoneId := 1, extentCenter := ⟨9, -6⟩, mNeighbors := [], mCentroid := ⟨12, -4⟩ } ]

/-- The two triangles touch along the side from (0,0) to (18,0). -/
def exampleTriangleTouch (i j : Nat) : Option (Point Rat × Point Rat) :=
  if (i = 0 ∧ j = 1) ∨ (i = 1 ∧ j = 0) then some (⟨0, 0⟩, ⟨18, 0⟩) else none

/-- The row of three zones with the neighbour records that
`buildBotNavMeshZoneConnections` gives it for the teleporter from zone 0 to zone 2. -/
def exampleRowBuilt : List (BotNavMeshZone Rat) :=
  [ { mZoneId := 0, extentCenter := ⟨5, 5⟩,
      mNeighbors :=
        [ { zoneID := 1, borderStart := ⟨10, 0⟩, borderEnd := ⟨10, 10⟩, borderCenter := ⟨10, 5⟩,
            center := ⟨15, 5⟩, distTo := 5 },
          { zoneID := 2, borderStart := ⟨5, 5⟩, borderEnd := ⟨25, 5⟩, borderCenter := ⟨5, 5⟩,
            center := ⟨5, 5⟩, distTo := 0 } ] },
    { mZoneId := 1, extentCenter := ⟨15, 5⟩,
      mNeighbors :=
        [ { zoneID := 0, borderStart := ⟨10, 0⟩, borderEnd := ⟨10, 10⟩, borderCenter := ⟨10, 5⟩,
            center := ⟨5, 5⟩, distTo := 5 },
          { zoneID := 2, borderStart := ⟨20, 0⟩, borderEnd := ⟨20, 10⟩, borderCenter := ⟨20, 5⟩,
            center := ⟨25, 5⟩, distTo := 5 } ] },
    { mZoneId := 2, extentCenter := ⟨25, 5⟩,
      mNeighbors :=
        [ { zoneID := 1, borderStart := ⟨20, 0⟩, borderEnd := ⟨20, 10⟩, borderCenter := ⟨20, 5⟩,
            center := ⟨15, 5⟩, distTo := 5 } ] } ]

/-- The row of three zones with the neighbour records that
`buildBotNavMeshZoneConnectionsRecastStyle` gives it. -/
def exampleRowAggregated : List (BotNavMeshZone Rat) :=
  [ { mZoneId := 0, extentCenter := ⟨5, 5⟩,
      mNeighbors :=
        [ { zoneID := 1, borderStart := ⟨10, 0⟩, borderEnd := ⟨10, 10⟩, borderCenter := ⟨10, 5⟩,
            center := ⟨0, 0⟩, distTo := 0 } ] },
    { mZoneId := 1, extentCenter := ⟨15, 5⟩,
      mNeighbors :=
        [ { zoneID := 0, borderStart := ⟨10, 0⟩, borderEnd := ⟨10, 10⟩, borderCenter := ⟨10, 5⟩,
            center := ⟨0, 0⟩, distTo := 0 },
          { zoneID := 2, borderStart := ⟨20, 0⟩, borderEnd := ⟨20, 10⟩, borderCenter := ⟨20, 5⟩,
            center := ⟨0, 0⟩, distTo := 0 } ] },
    { mZoneId := 2, extentCenter := ⟨25, 5⟩,
      mNeighbors :=
        [ { zoneID := 1, borderStart := ⟨20, 0⟩, borderEnd := ⟨20, 10⟩, borderCenter := ⟨20, 5⟩,
            center := ⟨0, 0⟩, distTo := 0 } ] } ]

/-! ## Removal of unused zones: example levels -/

/-- Two zones whose polygons touch and that hold no neighbour records. -/
def exampleTouchingZones : List (BotNavMeshZone Int) :=
  [ { mZoneId := 0, extentCenter := ⟨5, 5⟩, mNeighbors := [] },
    { mZoneId := 1, extentCenter := ⟨15, 5⟩, mNeighbors := [] } ]

/-- The zones that the object database finds near a point in the examples: zone 0 for the
points with `x` up to 10, no zone for the others. -/
def exampleFill (p : Point Int) : List Nat :=
  if p.x ≤ 10 then [0] else []

/-- One team with one spawn point, (5,5). -/
def exampleGameType : GameType Int :=
  { mTeams := [{ spawnPoints := [⟨5, 5⟩] }] }

/-- Four zones: zone 0 holds the spawn point, zone 1 touches no other zone, zone 2 touches
zone 0 and zone 3.  The neighbour records follow the touching zones. -/
def exampleLooseZones : List (BotNavMeshZone Int) :=
  [ { mZoneId := 0, extentCenter := ⟨5, 5⟩,
      mNeighbors :=
        [ { zoneID := 2, borderStart := ⟨10, 0⟩, borderEnd := ⟨10, 10⟩, borderCenter := ⟨10, 5⟩,
            center := ⟨15, 5⟩, distTo := 5 } ] },
    { mZoneId := 1, extentCenter := ⟨105, 5⟩, mNeighbors := [] },
    { mZoneId := 2, extentCenter := ⟨15, 5⟩,
      mNeighbors :=
        [ { zoneID := 0, borderStart := ⟨10, 0⟩, borderEnd := ⟨10, 10⟩, borderCenter := ⟨10, 5⟩,
            center := ⟨5, 5⟩, distTo := 5 },
          { zoneID := 3, borderStart := ⟨20, 0⟩, borderEnd := ⟨20, 10⟩, borderCenter := ⟨20, 5⟩,
            center := ⟨25, 5⟩, distTo := 5 } ] },
    { mZoneId := 3, extentCenter := ⟨25, 5⟩,
      mNeighbors :=
        [ { zoneID := 2, borderStart := ⟨20, 0⟩, borderEnd := ⟨20, 10⟩, borderCenter := ⟨20, 5⟩,
            center := ⟨15, 5⟩, distTo := 5 } ] } ]

/-- The polygons of the four zones touch in the pairs 0-2 and 2-3. -/
def exampleLooseTouch (a b : Nat) : Bool :=
  decide ((a = 0 ∧ b = 2) ∨ (a = 2 ∧ b = 0) ∨ (a = 2 ∧ b = 3) ∨ (a = 3 ∧ b = 2))

/-- The four zones after `removeUnusedNavMeshZones`: the former zones 0, 3 and 2, in this
order, with the ids 0, 1 and 2 and their neighbour records as before. -/
def exampleLoosePruned : List (BotNavMeshZone Int) :=
  [ { mZoneId := 0, extentCenter := ⟨5, 5⟩, flag := true,
      mNeighbors :=
        [ { zoneID := 2, borderStart := ⟨10, 0⟩, borderEnd := ⟨10, 10⟩, borderCenter := ⟨10, 5⟩,
            center := ⟨15, 5⟩, distTo := 5 } ] },
    { mZoneId := 1, extentCenter := ⟨25, 5⟩, flag := true,
      mNeighbors :=
        [ { zoneID := 2, borderStart := ⟨20, 0⟩, borderEnd := ⟨20, 10⟩, borderCenter := ⟨20, 5⟩,
            center := ⟨15, 5⟩, distTo := 5 } ] },
    { mZoneId := 2, extentCenter := ⟨15, 5⟩, flag := true,
      mNeighbors :=
        [ { zoneID := 0, borderStart := ⟨10, 0⟩, borderEnd := ⟨10, 10⟩, borderCenter := ⟨10, 5⟩,
            center := ⟨5, 5⟩, distTo := 5 },
          { zoneID := 3, borderStart := ⟨20, 0⟩, borderEnd := ⟨20, 10⟩, borderCenter := ⟨20, 5⟩,
            center := ⟨25, 5⟩, distTo := 5 } ] } ]

/-! ## Pathfinder: vocabulary for the comparison of two searches -/

/-- Two open lists hold the same items in the slots `1..n`. -/
def AgreeOn (n : Nat) (ol ol1 : Nat → Nat) : Prop :=
  ∀ i, 1 ≤ i → i ≤ n → ol i = ol1 i

/-- Two arrays indexed by open list items have the same entries for the items in the
slots `1..n` of the open list. -/
def AgreeItems {β : Type} (n : Nat) (ol : Nat → Nat) (a a1 : Nat → β) : Prop :=
  ∀ i, 1 ≤ i → i ≤ n → a (ol i) = a1 (ol i)

section GenerationSpec

variable {α : Type} [LinearOrderedRing α] [FloorRing α]

/-- Two states of the search from `startZone` that differ only in what the search does not
read: the counters agree, the same zones carry the open and the closed mark, the open lists
hold the same items, which name the same zones and have the same costs, and the marked
zones have the same G costs and parents. -/
structure SameSearch (zones : List (BotNavMeshZone α)) (startZone : Nat) (s s1 : AStar α) :
    Prop where
  count : s.numberOfOpenListItems = s1.numberOfOpenListItems
  ids : s.newOpenListItemID = s1.newOpenListItemID
  onOpen : ∀ z, z < zones.length →
    (s.whichList z = s.onOpenList ↔ s1.whichList z = s1.onOpenList)
  onClosed : ∀ z, z < zones.length →
    (s.whichList z = s.onClosedList ↔ s1.whichList z = s1.onClosedList)
  heap : AgreeOn s.numberOfOpenListItems s.openList s1.openList
  openZone : AgreeItems s.numberOfOpenListItems s.openList s.openZone s1.openZone
  Fcost : AgreeItems s.numberOfOpenListItems s.openList s.Fcost s1.Fcost
  Hcost : AgreeItems s.numberOfOpenListItems s.openList s.Hcost s1.Hcost
  Gcost : ∀ z, z < zones.length → Marked s z ∨ z = startZone → s.Gcost z = s1.Gcost z
  parentZones : ∀ z, z < zones.length → Marked s z → z ≠ startZone →
    s.parentZones z = s1.parentZones z

/-- One call of `findPath`: the zone graph at the time of the call and the arguments. -/
structure Query (α : Type) where
  zones : List (BotNavMeshZone α)
  startZone : Nat
  targetZone : Nat
  target : Point α

/-- A sequence of calls of `findPath`, each on the statics that the call before has left
behind: the list of the returned paths (`none` for a call that does not return, after
which there are no more calls). -/
def findPaths (distanceTo : Point α → Point α → α) :
    AStar α → List (Query α) → List (Option (List (Point α)))
  | _, [] => []
  | st, q :: qs =>
    match findPath distanceTo q.zones st q.startZone q.targetZone q.target with
    | none => [none]
    | some (path, st1) => some path :: findPaths distanceTo st1 qs

end GenerationSpec

/-! ## Edge matching on the polygon mesh: vocabulary of the statements -/

/-- Edge `e` is on the chain that starts at the index `start`: it is reached from `start`
along `nextEdge` before the null index. -/
inductive Chain (nextEdge : Nat → Nat) : Nat → Nat → Prop where
  | head {e : Nat} : e ≠ RC_MESH_NULL_IDX → Chain nextEdge e e
  | tail {s e : Nat} : s ≠ RC_MESH_NULL_IDX → Chain nextEdge (nextEdge s) e →
      Chain nextEdge s e

/-- Every directed vertex pair is the side of one polygon at most, and only once: what
consistent winding gives when every undirected vertex pair is used by at most two
polygons (which then run through it in opposite directions). -/
def DirectedOnce (mesh : rcPolyMesh) : Prop :=
  (mesh.visits.map (fun v => (v.2.1, v.2.2))).Nodup

/-- The edges that the first loop has created after the visits `vs`: one for every visited
pair with `v0 < v1`, in the order of the visits, with both polygons the visiting one. -/
def createdEdges (vs : List (Nat × Nat × Nat)) : List rcEdge :=
  (vs.filter (fun v => decide (v.2.1 < v.2.2))).map
    (fun v => { vert0 := v.2.1, vert1 := v.2.2, poly0 := v.1 % 65536, poly1 := v.1 % 65536 })

/-- The right polygon of edge `e` after the visits `done` of the second loop: the polygon
that has visited the pair of `e` in the opposite direction, else the left polygon. -/
def rightPoly (done : List (Nat × Nat × Nat)) (e : rcEdge) : Nat :=
  match done.find? (fun w => decide (w.2.1 = e.vert1 ∧ w.2.2 = e.vert0)) with
  | some w => w.1 % 65536
  | none => e.poly0

/-- The edges after the first loop over the visits `vs` and the visits `done` of the second
loop. -/
def matchedEdges (vs done : List (Nat × Nat × Nat)) : List rcEdge :=
  (createdEdges vs).map (fun e => { e with poly1 := rightPoly done e })

/-- The edge table after the visits `done` of the first loop: the edges are the created
ones; the chain of a vertex holds exactly the edges that leave it; the chains lead to
created edges and go down. -/
structure EdgesCreated (done : List (Nat × Nat × Nat)) (t : EdgeTable) : Prop where
  edges : t.edges = createdEdges done
  sound : ∀ v e, Chain t.nextEdge (t.firstEdge v) e →
    ∃ x, t.edges.get? e = some x ∧ x.vert0 = v
  complete : ∀ e x, t.edges.get? e = some x → Chain t.nextEdge (t.firstEdge x.vert0) e
  first : ∀ v, t.firstEdge v = RC_MESH_NULL_IDX ∨ t.firstEdge v < t.edges.length
  next : ∀ e, e < t.edges.length → t.nextEdge e = RC_MESH_NULL_IDX ∨ t.nextEdge e < e

/-- The edge table after the first loop over the visits `vs` and the visits `done` of the
second loop: the edges are the matched ones, and the chains are as the first loop has left
them. -/
structure EdgesMatched (vs done : List (Nat × Nat × Nat)) (t : EdgeTable) : Prop where
  edges : t.edges = matchedEdges vs done
  sound : ∀ v e, Chain t.nextEdge (t.firstEdge v) e →
    ∃ x, (createdEdges vs).get? e = some x ∧ x.vert0 = v
  complete : ∀ e x, (createdEdges vs).get? e = some x →
    Chain t.nextEdge (t.firstEdge x.vert0) e
  first : ∀ v, t.firstEdge v = RC_MESH_NULL_IDX ∨ t.firstEdge v < (createdEdges vs).length
  next : ∀ e, e < (createdEdges vs).length →
    t.nextEdge e = RC_MESH_NULL_IDX ∨ t.nextEdge e < e

section EdgeRecordsSpec

variable {α : Type} [LinearOrderedField α]

/-- The record that the third loop makes for edge `e`, leading to zone `zoneID`: its border
runs from the coordinates of `vert[0]` to those of `vert[1]`, each less 32767. -/
def edgeRecord (mesh : rcPolyMesh) (neighbor : NeighboringZone α) (e : rcEdge) (zoneID : Nat) :
    NeighboringZone α :=
  let borderStart : Point α :=
    ⟨(((mesh.verts (e.vert0 * 2) : Int) - S16_MAX : Int) : α),
      (((mesh.verts (e.vert0 * 2 + 1) : Int) - S16_MAX : Int) : α)⟩
  let borderEnd : Point α :=
    ⟨(((mesh.verts (e.vert1 * 2) : Int) - S16_MAX : Int) : α),
      (((mesh.verts (e.vert1 * 2 + 1) : Int) - S16_MAX : Int) : α)⟩
  { neighbor with borderStart := borderStart, borderEnd := borderEnd,
                  borderCenter := Point.scale (Point.add borderStart borderEnd) (1 / 2),
                  zoneID := zoneID }

/-- The records that edge `e` gives to the zone with index `a`: none when its two polygons
are the same; else one to the zone of the right polygon if `a` is the zone of the left
one, and one to the zone of the left polygon if `a` is the zone of the right one. -/
def edgeRecords (mesh : rcPolyMesh) (polyToZoneMap : Nat → Nat) (neighbor : NeighboringZone α)
    (a : Nat) (e : rcEdge) : List (NeighboringZone α) :=
  if e.poly0 ≠ e.poly1 then
    (if polyToZoneMap e.poly0 = a then [edgeRecord mesh neighbor e (polyToZoneMap e.poly1)]
      else []) ++
    (if polyToZoneMap e.poly1 = a then [edgeRecord mesh neighbor e (polyToZoneMap e.poly0)]
      else [])
  else []

end EdgeRecordsSpec

/-! ## Teleporter: examples -/

/-- An engineered teleporter of health 1 that has not exploded, with one destination;
`valid` tells whether its resource pointer is valid. -/
def exampleEngineered (valid : Bool) : TeleporterObj Int :=
  { vert0 := ⟨0, 0⟩, vert1 := ⟨9, 9⟩, mDests := [⟨9, 9⟩], mTeleporterDelay := 1500,
    mNeedsEndpoint := false, mHasExploded := false, mStartingHealth := 1,
    mEngineered := true, mResourceValid := valid, mLastDest := 0 }

/-- The value of `atof` on the arguments of the examples: the decimal value of a text of
digits (the examples use whole numbers only). -/
def exampleAtof (arg : List Char) : Int :=
  arg.foldl (fun n c => 10 * n + ((c.toNat : Int) - 48)) 0

/-! ## Waypoints: examples -/

/-- The value of the constant `F32_MAX`, the largest finite 32-bit float, which is a whole
number. -/
def exampleF32Max : Int := 340282346638528859811704183484516925440

/-- Example visibility test of the grid database under which no point sees another. -/
def exampleBlind (_p _q : Point Int) : Bool := false

/-- Example visibility test of the grid database under which every point sees every
other. -/
def exampleOpen (_p _q : Point Int) : Bool := true

/-- Example of `Robot::canSeePoint`: the bot sees the points with `x ≤ 4`. -/
def exampleCanSee (p : Point Int) : Bool := decide (p.x ≤ 4)

/-- Example of `findZoneContaining` for `exampleZones`: the points with `x ≥ 4` lie in
zone 2, the others in zone 0. -/
def exampleZoneOf (p : Point Int) : Int := if p.x ≥ 4 then 2 else 0

/-- A bot in zone 0 with a plan of four entries that leads to zone 2. -/
def exampleRobot : Robot Int :=
  { flightPlan := [⟨9, 9⟩, ⟨8, 0⟩, ⟨4, 1⟩, ⟨0, 0⟩], flightPlanTo := 2, mCurrentZone := 0 }

/-- A bot as it is created: no plan, `flightPlanTo` and `mCurrentZone` are -1. -/
def exampleNewRobot : Robot Int :=
  { flightPlan := [], flightPlanTo := -1, mCurrentZone := -1 }

/-! ## Pathfinder: example for the open list -/

/-- Example graph of five zones with a common centre (so every heuristic value is 0):
zone 0 has neighbour records to zone 1 (cost 1), zone 2 (cost 2) and zone 3 (cost 3);
zones 2 and 3 have a record to zone 4 of cost 1; zones 1 and 4 have none. -/
def exampleHeapZones : List (BotNavMeshZone Int) :=
  [ { mZoneId := 0, extentCenter := ⟨0, 0⟩,
      mNeighbors :=
        [ { zoneID := 1, borderStart := ⟨0, 0⟩, borderEnd := ⟨0, 0⟩, borderCenter := ⟨0, 0⟩,
            center := ⟨0, 0⟩, distTo := 1 },
          { zoneID := 2, borderStart := ⟨0, 0⟩, borderEnd := ⟨0, 0⟩, borderCenter := ⟨0, 0⟩,
            center := ⟨0, 0⟩, distTo := 2 },
          { zoneID := 3, borderStart := ⟨0, 0⟩, borderEnd := ⟨0, 0⟩, borderCenter := ⟨0, 0⟩,
            center := ⟨0, 0⟩, distTo := 3 } ] },
    { mZoneId := 1, extentCenter := ⟨0, 0⟩, mNeighbors := [] },
    { mZoneId := 2, extentCenter := ⟨0, 0⟩,
      mNeighbors :=
        [ { zoneID := 4, borderStart := ⟨0, 0⟩, borderEnd := ⟨0, 0⟩, borderCenter := ⟨0, 0⟩,
            center := ⟨0, 0⟩, distTo := 1 } ] },
    { mZoneId := 3, extentCenter := ⟨0, 0⟩,
      mNeighbors :=
        [ { zoneID := 4, borderStart := ⟨0, 0⟩, borderEnd := ⟨0, 0⟩, borderCenter := ⟨0, 0⟩,
            center := ⟨0, 0⟩, distTo := 1 } ] },
    { mZoneId := 4, extentCenter := ⟨0, 0⟩, mNeighbors := [] } ]

/-- The state of the search from zone 0 to zone 4 in `exampleHeapZones` after two rounds
of the search loop. -/
def exampleHeapState : AStar Int :=
  expandTop exampleDistance exampleHeapZones 4
    (expandTop exampleDistance exampleHeapZones 4
      (startSearch exampleDistance exampleHeapZones AStar.init 0 4))

/-- Three calls of `findPath` on the example graph: from zone 0 to zone 2, from zone 1 to
zone 2, and from zone 2 to zone 0. -/
def exampleQueries : List (Query Int) :=
  [ { zones := exampleZones, startZone := 0, targetZone := 2, target := ⟨9, 1⟩ },
    { zones := exampleZones, startZone := 1, targetZone := 2, target := ⟨9, 1⟩ },
    { zones := exampleZones, startZone := 2, targetZone := 0, target := ⟨1, 1⟩ } ]

/-! ## Event manager: lemmas -/

namespace EventManager

theorem erase_fast_perm {β : Type} : ∀ (v : List β) (i : Nat), i < v.length →
    (erase_fast v i).Perm (v.eraseIdx i)
  | [], i, h => by simp at h
  | [x], i, h => by
    have hi : i = 0 := by simpa using h
    subst hi
    simp [erase_fast]
  | x :: y :: v, 0, _ => by
    obtain ⟨l, hl⟩ : ∃ l, (y :: v).getLast? = some l :=
      Option.isSome_iff_exists.mp (by simp [List.getLast?_isSome])
    have h1 : (x :: y :: v).getLast? = some l := by rw [List.getLast?_cons_cons]; exact hl
    have h2 : (y :: v).dropLast ++ [l] = y :: v := List.dropLast_append_getLast? l hl
    simp only [erase_fast, h1, List.set_cons_zero, List.eraseIdx_cons_zero]
    rw [List.dropLast_cons_of_ne_nil (by simp)]
    have h3 := (List.perm_append_singleton l (y :: v).dropLast).symm
    rw [h2] at h3
    exact h3
  | x :: y :: v, i + 1, h => by
    obtain ⟨l, hl⟩ : ∃ l, (y :: v).getLast? = some l :=
      Option.isSome_iff_exists.mp (by simp [List.getLast?_isSome])
    have h1 : (x :: y :: v).getLast? = some l := by rw [List.getLast?_cons_cons]; exact hl
    have ih := erase_fast_perm (y :: v) i (by simpa using h)
    simp only [erase_fast, hl] at ih
    simp only [erase_fast, h1, List.set_cons_succ, List.eraseIdx_cons_succ]
    rw [List.dropLast_cons_of_ne_nil (by
      intro hnil
      have := congrArg List.length hnil
      simp at this)]
    exact List.Perm.cons x ih

theorem removeFirstMatch_of_not_mem {v : List Handle} {L : Handle} (h : L ∉ v) :
    removeFirstMatch v L = v := by
  unfold removeFirstMatch
  rw [if_neg]
  rw [List.indexOf_lt_length]
  exact h

theorem removeFirstMatch_perm (v : List Handle) (L : Handle) :
    (removeFirstMatch v L).Perm (v.erase L) := by
  by_cases h : L ∈ v
  · unfold removeFirstMatch
    rw [if_pos (List.indexOf_lt_length.mpr h), ← List.eraseIdx_indexOf_eq_erase]
    exact erase_fast_perm v _ (List.indexOf_lt_length.mpr h)
  · rw [removeFirstMatch_of_not_mem h, List.erase_of_not_mem h]

theorem removeFirstMatch_subset {v : List Handle} {L x : Handle}
    (h : x ∈ removeFirstMatch v L) : x ∈ v :=
  List.mem_of_mem_erase ((removeFirstMatch_perm v L).mem_iff.mp h)

theorem removeFirstMatch_nodup {v : List Handle} (L : Handle) (h : v.Nodup) :
    (removeFirstMatch v L).Nodup :=
  (removeFirstMatch_perm v L).nodup_iff.mpr (h.erase L)

theorem not_mem_removeFirstMatch {v : List Handle} {L : Handle} (h : v.count L ≤ 1) :
    L ∉ removeFirstMatch v L := by
  intro hm
  have h1 := (removeFirstMatch_perm v L).mem_iff.mp hm
  have h2 : 0 < (v.erase L).count L := List.count_pos_iff.mpr h1
  rw [List.count_erase_self] at h2
  omega

theorem foldl_removeFirstMatch_subset (us : List Handle) : ∀ (v : List Handle) (x : Handle),
    x ∈ us.foldl removeFirstMatch v → x ∈ v := by
  induction us with
  | nil => intro v x h; exact h
  | cons u us ih =>
    intro v x h
    exact removeFirstMatch_subset (ih _ x h)

theorem foldl_removeFirstMatch_nodup (us : List Handle) : ∀ (v : List Handle),
    v.Nodup → (us.foldl removeFirstMatch v).Nodup := by
  induction us with
  | nil => intro v h; exact h
  | cons u us ih =>
    intro v h
    exact ih _ (removeFirstMatch_nodup u h)

@[simp] theorem setList_same (a : EventType → List Handle) (e : EventType) (v : List Handle) :
    setList a e v e = v := by
  simp [setList]

@[simp] theorem setList_ne (a : EventType → List Handle) {e e1 : EventType} (v : List Handle)
    (h : e1 ≠ e) : setList a e v e1 = a e1 := by
  simp [setList, h]

theorem deliver_initial (ok : Handle → Bool) : ∀ l : List Handle, deliver ok l <+: l
  | [] => by simp [deliver]
  | L :: rest => by
    unfold deliver
    split
    · exact (List.prefix_cons_inj L).mpr (deliver_initial ok rest)
    · exact ⟨rest, rfl⟩

theorem deliver_all_ok (ok : Handle → Bool) : ∀ l : List Handle, (∀ x ∈ l, ok x = true) →
    deliver ok l = l
  | [], _ => rfl
  | L :: rest, h => by
    unfold deliver
    rw [if_pos (h L (List.mem_cons_self _ _)),
      deliver_all_ok ok rest (fun x hx => h x (List.mem_cons_of_mem _ hx))]

theorem deliver_error (ok : Handle → Bool) : ∀ (pre : List Handle) (L : Handle)
    (post : List Handle), (∀ x ∈ pre, ok x = true) → ok L = false →
    deliver ok (pre ++ L :: post) = pre ++ [L]
  | [], L, post, _, hL => by simp [deliver, hL]
  | p :: pre, L, post, h, hL => by
    show deliver ok (p :: (pre ++ L :: post)) = p :: (pre ++ [L])
    rw [deliver, if_pos (h p (List.mem_cons_self _ _)),
      deliver_error ok pre L post (fun x hx => h x (List.mem_cons_of_mem _ hx)) hL]

theorem deliverExcept_sublist (c : Handle) (ok : Handle → Bool) : ∀ l : List Handle,
    (deliverExcept c ok l).Sublist (l.filter (fun x => decide (x ≠ c)))
  | [] => by simp [deliverExcept]
  | L :: rest => by
    unfold deliverExcept
    by_cases hc : L = c
    · rw [if_pos hc, List.filter_cons_of_neg (by simp [hc])]
      exact deliverExcept_sublist c ok rest
    · rw [if_neg hc, List.filter_cons_of_pos (by simp [hc])]
      split
      · exact (deliverExcept_sublist c ok rest).cons₂ L
      · simp

theorem deliverExcept_all_ok (c : Handle) (ok : Handle → Bool) : ∀ l : List Handle,
    (∀ x ∈ l, ok x = true) → deliverExcept c ok l = l.filter (fun x => decide (x ≠ c))
  | [], _ => rfl
  | L :: rest, h => by
    have ih := deliverExcept_all_ok c ok rest (fun x hx => h x (List.mem_cons_of_mem _ hx))
    unfold deliverExcept
    by_cases hc : L = c
    · rw [if_pos hc, List.filter_cons_of_neg (by simp [hc]), ih]
    · rw [if_neg hc, if_pos (h L (List.mem_cons_self _ _)),
        List.filter_cons_of_pos (by simp [hc]), ih]

theorem deliverExcept_error (c : Handle) (ok : Handle → Bool) : ∀ (pre : List Handle)
    (L : Handle) (post : List Handle), (∀ x ∈ pre, ok x = true) → ok L = false → L ≠ c →
    deliverExcept c ok (pre ++ L :: post) = pre.filter (fun x => decide (x ≠ c)) ++ [L]
  | [], L, post, _, hL, hc => by simp [deliverExcept, hL, hc]
  | p :: pre, L, post, h, hL, hc => by
    have ih := deliverExcept_error c ok pre L post
      (fun x hx => h x (List.mem_cons_of_mem _ hx)) hL hc
    show deliverExcept c ok (p :: (pre ++ L :: post)) = _
    rw [deliverExcept]
    by_cases hp : p = c
    · rw [if_pos hp, List.filter_cons_of_neg (by simp [hp]), ih]
    · rw [if_neg hp, if_pos (h p (List.mem_cons_self _ _)),
        List.filter_cons_of_pos (by simp [hp]), ih, List.cons_append]

end EventManager

/-! ## Event manager: theorems -/

namespace EventManager

theorem noDuplicates_init : NoDuplicates init := by
  intro e
  simp [init]

theorem noDuplicates_step (s : EventManager) (op : Op) (h : NoDuplicates s) :
    NoDuplicates (step s op) := by
  cases op with
  | subscribe L e0 =>
    intro e
    obtain ⟨h1, h2, h3⟩ := h e
    simp only [step, subscribe]
    split
    · rename_i hc
      simp only [Bool.and_eq_true, Bool.not_eq_true', isSubscribed, isPendingSubscribed] at hc
      have hc1 : L ∉ s.subscriptions e0 := by
        intro hm; have := List.elem_iff.mpr hm; simp [List.contains] at hc; exact hc.1 hm
      have hc2 : L ∉ s.pendingSubscriptions e0 := by
        intro hm; simp [List.contains] at hc; exact hc.2 hm
      by_cases he : e = e0
      · subst he
        simp only [removeFromPendingUnsubscribeList, setList_same]
        refine ⟨h1, ?_, ?_⟩
        · exact List.Nodup.append h2 (List.nodup_singleton L) (by simpa using hc2)
        · intro x hx hx2
          rcases List.mem_append.mp hx2 with hx3 | hx3
          · exact h3 x hx hx3
          · simp at hx3; subst hx3; exact hc1 hx
      · simp only [removeFromPendingUnsubscribeList, setList_ne _ _ he]
        exact ⟨h1, h2, h3⟩
    · exact ⟨h1, h2, h3⟩
  | unsubscribe L e0 =>
    intro e
    obtain ⟨h1, h2, h3⟩ := h e
    simp only [step, unsubscribe]
    split
    · by_cases he : e = e0
      · subst he
        simp only [removeFromPendingSubscribeList, setList_same]
        exact ⟨h1, removeFirstMatch_nodup L h2,
          fun x hx hx2 => h3 x hx (removeFirstMatch_subset hx2)⟩
      · simp only [removeFromPendingSubscribeList, setList_ne _ _ he]
        exact ⟨h1, h2, h3⟩
    · exact ⟨h1, h2, h3⟩
  | unsubscribeImmediate L e0 =>
    intro e
    obtain ⟨h1, h2, h3⟩ := h e
    simp only [step, unsubscribeImmediate, removeFromPendingUnsubscribeList,
      removeFromPendingSubscribeList, removeFromSubscribedList]
    by_cases he : e = e0
    · subst he
      simp only [setList_same]
      exact ⟨removeFirstMatch_nodup L h1, removeFirstMatch_nodup L h2,
        fun x hx hx2 => h3 x (removeFirstMatch_subset hx) (removeFirstMatch_subset hx2)⟩
    · simp only [setList_ne _ _ he]
      exact ⟨h1, h2, h3⟩
  | update =>
    intro e
    obtain ⟨h1, h2, h3⟩ := h e
    simp only [step, update]
    split
    · refine ⟨?_, by simp, by simp⟩
      refine List.Nodup.append (foldl_removeFirstMatch_nodup _ _ h1) h2 ?_
      intro x hx hx2
      exact h3 x (foldl_removeFirstMatch_subset _ _ x hx) hx2
    · exact ⟨h1, h2, h3⟩

theorem noDuplicates_run (ops : List Op) : ∀ s, NoDuplicates s → NoDuplicates (run ops s) := by
  induction ops with
  | nil => intro s h; exact h
  | cons op ops ih => intro s h; exact ih _ (noDuplicates_step s op h)

theorem noDuplicates_of_reachable {s : EventManager} (h : Reachable s) : NoDuplicates s := by
  obtain ⟨ops, rfl⟩ := h
  exact noDuplicates_run ops init noDuplicates_init

end EventManager

namespace EventManager

theorem count_deliver_le (ok : Handle → Bool) (l : List Handle) (h : Handle) :
    (deliver ok l).count h ≤ l.count h :=
  (deliver_initial ok l).sublist.count_le h

theorem subscribe_of_new {s : EventManager} {h : Handle} {e : EventType}
    (h1 : h ∉ s.subscriptions e) (h2 : h ∉ s.pendingSubscriptions e) :
    (subscribe s h e).subscriptions = s.subscriptions ∧
    (subscribe s h e).pendingSubscriptions e = s.pendingSubscriptions e ++ [h] ∧
    (subscribe s h e).anyPending = true := by
  have hc : (!isSubscribed s h e && !isPendingSubscribed s h e) = true := by
    simp [isSubscribed, isPendingSubscribed, h1, h2]
  simp [subscribe, hc, removeFromPendingUnsubscribeList]

theorem removesNobody_step (s : EventManager) (op : Op) (e : EventType)
    (hop : op.removesNobody = true) (hpu : s.pendingUnsubscriptions e = []) :
    (step s op).pendingUnsubscriptions e = [] ∧
    ∃ ext, subscriptionQueue (step s op) e = subscriptionQueue s e ++ ext := by
  cases op with
  | subscribe L e0 =>
    simp only [step, subscribe]
    split
    · by_cases he : e = e0
      · subst he
        refine ⟨?_, [L], ?_⟩
        · simp [removeFromPendingUnsubscribeList, hpu, removeFirstMatch]
        · simp [subscriptionQueue, removeFromPendingUnsubscribeList]
      · refine ⟨?_, [], ?_⟩
        · simp [removeFromPendingUnsubscribeList, setList_ne _ _ he, hpu]
        · simp [subscriptionQueue, removeFromPendingUnsubscribeList, setList_ne _ _ he]
    · exact ⟨hpu, [], by simp⟩
  | unsubscribe L e0 => simp [Op.removesNobody] at hop
  | unsubscribeImmediate L e0 => simp [Op.removesNobody] at hop
  | update =>
    simp only [step, update]
    split
    · exact ⟨rfl, [], by simp [subscriptionQueue, hpu]⟩
    · exact ⟨hpu, [], by simp⟩

theorem removesNobody_run : ∀ (ops : List Op) (s : EventManager) (e : EventType),
    (∀ op ∈ ops, op.removesNobody = true) → s.pendingUnsubscriptions e = [] →
    ∃ ext, subscriptionQueue (run ops s) e = subscriptionQueue s e ++ ext
  | [], s, e, _, _ => ⟨[], by simp [run]⟩
  | op :: ops, s, e, hops, hpu => by
    obtain ⟨h1, ext1, h2⟩ := removesNobody_step s op e (hops op (List.mem_cons_self _ _)) hpu
    obtain ⟨ext2, h3⟩ := removesNobody_run ops (step s op) e
      (fun o ho => hops o (List.mem_cons_of_mem _ ho)) h1
    refine ⟨ext1 ++ ext2, ?_⟩
    show subscriptionQueue (run ops (step s op)) e = _
    rw [h3, h2, List.append_assoc]

/-- C6 (the code departs from the claim): a handle that subscribes and then unsubscribes
before `update()` stays a pending subscriber, because `unsubscribe` acts only on active
subscribers; after the next `update()` a firing of the event calls its callback. -/
theorem C6_unsubscribe_leaves_pending_subscription :
    fireEvent (update (unsubscribe (subscribe init 7 EventType.ShipKilledEvent) 7
      EventType.ShipKilledEvent)) EventType.ShipKilledEvent (fun _ => true) = [7] := by
  decide

/-- C7 (as stated, refuted): from the initial state, `subscribe; fire; unsubscribeImmediate;
fire` with no `update()` in between calls the subscriber's callback zero times, not once. -/
theorem C7_counterexample :
    (fireEventShip (subscribe init 7 EventType.ShipSpawnedEvent) EventType.ShipSpawnedEvent
        (fun _ => true) ++
      fireEventShip (unsubscribeImmediate (subscribe init 7 EventType.ShipSpawnedEvent) 7
        EventType.ShipSpawnedEvent) EventType.ShipSpawnedEvent (fun _ => true)).count 7 = 0 := by
  decide

/-- C7 (amended): for a handle `h` that is neither an active nor a pending subscriber of
`e`, after `subscribe(h,e)` a firing of `e` does not reach `h` until `update()` has run
(neither before nor after `unsubscribeImmediate`); with `update()` between the subscription
and the first firing, that firing calls `h` exactly once when no callback errors, and the
firing after `unsubscribeImmediate(h,e)` does not call `h`. -/
theorem C7_one_delivery_after_update (s : EventManager) (h : Handle) (e : EventType)
    (ok : Handle → Bool) (h1 : h ∉ s.subscriptions e) (h2 : h ∉ s.pendingSubscriptions e) :
    (fireEventShip (subscribe s h e) e ok).count h = 0 ∧
    (fireEventShip (unsubscribeImmediate (subscribe s h e) h e) e ok).count h = 0 ∧
    ((∀ x ∈ (update (subscribe s h e)).subscriptions e, ok x = true) →
      (fireEventShip (update (subscribe s h e)) e ok).count h = 1) ∧
    (fireEventShip (unsubscribeImmediate (update (subscribe s h e)) h e) e ok).count h = 0 := by
  obtain ⟨hs1, hs2, hs3⟩ := subscribe_of_new h1 h2
  have hupd : (update (subscribe s h e)).subscriptions e =
      ((subscribe s h e).pendingUnsubscriptions e).foldl removeFirstMatch (s.subscriptions e) ++
        (s.pendingSubscriptions e ++ [h]) := by
    simp only [update, hs3, if_true, hs1, hs2]
  have hfold : h ∉ ((subscribe s h e).pendingUnsubscriptions e).foldl removeFirstMatch
      (s.subscriptions e) := fun hm => h1 (foldl_removeFirstMatch_subset _ _ h hm)
  have hcount : ((update (subscribe s h e)).subscriptions e).count h = 1 := by
    rw [hupd, List.count_append, List.count_append, List.count_eq_zero_of_not_mem hfold,
      List.count_eq_zero_of_not_mem h2]
    simp
  refine ⟨?_, ?_, ?_, ?_⟩
  · have := count_deliver_le ok ((subscribe s h e).subscriptions e) h
    rw [hs1, List.count_eq_zero_of_not_mem h1] at this
    exact Nat.le_zero.mp (by simpa only [fireEventShip, hs1] using this)
  · have hsub : (unsubscribeImmediate (subscribe s h e) h e).subscriptions e =
        s.subscriptions e := by
      simp only [unsubscribeImmediate, removeFromPendingUnsubscribeList,
        removeFromPendingSubscribeList, removeFromSubscribedList, setList_same, hs1]
      exact removeFirstMatch_of_not_mem h1
    have := count_deliver_le ok ((unsubscribeImmediate (subscribe s h e) h e).subscriptions e) h
    rw [hsub, List.count_eq_zero_of_not_mem h1] at this
    exact Nat.le_zero.mp (by simpa only [fireEventShip, hsub] using this)
  · intro hok
    show (deliver ok ((update (subscribe s h e)).subscriptions e)).count h = 1
    rw [deliver_all_ok ok _ hok, hcount]
  · have hsub : (unsubscribeImmediate (update (subscribe s h e)) h e).subscriptions e =
        removeFirstMatch ((update (subscribe s h e)).subscriptions e) h := by
      simp only [unsubscribeImmediate, removeFromPendingUnsubscribeList,
        removeFromPendingSubscribeList, removeFromSubscribedList, setList_same]
    have hnot : h ∉ removeFirstMatch ((update (subscribe s h e)).subscriptions e) h :=
      not_mem_removeFirstMatch (le_of_eq hcount)
    have := count_deliver_le ok
      ((unsubscribeImmediate (update (subscribe s h e)) h e).subscriptions e) h
    rw [hsub, List.count_eq_zero_of_not_mem hnot] at this
    exact Nat.le_zero.mp (by simpa only [fireEventShip, hsub] using this)

/-- Instance of C7 (amended): handle 7 on the initial state, callbacks without error. -/
theorem C7_one_delivery_after_update_witness :
    (fireEventShip (subscribe init 7 EventType.ShipSpawnedEvent) EventType.ShipSpawnedEvent
        (fun _ => true)).count 7 = 0 ∧
    (fireEventShip (unsubscribeImmediate (subscribe init 7 EventType.ShipSpawnedEvent) 7
        EventType.ShipSpawnedEvent) EventType.ShipSpawnedEvent (fun _ => true)).count 7 = 0 ∧
    ((∀ x ∈ (update (subscribe init 7 EventType.ShipSpawnedEvent)).subscriptions
        EventType.ShipSpawnedEvent, (fun _ => true) x = true) →
      (fireEventShip (update (subscribe init 7 EventType.ShipSpawnedEvent))
        EventType.ShipSpawnedEvent (fun _ => true)).count 7 = 1) ∧
    (fireEventShip (unsubscribeImmediate (update (subscribe init 7 EventType.ShipSpawnedEvent)) 7
        EventType.ShipSpawnedEvent) EventType.ShipSpawnedEvent (fun _ => true)).count 7 = 0 :=
  C7_one_delivery_after_update init 7 EventType.ShipSpawnedEvent (fun _ => true)
    (by decide) (by decide)

end EventManager

namespace EventManager

/-- C8 (as stated, refuted): with active subscribers 1 and 2 of an event type, in this
order, an error in the callback of 1 ends the firing: the callback of 2 is not called. -/
theorem C8_counterexample :
    (run [Op.subscribe 1 EventType.ShipKilledEvent, Op.subscribe 2 EventType.ShipKilledEvent,
        Op.update] init).subscriptions EventType.ShipKilledEvent = [1, 2] ∧
    2 ∉ fireEvent (run [Op.subscribe 1 EventType.ShipKilledEvent,
        Op.subscribe 2 EventType.ShipKilledEvent, Op.update] init) EventType.ShipKilledEvent
        (fun L => decide (L ≠ 1)) := by
  decide

/-- C8 (amended): when the callback of an active subscriber `L` raises an error and the
callbacks of the subscribers before it did not, the firing calls exactly the subscribers up
to and including `L` (those before `L` other than the sender, in the overloads with a
sender) and then returns: no later subscriber is called.  This holds for the four
overloads of `fireEvent`. -/
theorem C8_error_ends_delivery (s : EventManager) (e : EventType) (ok : Handle → Bool)
    (caller : Handle) (pre post : List Handle) (L : Handle)
    (hsubs : s.subscriptions e = pre ++ L :: post)
    (hpre : ∀ x ∈ pre, ok x = true) (hL : ok L = false) (hcaller : L ≠ caller) :
    fireEvent s e ok = pre ++ [L] ∧ fireEventShip s e ok = pre ++ [L] ∧
    fireEventMsg s caller e ok = pre.filter (fun x => decide (x ≠ caller)) ++ [L] ∧
    fireEventPlayer s caller e ok = pre.filter (fun x => decide (x ≠ caller)) ++ [L] := by
  simp only [fireEvent, fireEventShip, fireEventMsg, fireEventPlayer, hsubs]
  exact ⟨deliver_error ok pre L post hpre hL, deliver_error ok pre L post hpre hL,
    deliverExcept_error caller ok pre L post hpre hL hcaller,
    deliverExcept_error caller ok pre L post hpre hL hcaller⟩

/-- Instance of C8 (amended): subscribers 1, 2, 3 with an error in the callback of 2;
sender 9. -/
theorem C8_error_ends_delivery_witness :
    fireEvent (run [Op.subscribe 1 EventType.ShipKilledEvent,
        Op.subscribe 2 EventType.ShipKilledEvent, Op.subscribe 3 EventType.ShipKilledEvent,
        Op.update] init) EventType.ShipKilledEvent (fun x => decide (x ≠ 2)) = [1] ++ [2] ∧
    fireEventShip (run [Op.subscribe 1 EventType.ShipKilledEvent,
        Op.subscribe 2 EventType.ShipKilledEvent, Op.subscribe 3 EventType.ShipKilledEvent,
        Op.update] init) EventType.ShipKilledEvent (fun x => decide (x ≠ 2)) = [1] ++ [2] ∧
    fireEventMsg (run [Op.subscribe 1 EventType.ShipKilledEvent,
        Op.subscribe 2 EventType.ShipKilledEvent, Op.subscribe 3 EventType.ShipKilledEvent,
        Op.update] init) 9 EventType.ShipKilledEvent (fun x => decide (x ≠ 2)) =
      [1].filter (fun x => decide (x ≠ 9)) ++ [2] ∧
    fireEventPlayer (run [Op.subscribe 1 EventType.ShipKilledEvent,
        Op.subscribe 2 EventType.ShipKilledEvent, Op.subscribe 3 EventType.ShipKilledEvent,
        Op.update] init) 9 EventType.ShipKilledEvent (fun x => decide (x ≠ 2)) =
      [1].filter (fun x => decide (x ≠ 9)) ++ [2] :=
  C8_error_ends_delivery _ EventType.ShipKilledEvent (fun x => decide (x ≠ 2)) 9 [1] [3] 2
    (by decide) (by decide) (by decide) (by decide)

/-- C9 (as stated, refuted): 1, 2 and 3 subscribe in this order and become active; after
`unsubscribe(1)` and `update()` the last subscriber has been moved into the freed slot, so
a firing calls 3 before 2 although 2 subscribed before 3. -/
theorem C9_counterexample :
    fireEvent (run [Op.subscribe 1 EventType.ShipKilledEvent,
        Op.subscribe 2 EventType.ShipKilledEvent, Op.subscribe 3 EventType.ShipKilledEvent,
        Op.update, Op.unsubscribe 1 EventType.ShipKilledEvent, Op.update] init)
      EventType.ShipKilledEvent (fun _ => true) = [3, 2] := by
  decide

/-- C9 (amended): along every history made of `subscribe` and `update` operations only
(nobody is removed), starting in a state with no pending unsubscriber of `e`, subscription
order is delivery order: if `X` was subscribed (active or pending) when `Y` was not yet, then
every later firing of `e` that calls `Y` has called `X` before. -/
theorem C9_subscription_order_without_removal (ops : List Op) (s : EventManager)
    (e : EventType) (X Y : Handle) (ok : Handle → Bool)
    (hops : ∀ op ∈ ops, op.removesNobody = true)
    (hpu : s.pendingUnsubscriptions e = [])
    (hX : X ∈ subscriptionQueue s e) (hY : Y ∉ subscriptionQueue s e)
    (hfire : Y ∈ fireEvent (run ops s) e ok) :
    ∃ l1 l2 l3, fireEvent (run ops s) e ok = l1 ++ X :: l2 ++ Y :: l3 := by
  obtain ⟨ext, hq⟩ := removesNobody_run ops s e hops hpu
  have hp1 : fireEvent (run ops s) e ok <+: subscriptionQueue s e ++ ext := by
    rw [← hq]
    exact (deliver_initial ok _).trans (List.prefix_append _ _)
  have hp2 : subscriptionQueue s e <+: subscriptionQueue s e ++ ext := List.prefix_append _ _
  rcases List.prefix_or_prefix_of_prefix hp1 hp2 with h | h
  · exact absurd (h.subset hfire) hY
  · obtain ⟨t, ht⟩ := h
    obtain ⟨a, b, hab⟩ := List.append_of_mem hX
    have hYt : Y ∈ t := by
      rw [← ht] at hfire
      rcases List.mem_append.mp hfire with h1 | h1
      · exact absurd h1 hY
      · exact h1
    obtain ⟨t1, t2, ht12⟩ := List.append_of_mem hYt
    refine ⟨a, b ++ t1, t2, ?_⟩
    rw [← ht, hab, ht12]
    simp

/-- Instance of C9 (amended): 1 is subscribed first, then 2 and 3 subscribe; 3 is called
after 1. -/
theorem C9_subscription_order_without_removal_witness :
    ∃ l1 l2 l3, fireEvent (run [Op.subscribe 2 EventType.ShipKilledEvent,
        Op.subscribe 3 EventType.ShipKilledEvent, Op.update]
        (subscribe init 1 EventType.ShipKilledEvent)) EventType.ShipKilledEvent
        (fun _ => true) = l1 ++ 1 :: l2 ++ 3 :: l3 :=
  C9_subscription_order_without_removal
    [Op.subscribe 2 EventType.ShipKilledEvent, Op.subscribe 3 EventType.ShipKilledEvent,
      Op.update]
    (subscribe init 1 EventType.ShipKilledEvent) EventType.ShipKilledEvent 1 3 (fun _ => true)
    (by decide) (by decide) (by decide) (by decide) (by decide)

/-- C10: in every reachable state of the event manager, a message event fired with sender
handle `caller` calls no callback of `caller`, and when no callback errors it calls the
callback of every other active subscriber of the event type exactly once. -/
theorem C10_message_not_delivered_to_sender (s : EventManager) (hs : Reachable s)
    (caller : Handle) (e : EventType) (ok : Handle → Bool) :
    (fireEventMsg s caller e ok).count caller = 0 ∧
    ((∀ x ∈ s.subscriptions e, ok x = true) →
      ∀ h ∈ s.subscriptions e, h ≠ caller → (fireEventMsg s caller e ok).count h = 1) := by
  constructor
  · have h1 := (deliverExcept_sublist caller ok (s.subscriptions e)).count_le caller
    have h2 : ((s.subscriptions e).filter (fun x => decide (x ≠ caller))).count caller = 0 :=
      List.count_eq_zero_of_not_mem (by simp)
    rw [h2] at h1
    exact Nat.le_zero.mp h1
  · intro hok h hh hne
    have hnd := (noDuplicates_of_reachable hs e).1
    show (deliverExcept caller ok (s.subscriptions e)).count h = 1
    rw [deliverExcept_all_ok caller ok _ hok]
    exact List.count_eq_one_of_mem (hnd.filter _) (List.mem_filter.mpr ⟨hh, by simp [hne]⟩)

/-- Instance of C10: subscribers 1, 2, 3 of `MsgReceivedEvent`, sender 2. -/
theorem C10_message_not_delivered_to_sender_witness :
    (fireEventMsg (run [Op.subscribe 1 EventType.MsgReceivedEvent,
        Op.subscribe 2 EventType.MsgReceivedEvent, Op.subscribe 3 EventType.MsgReceivedEvent,
        Op.update] init) 2 EventType.MsgReceivedEvent (fun _ => true)).count 2 = 0 ∧
    ((∀ x ∈ (run [Op.subscribe 1 EventType.MsgReceivedEvent,
        Op.subscribe 2 EventType.MsgReceivedEvent, Op.subscribe 3 EventType.MsgReceivedEvent,
        Op.update] init).subscriptions EventType.MsgReceivedEvent, (fun _ => true) x = true) →
      ∀ h ∈ (run [Op.subscribe 1 EventType.MsgReceivedEvent,
        Op.subscribe 2 EventType.MsgReceivedEvent, Op.subscribe 3 EventType.MsgReceivedEvent,
        Op.update] init).subscriptions EventType.MsgReceivedEvent, h ≠ 2 →
      (fireEventMsg (run [Op.subscribe 1 EventType.MsgReceivedEvent,
        Op.subscribe 2 EventType.MsgReceivedEvent, Op.subscribe 3 EventType.MsgReceivedEvent,
        Op.update] init) 2 EventType.MsgReceivedEvent (fun _ => true)).count h = 1) :=
  C10_message_not_delivered_to_sender _ ⟨_, rfl⟩ 2 EventType.MsgReceivedEvent (fun _ => true)

end EventManager

/-! ## Pathfinder: lemmas on arrays and on the binary heap -/

section AStarLemmas

set_option linter.unusedSectionVars false

variable {α : Type} [LinearOrderedRing α] [FloorRing α]

@[simp] theorem setAt_same {β : Type} (a : Nat → β) (i : Nat) (v : β) : setAt a i v i = v := by
  simp [setAt]

theorem setAt_ne {β : Type} (a : Nat → β) {i j : Nat} (v : β) (h : j ≠ i) :
    setAt a i v j = a j := by
  simp [setAt, h]

theorem swapAt_left {β : Type} (a : Nat → β) (i j : Nat) : swapAt a i j i = a j := by
  unfold swapAt setAt
  by_cases h : i = j
  · simp [h]
  · simp [h]

theorem swapAt_right {β : Type} (a : Nat → β) (i j : Nat) : swapAt a i j j = a i := by
  simp [swapAt]

theorem swapAt_other {β : Type} (a : Nat → β) {i j k : Nat} (h1 : k ≠ i) (h2 : k ≠ j) :
    swapAt a i j k = a k := by
  simp [swapAt, setAt, h1, h2]

theorem HeapPerm.refl (n : Nat) (ol : Nat → Nat) : HeapPerm n ol ol :=
  ⟨fun i h1 h2 => ⟨i, h1, h2, rfl⟩, fun j h1 h2 => ⟨j, h1, h2, rfl⟩⟩

theorem HeapPerm.trans {n : Nat} {a b c : Nat → Nat} (h1 : HeapPerm n a b)
    (h2 : HeapPerm n b c) : HeapPerm n a c := by
  constructor
  · intro i hi1 hi2
    obtain ⟨j, hj1, hj2, hj⟩ := h2.1 i hi1 hi2
    obtain ⟨k, hk1, hk2, hk⟩ := h1.1 j hj1 hj2
    exact ⟨k, hk1, hk2, by rw [hj, hk]⟩
  · intro j hj1 hj2
    obtain ⟨i, hi1, hi2, hi⟩ := h1.2 j hj1 hj2
    obtain ⟨k, hk1, hk2, hk⟩ := h2.2 i hi1 hi2
    exact ⟨k, hk1, hk2, by rw [hk, hi]⟩

theorem HeapPerm.swap (n : Nat) (ol : Nat → Nat) {i j : Nat} (hi1 : 1 ≤ i) (hi2 : i ≤ n)
    (hj1 : 1 ≤ j) (hj2 : j ≤ n) : HeapPerm n ol (swapAt ol i j) := by
  constructor
  · intro k hk1 hk2
    by_cases h1 : k = j
    · exact ⟨i, hi1, hi2, by rw [h1, swapAt_right]⟩
    · by_cases h2 : k = i
      · exact ⟨j, hj1, hj2, by rw [h2, swapAt_left]⟩
      · exact ⟨k, hk1, hk2, swapAt_other ol h2 h1⟩
  · intro k hk1 hk2
    by_cases h1 : k = j
    · exact ⟨i, hi1, hi2, by rw [h1, swapAt_left]⟩
    · by_cases h2 : k = i
      · exact ⟨j, hj1, hj2, by rw [h2, swapAt_right]⟩
      · exact ⟨k, hk1, hk2, swapAt_other ol h2 h1⟩

theorem lowerChild_cases (Fcost : Nat → α) (n : Nat) (ol : Nat → Nat) (u : Nat) (hu : 1 ≤ u) :
    lowerChild Fcost n ol u = u ∨
      (u < lowerChild Fcost n ol u ∧ lowerChild Fcost n ol u < n) := by
  unfold lowerChild
  dsimp only
  split_ifs <;> first | (left; rfl) | (right; constructor <;> omega)

theorem siftDown_heapPerm (Fcost : Nat → α) (n : Nat) : ∀ (fuel v : Nat) (ol : Nat → Nat),
    1 ≤ v → HeapPerm n ol (siftDown Fcost n fuel v ol)
  | 0, _, ol, _ => HeapPerm.refl n ol
  | fuel + 1, v, ol, hv => by
    unfold siftDown
    simp only
    split
    · rename_i hne
      rcases lowerChild_cases Fcost n ol v hv with h | ⟨h1, h2⟩
      · exact absurd h.symm hne
      · exact (HeapPerm.swap n ol hv (by omega) (by omega) (by omega)).trans
          (siftDown_heapPerm Fcost n fuel _ _ (by omega))
    · exact HeapPerm.refl n ol

theorem bubbleUpLE_heapPerm (Fcost : Nat → α) (n : Nat) : ∀ (fuel m : Nat) (ol : Nat → Nat),
    m ≤ n → HeapPerm n ol (bubbleUpLE Fcost fuel m ol)
  | 0, _, ol, _ => HeapPerm.refl n ol
  | fuel + 1, m, ol, hm => by
    unfold bubbleUpLE
    split
    · rename_i hc
      have h2 : 1 ≤ m / 2 := by omega
      have h3 : m / 2 ≤ m := Nat.div_le_self m 2
      exact (HeapPerm.swap n ol h2 (by omega) (by omega) hm).trans
        (bubbleUpLE_heapPerm Fcost n fuel _ _ (by omega))
    · exact HeapPerm.refl n ol

theorem bubbleUpLT_heapPerm (Fcost : Nat → α) (n : Nat) : ∀ (fuel m : Nat) (ol : Nat → Nat),
    m ≤ n → HeapPerm n ol (bubbleUpLT Fcost fuel m ol)
  | 0, _, ol, _ => HeapPerm.refl n ol
  | fuel + 1, m, ol, hm => by
    unfold bubbleUpLT
    split
    · rename_i hc
      have h2 : 1 ≤ m / 2 := by omega
      have h3 : m / 2 ≤ m := Nat.div_le_self m 2
      exact (HeapPerm.swap n ol h2 (by omega) (by omega) hm).trans
        (bubbleUpLT_heapPerm Fcost n fuel _ _ (by omega))
    · exact HeapPerm.refl n ol

end AStarLemmas

/-! ## Pathfinder: one neighbour record -/

section AStarVisit

set_option linter.unusedSectionVars false

variable {α : Type} [LinearOrderedRing α] [FloorRing α]

theorem visitNeighbor_cases (distanceTo : Point α → Point α → α)
    (zones : List (BotNavMeshZone α)) (P T : Nat) (s : AStar α) (zone : NeighboringZone α) :
    (visitNeighbor distanceTo zones P T s zone = s ∧
      (s.whichList zone.zoneID = s.onClosedList ∨ s.whichList zone.zoneID = s.onOpenList ∨
        MAX_ZONES ≤ s.newOpenListItemID)) ∨
    Opened P zone s (visitNeighbor distanceTo zones P T s zone) ∨
    Relaxed P zone s (visitNeighbor distanceTo zones P T s zone) := by
  unfold visitNeighbor
  dsimp only
  split_ifs with h1 h2 h3
  · exact Or.inl ⟨rfl, Or.inl h1⟩
  · right; left
    exact
      { notClosed := h1, notOpen := h2.1, room := h2.2, onClosedList := rfl, onOpenList := rfl,
        whichList := rfl, newOpenListItemID := rfl, numberOfOpenListItems := rfl,
        openZone := rfl,
        openList := bubbleUpLE_heapPerm _ _ _ _ _ (le_refl _),
        parentZones := rfl, Gcost := rfl }
  · right; right
    have hof : s.whichList zone.zoneID = s.onOpenList ∨ MAX_ZONES ≤ s.newOpenListItemID := by
      by_cases h : s.whichList zone.zoneID = s.onOpenList
      · exact Or.inl h
      · right
        by_contra hlt
        exact h2 ⟨h, by omega⟩
    split
    · rename_i i hi
      have hmem := List.mem_of_find?_eq_some hi
      rw [List.mem_range'_1] at hmem
      exact
        { notClosed := h1, openOrFull := hof, onClosedList := rfl, onOpenList := rfl,
          whichList := rfl, newOpenListItemID := rfl, numberOfOpenListItems := rfl,
          openZone := rfl,
          openList := bubbleUpLT_heapPerm _ _ _ _ _ (by omega),
          parentZones := rfl, Gcost := rfl }
    · exact
        { notClosed := h1, openOrFull := hof, onClosedList := rfl, onOpenList := rfl,
          whichList := rfl, newOpenListItemID := rfl, numberOfOpenListItems := rfl,
          openZone := rfl, openList := HeapPerm.refl _ _,
          parentZones := rfl, Gcost := rfl }
  · left
    refine ⟨rfl, Or.inr ?_⟩
    by_cases h : s.whichList zone.zoneID = s.onOpenList
    · exact Or.inl h
    · right
      by_contra hlt
      exact h2 ⟨h, by omega⟩

end AStarVisit

/-! ## Pathfinder: the invariant is kept by every step -/

section AStarInv

set_option linter.unusedSectionVars false

variable {α : Type} [LinearOrderedRing α] [FloorRing α]

theorem neighborsOf_mem {zones : List (BotNavMeshZone α)} {u : Nat} {nb : NeighboringZone α}
    (h : nb ∈ neighborsOf zones u) : ∃ z, z ∈ zones ∧ nb ∈ z.mNeighbors := by
  unfold neighborsOf at h
  split at h
  · rename_i z hz
    exact ⟨z, List.get?_mem hz, h⟩
  · simp at h

theorem validGraph_nb {zones : List (BotNavMeshZone α)} (hv : ValidGraph zones) {u : Nat}
    {nb : NeighboringZone α} (h : nb ∈ neighborsOf zones u) : nb.zoneID < zones.length := by
  obtain ⟨z, hz, hnb⟩ := neighborsOf_mem h
  exact hv.2 z hz nb hnb

theorem wholeCosts_nb {zones : List (BotNavMeshZone α)} (hw : WholeCosts zones) {u : Nat}
    {nb : NeighboringZone α} (h : nb ∈ neighborsOf zones u) : ∃ k : Int, nb.distTo = (k : α) := by
  obtain ⟨z, hz, hnb⟩ := neighborsOf_mem h
  exact hw z hz nb hnb

theorem truncS32_intCast (k : Int) : truncS32 ((k : Int) : α) = k := by
  unfold truncS32
  split <;> simp

/-- While a zone of the graph is unmarked, the open list has room for one more item. -/
theorem SearchInv.room {zones : List (BotNavMeshZone α)} {S T : Nat} {s : AStar α}
    (inv : SearchInv zones S T s) {z : Nat} (hz : z < zones.length)
    (h1 : s.whichList z ≠ s.onOpenList) (h2 : s.whichList z ≠ s.onClosedList) :
    s.newOpenListItemID + 2 ≤ zones.length := by
  have hsub : (Finset.range zones.length).filter
      (fun z => s.whichList z = s.onOpenList ∨ s.whichList z = s.onClosedList) ⊆
      (Finset.range zones.length).erase z := by
    intro x hx
    rw [Finset.mem_filter] at hx
    rw [Finset.mem_erase]
    refine ⟨?_, hx.1⟩
    rintro rfl
    rcases hx.2 with h | h
    · exact h1 h
    · exact h2 h
  have hcard := Finset.card_le_card hsub
  rw [inv.count, Finset.card_erase_of_mem (Finset.mem_range.mpr hz), Finset.card_range] at hcard
  omega

theorem SearchInv.of_opened {zones : List (BotNavMeshZone α)} {S T P : Nat} {s s1 : AStar α}
    {zone : NeighboringZone α} (hv : ValidGraph zones) (inv : SearchInv zones S T s)
    (hP : P < zones.length) (hPc : s.whichList P = s.onClosedList)
    (hzone : zone ∈ neighborsOf zones P) (op : Opened P zone s s1) :
    SearchInv zones S T s1 := by
  have hz : zone.zoneID < zones.length := validGraph_nb hv hzone
  have hPz : P ≠ zone.zoneID := by
    rintro rfl
    exact op.notClosed hPc
  have hgen := inv.gen
  have hmono : ∀ x, Marked s x → Marked s1 x := by
    intro x hx
    unfold Marked
    rw [op.whichList, op.onOpenList, op.onClosedList]
    by_cases hxz : x = zone.zoneID
    · left; rw [hxz, setAt_same]
    · rw [setAt_ne _ _ hxz]; exact hx
  have hmarked1 : ∀ x, x ≠ zone.zoneID → Marked s1 x → Marked s x := by
    intro x hxz hx
    unfold Marked at hx
    rw [op.whichList, op.onOpenList, op.onClosedList, setAt_ne _ _ hxz] at hx
    exact hx
  have hclosed1 : ∀ x, s1.whichList x = s1.onClosedList → s.whichList x = s.onClosedList ∧
      x ≠ zone.zoneID := by
    intro x hx
    rw [op.whichList, op.onClosedList] at hx
    by_cases hxz : x = zone.zoneID
    · rw [hxz, setAt_same] at hx; omega
    · rw [setAt_ne _ _ hxz] at hx; exact ⟨hx, hxz⟩
  have hclosed2 : ∀ x, s.whichList x = s.onClosedList → s1.whichList x = s1.onClosedList := by
    intro x hx
    have hxz : x ≠ zone.zoneID := by
      rintro rfl
      exact op.notClosed hx
    rw [op.whichList, op.onClosedList, setAt_ne _ _ hxz]
    exact hx
  have hold : ∀ j, 1 ≤ j → j ≤ s.numberOfOpenListItems →
      setAt s.openList (s.numberOfOpenListItems + 1) (s.newOpenListItemID + 1) j = s.openList j ∧
      s1.openZone (s.openList j) = s.openZone (s.openList j) := by
    intro j hj1 hj2
    have := inv.heapIds j hj1 hj2
    rw [setAt_ne _ _ (by omega), op.openZone, setAt_ne _ _ (by omega)]
    exact ⟨rfl, rfl⟩
  have hnew : setAt s.openList (s.numberOfOpenListItems + 1) (s.newOpenListItemID + 1)
      (s.numberOfOpenListItems + 1) = s.newOpenListItemID + 1 ∧
      s1.openZone (s.newOpenListItemID + 1) = zone.zoneID := by
    rw [setAt_same, op.openZone, setAt_same]
    exact ⟨rfl, rfl⟩
  refine
    { gen := by rw [op.onOpenList, op.onClosedList]; exact hgen
      startClosed := hclosed2 S inv.startClosed
      targetNotClosed := fun h => inv.targetNotClosed (hclosed1 T h).1
      heapMarked := ?_, heapCover := ?_, heapIds := ?_, count := ?_, parent := ?_, whole := ?_
      gStart := ?_, rank := ?_ }
  · intro i hi1 hi2
    rw [op.numberOfOpenListItems] at hi2
    obtain ⟨j, hj1, hj2, hj⟩ := op.openList.1 i hi1 hi2
    rw [hj]
    by_cases hjn : j = s.numberOfOpenListItems + 1
    · rw [hjn, hnew.1, hnew.2]
      refine ⟨hz, Or.inl ?_⟩
      rw [op.whichList, op.onOpenList, setAt_same]
    · obtain ⟨h1, h2⟩ := hold j hj1 (by omega)
      rw [h1, h2]
      obtain ⟨h3, h4⟩ := inv.heapMarked j hj1 (by omega)
      exact ⟨h3, hmono _ h4⟩
  · intro x hx hxo
    rw [op.numberOfOpenListItems]
    by_cases hxz : x = zone.zoneID
    · obtain ⟨i, hi1, hi2, hi⟩ := op.openList.2 (s.numberOfOpenListItems + 1) (by omega)
        (le_refl _)
      refine ⟨i, hi1, hi2, ?_⟩
      rw [hi, hnew.1, hnew.2, hxz]
    · rw [op.whichList, op.onOpenList, setAt_ne _ _ hxz] at hxo
      obtain ⟨j, hj1, hj2, hj⟩ := inv.heapCover x hx hxo
      obtain ⟨i, hi1, hi2, hi⟩ := op.openList.2 j hj1 (by omega)
      obtain ⟨h1, h2⟩ := hold j hj1 hj2
      refine ⟨i, hi1, hi2, ?_⟩
      rw [hi, h1, h2, hj]
  · intro i hi1 hi2
    rw [op.numberOfOpenListItems] at hi2
    obtain ⟨j, hj1, hj2, hj⟩ := op.openList.1 i hi1 hi2
    rw [hj, op.newOpenListItemID]
    by_cases hjn : j = s.numberOfOpenListItems + 1
    · rw [hjn, hnew.1]
    · rw [(hold j hj1 (by omega)).1]
      have := inv.heapIds j hj1 (by omega)
      omega
  · have hset : (Finset.range zones.length).filter
        (fun z => s1.whichList z = s1.onOpenList ∨ s1.whichList z = s1.onClosedList) =
        insert zone.zoneID ((Finset.range zones.length).filter
          (fun z => s.whichList z = s.onOpenList ∨ s.whichList z = s.onClosedList)) := by
      ext x
      rw [Finset.mem_insert, Finset.mem_filter, Finset.mem_filter, Finset.mem_range]
      constructor
      · rintro ⟨hx, hm⟩
        by_cases hxz : x = zone.zoneID
        · exact Or.inl hxz
        · exact Or.inr ⟨hx, hmarked1 x hxz hm⟩
      · rintro (hxz | ⟨hx, hm⟩)
        · rw [hxz]
          refine ⟨hz, Or.inl ?_⟩
          rw [op.whichList, op.onOpenList, setAt_same]
        · exact ⟨hx, hmono x hm⟩
    rw [hset, Finset.card_insert_of_not_mem, inv.count, op.newOpenListItemID]
    rw [Finset.mem_filter]
    rintro ⟨-, h | h⟩
    · exact op.notOpen h
    · exact op.notClosed h
  · intro x hx hm hxS
    by_cases hxz : x = zone.zoneID
    · have hpar : s1.parentZones x = P := by rw [op.parentZones, hxz, setAt_same]
      rw [hpar]
      refine ⟨hP, hclosed2 P hPc, zone, hzone, hxz.symm, ?_⟩
      intro _
      rw [op.Gcost, hxz, setAt_same, setAt_ne _ _ hPz]
    · have hpar : s1.parentZones x = s.parentZones x := by rw [op.parentZones, setAt_ne _ _ hxz]
      obtain ⟨h1, h2, nb, h3, h4, h5⟩ := inv.parent x hx (hmarked1 x hxz hm) hxS
      rw [hpar]
      refine ⟨h1, hclosed2 _ h2, nb, h3, h4, ?_⟩
      intro hw
      have hpz : s.parentZones x ≠ zone.zoneID := by
        intro h
        rw [h] at h2
        exact op.notClosed h2
      rw [op.Gcost, setAt_ne _ _ hxz, setAt_ne _ _ hpz]
      exact h5 hw
  · intro hw x hx hm
    by_cases hxz : x = zone.zoneID
    · obtain ⟨k1, hk1⟩ := inv.whole hw P hP (Or.inr hPc)
      obtain ⟨k2, hk2⟩ := wholeCosts_nb hw hzone
      refine ⟨k1 + k2, ?_⟩
      rw [op.Gcost, hxz, setAt_same, hk1, hk2]
      push_cast
      rfl
    · rw [op.Gcost, setAt_ne _ _ hxz]
      exact inv.whole hw x hx (hmarked1 x hxz hm)
  · have hSz : S ≠ zone.zoneID := by
      rintro rfl
      exact op.notClosed inv.startClosed
    rw [op.Gcost, setAt_ne _ _ hSz]
    exact inv.gStart
  · obtain ⟨rank, hrank⟩ := inv.rank
    refine ⟨rank, ?_⟩
    intro x hx hxc
    obtain ⟨hxc1, hxz⟩ := hclosed1 x hxc
    obtain ⟨h1, h2⟩ := hrank x hx hxc1
    rw [op.numberOfOpenListItems, op.newOpenListItemID, op.parentZones, setAt_ne _ _ hxz]
    exact ⟨by omega, h2⟩

theorem SearchInv.of_relaxed {zones : List (BotNavMeshZone α)} {S T P : Nat} {s s1 : AStar α}
    {zone : NeighboringZone α} (hv : ValidGraph zones) (inv : SearchInv zones S T s)
    (hP : P < zones.length) (hPc : s.whichList P = s.onClosedList)
    (hzone : zone ∈ neighborsOf zones P) (rl : Relaxed P zone s s1) :
    SearchInv zones S T s1 := by
  have hz : zone.zoneID < zones.length := validGraph_nb hv hzone
  have hzo : s.whichList zone.zoneID = s.onOpenList := by
    by_contra hno
    have h1 := inv.room hz hno rl.notClosed
    have h2 := hv.1
    rcases rl.openOrFull with h | h
    · exact hno h
    · omega
  have hPz : P ≠ zone.zoneID := by
    rintro rfl
    exact rl.notClosed hPc
  have hgen := inv.gen
  have hmarked : ∀ x, Marked s1 x ↔ Marked s x := by
    intro x
    unfold Marked
    rw [rl.whichList, rl.onOpenList, rl.onClosedList]
  have hclosed : ∀ x, s1.whichList x = s1.onClosedList ↔ s.whichList x = s.onClosedList := by
    intro x
    rw [rl.whichList, rl.onClosedList]
  refine
    { gen := by rw [rl.onOpenList, rl.onClosedList]; exact hgen
      startClosed := (hclosed S).mpr inv.startClosed
      targetNotClosed := fun h => inv.targetNotClosed ((hclosed T).mp h)
      heapMarked := ?_, heapCover := ?_, heapIds := ?_, count := ?_, parent := ?_, whole := ?_
      gStart := ?_, rank := ?_ }
  · intro i hi1 hi2
    rw [rl.numberOfOpenListItems] at hi2
    obtain ⟨j, hj1, hj2, hj⟩ := rl.openList.1 i hi1 hi2
    rw [hj, rl.openZone, hmarked]
    exact inv.heapMarked j hj1 hj2
  · intro x hx hxo
    rw [rl.whichList, rl.onOpenList] at hxo
    obtain ⟨j, hj1, hj2, hj⟩ := inv.heapCover x hx hxo
    obtain ⟨i, hi1, hi2, hi⟩ := rl.openList.2 j hj1 hj2
    rw [rl.numberOfOpenListItems, rl.openZone]
    exact ⟨i, hi1, hi2, by rw [hi, hj]⟩
  · intro i hi1 hi2
    rw [rl.numberOfOpenListItems] at hi2
    obtain ⟨j, hj1, hj2, hj⟩ := rl.openList.1 i hi1 hi2
    rw [hj, rl.newOpenListItemID]
    exact inv.heapIds j hj1 hj2
  · rw [rl.whichList, rl.onOpenList, rl.onClosedList, rl.newOpenListItemID]
    exact inv.count
  · intro x hx hm hxS
    by_cases hxz : x = zone.zoneID
    · have hpar : s1.parentZones x = P := by rw [rl.parentZones, hxz, setAt_same]
      rw [hpar]
      refine ⟨hP, (hclosed P).mpr hPc, zone, hzone, hxz.symm, ?_⟩
      intro hw
      obtain ⟨k1, hk1⟩ := inv.whole hw P hP (Or.inr hPc)
      obtain ⟨k2, hk2⟩ := wholeCosts_nb hw hzone
      have hsum : s.Gcost P + zone.distTo = ((k1 + k2 : Int) : α) := by
        rw [hk1, hk2]; push_cast; rfl
      rw [rl.Gcost, hxz, setAt_same, setAt_ne _ _ hPz, hsum, truncS32_intCast]
    · have hpar : s1.parentZones x = s.parentZones x := by rw [rl.parentZones, setAt_ne _ _ hxz]
      obtain ⟨h1, h2, nb, h3, h4, h5⟩ := inv.parent x hx ((hmarked x).mp hm) hxS
      rw [hpar]
      refine ⟨h1, (hclosed _).mpr h2, nb, h3, h4, ?_⟩
      intro hw
      have hpz : s.parentZones x ≠ zone.zoneID := by
        intro h
        rw [h] at h2
        exact rl.notClosed h2
      rw [rl.Gcost, setAt_ne _ _ hxz, setAt_ne _ _ hpz]
      exact h5 hw
  · intro hw x hx hm
    by_cases hxz : x = zone.zoneID
    · exact ⟨truncS32 (s.Gcost P + zone.distTo), by rw [rl.Gcost, hxz, setAt_same]⟩
    · rw [rl.Gcost, setAt_ne _ _ hxz]
      exact inv.whole hw x hx ((hmarked x).mp hm)
  · have hSz : S ≠ zone.zoneID := by
      rintro rfl
      exact rl.notClosed inv.startClosed
    rw [rl.Gcost, setAt_ne _ _ hSz]
    exact inv.gStart
  · obtain ⟨rank, hrank⟩ := inv.rank
    refine ⟨rank, ?_⟩
    intro x hx hxc
    have hxc1 := (hclosed x).mp hxc
    have hxz : x ≠ zone.zoneID := by
      rintro rfl
      exact rl.notClosed hxc1
    obtain ⟨h1, h2⟩ := hrank x hx hxc1
    rw [rl.numberOfOpenListItems, rl.newOpenListItemID, rl.parentZones, setAt_ne _ _ hxz]
    exact ⟨h1, h2⟩

/-- One neighbour record: the invariant is kept, marks are kept, closed zones stay the same,
and the zone of the record carries a mark afterwards. -/
theorem visitNeighbor_inv (distanceTo : Point α → Point α → α)
    {zones : List (BotNavMeshZone α)} {S T P : Nat} {s : AStar α}
    {zone : NeighboringZone α} (hv : ValidGraph zones) (inv : SearchInv zones S T s)
    (hP : P < zones.length) (hPc : s.whichList P = s.onClosedList)
    (hzone : zone ∈ neighborsOf zones P) :
    SearchInv zones S T (visitNeighbor distanceTo zones P T s zone) ∧
    (∀ x, Marked s x → Marked (visitNeighbor distanceTo zones P T s zone) x) ∧
    (∀ x, (visitNeighbor distanceTo zones P T s zone).whichList x =
        (visitNeighbor distanceTo zones P T s zone).onClosedList ↔
      s.whichList x = s.onClosedList) ∧
    Marked (visitNeighbor distanceTo zones P T s zone) zone.zoneID := by
  have hz : zone.zoneID < zones.length := validGraph_nb hv hzone
  rcases visitNeighbor_cases distanceTo zones P T s zone with ⟨h, hm⟩ | op | rl
  · rw [h]
    refine ⟨inv, fun x hx => hx, fun x => Iff.rfl, ?_⟩
    rcases hm with h1 | h1 | h1
    · exact Or.inr h1
    · exact Or.inl h1
    · by_contra hnm
      have h2 := inv.room hz (fun h => hnm (Or.inl h)) (fun h => hnm (Or.inr h))
      have h3 := hv.1
      omega
  · refine ⟨inv.of_opened hv hP hPc hzone op, ?_, ?_, ?_⟩
    · intro x hx
      unfold Marked
      rw [op.whichList, op.onOpenList, op.onClosedList]
      by_cases hxz : x = zone.zoneID
      · left; rw [hxz, setAt_same]
      · rw [setAt_ne _ _ hxz]; exact hx
    · intro x
      rw [op.whichList, op.onClosedList]
      by_cases hxz : x = zone.zoneID
      · rw [hxz, setAt_same]
        have := inv.gen
        constructor
        · intro h; omega
        · intro h; exact absurd h op.notClosed
      · rw [setAt_ne _ _ hxz]
    · left
      rw [op.whichList, op.onOpenList, setAt_same]
  · refine ⟨inv.of_relaxed hv hP hPc hzone rl, ?_, ?_, ?_⟩
    · intro x hx
      unfold Marked
      rw [rl.whichList, rl.onOpenList, rl.onClosedList]
      exact hx
    · intro x
      rw [rl.whichList, rl.onClosedList]
    · unfold Marked
      rw [rl.whichList, rl.onOpenList, rl.onClosedList]
      by_contra hnm
      have h2 := inv.room hz (fun h => hnm (Or.inl h)) (fun h => hnm (Or.inr h))
      have h3 := hv.1
      rcases rl.openOrFull with h | h
      · exact hnm (Or.inl h)
      · omega

/-- The loop over a list of neighbour records of the closed zone `P`. -/
theorem foldl_visitNeighbor_inv (distanceTo : Point α → Point α → α)
    {zones : List (BotNavMeshZone α)} {S T P : Nat} (hv : ValidGraph zones)
    (hP : P < zones.length) : ∀ (L : List (NeighboringZone α)) (s : AStar α),
    (∀ nb ∈ L, nb ∈ neighborsOf zones P) → SearchInv zones S T s →
    s.whichList P = s.onClosedList →
    SearchInv zones S T (L.foldl (visitNeighbor distanceTo zones P T) s) ∧
    (∀ x, Marked s x → Marked (L.foldl (visitNeighbor distanceTo zones P T) s) x) ∧
    (∀ x, (L.foldl (visitNeighbor distanceTo zones P T) s).whichList x =
        (L.foldl (visitNeighbor distanceTo zones P T) s).onClosedList ↔
      s.whichList x = s.onClosedList) ∧
    ∀ nb ∈ L, Marked (L.foldl (visitNeighbor distanceTo zones P T) s) nb.zoneID
  | [], s, _, inv, _ => ⟨inv, fun _ hx => hx, fun _ => Iff.rfl, by simp⟩
  | zone :: L, s, hL, inv, hPc => by
    obtain ⟨h1, h2, h3, h4⟩ := visitNeighbor_inv distanceTo hv inv hP hPc
      (hL zone (List.mem_cons_self _ _))
    obtain ⟨g1, g2, g3, g4⟩ := foldl_visitNeighbor_inv distanceTo hv hP L _
      (fun nb hnb => hL nb (List.mem_cons_of_mem _ hnb)) h1 ((h3 P).mpr hPc)
    rw [List.foldl_cons]
    refine ⟨g1, fun x hx => g2 x (h2 x hx), fun x => (g3 x).trans (h3 x), ?_⟩
    intro nb hnb
    rcases List.mem_cons.mp hnb with h | h
    · rw [h]; exact g2 _ h4
    · exact g4 nb h

end AStarInv

/-! ## Pathfinder: closing the top item, and one round of the search loop -/

section AStarRound

set_option linter.unusedSectionVars false

variable {α : Type} [LinearOrderedRing α] [FloorRing α]

theorem closeTop_openList (s : AStar α) :
    HeapPerm (s.numberOfOpenListItems - 1)
      (setAt s.openList 1 (s.openList (s.numberOfOpenListItems - 1 + 1)))
      (closeTop s).openList :=
  siftDown_heapPerm _ _ _ _ _ (le_refl 1)

/-- After `closeTop`, every heap slot holds an item that was in the heap before. -/
theorem closeTop_heap_old (s : AStar α) (i : Nat)
    (hi1 : 1 ≤ i) (hi2 : i ≤ s.numberOfOpenListItems - 1) :
    ∃ j, 1 ≤ j ∧ j ≤ s.numberOfOpenListItems ∧ (closeTop s).openList i = s.openList j := by
  obtain ⟨j, hj1, hj2, hj⟩ := (closeTop_openList s).1 i hi1 hi2
  by_cases h : j = 1
  · refine ⟨s.numberOfOpenListItems, by omega, le_refl _, ?_⟩
    rw [hj, h, setAt_same]
    congr 1
    omega
  · exact ⟨j, hj1, by omega, by rw [hj, setAt_ne _ _ h]⟩

/-- After `closeTop`, every item that was in the heap below the top is still in the heap. -/
theorem closeTop_heap_kept (s : AStar α) (j : Nat) (hj1 : 2 ≤ j)
    (hj2 : j ≤ s.numberOfOpenListItems) :
    ∃ i, 1 ≤ i ∧ i ≤ s.numberOfOpenListItems - 1 ∧ (closeTop s).openList i = s.openList j := by
  by_cases h : j = s.numberOfOpenListItems
  · obtain ⟨i, hi1, hi2, hi⟩ := (closeTop_openList s).2 1 (le_refl 1) (by omega)
    refine ⟨i, hi1, hi2, ?_⟩
    rw [hi, setAt_same, h]
    congr 1
    omega
  · obtain ⟨i, hi1, hi2, hi⟩ := (closeTop_openList s).2 j (by omega) (by omega)
    exact ⟨i, hi1, hi2, by rw [hi, setAt_ne _ _ (by omega)]⟩

theorem closeTop_of_head {zones : List (BotNavMeshZone α)} {S T : Nat} {s : AStar α}
    (hS : S < zones.length) (hd : SearchHead zones S T s)
    (hn : s.numberOfOpenListItems ≠ 0) (ht : s.openZone (s.openList 1) ≠ T) :
    SearchInv zones S T (closeTop s) ∧
    ClosedExpanded zones (closeTop s) (s.openZone (s.openList 1)) ∧
    (closeTop s).whichList (s.openZone (s.openList 1)) = (closeTop s).onClosedList ∧
    s.openZone (s.openList 1) < zones.length := by
  obtain ⟨inv, hexp⟩ := hd
  obtain ⟨htv, htm⟩ := inv.heapMarked 1 (le_refl 1) (by omega)
  have hgen := inv.gen
  have hwl : (closeTop s).whichList = setAt s.whichList (s.openZone (s.openList 1))
      s.onClosedList := rfl
  have hoc : (closeTop s).onClosedList = s.onClosedList := rfl
  have hoo : (closeTop s).onOpenList = s.onOpenList := rfl
  have hnn : (closeTop s).numberOfOpenListItems = s.numberOfOpenListItems - 1 := rfl
  have hid : (closeTop s).newOpenListItemID = s.newOpenListItemID := rfl
  have hoz : (closeTop s).openZone = s.openZone := rfl
  have hpz : (closeTop s).parentZones = s.parentZones := rfl
  have hgc : (closeTop s).Gcost = s.Gcost := rfl
  have hmono : ∀ x, Marked s x → Marked (closeTop s) x := by
    intro x hx
    unfold Marked
    rw [hwl, hoo, hoc]
    by_cases hxt : x = s.openZone (s.openList 1)
    · right; rw [hxt, setAt_same]
    · rw [setAt_ne _ _ hxt]; exact hx
  have hmarked : ∀ x, Marked (closeTop s) x → Marked s x := by
    intro x hx
    by_cases hxt : x = s.openZone (s.openList 1)
    · rw [hxt]; exact htm
    · unfold Marked at hx
      rw [hwl, hoo, hoc, setAt_ne _ _ hxt] at hx
      exact hx
  have hclosed : ∀ x, (closeTop s).whichList x = (closeTop s).onClosedList →
      x = s.openZone (s.openList 1) ∨ s.whichList x = s.onClosedList := by
    intro x hx
    by_cases hxt : x = s.openZone (s.openList 1)
    · exact Or.inl hxt
    · rw [hwl, hoc, setAt_ne _ _ hxt] at hx
      exact Or.inr hx
  have hclosed2 : ∀ x, s.whichList x = s.onClosedList →
      (closeTop s).whichList x = (closeTop s).onClosedList := by
    intro x hx
    rw [hwl, hoc]
    by_cases hxt : x = s.openZone (s.openList 1)
    · rw [hxt, setAt_same]
    · rw [setAt_ne _ _ hxt]; exact hx
  have htc : (closeTop s).whichList (s.openZone (s.openList 1)) = (closeTop s).onClosedList := by
    rw [hwl, hoc, setAt_same]
  refine ⟨?_, ?_, htc, htv⟩
  · refine
      { gen := hgen
        startClosed := hclosed2 S inv.startClosed
        targetNotClosed := ?_
        heapMarked := ?_, heapCover := ?_, heapIds := ?_, count := ?_, parent := ?_, whole := ?_
        gStart := inv.gStart, rank := ?_ }
    · intro h
      rcases hclosed T h with h1 | h1
      · exact ht h1.symm
      · exact inv.targetNotClosed h1
    · intro i hi1 hi2
      obtain ⟨j, hj1, hj2, hj⟩ := closeTop_heap_old s i hi1 hi2
      rw [hj, hoz]
      obtain ⟨h1, h2⟩ := inv.heapMarked j hj1 hj2
      exact ⟨h1, hmono _ h2⟩
    · intro x hx hxo
      have hxt : x ≠ s.openZone (s.openList 1) := by
        rintro rfl
        rw [htc, hoo, hoc] at hxo
        omega
      rw [hwl, hoo, setAt_ne _ _ hxt] at hxo
      obtain ⟨j, hj1, hj2, hj⟩ := inv.heapCover x hx hxo
      have hj3 : 2 ≤ j := by
        by_contra hlt
        have : j = 1 := by omega
        rw [this] at hj
        exact hxt hj.symm
      obtain ⟨i, hi1, hi2, hi⟩ := closeTop_heap_kept s j hj3 hj2
      exact ⟨i, hi1, hi2, by rw [hi, hoz, hj]⟩
    · intro i hi1 hi2
      obtain ⟨j, hj1, hj2, hj⟩ := closeTop_heap_old s i hi1 hi2
      rw [hj, hid]
      exact inv.heapIds j hj1 hj2
    · have hset : (Finset.range zones.length).filter
          (fun z => (closeTop s).whichList z = (closeTop s).onOpenList ∨
            (closeTop s).whichList z = (closeTop s).onClosedList) =
          (Finset.range zones.length).filter
            (fun z => s.whichList z = s.onOpenList ∨ s.whichList z = s.onClosedList) := by
        ext x
        rw [Finset.mem_filter, Finset.mem_filter]
        exact ⟨fun h => ⟨h.1, hmarked x h.2⟩, fun h => ⟨h.1, hmono x h.2⟩⟩
      rw [hset, hid]
      exact inv.count
    · intro x hx hm hxS
      obtain ⟨h1, h2, h3⟩ := inv.parent x hx (hmarked x hm) hxS
      rw [hpz, hgc]
      exact ⟨h1, hclosed2 _ h2, h3⟩
    · intro hw x hx hm
      rw [hgc]
      exact inv.whole hw x hx (hmarked x hm)
    · obtain ⟨rank, hrank⟩ := inv.rank
      have hnS := (hrank S hS inv.startClosed).1
      by_cases hcl : s.whichList (s.openZone (s.openList 1)) = s.onClosedList
      · refine ⟨rank, ?_⟩
        intro x hx hxc
        have hxc1 : s.whichList x = s.onClosedList := by
          rcases hclosed x hxc with h | h
          · rw [h]; exact hcl
          · exact h
        obtain ⟨h1, h2⟩ := hrank x hx hxc1
        rw [hnn, hid, hpz]
        exact ⟨by omega, h2⟩
      · refine ⟨setAt rank (s.openZone (s.openList 1))
          (s.newOpenListItemID - (s.numberOfOpenListItems - 1)), ?_⟩
        intro x hx hxc
        rw [hnn, hid, hpz]
        by_cases hxt : x = s.openZone (s.openList 1)
        · rw [hxt, setAt_same]
          refine ⟨by omega, ?_⟩
          intro htS
          obtain ⟨h1, h2, -⟩ := inv.parent _ htv htm htS
          have hne : s.parentZones (s.openZone (s.openList 1)) ≠ s.openZone (s.openList 1) := by
            intro h
            rw [h] at h2
            exact hcl h2
          rw [setAt_ne _ _ hne]
          have := (hrank _ h1 h2).1
          omega
        · have hxc1 : s.whichList x = s.onClosedList := by
            rcases hclosed x hxc with h | h
            · exact absurd h hxt
            · exact h
          obtain ⟨h1, h2⟩ := hrank x hx hxc1
          rw [setAt_ne _ _ hxt]
          refine ⟨by omega, ?_⟩
          intro hxS
          obtain ⟨-, h4, -⟩ := inv.parent x hx (Or.inr hxc1) hxS
          have hne : s.parentZones x ≠ s.openZone (s.openList 1) := by
            intro h
            rw [h] at h4
            exact hcl h4
          rw [setAt_ne _ _ hne]
          exact h2 hxS
  · intro x hx hxc hxt nb hnb
    rcases hclosed x hxc with h | h
    · exact absurd h hxt
    · exact hmono _ (hexp x hx h nb hnb)

theorem closeTop_of_start {zones : List (BotNavMeshZone α)} {S T : Nat} {s : AStar α}
    (hlen : zones.length ≤ MAX_ZONES) (hS : S < zones.length) (hT : T < zones.length)
    (hst : SearchStart S s) (hne : S ≠ T) :
    SearchInv zones S T (closeTop s) ∧
    ClosedExpanded zones (closeTop s) (s.openZone (s.openList 1)) ∧
    (closeTop s).whichList (s.openZone (s.openList 1)) = (closeTop s).onClosedList ∧
    s.openZone (s.openList 1) < zones.length := by
  have hgen := hst.gen
  have htop := hst.top
  have hwl : (closeTop s).whichList = setAt s.whichList S s.onClosedList := by
    show setAt s.whichList (s.openZone (s.openList 1)) s.onClosedList = _
    rw [htop]
  have hoc : (closeTop s).onClosedList = s.onClosedList := rfl
  have hoo : (closeTop s).onOpenList = s.onOpenList := rfl
  have hnn : (closeTop s).numberOfOpenListItems = 0 := by
    show s.numberOfOpenListItems - 1 = 0
    rw [hst.one]
  have hid : (closeTop s).newOpenListItemID = 0 := hst.noId
  have hgc : (closeTop s).Gcost = s.Gcost := rfl
  have hSc : (closeTop s).whichList S = (closeTop s).onClosedList := by
    rw [hwl, hoc, setAt_same]
  have hother : ∀ x, x < zones.length → x ≠ S → ¬ Marked (closeTop s) x := by
    intro x hx hxS hm
    unfold Marked at hm
    rw [hwl, hoo, hoc, setAt_ne _ _ hxS] at hm
    have := hst.unmarked x (by omega)
    omega
  rw [htop]
  refine ⟨?_, ?_, hSc, hS⟩
  · refine
      { gen := hgen
        startClosed := hSc
        targetNotClosed := fun h => hother T hT (Ne.symm hne) (Or.inr h)
        heapMarked := ?_, heapCover := ?_, heapIds := ?_, count := ?_, parent := ?_, whole := ?_
        gStart := hst.gStart, rank := ?_ }
    · intro i hi1 hi2
      rw [hnn] at hi2
      omega
    · intro x hx hxo
      by_cases hxS : x = S
      · rw [hxS, hSc, hoo, hoc] at hxo
        omega
      · exact absurd (Or.inl hxo) (hother x hx hxS)
    · intro i hi1 hi2
      rw [hnn] at hi2
      omega
    · have hset : (Finset.range zones.length).filter
          (fun z => (closeTop s).whichList z = (closeTop s).onOpenList ∨
            (closeTop s).whichList z = (closeTop s).onClosedList) = {S} := by
        ext x
        rw [Finset.mem_filter, Finset.mem_singleton, Finset.mem_range]
        constructor
        · rintro ⟨hx, hm⟩
          by_contra hxS
          exact hother x hx hxS hm
        · rintro rfl
          exact ⟨hS, Or.inr hSc⟩
      rw [hset, hid, Finset.card_singleton]
    · intro x hx hm hxS
      exact absurd hm (hother x hx hxS)
    · intro _ x hx hm
      have hxS : x = S := by
        by_contra hxS
        exact hother x hx hxS hm
      refine ⟨0, ?_⟩
      rw [hgc, hxS, hst.gStart]
      simp
    · refine ⟨fun _ => 0, ?_⟩
      intro x hx hxc
      have hxS : x = S := by
        by_contra hxS
        exact hother x hx hxS (Or.inr hxc)
      rw [hnn, hid]
      exact ⟨le_refl _, fun h => absurd hxS h⟩
  · intro x hx hxc hxS
    exact absurd (Or.inr hxc) (hother x hx hxS)

/-- One round of the search loop leads to a state that satisfies the head invariant. -/
theorem expandTop_head (distanceTo : Point α → Point α → α)
    {zones : List (BotNavMeshZone α)} {S T : Nat} {s : AStar α} (hv : ValidGraph zones)
    (h : SearchInv zones S T (closeTop s) ∧
      ClosedExpanded zones (closeTop s) (s.openZone (s.openList 1)) ∧
      (closeTop s).whichList (s.openZone (s.openList 1)) = (closeTop s).onClosedList ∧
      s.openZone (s.openList 1) < zones.length) :
    SearchHead zones S T (expandTop distanceTo zones T s) := by
  obtain ⟨inv, hexp, hc, hP⟩ := h
  obtain ⟨g1, g2, g3, g4⟩ := foldl_visitNeighbor_inv distanceTo (T := T) hv hP
    (neighborsOf zones (s.openZone (s.openList 1))) (closeTop s) (fun _ h => h) inv hc
  refine ⟨g1, ?_⟩
  intro x hx hxc nb hnb
  by_cases hxP : x = s.openZone (s.openList 1)
  · rw [hxP] at hnb
    exact g4 nb hnb
  · exact g2 _ (hexp x hx ((g3 x).mp hxc) hxP nb hnb)

end AStarRound

/-! ## Pathfinder: the search loop -/

section AStarLoop

set_option linter.unusedSectionVars false

variable {α : Type} [LinearOrderedRing α] [FloorRing α]

theorem gen_arith (c : Nat) (hc : c ≤ 65532) :
    (c + 2) % 65536 = c + 2 ∧ ((c + 2) % 65536 + 65535) % 65536 = c + 1 := by
  omega

theorem nextGeneration_reset (st : AStar α) (h : st.onClosedList > U16_MAX - 3) :
    (nextGeneration st).onClosedList = 2 ∧ (nextGeneration st).onOpenList = 1 ∧
    (nextGeneration st).whichList = fun i => if i < MAX_ZONES then 0 else st.whichList i := by
  simp only [nextGeneration, h, if_true]
  exact ⟨by norm_num, by norm_num, trivial⟩

theorem nextGeneration_advance (st : AStar α) (h : ¬ st.onClosedList > U16_MAX - 3) :
    (nextGeneration st).onClosedList = st.onClosedList + 2 ∧
    (nextGeneration st).onOpenList = st.onClosedList + 1 ∧
    (nextGeneration st).whichList = st.whichList := by
  have h1 : st.onClosedList ≤ 65532 := by
    unfold U16_MAX at h
    omega
  simp only [nextGeneration, h, if_false]
  exact ⟨(gen_arith _ h1).1, (gen_arith _ h1).2, trivial⟩

theorem nextGeneration_spec (st : AStar α) (hf : Fresh st) :
    (nextGeneration st).onOpenList + 1 = (nextGeneration st).onClosedList ∧
    ∀ z, z < MAX_ZONES → (nextGeneration st).whichList z < (nextGeneration st).onOpenList := by
  by_cases h : st.onClosedList > U16_MAX - 3
  · obtain ⟨h1, h2, h3⟩ := nextGeneration_reset st h
    rw [h1, h2, h3]
    refine ⟨rfl, ?_⟩
    intro z hz
    show (if z < MAX_ZONES then 0 else st.whichList z) < 1
    rw [if_pos hz]
    exact Nat.zero_lt_one
  · obtain ⟨h1, h2, h3⟩ := nextGeneration_advance st h
    rw [h1, h2, h3]
    refine ⟨rfl, ?_⟩
    intro z hz
    have := hf z hz
    omega

theorem startSearch_start (distanceTo : Point α → Point α → α)
    (zones : List (BotNavMeshZone α)) (st : AStar α) (S T : Nat) (hf : Fresh st) :
    SearchStart S (startSearch distanceTo zones st S T) := by
  obtain ⟨h1, h2⟩ := nextGeneration_spec st hf
  exact
    { gen := h1, unmarked := h2, one := rfl, noId := rfl
      top := by
        show setAt (nextGeneration st).openZone 0 S (setAt (nextGeneration st).openList 1 0 1) = S
        rw [setAt_same, setAt_same]
      gStart := by
        show setAt (nextGeneration st).Gcost S 0 S = 0
        rw [setAt_same] }

/-- What the search loop returns: `false` only at a loop head with an empty open list;
`true` only if start and target coincide or the target carries a mark. -/
theorem searchLoop_result (distanceTo : Point α → Point α → α)
    {zones : List (BotNavMeshZone α)} {S T : Nat} (hv : ValidGraph zones)
    (hS : S < zones.length) (hT : T < zones.length) :
    ∀ (fuel : Nat) (s : AStar α) (b : Bool) (s1 : AStar α),
    SearchStart S s ∨ SearchHead zones S T s →
    searchLoop distanceTo zones T fuel s = some (b, s1) →
    (b = false → SearchHead zones S T s1 ∧ s1.numberOfOpenListItems = 0) ∧
    (b = true → (S = T ∧ s1.Gcost S = 0) ∨ (SearchInv zones S T s1 ∧ Marked s1 T))
  | 0, s, b, s1, _, h => by simp [searchLoop] at h
  | fuel + 1, s, b, s1, hs, h => by
    unfold searchLoop at h
    dsimp only at h
    split_ifs at h with h1 h2 h3
    · -- the open list is empty
      simp only [Option.some.injEq, Prod.mk.injEq] at h
      obtain ⟨hb, hs1⟩ := h
      subst hb hs1
      rcases hs with hst | hd
      · have := hst.one
        omega
      · exact ⟨fun _ => ⟨hd, h1⟩, fun hb => by simp at hb⟩
    · -- the top item is the target
      simp only [Option.some.injEq, Prod.mk.injEq] at h
      obtain ⟨hb, hs1⟩ := h
      subst hb hs1
      refine ⟨fun hb => by simp at hb, fun _ => ?_⟩
      rcases hs with hst | hd
      · left
        exact ⟨by rw [← hst.top, h2], hst.gStart⟩
      · right
        have := hd.1.heapMarked 1 (le_refl 1) (by omega)
        rw [h2] at this
        exact ⟨hd.1, this.2⟩
    · -- the target has been put on the open list
      simp only [Option.some.injEq, Prod.mk.injEq] at h
      obtain ⟨hb, hs1⟩ := h
      subst hb hs1
      refine ⟨fun hb => by simp at hb, fun _ => Or.inr ?_⟩
      have hd : SearchHead zones S T (expandTop distanceTo zones T s) := by
        rcases hs with hst | hd
        · exact expandTop_head distanceTo hv
            (closeTop_of_start hv.1 hS hT hst (by rw [← hst.top]; exact h2))
        · exact expandTop_head distanceTo hv (closeTop_of_head hS hd h1 h2)
      exact ⟨hd.1, Or.inl h3⟩
    · -- next round
      have hd : SearchHead zones S T (expandTop distanceTo zones T s) := by
        rcases hs with hst | hd
        · exact expandTop_head distanceTo hv
            (closeTop_of_start hv.1 hS hT hst (by rw [← hst.top]; exact h2))
        · exact expandTop_head distanceTo hv (closeTop_of_head hS hd h1 h2)
      exact searchLoop_result distanceTo hv hS hT fuel _ b s1 (Or.inr hd) h

theorem visitNeighbor_measure (distanceTo : Point α → Point α → α)
    (zones : List (BotNavMeshZone α)) (P T : Nat) (s : AStar α) (zone : NeighboringZone α)
    (h : s.newOpenListItemID ≤ MAX_ZONES) :
    (visitNeighbor distanceTo zones P T s zone).newOpenListItemID ≤ MAX_ZONES ∧
    (visitNeighbor distanceTo zones P T s zone).numberOfOpenListItems +
        (MAX_ZONES - (visitNeighbor distanceTo zones P T s zone).newOpenListItemID) =
      s.numberOfOpenListItems + (MAX_ZONES - s.newOpenListItemID) := by
  rcases visitNeighbor_cases distanceTo zones P T s zone with ⟨h1, -⟩ | op | rl
  · rw [h1]; exact ⟨h, rfl⟩
  · rw [op.newOpenListItemID, op.numberOfOpenListItems]
    have := op.room
    omega
  · rw [rl.newOpenListItemID, rl.numberOfOpenListItems]
    exact ⟨h, rfl⟩

theorem foldl_visitNeighbor_measure (distanceTo : Point α → Point α → α)
    (zones : List (BotNavMeshZone α)) (P T : Nat) : ∀ (L : List (NeighboringZone α))
    (s : AStar α), s.newOpenListItemID ≤ MAX_ZONES →
    (L.foldl (visitNeighbor distanceTo zones P T) s).newOpenListItemID ≤ MAX_ZONES ∧
    (L.foldl (visitNeighbor distanceTo zones P T) s).numberOfOpenListItems +
        (MAX_ZONES - (L.foldl (visitNeighbor distanceTo zones P T) s).newOpenListItemID) =
      s.numberOfOpenListItems + (MAX_ZONES - s.newOpenListItemID)
  | [], _, h => ⟨h, rfl⟩
  | zone :: L, s, h => by
    obtain ⟨h1, h2⟩ := visitNeighbor_measure distanceTo zones P T s zone h
    obtain ⟨h3, h4⟩ := foldl_visitNeighbor_measure distanceTo zones P T L _ h1
    rw [List.foldl_cons]
    exact ⟨h3, h4.trans h2⟩

/-- The search loop ends before its fuel: every round takes one item off the open list,
and no more than `MAX_ZONES` items are ever added.  The counter of open list items it
leaves behind is at most `MAX_ZONES`. -/
theorem searchLoop_total (distanceTo : Point α → Point α → α)
    (zones : List (BotNavMeshZone α)) (T : Nat) : ∀ (fuel : Nat) (s : AStar α),
    s.newOpenListItemID ≤ MAX_ZONES →
    s.numberOfOpenListItems + (MAX_ZONES - s.newOpenListItemID) < fuel →
    ∃ b s1, searchLoop distanceTo zones T fuel s = some (b, s1) ∧
      s1.newOpenListItemID ≤ MAX_ZONES
  | 0, _, _, h => by omega
  | fuel + 1, s, hid, h => by
    unfold searchLoop
    dsimp only
    split_ifs with h1 h2 h3
    · exact ⟨false, s, rfl, hid⟩
    · exact ⟨true, s, rfl, hid⟩
    · obtain ⟨h4, -⟩ := foldl_visitNeighbor_measure distanceTo zones
        (s.openZone (s.openList 1)) T (neighborsOf zones (s.openZone (s.openList 1)))
        (closeTop s) hid
      exact ⟨true, _, rfl, h4⟩
    · obtain ⟨h4, h5⟩ := foldl_visitNeighbor_measure distanceTo zones
        (s.openZone (s.openList 1)) T (neighborsOf zones (s.openZone (s.openList 1)))
        (closeTop s) hid
      have h6 : (closeTop s).numberOfOpenListItems = s.numberOfOpenListItems - 1 := rfl
      have h7 : (closeTop s).newOpenListItemID = s.newOpenListItemID := rfl
      exact searchLoop_total distanceTo zones T fuel _ h4 (by
        show (expandTop distanceTo zones T s).numberOfOpenListItems +
          (MAX_ZONES - (expandTop distanceTo zones T s).newOpenListItemID) < fuel
        unfold expandTop
        rw [h5, h6, h7]
        omega)

end AStarLoop

/-! ## Pathfinder: the walk back along the parent links, and the result of `findPath` -/

section AStarResult

set_option linter.unusedSectionVars false

variable {α : Type} [LinearOrderedRing α] [FloorRing α]

theorem findGateway_of_edge {zones : List (BotNavMeshZone α)} {p c : Nat}
    (h : ∃ nb ∈ neighborsOf zones p, nb.zoneID = c) :
    ∃ nb ∈ neighborsOf zones p, nb.zoneID = c ∧ findGateway zones p c = nb.borderCenter := by
  have hex : ∃ x ∈ neighborsOf zones p, (fun n : NeighboringZone α => n.zoneID == c) x = true := by
    obtain ⟨nb, h1, h2⟩ := h
    exact ⟨nb, h1, by simp [h2]⟩
  have hlt := List.findIdx_lt_length_of_exists hex
  have hp := @List.findIdx_getElem _ (fun n : NeighboringZone α => n.zoneID == c)
    (neighborsOf zones p) hlt
  refine ⟨_, List.getElem_mem hlt, by simpa using hp, ?_⟩
  unfold findGateway getNeighborIndex
  simp only [hlt, if_true]
  rw [if_neg (by omega), Int.toNat_ofNat, List.getElem?_eq_getElem hlt]

theorem chainOf_head {zones : List (BotNavMeshZone α)} {pz : Nat → Nat} {S z : Nat}
    {recs : List (NeighboringZone α)} (h : ParentChain zones pz S z recs) :
    ∃ tl, chainOf S recs = z :: tl := by
  cases h with
  | start => exact ⟨[], rfl⟩
  | @step _ nb recs _ _ hz _ =>
    exact ⟨chainOf S recs, by
      show nb.zoneID :: chainOf S recs = _
      rw [hz]⟩

theorem parentChain_reach {zones : List (BotNavMeshZone α)} {pz : Nat → Nat} {S z : Nat}
    {recs : List (NeighboringZone α)} (h : ParentChain zones pz S z recs) : Reach zones S z := by
  induction h with
  | start => exact Relation.ReflTransGen.refl
  | step _ hnb hz _ ih => exact Relation.ReflTransGen.tail ih ⟨_, hnb, hz⟩

theorem parentChain_isParentChain {zones : List (BotNavMeshZone α)} {pz : Nat → Nat}
    {S z : Nat} {recs : List (NeighboringZone α)} (h : ParentChain zones pz S z recs) :
    IsParentChain pz S (chainOf S recs) ∧ GatewaysOnEdges zones (chainOf S recs) := by
  induction h with
  | start => exact ⟨rfl, trivial⟩
  | @step z nb recs hzS hnb hz hrest ih =>
    obtain ⟨tl, htl⟩ := chainOf_head hrest
    have hc : chainOf S (nb :: recs) = z :: pz z :: tl := by
      have : chainOf S (nb :: recs) = nb.zoneID :: chainOf S recs := rfl
      rw [this, htl, hz]
    rw [hc]
    rw [htl] at ih
    exact ⟨⟨hzS, rfl, ih.1⟩, ⟨findGateway_of_edge ⟨nb, hnb, hz⟩, ih.2⟩⟩

theorem chainPoints_length (zones : List (BotNavMeshZone α)) : ∀ chain : List Nat,
    (chainPoints zones chain).length = 2 * (chain.length - 1)
  | [] => rfl
  | [_] => rfl
  | c :: p :: rest => by
    have ih := chainPoints_length zones (p :: rest)
    simp only [chainPoints, List.length_cons] at ih ⊢
    omega

theorem walkBack_start (zones : List (BotNavMeshZone α)) (pz : Nat → Nat) (S fuel : Nat)
    (path : List (Point α)) : walkBack zones pz S fuel S path = some path := by
  unfold walkBack
  simp

theorem walkBack_step (zones : List (BotNavMeshZone α)) (pz : Nat → Nat) (S fuel z : Nat)
    (path : List (Point α)) (h : z ≠ S) :
    walkBack zones pz S (fuel + 1) z path =
      walkBack zones pz S fuel (pz z)
        ((path ++ [findGateway zones (pz z) z]) ++ [getCenter zones (pz z)]) := by
  rw [walkBack]
  simp [h]

/-- The walk from a closed zone reaches the start zone within as many steps as the zone's
rank, along neighbour records whose costs add up to the zone's G cost. -/
theorem walkBack_closed {zones : List (BotNavMeshZone α)} {S T : Nat} {s : AStar α}
    (inv : SearchInv zones S T s) (rank : Nat → Nat)
    (hrank : ∀ z, z < zones.length → s.whichList z = s.onClosedList →
      rank z + s.numberOfOpenListItems ≤ s.newOpenListItemID ∧
      (z ≠ S → rank (s.parentZones z) < rank z)) :
    ∀ (k z : Nat), z < zones.length → s.whichList z = s.onClosedList → rank z ≤ k →
    ∀ (fuel : Nat), k ≤ fuel → ∀ path : List (Point α),
    ∃ recs, ParentChain zones s.parentZones S z recs ∧
      walkBack zones s.parentZones S fuel z path =
        some (path ++ chainPoints zones (chainOf S recs)) ∧
      (WholeCosts zones → s.Gcost z = (recs.map (fun nb => nb.distTo)).sum) := by
  intro k
  induction k with
  | zero =>
    intro z hz hzc hr fuel _ path
    by_cases hzS : z = S
    · subst hzS
      exact ⟨[], ParentChain.start, by simp [walkBack_start, chainOf, chainPoints],
        fun _ => by simpa using inv.gStart⟩
    · have := (hrank z hz hzc).2 hzS
      omega
  | succ k ih =>
    intro z hz hzc hr fuel hfuel path
    by_cases hzS : z = S
    · subst hzS
      exact ⟨[], ParentChain.start, by simp [walkBack_start, chainOf, chainPoints],
        fun _ => by simpa using inv.gStart⟩
    · obtain ⟨hp1, hp2, nb, hnb, hnbz, hG⟩ := inv.parent z hz (Or.inr hzc) hzS
      have hlt := (hrank z hz hzc).2 hzS
      obtain ⟨fuel1, rfl⟩ : ∃ f, fuel = f + 1 := ⟨fuel - 1, by omega⟩
      obtain ⟨recs, hchain, hwalk, hsum⟩ := ih (s.parentZones z) hp1 hp2 (by omega) fuel1
        (by omega) ((path ++ [findGateway zones (s.parentZones z) z]) ++
          [getCenter zones (s.parentZones z)])
      obtain ⟨tl, htl⟩ := chainOf_head hchain
      refine ⟨nb :: recs, ParentChain.step hzS hnb hnbz hchain, ?_, ?_⟩
      · rw [walkBack_step _ _ _ _ _ _ hzS, hwalk]
        have hc : chainOf S (nb :: recs) = z :: chainOf S recs := by
          show nb.zoneID :: chainOf S recs = _
          rw [hnbz]
        rw [hc, htl]
        simp [chainPoints]
      · intro hw
        rw [hG hw, hsum hw]
        simp [add_comm]

/-- The search never issues more open list items than there are zones. -/
theorem SearchInv.id_le {zones : List (BotNavMeshZone α)} {S T : Nat} {s : AStar α}
    (inv : SearchInv zones S T s) : s.newOpenListItemID + 1 ≤ zones.length := by
  have h := Finset.card_le_card (Finset.filter_subset
    (fun z => s.whichList z = s.onOpenList ∨ s.whichList z = s.onClosedList)
    (Finset.range zones.length))
  rw [inv.count, Finset.card_range] at h
  exact h

/-- The walk from a marked zone, with the fuel `findPath` gives it. -/
theorem walkBack_marked {zones : List (BotNavMeshZone α)} {S T : Nat} {s : AStar α}
    (hv : ValidGraph zones) (inv : SearchInv zones S T s) {z : Nat} (hz : z < zones.length)
    (hm : Marked s z) (path : List (Point α)) :
    ∃ recs, ParentChain zones s.parentZones S z recs ∧
      walkBack zones s.parentZones S (MAX_ZONES + 1) z path =
        some (path ++ chainPoints zones (chainOf S recs)) ∧
      (WholeCosts zones → s.Gcost z = (recs.map (fun nb => nb.distTo)).sum) := by
  obtain ⟨rank, hrank⟩ := inv.rank
  by_cases hzS : z = S
  · subst hzS
    exact ⟨[], ParentChain.start, by simp [walkBack_start, chainOf, chainPoints],
      fun _ => by simpa using inv.gStart⟩
  · obtain ⟨hp1, hp2, nb, hnb, hnbz, hG⟩ := inv.parent z hz hm hzS
    have h1 := (hrank _ hp1 hp2).1
    have h2 := inv.id_le
    have h3 := hv.1
    obtain ⟨recs, hchain, hwalk, hsum⟩ := walkBack_closed inv rank hrank MAX_ZONES
      (s.parentZones z) hp1 hp2 (by omega) MAX_ZONES (le_refl _)
      ((path ++ [findGateway zones (s.parentZones z) z]) ++ [getCenter zones (s.parentZones z)])
    obtain ⟨tl, htl⟩ := chainOf_head hchain
    refine ⟨nb :: recs, ParentChain.step hzS hnb hnbz hchain, ?_, ?_⟩
    · rw [walkBack_step _ _ _ _ _ _ hzS, hwalk]
      have hc : chainOf S (nb :: recs) = z :: chainOf S recs := by
        show nb.zoneID :: chainOf S recs = _
        rw [hnbz]
      rw [hc, htl]
      simp [chainPoints]
    · intro hw
      rw [hG hw, hsum hw]
      simp [add_comm]

/-- When the open list runs empty, every zone that a directed path leads to from the start
zone is closed. -/
theorem closed_of_reach {zones : List (BotNavMeshZone α)} {S T : Nat} {s : AStar α}
    (hv : ValidGraph zones) (hS : S < zones.length) (hd : SearchHead zones S T s)
    (hn : s.numberOfOpenListItems = 0) {z : Nat} (h : Reach zones S z) :
    z < zones.length ∧ s.whichList z = s.onClosedList := by
  induction h with
  | refl => exact ⟨hS, hd.1.startClosed⟩
  | tail _ hbc ih =>
    obtain ⟨nb, hnb, hnbz⟩ := hbc
    have hc := validGraph_nb hv hnb
    rw [hnbz] at hc
    refine ⟨hc, ?_⟩
    have hm := hd.2 _ ih.1 ih.2 nb hnb
    rw [hnbz] at hm
    rcases hm with ho | hcl
    · obtain ⟨i, hi1, hi2, -⟩ := hd.1.heapCover _ hc ho
      omega
    · exact hcl

/-- The result of `findPath` on a valid graph: either no directed path leads from the start
zone to the target zone and the result is empty, or the result lists the target, the centre
of the target zone, the gateways and centres along the parent links back to the start zone,
and the centre of the start zone once more. -/
theorem findPath_spec (distanceTo : Point α → Point α → α) {zones : List (BotNavMeshZone α)}
    (hv : ValidGraph zones) (st : AStar α) (hf : Fresh st) {S T : Nat} (hS : S < zones.length)
    (hT : T < zones.length) (target : Point α) :
    ∃ s1, (findPath distanceTo zones st S T target = some ([], s1) ∧ ¬ Reach zones S T) ∨
      ∃ recs, ParentChain zones s1.parentZones S T recs ∧
        findPath distanceTo zones st S T target =
          some (target :: getCenter zones T :: chainPoints zones (chainOf S recs) ++
            [getCenter zones S], s1) ∧
        (WholeCosts zones → s1.Gcost T = (recs.map (fun nb => nb.distTo)).sum) := by
  have hst := startSearch_start distanceTo zones st S T hf
  obtain ⟨b, s1, hloop, -⟩ := searchLoop_total distanceTo zones T (MAX_ZONES + 2)
    (startSearch distanceTo zones st S T) (by rw [hst.noId]; exact Nat.zero_le _)
    (by rw [hst.one, hst.noId]; omega)
  obtain ⟨hfalse, htrue⟩ := searchLoop_result distanceTo hv hS hT _ _ b s1 (Or.inl hst) hloop
  refine ⟨s1, ?_⟩
  cases b with
  | false =>
    left
    obtain ⟨hd, hn⟩ := hfalse rfl
    refine ⟨by simp only [findPath, hloop], ?_⟩
    intro hreach
    exact hd.1.targetNotClosed (closed_of_reach hv hS hd hn hreach).2
  | true =>
    right
    have hwalk : ∃ recs, ParentChain zones s1.parentZones S T recs ∧
        walkBack zones s1.parentZones S (MAX_ZONES + 1) T [target, getCenter zones T] =
          some ([target, getCenter zones T] ++ chainPoints zones (chainOf S recs)) ∧
        (WholeCosts zones → s1.Gcost T = (recs.map (fun nb => nb.distTo)).sum) := by
      rcases htrue rfl with ⟨hST, hG⟩ | ⟨inv, hm⟩
      · subst hST
        exact ⟨[], ParentChain.start, by simp [walkBack_start, chainOf, chainPoints],
          fun _ => by simpa using hG⟩
      · exact walkBack_marked hv inv hT hm _
    obtain ⟨recs, hchain, hw, hsum⟩ := hwalk
    refine ⟨recs, hchain, ?_, hsum⟩
    simp only [findPath, hloop, hw]
    simp

end AStarResult

/-! ## Pathfinder: the fuel of the heap loops is never used up, and the statics stay fresh -/

section AStarAdequacy

set_option linter.unusedSectionVars false

variable {α : Type} [LinearOrderedRing α] [FloorRing α]

theorem siftDown_succ (Fcost : Nat → α) (n fuel v : Nat) (ol : Nat → Nat) :
    siftDown Fcost n (fuel + 1) v ol =
      if v ≠ lowerChild Fcost n ol v then
        siftDown Fcost n fuel (lowerChild Fcost n ol v) (swapAt ol v (lowerChild Fcost n ol v))
      else ol := by
  rw [siftDown]

theorem bubbleUpLE_succ (Fcost : Nat → α) (fuel m : Nat) (ol : Nat → Nat) :
    bubbleUpLE Fcost (fuel + 1) m ol =
      if m > 1 ∧ Fcost (ol m) ≤ Fcost (ol (m / 2)) then
        bubbleUpLE Fcost fuel (m / 2) (swapAt ol (m / 2) m)
      else ol := by
  rw [bubbleUpLE]

theorem bubbleUpLT_succ (Fcost : Nat → α) (fuel m : Nat) (ol : Nat → Nat) :
    bubbleUpLT Fcost (fuel + 1) m ol =
      if m > 1 ∧ Fcost (ol m) < Fcost (ol (m / 2)) then
        bubbleUpLT Fcost fuel (m / 2) (swapAt ol (m / 2) m)
      else ol := by
  rw [bubbleUpLT]

/-- More fuel than `n - v + 1` does not change the result of the sinking loop: the loop has
left through its `break` before. -/
theorem siftDown_fuel_succ (Fcost : Nat → α) (n : Nat) : ∀ (fuel v : Nat) (ol : Nat → Nat),
    1 ≤ v → n ≤ fuel + v →
    siftDown Fcost n (fuel + 1) v ol = siftDown Fcost n fuel v ol
  | 0, v, ol, hv, h => by
    have hlc : lowerChild Fcost n ol v = v := by
      rcases lowerChild_cases Fcost n ol v hv with h1 | ⟨h1, h2⟩
      · exact h1
      · omega
    simp [siftDown, hlc]
  | fuel + 1, v, ol, hv, h => by
    rw [siftDown_succ Fcost n (fuel + 1) v ol, siftDown_succ Fcost n fuel v ol]
    split
    · rename_i hne
      rcases lowerChild_cases Fcost n ol v hv with h1 | ⟨h1, h2⟩
      · exact absurd h1.symm hne
      · exact siftDown_fuel_succ Fcost n fuel _ _ (by omega) (by omega)
    · rfl

/-- The sinking loop of `closeTop` gives the same result with any larger fuel. -/
theorem siftDown_fuel_enough (Fcost : Nat → α) (n : Nat) (ol : Nat → Nat) : ∀ k : Nat,
    siftDown Fcost n (n + 1 + k) 1 ol = siftDown Fcost n (n + 1) 1 ol
  | 0 => rfl
  | k + 1 => by
    rw [← siftDown_fuel_enough Fcost n ol k]
    exact siftDown_fuel_succ Fcost n (n + 1 + k) 1 ol (le_refl 1) (by omega)

theorem bubbleUpLE_fuel_succ (Fcost : Nat → α) : ∀ (fuel m : Nat) (ol : Nat → Nat),
    m ≤ fuel + 1 → bubbleUpLE Fcost (fuel + 1) m ol = bubbleUpLE Fcost fuel m ol
  | 0, m, ol, h => by
    have : ¬ (m > 1 ∧ Fcost (ol m) ≤ Fcost (ol (m / 2))) := fun hc => by omega
    simp [bubbleUpLE, this]
  | fuel + 1, m, ol, h => by
    rw [bubbleUpLE_succ Fcost (fuel + 1) m ol, bubbleUpLE_succ Fcost fuel m ol]
    split
    · rename_i hc
      exact bubbleUpLE_fuel_succ Fcost fuel _ _ (by omega)
    · rfl

/-- The rising loop for a new item gives the same result with any fuel above `m`. -/
theorem bubbleUpLE_fuel_enough (Fcost : Nat → α) (m : Nat) (ol : Nat → Nat) : ∀ k : Nat,
    bubbleUpLE Fcost (m + k) m ol = bubbleUpLE Fcost m m ol
  | 0 => rfl
  | k + 1 => by
    rw [← bubbleUpLE_fuel_enough Fcost m ol k]
    exact bubbleUpLE_fuel_succ Fcost (m + k) m ol (by omega)

theorem bubbleUpLT_fuel_succ (Fcost : Nat → α) : ∀ (fuel m : Nat) (ol : Nat → Nat),
    m ≤ fuel + 1 → bubbleUpLT Fcost (fuel + 1) m ol = bubbleUpLT Fcost fuel m ol
  | 0, m, ol, h => by
    have : ¬ (m > 1 ∧ Fcost (ol m) < Fcost (ol (m / 2))) := fun hc => by omega
    simp [bubbleUpLT, this]
  | fuel + 1, m, ol, h => by
    rw [bubbleUpLT_succ Fcost (fuel + 1) m ol, bubbleUpLT_succ Fcost fuel m ol]
    split
    · rename_i hc
      exact bubbleUpLT_fuel_succ Fcost fuel _ _ (by omega)
    · rfl

/-- The rising loop for an item with a lowered cost gives the same result with any fuel
above `m`. -/
theorem bubbleUpLT_fuel_enough (Fcost : Nat → α) (m : Nat) (ol : Nat → Nat) : ∀ k : Nat,
    bubbleUpLT Fcost (m + k) m ol = bubbleUpLT Fcost m m ol
  | 0 => rfl
  | k + 1 => by
    rw [← bubbleUpLT_fuel_enough Fcost m ol k]
    exact bubbleUpLT_fuel_succ Fcost (m + k) m ol (by omega)

/-- A property of the search state that `closeTop` and `visitNeighbor` keep holds in the
state the search loop returns. -/
theorem searchLoop_induct (distanceTo : Point α → Point α → α)
    (zones : List (BotNavMeshZone α)) (T : Nat) (Q : AStar α → Prop)
    (hclose : ∀ s, Q s → Q (closeTop s))
    (hvisit : ∀ P s zone, Q s → Q (visitNeighbor distanceTo zones P T s zone)) :
    ∀ (fuel : Nat) (s : AStar α) (b : Bool) (s1 : AStar α), Q s →
    searchLoop distanceTo zones T fuel s = some (b, s1) → Q s1
  | 0, s, b, s1, _, h => by simp [searchLoop] at h
  | fuel + 1, s, b, s1, hs, h => by
    have hfold : ∀ (L : List (NeighboringZone α)) (P : Nat) (s0 : AStar α), Q s0 →
        Q (L.foldl (visitNeighbor distanceTo zones P T) s0) := by
      intro L
      induction L with
      | nil => intro P s0 h0; exact h0
      | cons zone L ih => intro P s0 h0; exact ih P _ (hvisit P s0 zone h0)
    have hexp : Q (expandTop distanceTo zones T s) := hfold _ _ _ (hclose s hs)
    unfold searchLoop at h
    dsimp only at h
    split_ifs at h with h1 h2 h3
    · simp only [Option.some.injEq, Prod.mk.injEq] at h
      rw [← h.2]; exact hs
    · simp only [Option.some.injEq, Prod.mk.injEq] at h
      rw [← h.2]; exact hs
    · simp only [Option.some.injEq, Prod.mk.injEq] at h
      rw [← h.2]; exact hexp
    · exact searchLoop_induct distanceTo zones T Q hclose hvisit fuel _ b s1 hexp h

/-- The state that `findPath` returns is the state at the end of its search loop. -/
theorem findPath_state (distanceTo : Point α → Point α → α) (zones : List (BotNavMeshZone α))
    (st : AStar α) (S T : Nat) (target : Point α) (path : List (Point α)) (s1 : AStar α)
    (h : findPath distanceTo zones st S T target = some (path, s1)) :
    ∃ b, searchLoop distanceTo zones T (MAX_ZONES + 2) (startSearch distanceTo zones st S T) =
      some (b, s1) := by
  unfold findPath at h
  split at h
  · simp at h
  · rename_i s hs
    simp only [Option.some.injEq, Prod.mk.injEq] at h
    exact ⟨false, by rw [hs, h.2]⟩
  · rename_i s hs
    split at h
    · simp at h
    · simp only [Option.some.injEq, Prod.mk.injEq] at h
      exact ⟨true, by rw [hs, h.2]⟩

/-- Every call of `findPath` leaves statics that are fresh again: no entry of `whichList`
below `MAX_ZONES` is ahead of the generation counter. -/
theorem findPath_fresh (distanceTo : Point α → Point α → α) (zones : List (BotNavMeshZone α))
    (st : AStar α) (hf : Fresh st) (S T : Nat) (target : Point α) (path : List (Point α))
    (s1 : AStar α) (h : findPath distanceTo zones st S T target = some (path, s1)) :
    Fresh s1 := by
  obtain ⟨b, hloop⟩ := findPath_state distanceTo zones st S T target path s1 h
  have hst := startSearch_start distanceTo zones st S T hf
  have hQ := searchLoop_induct distanceTo zones T
    (fun s => s.onOpenList ≤ s.onClosedList ∧ ∀ z, z < MAX_ZONES → s.whichList z ≤ s.onClosedList)
    (by
      rintro s ⟨h1, h2⟩
      refine ⟨h1, ?_⟩
      intro z hz
      show setAt s.whichList (s.openZone (s.openList 1)) s.onClosedList z ≤ s.onClosedList
      by_cases hzt : z = s.openZone (s.openList 1)
      · rw [hzt, setAt_same]
      · rw [setAt_ne _ _ hzt]; exact h2 z hz)
    (by
      rintro P s zone ⟨h1, h2⟩
      rcases visitNeighbor_cases distanceTo zones P T s zone with ⟨h3, -⟩ | op | rl
      · rw [h3]; exact ⟨h1, h2⟩
      · rw [op.onOpenList, op.onClosedList, op.whichList]
        refine ⟨h1, ?_⟩
        intro z hz
        by_cases hzt : z = zone.zoneID
        · rw [hzt, setAt_same]; exact h1
        · rw [setAt_ne _ _ hzt]; exact h2 z hz
      · rw [rl.onOpenList, rl.onClosedList, rl.whichList]
        exact ⟨h1, h2⟩)
    (MAX_ZONES + 2) _ b s1
    ⟨by have := hst.gen; omega, fun z hz => by
      have h1 := hst.unmarked z hz
      have h2 := hst.gen
      omega⟩ hloop
  exact hQ.2

end AStarAdequacy

/-! ## Pathfinder: the assertion on the number of open list items -/

section AStarAsserts

set_option linter.unusedSectionVars false

variable {α : Type} [LinearOrderedRing α] [FloorRing α]

/-- While the invariant holds on a graph that fits the static arrays, fewer than
`MAX_ZONES` items have been issued, so the assertion holds for every neighbour record. -/
theorem assertNotFull_of_inv {zones : List (BotNavMeshZone α)} {S T : Nat} {s : AStar α}
    (hv : ValidGraph zones) (inv : SearchInv zones S T s) (zone : NeighboringZone α) :
    assertNotFull s zone = true := by
  have h1 := inv.id_le
  have h2 := hv.1
  unfold assertNotFull
  exact decide_eq_true (Or.inr (by omega))

/-- The loop over a list of neighbour records of the closed zone `P`, with the assertions
carried along: no assertion fails, and the state is that of the loop without them. -/
theorem foldl_asserts (distanceTo : Point α → Point α → α)
    {zones : List (BotNavMeshZone α)} {S T P : Nat} (hv : ValidGraph zones)
    (hP : P < zones.length) : ∀ (L : List (NeighboringZone α)) (b : Bool) (s : AStar α),
    (∀ nb ∈ L, nb ∈ neighborsOf zones P) → SearchInv zones S T s →
    s.whichList P = s.onClosedList →
    L.foldl (fun (acc : Bool × AStar α) zone =>
        (acc.1 && assertNotFull acc.2 zone, visitNeighbor distanceTo zones P T acc.2 zone))
      (b, s) = (b, L.foldl (visitNeighbor distanceTo zones P T) s)
  | [], _, _, _, _, _ => rfl
  | zone :: L, b, s, hL, inv, hPc => by
    obtain ⟨h1, -, h3, -⟩ := visitNeighbor_inv distanceTo hv inv hP hPc
      (hL zone (List.mem_cons_self _ _))
    rw [List.foldl_cons, List.foldl_cons]
    dsimp only
    rw [assertNotFull_of_inv hv inv zone, Bool.and_true]
    exact foldl_asserts distanceTo hv hP L b _
      (fun nb hnb => hL nb (List.mem_cons_of_mem _ hnb)) h1 ((h3 P).mpr hPc)

/-- No assertion fails in a round of the search loop. -/
theorem expandTopAsserts_true (distanceTo : Point α → Point α → α)
    {zones : List (BotNavMeshZone α)} {S T : Nat} {s : AStar α} (hv : ValidGraph zones)
    (h : SearchInv zones S T (closeTop s) ∧
      ClosedExpanded zones (closeTop s) (s.openZone (s.openList 1)) ∧
      (closeTop s).whichList (s.openZone (s.openList 1)) = (closeTop s).onClosedList ∧
      s.openZone (s.openList 1) < zones.length) :
    expandTopAsserts distanceTo zones T s = true := by
  obtain ⟨inv, -, hc, hP⟩ := h
  unfold expandTopAsserts
  dsimp only
  rw [foldl_asserts distanceTo hv hP _ true (closeTop s) (fun _ h => h) inv hc]

/-- No assertion fails in the search loop, whatever the fuel. -/
theorem searchLoopAsserts_true (distanceTo : Point α → Point α → α)
    {zones : List (BotNavMeshZone α)} {S T : Nat} (hv : ValidGraph zones)
    (hS : S < zones.length) (hT : T < zones.length) :
    ∀ (fuel : Nat) (s : AStar α), SearchStart S s ∨ SearchHead zones S T s →
    searchLoopAsserts distanceTo zones T fuel s = true
  | 0, _, _ => rfl
  | fuel + 1, s, hs => by
    unfold searchLoopAsserts
    dsimp only
    split_ifs with h1 h2 h3
    · rfl
    · rfl
    · rw [Bool.and_true]
      rcases hs with hst | hd
      · exact expandTopAsserts_true distanceTo hv
          (closeTop_of_start hv.1 hS hT hst (by rw [← hst.top]; exact h2))
      · exact expandTopAsserts_true distanceTo hv (closeTop_of_head hS hd h1 h2)
    · have hc : SearchInv zones S T (closeTop s) ∧
          ClosedExpanded zones (closeTop s) (s.openZone (s.openList 1)) ∧
          (closeTop s).whichList (s.openZone (s.openList 1)) = (closeTop s).onClosedList ∧
          s.openZone (s.openList 1) < zones.length := by
        rcases hs with hst | hd
        · exact closeTop_of_start hv.1 hS hT hst (by rw [← hst.top]; exact h2)
        · exact closeTop_of_head hS hd h1 h2
      rw [expandTopAsserts_true distanceTo hv hc, Bool.true_and]
      exact searchLoopAsserts_true distanceTo hv hS hT fuel _
        (Or.inr (expandTop_head distanceTo hv hc))

/-- The search loop of `findPath` leaves fewer issued open list items than there are
zones. -/
theorem searchLoop_id_lt (distanceTo : Point α → Point α → α)
    {zones : List (BotNavMeshZone α)} (hv : ValidGraph zones) (st : AStar α) (hf : Fresh st)
    {S T : Nat} (hS : S < zones.length) (hT : T < zones.length) (b : Bool) (s1 : AStar α)
    (hloop : searchLoop distanceTo zones T (MAX_ZONES + 2)
      (startSearch distanceTo zones st S T) = some (b, s1)) :
    s1.newOpenListItemID + 1 ≤ zones.length := by
  have hst := startSearch_start distanceTo zones st S T hf
  obtain ⟨hfalse, htrue⟩ := searchLoop_result distanceTo hv hS hT _ _ b s1 (Or.inl hst) hloop
  by_cases hST : S = T
  · have h0 : searchLoop distanceTo zones T (MAX_ZONES + 2)
        (startSearch distanceTo zones st S T) =
        some (true, startSearch distanceTo zones st S T) := by
      rw [searchLoop]
      rw [if_neg (by rw [hst.one]; exact Nat.one_ne_zero), if_pos (by rw [hst.top]; exact hST)]
    rw [h0] at hloop
    simp only [Option.some.injEq, Prod.mk.injEq] at hloop
    rw [← hloop.2, hst.noId]
    omega
  · cases b with
    | false => exact (hfalse rfl).1.1.id_le
    | true =>
      rcases htrue rfl with ⟨h, -⟩ | ⟨inv, -⟩
      · exact absurd h hST
      · exact inv.id_le

end AStarAsserts
/-! ## Pathfinder: theorems -/

section AStarTheorems

set_option linter.unusedSectionVars false

variable {α : Type} [LinearOrderedRing α] [FloorRing α]

theorem fresh_init : Fresh (AStar.init : AStar α) := fun _ _ => le_refl _

theorem validGraph_exampleZones : ValidGraph exampleZones :=
  ⟨by decide, by decide⟩

theorem wholeCosts_int (zones : List (BotNavMeshZone Int)) : WholeCosts zones :=
  fun _ _ nb _ => ⟨nb.distTo, by simp⟩

/-- The conversion to `S32` in the branch that lowers a G cost drops the fraction: on the
example graph with a cost of 3/2, the chain 3, 1, 2, 0 is returned with G cost 3 for zone 3,
while its records cost 1 + 3/2 + 1. -/
theorem gcost_truncated_on_fractional_cost :
    (findPath (fun _ _ => (0 : Rat)) exampleFractionZones AStar.init 0 3 ⟨0, 0⟩).map
        (fun r => (r.2.parentZones 3, r.2.parentZones 1, r.2.parentZones 2, r.2.Gcost 3)) =
      some (1, 2, 0, 3) ∧ (1 : Rat) + 3 / 2 + 1 ≠ 3 := by
  decide!

/-- C1 (as stated, refuted): on the example graph, the search from zone 0 to zone 2 stops as
soon as zone 2 is on the open list and returns the chain 2, 0 with G cost 10, although the
neighbour records 0 to 1 and 1 to 2 form a path of cost 2. -/
theorem C1_counterexample :
    (findPath exampleDistance exampleZones AStar.init 0 2 ⟨9, 1⟩).map
        (fun r => (r.1, r.2.parentZones 2, r.2.Gcost 2)) =
      some ([⟨9, 1⟩, ⟨8, 0⟩, ⟨4, 1⟩, ⟨0, 0⟩, ⟨0, 0⟩], 0, 10) ∧
    ∃ e1 ∈ neighborsOf exampleZones 0, ∃ e2 ∈ neighborsOf exampleZones e1.zoneID,
      e2.zoneID = 2 ∧ e1.distTo + e2.distTo < 10 := by
  decide

/-- C1 (amended): on a valid zone graph with whole-number edge costs, whenever `findPath`
returns a path, the parent links from the target zone back to the start zone follow a chain
of neighbour records, the returned points are those of that chain, and the recorded G cost
of the target zone is the sum of the `distTo` of these records.  (The sum need not be
minimal among the paths of the graph.) -/
theorem C1_cost_of_returned_chain (distanceTo : Point α → Point α → α)
    (zones : List (BotNavMeshZone α)) (hv : ValidGraph zones) (hw : WholeCosts zones)
    (st : AStar α) (hf : Fresh st) (S T : Nat) (hS : S < zones.length) (hT : T < zones.length)
    (target : Point α)
    (hfound : (findPath distanceTo zones st S T target).map Prod.fst ≠ some []) :
    ∃ s1 recs, ParentChain zones s1.parentZones S T recs ∧
      findPath distanceTo zones st S T target =
        some (target :: getCenter zones T :: chainPoints zones (chainOf S recs) ++
          [getCenter zones S], s1) ∧
      s1.Gcost T = (recs.map (fun nb => nb.distTo)).sum := by
  obtain ⟨s1, ⟨h1, -⟩ | ⟨recs, h1, h2, h3⟩⟩ := findPath_spec distanceTo hv st hf hS hT target
  · rw [h1] at hfound
    exact absurd rfl hfound
  · exact ⟨s1, recs, h1, h2, h3 hw⟩

/-- Instance of C1 (amended): the example graph, from zone 0 to zone 2. -/
theorem C1_cost_of_returned_chain_witness :
    ∃ s1 recs, ParentChain exampleZones s1.parentZones 0 2 recs ∧
      findPath exampleDistance exampleZones AStar.init 0 2 ⟨9, 1⟩ =
        some ((⟨9, 1⟩ : Point Int) :: getCenter exampleZones 2 ::
          chainPoints exampleZones (chainOf 0 recs) ++ [getCenter exampleZones 0], s1) ∧
      s1.Gcost 2 = (recs.map (fun nb => nb.distTo)).sum :=
  C1_cost_of_returned_chain exampleDistance exampleZones validGraph_exampleZones
    (wholeCosts_int _) AStar.init fresh_init 0 2 (by decide) (by decide) ⟨9, 1⟩ (by decide)

/-- C3: on a zone graph with at most `MAX_ZONES` zones and valid neighbour ids, with start
and goal zones of the graph and statics left by earlier calls, `findPath` returns the empty
list if no directed path of neighbour records leads from start to goal, and a non-empty
list if there is such a path. -/
theorem C3_empty_iff_no_path (distanceTo : Point α → Point α → α)
    (zones : List (BotNavMeshZone α)) (hv : ValidGraph zones) (st : AStar α) (hf : Fresh st)
    (S T : Nat) (hS : S < zones.length) (hT : T < zones.length) (target : Point α) :
    (¬ Reach zones S T → ∃ s1, findPath distanceTo zones st S T target = some ([], s1)) ∧
    (Reach zones S T →
      ∃ path s1, findPath distanceTo zones st S T target = some (path, s1) ∧ path ≠ []) := by
  obtain ⟨s1, ⟨h1, h2⟩ | ⟨recs, h1, h2, -⟩⟩ := findPath_spec distanceTo hv st hf hS hT target
  · exact ⟨fun _ => ⟨s1, h1⟩, fun hr => absurd hr h2⟩
  · exact ⟨fun hn => absurd (parentChain_reach h1) hn, fun _ => ⟨_, s1, h2, by simp⟩⟩

/-- Instance of C3: the example graph, from zone 0 to zone 2 (a path exists) and from
zone 2 to zone 0 (none exists). -/
theorem C3_empty_iff_no_path_witness :
    ((¬ Reach exampleZones 0 2 →
        ∃ s1, findPath exampleDistance exampleZones AStar.init 0 2 ⟨9, 1⟩ = some ([], s1)) ∧
      (Reach exampleZones 0 2 →
        ∃ path s1, findPath exampleDistance exampleZones AStar.init 0 2 ⟨9, 1⟩ =
          some (path, s1) ∧ path ≠ [])) ∧
    ((¬ Reach exampleZones 2 0 →
        ∃ s1, findPath exampleDistance exampleZones AStar.init 2 0 ⟨1, 1⟩ = some ([], s1)) ∧
      (Reach exampleZones 2 0 →
        ∃ path s1, findPath exampleDistance exampleZones AStar.init 2 0 ⟨1, 1⟩ =
          some (path, s1) ∧ path ≠ [])) :=
  ⟨C3_empty_iff_no_path exampleDistance exampleZones validGraph_exampleZones AStar.init
      fresh_init 0 2 (by decide) (by decide) ⟨9, 1⟩,
    C3_empty_iff_no_path exampleDistance exampleZones validGraph_exampleZones AStar.init
      fresh_init 2 0 (by decide) (by decide) ⟨1, 1⟩⟩

/-- C4, the claim as stated fails: the two triangular zones with the neighbour records
that `buildBotNavMeshZoneConnections` gives them, from zone 0 to zone 1.  The path found
ends in (9,6), the centre of the extent of zone 0 that `getCenter` returns; the centroid
`mCentroid` of zone 0 is (6,4). -/
theorem C4_counterexample :
    (findPath exampleEuclid
        (buildBotNavMeshZoneConnections exampleEuclid (fun _ _ => true) exampleTriangleTouch
          (fun _ => none) [] exampleTriangleZones)
        AStar.init 0 1 ⟨12, -4⟩).map Prod.fst =
      some [⟨12, -4⟩, ⟨9, -6⟩, ⟨9, 0⟩, ⟨9, 6⟩, ⟨9, 6⟩] ∧
    (buildBotNavMeshZoneConnections exampleEuclid (fun _ _ => true) exampleTriangleTouch
        (fun _ => none) [] exampleTriangleZones).map (fun z => z.mCentroid) =
      [⟨6, 4⟩, ⟨12, -4⟩] := by
  decide!

/-- C4 (amended): on a valid zone graph, whenever `findPath` finds a path, there is a chain
of zones `[zk, ..., z0]` from the goal zone `zk` back to the start zone `z0`, each followed
by its recorded parent, such that the returned list is: the goal point, the centre of `zk`,
then for every step the `borderCenter` of a neighbour record from the parent to the child
followed by the parent's centre, and finally the centre of the start zone once more.  Every
centre is the one `getCenter` returns, the centre of the zone's extent, not the centroid.
The first element of the list is the goal point, its last element the centre of the extent
of the start zone, and its length is `2k + 3`. -/
theorem C4_shape_of_returned_path (distanceTo : Point α → Point α → α)
    (zones : List (BotNavMeshZone α)) (hv : ValidGraph zones) (st : AStar α) (hf : Fresh st)
    (S T : Nat) (hS : S < zones.length) (hT : T < zones.length) (target : Point α)
    (hfound : (findPath distanceTo zones st S T target).map Prod.fst ≠ some []) :
    ∃ s1 path chain, findPath distanceTo zones st S T target = some (path, s1) ∧
      chain.head? = some T ∧ IsParentChain s1.parentZones S chain ∧
      GatewaysOnEdges zones chain ∧
      path = target :: getCenter zones T :: chainPoints zones chain ++ [getCenter zones S] ∧
      path.head? = some target ∧ path.getLast? = some (getCenter zones S) ∧
      path.length = 2 * (chain.length - 1) + 3 ∧
      ∃ z, zones.get? S = some z ∧ path.getLast? = some z.extentCenter := by
  obtain ⟨s1, ⟨h1, -⟩ | ⟨recs, h1, h2, -⟩⟩ := findPath_spec distanceTo hv st hf hS hT target
  · rw [h1] at hfound
    exact absurd rfl hfound
  · obtain ⟨tl, htl⟩ := chainOf_head h1
    obtain ⟨h3, h4⟩ := parentChain_isParentChain h1
    refine ⟨s1, _, chainOf S recs, h2, by rw [htl]; rfl, h3, h4, rfl, rfl, ?_, ?_, ?_⟩
    · rw [List.getLast?_concat]
    · simp only [List.length_cons, List.length_append, chainPoints_length, List.length_nil]
    · obtain ⟨z, hz⟩ : ∃ z, zones.get? S = some z :=
        ⟨zones.get ⟨S, hS⟩, List.get?_eq_get hS⟩
      refine ⟨z, hz, ?_⟩
      rw [List.getLast?_concat]
      simp only [getCenter, hz]

/-- Instance of C4 (amended): the example graph, from zone 0 to zone 2. -/
theorem C4_shape_of_returned_path_witness :
    ∃ s1 path chain, findPath exampleDistance exampleZones AStar.init 0 2 ⟨9, 1⟩ =
        some (path, s1) ∧
      chain.head? = some 2 ∧ IsParentChain s1.parentZones 0 chain ∧
      GatewaysOnEdges exampleZones chain ∧
      path = (⟨9, 1⟩ : Point Int) :: getCenter exampleZones 2 ::
        chainPoints exampleZones chain ++ [getCenter exampleZones 0] ∧
      path.head? = some ⟨9, 1⟩ ∧ path.getLast? = some (getCenter exampleZones 0) ∧
      path.length = 2 * (chain.length - 1) + 3 ∧
      ∃ z, exampleZones.get? 0 = some z ∧ path.getLast? = some z.extentCenter :=
  C4_shape_of_returned_path exampleDistance exampleZones validGraph_exampleZones AStar.init
    fresh_init 0 2 (by decide) (by decide) ⟨9, 1⟩ (by decide)

/-- C5 (as stated, refuted): on a graph of 10001 zones, `findPath` from zone 0 to its
neighbour zone 1 returns a path of five points, not the empty list. -/
theorem C5_counterexample :
    exampleManyZones.length > MAX_ZONES ∧
    (findPath exampleDistance exampleManyZones AStar.init 0 1 ⟨3, 1⟩).map Prod.fst =
      some [⟨3, 1⟩, ⟨2, 1⟩, ⟨1, 1⟩, ⟨0, 0⟩, ⟨0, 0⟩] := by
  constructor
  · show (List.replicate 10000 _).length + 1 > MAX_ZONES
    rw [List.length_replicate]
    decide
  · decide

/-- C5 (amended): `findPath` never tests the number of zones; `MAX_ZONES` is the size of
its static arrays and the bound in the guard and the assertion on `newOpenListItemID`.  On
a zone graph of at most `MAX_ZONES` zones with valid neighbour ids, with start and goal
zones of the graph and statics left by earlier calls, `findPath` returns, the assertion
`newOpenListItemID < MAX_ZONES` holds every time the search evaluates it, fewer than
`MAX_ZONES` open list items are issued, and the returned list is empty exactly when no
directed path of neighbour records leads from the start zone to the goal zone. -/
theorem C5_no_path_iff_unreachable_within_cap (distanceTo : Point α → Point α → α)
    (zones : List (BotNavMeshZone α)) (hv : ValidGraph zones) (st : AStar α) (hf : Fresh st)
    (S T : Nat) (hS : S < zones.length) (hT : T < zones.length) (target : Point α) :
    ∃ path s1, findPath distanceTo zones st S T target = some (path, s1) ∧
      searchLoopAsserts distanceTo zones T (MAX_ZONES + 2)
        (startSearch distanceTo zones st S T) = true ∧
      s1.newOpenListItemID < MAX_ZONES ∧
      (path = [] ↔ ¬ Reach zones S T) := by
  have hst := startSearch_start distanceTo zones st S T hf
  have hassert := searchLoopAsserts_true distanceTo hv hS hT (MAX_ZONES + 2) _ (Or.inl hst)
  have hid : ∀ path s1, findPath distanceTo zones st S T target = some (path, s1) →
      s1.newOpenListItemID < MAX_ZONES := by
    intro path s1 h
    obtain ⟨b, hloop⟩ := findPath_state distanceTo zones st S T target path s1 h
    have h1 := searchLoop_id_lt distanceTo hv st hf hS hT b s1 hloop
    have h2 := hv.1
    omega
  obtain ⟨s1, ⟨h1, h2⟩ | ⟨recs, h1, h2, -⟩⟩ := findPath_spec distanceTo hv st hf hS hT target
  · exact ⟨[], s1, h1, hassert, hid _ _ h1, fun _ => h2, fun _ => rfl⟩
  · exact ⟨_, s1, h2, hassert, hid _ _ h2,
      fun h => by simp at h, fun hn => absurd (parentChain_reach h1) hn⟩

/-- Instance of C5 (amended): the example graph of three zones, from zone 0 to zone 2.
The first round of the search closes zone 0 and meets the record that leads to zone 2,
which is not closed, so the assertion is evaluated there. -/
theorem C5_no_path_iff_unreachable_within_cap_witness :
    (∃ path s1, findPath exampleDistance exampleZones AStar.init 0 2 ⟨9, 1⟩ =
        some (path, s1) ∧
      searchLoopAsserts exampleDistance exampleZones 2 (MAX_ZONES + 2)
        (startSearch exampleDistance exampleZones AStar.init 0 2) = true ∧
      s1.newOpenListItemID < MAX_ZONES ∧
      (path = [] ↔ ¬ Reach exampleZones 0 2)) ∧
    (neighborsOf exampleZones 0).map (fun zone => zone.zoneID) = [2, 1] ∧
    (closeTop (startSearch exampleDistance exampleZones AStar.init 0 2)).whichList 2 ≠
      (closeTop (startSearch exampleDistance exampleZones AStar.init 0 2)).onClosedList :=
  ⟨C5_no_path_iff_unreachable_within_cap exampleDistance exampleZones validGraph_exampleZones
      AStar.init fresh_init 0 2 (by decide) (by decide) ⟨9, 1⟩,
    by decide, by decide⟩
end AStarTheorems

/-! ## Event manager: removal, destruction of a bot, and `update` -/

namespace EventManager

theorem mem_foldl_removeFirstMatch (us : List Handle) : ∀ (v : List Handle) (x : Handle),
    v.Nodup → (x ∈ us.foldl removeFirstMatch v ↔ x ∈ v ∧ x ∉ us) := by
  induction us with
  | nil => intro v x _; simp
  | cons u us ih =>
    intro v x hv
    rw [List.foldl_cons, ih _ x (removeFirstMatch_nodup u hv),
      (removeFirstMatch_perm v u).mem_iff, hv.mem_erase_iff]
    simp only [List.mem_cons, not_or]
    tauto

theorem pendingFlagged_init : PendingFlagged init := by
  intro _ e
  exact ⟨rfl, rfl⟩

theorem pendingFlagged_step (s : EventManager) (op : Op) (h : PendingFlagged s) :
    PendingFlagged (step s op) := by
  cases op with
  | subscribe L e0 =>
    simp only [step, subscribe]
    split
    · intro hf
      simp [removeFromPendingUnsubscribeList] at hf
    · exact h
  | unsubscribe L e0 =>
    simp only [step, unsubscribe]
    split
    · intro hf
      simp [removeFromPendingSubscribeList] at hf
    · exact h
  | unsubscribeImmediate L e0 =>
    intro hf e
    have hf0 : s.anyPending = false := hf
    obtain ⟨h1, h2⟩ := h hf0 e
    obtain ⟨h3, h4⟩ := h hf0 e0
    simp only [step, unsubscribeImmediate, removeFromPendingUnsubscribeList,
      removeFromPendingSubscribeList, removeFromSubscribedList]
    by_cases he : e = e0
    · subst he
      simp [h1, h2, removeFirstMatch]
    · simp [setList_ne _ _ he, h1, h2]
  | update =>
    simp only [step, update]
    split
    · intro _ e
      exact ⟨rfl, rfl⟩
    · exact h

theorem pendingFlagged_of_reachable {s : EventManager} (h : Reachable s) :
    PendingFlagged s := by
  obtain ⟨ops, rfl⟩ := h
  have : ∀ (ops : List Op) (s : EventManager), PendingFlagged s → PendingFlagged (run ops s) := by
    intro ops
    induction ops with
    | nil => intro s hs; exact hs
    | cons op ops ih => intro s hs; exact ih _ (pendingFlagged_step s op hs)
  exact this ops init pendingFlagged_init

/-- A handle that is neither an active nor a pending subscriber of `e` stays so under every
operation other than its own `subscribe` to `e`. -/
theorem absent_step (s : EventManager) (op : Op) (h : Handle) (e : EventType)
    (hop : op ≠ Op.subscribe h e)
    (h1 : h ∉ s.subscriptions e) (h2 : h ∉ s.pendingSubscriptions e) :
    h ∉ (step s op).subscriptions e ∧ h ∉ (step s op).pendingSubscriptions e := by
  cases op with
  | subscribe L e0 =>
    simp only [step, subscribe]
    split
    · by_cases he : e = e0
      · subst he
        have hL : h ≠ L := by
          rintro rfl
          exact hop rfl
        refine ⟨h1, ?_⟩
        simp only [removeFromPendingUnsubscribeList, setList_same, List.mem_append,
          List.mem_singleton, not_or]
        exact ⟨h2, hL⟩
      · simp only [removeFromPendingUnsubscribeList, setList_ne _ _ he]
        exact ⟨h1, h2⟩
    · exact ⟨h1, h2⟩
  | unsubscribe L e0 =>
    simp only [step, unsubscribe]
    split
    · by_cases he : e = e0
      · subst he
        simp only [removeFromPendingSubscribeList, setList_same]
        exact ⟨h1, fun hm => h2 (removeFirstMatch_subset hm)⟩
      · simp only [removeFromPendingSubscribeList, setList_ne _ _ he]
        exact ⟨h1, h2⟩
    · exact ⟨h1, h2⟩
  | unsubscribeImmediate L e0 =>
    simp only [step, unsubscribeImmediate, removeFromPendingUnsubscribeList,
      removeFromPendingSubscribeList, removeFromSubscribedList]
    by_cases he : e = e0
    · subst he
      simp only [setList_same]
      exact ⟨fun hm => h1 (removeFirstMatch_subset hm),
        fun hm => h2 (removeFirstMatch_subset hm)⟩
    · simp only [setList_ne _ _ he]
      exact ⟨h1, h2⟩
  | update =>
    simp only [step, update]
    split
    · refine ⟨?_, by simp⟩
      intro hm
      rcases List.mem_append.mp hm with hm1 | hm1
      · exact h1 (foldl_removeFirstMatch_subset _ _ h hm1)
      · exact h2 hm1
    · exact ⟨h1, h2⟩

theorem absent_run : ∀ (ops : List Op) (s : EventManager) (h : Handle) (e : EventType),
    (∀ op ∈ ops, op ≠ Op.subscribe h e) →
    h ∉ s.subscriptions e → h ∉ s.pendingSubscriptions e →
    h ∉ (run ops s).subscriptions e ∧ h ∉ (run ops s).pendingSubscriptions e
  | [], _, _, _, _, h1, h2 => ⟨h1, h2⟩
  | op :: ops, s, h, e, hops, h1, h2 => by
    obtain ⟨h3, h4⟩ := absent_step s op h e (hops op (List.mem_cons_self _ _)) h1 h2
    exact absent_run ops (step s op) h e (fun o ho => hops o (List.mem_cons_of_mem _ ho)) h3 h4

/-- C11: in every reachable state of the event manager, once `unsubscribeImmediate(h, e)`
has returned, no firing of `e` (by any of the four overloads) calls the callback of `h`,
whatever operations follow, `update()` included, as long as `h` does not subscribe to `e`
again. -/
theorem C11_no_delivery_after_unsubscribeImmediate (s : EventManager) (hs : Reachable s)
    (h : Handle) (e : EventType) (ops : List Op)
    (hops : ∀ op ∈ ops, op ≠ Op.subscribe h e) (ok : Handle → Bool) (caller : Handle) :
    h ∉ fireEvent (run ops (unsubscribeImmediate s h e)) e ok ∧
    h ∉ fireEventShip (run ops (unsubscribeImmediate s h e)) e ok ∧
    h ∉ fireEventMsg (run ops (unsubscribeImmediate s h e)) caller e ok ∧
    h ∉ fireEventPlayer (run ops (unsubscribeImmediate s h e)) caller e ok := by
  obtain ⟨hn1, hn2, -⟩ := noDuplicates_of_reachable hs e
  have h1 : h ∉ (unsubscribeImmediate s h e).subscriptions e := by
    simp only [unsubscribeImmediate, removeFromPendingUnsubscribeList,
      removeFromPendingSubscribeList, removeFromSubscribedList, setList_same]
    exact not_mem_removeFirstMatch (List.nodup_iff_count_le_one.mp hn1 h)
  have h2 : h ∉ (unsubscribeImmediate s h e).pendingSubscriptions e := by
    simp only [unsubscribeImmediate, removeFromPendingUnsubscribeList,
      removeFromPendingSubscribeList, removeFromSubscribedList, setList_same]
    exact not_mem_removeFirstMatch (List.nodup_iff_count_le_one.mp hn2 h)
  obtain ⟨h3, -⟩ := absent_run ops _ h e hops h1 h2
  have hd : h ∉ deliver ok ((run ops (unsubscribeImmediate s h e)).subscriptions e) :=
    fun hm => h3 ((deliver_initial ok _).subset hm)
  have hx : h ∉ deliverExcept caller ok
      ((run ops (unsubscribeImmediate s h e)).subscriptions e) :=
    fun hm => h3 (List.mem_of_mem_filter ((deliverExcept_sublist caller ok _).subset hm))
  exact ⟨hd, hd, hx, hx⟩

/-- Instance of C11: 7 and 8 are active subscribers; after `unsubscribeImmediate(7)`, an
`update()` and further operations of 8, a firing does not call 7. -/
theorem C11_no_delivery_after_unsubscribeImmediate_witness :
    7 ∉ fireEvent (run [Op.update, Op.unsubscribe 8 EventType.ShipKilledEvent, Op.update]
        (unsubscribeImmediate (run [Op.subscribe 7 EventType.ShipKilledEvent,
          Op.subscribe 8 EventType.ShipKilledEvent, Op.update] init) 7
          EventType.ShipKilledEvent)) EventType.ShipKilledEvent (fun _ => true) ∧
    7 ∉ fireEventShip (run [Op.update, Op.unsubscribe 8 EventType.ShipKilledEvent, Op.update]
        (unsubscribeImmediate (run [Op.subscribe 7 EventType.ShipKilledEvent,
          Op.subscribe 8 EventType.ShipKilledEvent, Op.update] init) 7
          EventType.ShipKilledEvent)) EventType.ShipKilledEvent (fun _ => true) ∧
    7 ∉ fireEventMsg (run [Op.update, Op.unsubscribe 8 EventType.ShipKilledEvent, Op.update]
        (unsubscribeImmediate (run [Op.subscribe 7 EventType.ShipKilledEvent,
          Op.subscribe 8 EventType.ShipKilledEvent, Op.update] init) 7
          EventType.ShipKilledEvent)) 9 EventType.ShipKilledEvent (fun _ => true) ∧
    7 ∉ fireEventPlayer (run [Op.update, Op.unsubscribe 8 EventType.ShipKilledEvent, Op.update]
        (unsubscribeImmediate (run [Op.subscribe 7 EventType.ShipKilledEvent,
          Op.subscribe 8 EventType.ShipKilledEvent, Op.update] init) 7
          EventType.ShipKilledEvent)) 9 EventType.ShipKilledEvent (fun _ => true) :=
  C11_no_delivery_after_unsubscribeImmediate _ ⟨_, rfl⟩ 7 EventType.ShipKilledEvent
    [Op.update, Op.unsubscribe 8 EventType.ShipKilledEvent, Op.update]
    (by simp) (fun _ => true) 9

/-- C12 (the code departs from the claim): the bot with handle 7 subscribes to event 1,
`update()` makes it active, the bot unsubscribes (which only queues the removal and clears
the bot's flag) and is destroyed before the next `update()`.  The destructor skips the
event because the flag is down: handle 7 is still an active subscriber and a pending
unsubscriber, and a firing calls the dead handle.  Likewise a bot that subscribes,
unsubscribes and is destroyed without any `update()` leaves its handle behind as a pending
subscriber. -/
theorem C12_destroyed_bot_still_listed :
    7 ∈ ((LuaRobot.unsubscribe ((LuaRobot.new 7).subscribe init 1).1
        (update ((LuaRobot.new 7).subscribe init 1).2) 1).1.destroy
      (LuaRobot.unsubscribe ((LuaRobot.new 7).subscribe init 1).1
        (update ((LuaRobot.new 7).subscribe init 1).2) 1).2).subscriptions
        EventType.ShipKilledEvent ∧
    7 ∈ ((LuaRobot.unsubscribe ((LuaRobot.new 7).subscribe init 1).1
        (update ((LuaRobot.new 7).subscribe init 1).2) 1).1.destroy
      (LuaRobot.unsubscribe ((LuaRobot.new 7).subscribe init 1).1
        (update ((LuaRobot.new 7).subscribe init 1).2) 1).2).pendingUnsubscriptions
        EventType.ShipKilledEvent ∧
    fireEvent ((LuaRobot.unsubscribe ((LuaRobot.new 7).subscribe init 1).1
        (update ((LuaRobot.new 7).subscribe init 1).2) 1).1.destroy
      (LuaRobot.unsubscribe ((LuaRobot.new 7).subscribe init 1).1
        (update ((LuaRobot.new 7).subscribe init 1).2) 1).2)
      EventType.ShipKilledEvent (fun _ => true) = [7] ∧
    7 ∈ ((LuaRobot.unsubscribe ((LuaRobot.new 7).subscribe init 1).1
        ((LuaRobot.new 7).subscribe init 1).2 1).1.destroy
      (LuaRobot.unsubscribe ((LuaRobot.new 7).subscribe init 1).1
        ((LuaRobot.new 7).subscribe init 1).2 1).2).pendingSubscriptions
        EventType.ShipKilledEvent := by
  decide

/-- C13: in every reachable state of the event manager, after `update()` the active list of
each event type holds exactly the handles that were active and not pending unsubscribers,
together with the former pending subscribers; both pending lists are empty and `anyPending`
is false, so that no active subscriber is a pending unsubscriber.  This includes the case
in which `update()` returns at once because the flag was down. -/
theorem C13_update_reconciles (s : EventManager) (hs : Reachable s) :
    (∀ e x, x ∈ (update s).subscriptions e ↔
      (x ∈ s.subscriptions e ∧ x ∉ s.pendingUnsubscriptions e) ∨
        x ∈ s.pendingSubscriptions e) ∧
    (∀ e, (update s).pendingSubscriptions e = [] ∧ (update s).pendingUnsubscriptions e = []) ∧
    (update s).anyPending = false ∧
    ∀ e x, x ∈ (update s).subscriptions e → x ∉ (update s).pendingUnsubscriptions e := by
  have hnd := noDuplicates_of_reachable hs
  have hpf := pendingFlagged_of_reachable hs
  by_cases hany : s.anyPending = true
  · have hupd : update s =
        { anyPending := false,
          subscriptions := fun i =>
            ((s.pendingUnsubscriptions i).foldl removeFirstMatch (s.subscriptions i)) ++
              s.pendingSubscriptions i,
          pendingSubscriptions := fun _ => [],
          pendingUnsubscriptions := fun _ => [] } := by
      simp [update, hany]
    rw [hupd]
    refine ⟨?_, fun _ => ⟨rfl, rfl⟩, rfl, fun _ _ _ => by simp⟩
    intro e x
    simp only [List.mem_append, mem_foldl_removeFirstMatch _ _ x (hnd e).1]
  · have hfalse : s.anyPending = false := by simpa using hany
    have hupd : update s = s := by simp [update, hfalse]
    rw [hupd]
    refine ⟨?_, hpf hfalse, hfalse, ?_⟩
    · intro e x
      simp [(hpf hfalse e).1, (hpf hfalse e).2]
    · intro e x _
      simp [(hpf hfalse e).2]

/-- Instance of C13: handle 7 is active and has asked to leave, handle 8 has asked to
join. -/
theorem C13_update_reconciles_witness :
    (∀ e x, x ∈ (update (run [Op.subscribe 7 EventType.ShipKilledEvent, Op.update,
        Op.subscribe 8 EventType.ShipKilledEvent,
        Op.unsubscribe 7 EventType.ShipKilledEvent] init)).subscriptions e ↔
      (x ∈ (run [Op.subscribe 7 EventType.ShipKilledEvent, Op.update,
          Op.subscribe 8 EventType.ShipKilledEvent,
          Op.unsubscribe 7 EventType.ShipKilledEvent] init).subscriptions e ∧
        x ∉ (run [Op.subscribe 7 EventType.ShipKilledEvent, Op.update,
          Op.subscribe 8 EventType.ShipKilledEvent,
          Op.unsubscribe 7 EventType.ShipKilledEvent] init).pendingUnsubscriptions e) ∨
        x ∈ (run [Op.subscribe 7 EventType.ShipKilledEvent, Op.update,
          Op.subscribe 8 EventType.ShipKilledEvent,
          Op.unsubscribe 7 EventType.ShipKilledEvent] init).pendingSubscriptions e) ∧
    (∀ e, (update (run [Op.subscribe 7 EventType.ShipKilledEvent, Op.update,
        Op.subscribe 8 EventType.ShipKilledEvent,
        Op.unsubscribe 7 EventType.ShipKilledEvent] init)).pendingSubscriptions e = [] ∧
      (update (run [Op.subscribe 7 EventType.ShipKilledEvent, Op.update,
        Op.subscribe 8 EventType.ShipKilledEvent,
        Op.unsubscribe 7 EventType.ShipKilledEvent] init)).pendingUnsubscriptions e = []) ∧
    (update (run [Op.subscribe 7 EventType.ShipKilledEvent, Op.update,
        Op.subscribe 8 EventType.ShipKilledEvent,
        Op.unsubscribe 7 EventType.ShipKilledEvent] init)).anyPending = false ∧
    ∀ e x, x ∈ (update (run [Op.subscribe 7 EventType.ShipKilledEvent, Op.update,
        Op.subscribe 8 EventType.ShipKilledEvent,
        Op.unsubscribe 7 EventType.ShipKilledEvent] init)).subscriptions e →
      x ∉ (update (run [Op.subscribe 7 EventType.ShipKilledEvent, Op.update,
        Op.subscribe 8 EventType.ShipKilledEvent,
        Op.unsubscribe 7 EventType.ShipKilledEvent] init)).pendingUnsubscriptions e :=
  C13_update_reconciles _ ⟨_, rfl⟩

end EventManager

/-! ## Gateway query and bounds check -/

section GatewayThms

variable {α : Type} [LinearOrderedField α]

theorem rect_center_midpoint (s e : Point α) :
    (Rect.ofPoints s e).getCenter = segmentMidpoint s e := by
  simp only [Rect.ofPoints, Rect.getCenter, Point.add, Point.scale, segmentMidpoint,
    min_add_max]
  congr 1 <;> ring

theorem gatewayScan_none (nbrs : List (NeighboringZone α)) (toId : Int)
    (h : ∀ n ∈ nbrs, (n.zoneID : Int) ≠ toId) : gatewayScan nbrs toId = none := by
  induction nbrs with
  | nil => rfl
  | cons n rest ih =>
    rw [gatewayScan, if_neg (h n (List.mem_cons_self _ _))]
    exact ih (fun m hm => h m (List.mem_cons_of_mem _ hm))

theorem gatewayScan_first (l1 l2 : List (NeighboringZone α)) (r : NeighboringZone α)
    (toId : Int) (h : ∀ n ∈ l1, (n.zoneID : Int) ≠ toId) (hr : (r.zoneID : Int) = toId) :
    gatewayScan (l1 ++ r :: l2) toId = some (segmentMidpoint r.borderStart r.borderEnd) := by
  induction l1 with
  | nil => simp [gatewayScan, hr, rect_center_midpoint]
  | cons n rest ih =>
    rw [List.cons_append, gatewayScan, if_neg (h n (List.mem_cons_self _ _))]
    exact ih (fun m hm => h m (List.mem_cons_of_mem _ hm))

/-- C20: `getGatewayFromZoneToZone(from, to)` returns nil when the zone list is empty, when
either id is negative or not below the zone count, and when no neighbour record of `from`
has target `to`; otherwise, with `r` the first neighbour record of `from` whose target is
`to`, it returns the midpoint of `r.borderStart` and `r.borderEnd`. -/
theorem C20_gateway_from_zone_to_zone (zones : List (BotNavMeshZone α)) (fromId toId : Int) :
    (zones = [] → getGatewayFromZoneToZone zones fromId toId = none) ∧
    (fromId < 0 ∨ (zones.length : Int) ≤ fromId ∨ toId < 0 ∨ (zones.length : Int) ≤ toId →
      getGatewayFromZoneToZone zones fromId toId = none) ∧
    ((∀ n ∈ neighborsOf zones fromId.toNat, (n.zoneID : Int) ≠ toId) →
      getGatewayFromZoneToZone zones fromId toId = none) ∧
    (0 ≤ fromId ∧ fromId < zones.length ∧ 0 ≤ toId ∧ toId < zones.length →
      ∀ (l1 l2 : List (NeighboringZone α)) (r : NeighboringZone α),
        neighborsOf zones fromId.toNat = l1 ++ r :: l2 →
        (∀ n ∈ l1, (n.zoneID : Int) ≠ toId) → (r.zoneID : Int) = toId →
        getGatewayFromZoneToZone zones fromId toId =
          some (segmentMidpoint r.borderStart r.borderEnd)) := by
  refine ⟨?_, ?_, ?_, ?_⟩
  · rintro rfl
    simp [getGatewayFromZoneToZone]
  · intro h
    have h1 : fromId < 0 ∨ fromId ≥ zones.length ∨ toId < 0 ∨ toId ≥ zones.length := h
    by_cases h0 : zones.length = 0
    · simp only [getGatewayFromZoneToZone, if_pos h0]
    · simp only [getGatewayFromZoneToZone, if_neg h0, if_pos h1]
  · intro h
    unfold getGatewayFromZoneToZone
    split_ifs
    · rfl
    · rfl
    · exact gatewayScan_none _ _ h
  · rintro ⟨h1, h2, h3, h4⟩ l1 l2 r hn hl hr
    unfold getGatewayFromZoneToZone
    have hlen : zones.length ≠ 0 := by
      intro h0
      rw [h0] at h2
      exact absurd h2 (by simpa using h1)
    rw [if_neg hlen, if_neg, hn]
    · exact gatewayScan_first l1 l2 r toId hl hr
    · simp only [ge_iff_le, not_or, not_lt, not_le]
      exact ⟨h1, h2, h3, h4⟩

end GatewayThms

section BoundsThms

variable {α : Type} [LinearOrderedRing α]

/-- C18 (as found in the code): with generator mode 6 the check passes exactly when the
world extents, widened by 30 on every side, lie strictly between -32768 and 32767.  World
extents of exactly -32767..32767 on both axes do not pass, nor do -32768..32768; the widest
symmetric whole extents that pass are -32736..32736.  In mode 5 (no aggregation) no check
is made. -/
theorem C18_bounds_check (worldExtents : Rect α) :
    (buildBotMeshZones_boundsOk 6 worldExtents = true ↔
      (-32768 < worldExtents.min.x - 30 ∧ -32768 < worldExtents.min.y - 30 ∧
        worldExtents.max.x + 30 < 32767 ∧ worldExtents.max.y + 30 < 32767)) ∧
    buildBotMeshZones_boundsOk 6
      ({ min := ⟨-32767, -32767⟩, max := ⟨32767, 32767⟩ } : Rect α) = false ∧
    buildBotMeshZones_boundsOk 6
      ({ min := ⟨-32768, -32768⟩, max := ⟨32768, 32768⟩ } : Rect α) = false ∧
    buildBotMeshZones_boundsOk 6
      ({ min := ⟨-32736, -32736⟩, max := ⟨32736, 32736⟩ } : Rect α) = true ∧
    buildBotMeshZones_boundsOk 6
      ({ min := ⟨-32737, -32737⟩, max := ⟨32737, 32737⟩ } : Rect α) = false ∧
    buildBotMeshZones_boundsOk 5 worldExtents = true := by
  have key : ∀ r : Rect α, buildBotMeshZones_boundsOk 6 r = true ↔
      (-32768 < r.min.x - 30 ∧ -32768 < r.min.y - 30 ∧
        r.max.x + 30 < 32767 ∧ r.max.y + 30 < 32767) := by
    intro r
    simp [buildBotMeshZones_boundsOk, makeBotMeshZones3_boundsOk, levelInBounds, Rect.expand,
      S16_MIN, S16_MAX]
  refine ⟨key _, ?_, ?_, ?_, ?_, ?_⟩
  · rw [Bool.eq_false_iff, Ne, key]
    norm_num
  · rw [Bool.eq_false_iff, Ne, key]
    norm_num
  · rw [key]
    norm_num
  · rw [Bool.eq_false_iff, Ne, key]
    norm_num
  · simp [buildBotMeshZones_boundsOk, makeBotMeshZones3_boundsOk]

/-- C18, the claim as stated fails: world extents of exactly -32767..32767 on both axes in
generator mode 6 do not pass the bounds check; they would not pass it without the widening
by 30 either, since the comparison with 32767 is strict. -/
theorem C18_counterexample :
    buildBotMeshZones_boundsOk 6
      ({ min := ⟨-32767, -32767⟩, max := ⟨32767, 32767⟩ } : Rect Int) = false ∧
    levelInBounds ({ min := ⟨-32767, -32767⟩, max := ⟨32767, 32767⟩ } : Rect Int) = false := by
  decide

end BoundsThms

/-! ## Adjacency builders: lemmas -/

set_option linter.unusedSectionVars false

section BuilderLemmas

variable {α : Type} [LinearOrderedField α]

theorem length_pushNeighbor (zs : List (BotNavMeshZone α)) (i : Nat) (nb : NeighboringZone α) :
    (pushNeighbor zs i nb).length = zs.length := by
  simp [pushNeighbor]

theorem get?_pushNeighbor (zs : List (BotNavMeshZone α)) (i a : Nat) (nb : NeighboringZone α) :
    (pushNeighbor zs i nb).get? a =
      if i = a then (zs.get? a).map (fun z => { z with mNeighbors := z.mNeighbors ++ [nb] })
      else zs.get? a := by
  simp only [pushNeighbor, List.get?_eq_getElem?, List.getElem?_modify]
  split <;> simp

theorem neighborsOf_pushNeighbor (zs : List (BotNavMeshZone α)) (i a : Nat)
    (nb : NeighboringZone α) :
    neighborsOf (pushNeighbor zs i nb) a =
      if i = a ∧ a < zs.length then neighborsOf zs a ++ [nb] else neighborsOf zs a := by
  unfold neighborsOf
  rw [get?_pushNeighbor]
  by_cases h : i = a
  · subst h
    cases hz : zs.get? i with
    | none =>
      have hl : ¬ i < zs.length := not_lt.mpr (List.get?_eq_none.mp hz)
      simp [hl]
    | some z =>
      have hl : i < zs.length := by
        by_contra hc
        rw [List.get?_eq_none.mpr (not_lt.mp hc)] at hz
        cases hz
      simp [hl]
  · simp [h]

theorem getCenter_pushNeighbor (zs : List (BotNavMeshZone α)) (i a : Nat)
    (nb : NeighboringZone α) : getCenter (pushNeighbor zs i nb) a = getCenter zs a := by
  unfold getCenter
  rw [get?_pushNeighbor]
  by_cases h : i = a
  · subst h
    cases hz : zs.get? i <;> simp
  · simp [h]

theorem zoneIdOf_pushNeighbor (zs : List (BotNavMeshZone α)) (i a : Nat)
    (nb : NeighboringZone α) : zoneIdOf (pushNeighbor zs i nb) a = zoneIdOf zs a := by
  unfold zoneIdOf
  rw [get?_pushNeighbor]
  by_cases h : i = a
  · subst h
    cases hz : zs.get? i <;> simp
  · simp [h]

theorem mem_neighborsOf_pushNeighbor {zs : List (BotNavMeshZone α)} {i a : Nat}
    {nb x : NeighboringZone α} (h : x ∈ neighborsOf (pushNeighbor zs i nb) a) :
    x ∈ neighborsOf zs a ∨ (x = nb ∧ i = a ∧ a < zs.length) := by
  rw [neighborsOf_pushNeighbor] at h
  split at h
  · rename_i hc
    rcases List.mem_append.mp h with h1 | h1
    · exact Or.inl h1
    · exact Or.inr ⟨List.mem_singleton.mp h1, hc⟩
  · exact Or.inl h

theorem mem_neighborsOf_pushNeighbor_of_mem {zs : List (BotNavMeshZone α)} {a : Nat}
    {x : NeighboringZone α} (i : Nat) (nb : NeighboringZone α) (h : x ∈ neighborsOf zs a) :
    x ∈ neighborsOf (pushNeighbor zs i nb) a := by
  rw [neighborsOf_pushNeighbor]
  split
  · exact List.mem_append_left _ h
  · exact h

theorem mem_neighborsOf_pushNeighbor_self {zs : List (BotNavMeshZone α)} {i : Nat}
    (nb : NeighboringZone α) (h : i < zs.length) : nb ∈ neighborsOf (pushNeighbor zs i nb) i := by
  rw [neighborsOf_pushNeighbor, if_pos ⟨rfl, h⟩]
  exact List.mem_append_right _ (List.mem_singleton_self _)

/-- Pushing a pair of records with the same border into two zones keeps the zone graph
reciprocal. -/
theorem reciprocal_push_pair {zs : List (BotNavMeshZone α)} (h : Reciprocal zs) {i j : Nat}
    (hi : i < zs.length) (hj : j < zs.length) (nb1 nb2 : NeighboringZone α)
    (h1 : nb1.zoneID = j) (h2 : nb2.zoneID = i) (hs : nb2.borderStart = nb1.borderStart)
    (he : nb2.borderEnd = nb1.borderEnd) :
    Reciprocal (pushNeighbor (pushNeighbor zs i nb1) j nb2) := by
  have hj1 : j < (pushNeighbor zs i nb1).length := by rw [length_pushNeighbor]; exact hj
  have hi1 : i < zs.length := hi
  intro a x hx
  rcases mem_neighborsOf_pushNeighbor hx with hx1 | ⟨rfl, rfl, -⟩
  · rcases mem_neighborsOf_pushNeighbor hx1 with hx2 | ⟨rfl, rfl, -⟩
    · obtain ⟨y, hy, hy1, hy2, hy3⟩ := h a x hx2
      exact ⟨y, mem_neighborsOf_pushNeighbor_of_mem _ _
        (mem_neighborsOf_pushNeighbor_of_mem _ _ hy), hy1, hy2, hy3⟩
    · refine ⟨nb2, ?_, h2, hs, he⟩
      rw [h1]
      exact mem_neighborsOf_pushNeighbor_self _ hj1
  · refine ⟨nb1, ?_, h1, hs.symm, he.symm⟩
    rw [h2]
    exact mem_neighborsOf_pushNeighbor_of_mem _ _ (mem_neighborsOf_pushNeighbor_self _ hi1)

end BuilderLemmas

section PlainBuilder

variable {α : Type} [LinearOrderedField α]

theorem foldl_inv {β γ : Type} (P : β → Prop) (f : β → γ → β) :
    ∀ (l : List γ) (s : β), P s → (∀ x ∈ l, ∀ s, P s → P (f s x)) → P (l.foldl f s)
  | [], _, hs, _ => hs
  | x :: l, s, hs, h =>
    foldl_inv P f l (f s x) (h x (List.mem_cons_self _ _) s hs)
      (fun y hy => h y (List.mem_cons_of_mem _ hy))

theorem neighborsOf_of_noNeighbors {zs : List (BotNavMeshZone α)} (h : NoNeighbors zs) (a : Nat) :
    neighborsOf zs a = [] := by
  unfold neighborsOf
  cases hz : zs.get? a with
  | none => rfl
  | some z => exact h z (List.get?_mem hz)

theorem plainInv_start (distanceTo : Point α → Point α → α) {zones : List (BotNavMeshZone α)}
    (h : NoNeighbors zones) : PlainInv distanceTo zones zones where
  len := rfl
  ids := fun _ => rfl
  centers := fun _ => rfl
  recip := by
    intro a nb hnb
    rw [neighborsOf_of_noNeighbors h] at hnb
    cases hnb
  costs := by
    intro a nb hnb
    rw [neighborsOf_of_noNeighbors h] at hnb
    cases hnb

theorem connectZones_inv (distanceTo : Point α → Point α → α)
    (intersectsOrBorders : Nat → Nat → Bool)
    (zonesTouch : Nat → Nat → Option (Point α × Point α))
    {zones0 zs : List (BotNavMeshZone α)} (h : PlainInv distanceTo zones0 zs) {i j : Nat}
    (hi : i < zones0.length) (hj : j < zones0.length) :
    PlainInv distanceTo zones0
      (connectZones distanceTo intersectsOrBorders zonesTouch zs i j) := by
  unfold connectZones
  split_ifs with h1 h2
  · exact h
  · exact h
  · cases ht : zonesTouch i j with
    | none => exact h
    | some bp =>
      obtain ⟨bordStart, bordEnd⟩ := bp
      have hi1 : i < zs.length := by rw [h.len]; exact hi
      have hj1 : j < zs.length := by rw [h.len]; exact hj
      dsimp only
      refine ⟨?_, ?_, ?_, ?_, ?_⟩
      · rw [length_pushNeighbor, length_pushNeighbor, h.len]
      · intro k
        rw [zoneIdOf_pushNeighbor, zoneIdOf_pushNeighbor, h.ids]
      · intro k
        rw [getCenter_pushNeighbor, getCenter_pushNeighbor, h.centers]
      · exact reciprocal_push_pair h.recip hi1 hj1 _ _ rfl rfl rfl rfl
      · intro a x hx
        rcases mem_neighborsOf_pushNeighbor hx with hx1 | ⟨rfl, rfl, -⟩
        · rcases mem_neighborsOf_pushNeighbor hx1 with hx2 | ⟨rfl, rfl, -⟩
          · simp only [getCenter_pushNeighbor]
            exact h.costs a x hx2
          · refine ⟨?_, rect_center_midpoint _ _, ?_⟩ <;> simp only [getCenter_pushNeighbor]
        · refine ⟨?_, rect_center_midpoint _ _, ?_⟩ <;> simp only [getCenter_pushNeighbor]

theorem connectAllZones_inv (distanceTo : Point α → Point α → α)
    (intersectsOrBorders : Nat → Nat → Bool)
    (zonesTouch : Nat → Nat → Option (Point α × Point α))
    {zones : List (BotNavMeshZone α)} (h : NoNeighbors zones) :
    PlainInv distanceTo zones
      (connectAllZones distanceTo intersectsOrBorders zonesTouch zones) := by
  unfold connectAllZones
  refine foldl_inv (PlainInv distanceTo zones) _ _ _ (plainInv_start distanceTo h) ?_
  intro i hi s hs
  refine foldl_inv (PlainInv distanceTo zones) _ _ _ hs ?_
  intro j hj s1 hs1
  have hi1 : i < zones.length := List.mem_range.mp hi
  have hj1 : j < zones.length := by
    have := (List.mem_range'_1.mp hj).2
    omega
  exact connectZones_inv distanceTo intersectsOrBorders zonesTouch hs1 hi1 hj1

theorem teleporterRecord_congr {zs zs1 : List (BotNavMeshZone α)}
    (h : ∀ i, zoneIdOf zs i = zoneIdOf zs1 i) (t : Teleporter α) (d : Point α) (dz : Nat) :
    teleporterRecord zs t d dz = teleporterRecord zs1 t d dz := by
  simp only [teleporterRecord, h]

/-- The loop over the destinations of one teleporter whose entry lies in zone `o`. -/
theorem connectDests_spec (f : Point α → Option Nat) (zones0 : List (BotNavMeshZone α))
    (t : Teleporter α) (o : Nat) (ho : o < zones0.length) :
    ∀ (ds : List (Point α)) (zs : List (BotNavMeshZone α)),
      zs.length = zones0.length → (∀ i, zoneIdOf zs i = zoneIdOf zones0 i) →
      (ds.foldl (fun zs d =>
          match f d with
          | none => zs
          | some destZone =>
            if o ≠ destZone then pushNeighbor zs o (teleporterRecord zs t d destZone)
            else zs) zs).length = zones0.length ∧
      (∀ i, zoneIdOf (ds.foldl (fun zs d =>
          match f d with
          | none => zs
          | some destZone =>
            if o ≠ destZone then pushNeighbor zs o (teleporterRecord zs t d destZone)
            else zs) zs) i = zoneIdOf zones0 i) ∧
      ∀ a, neighborsOf (ds.foldl (fun zs d =>
          match f d with
          | none => zs
          | some destZone =>
            if o ≠ destZone then pushNeighbor zs o (teleporterRecord zs t d destZone)
            else zs) zs) a =
        neighborsOf zs a ++
          (if o = a then
            ds.filterMap (fun d =>
              match f d with
              | some destZone =>
                if a ≠ destZone then some (teleporterRecord zones0 t d destZone) else none
              | none => none)
           else []) := by
  intro ds
  induction ds with
  | nil =>
    intro zs hl hid
    refine ⟨hl, hid, fun a => ?_⟩
    split <;> simp
  | cons d ds ih =>
    intro zs hl hid
    rw [List.foldl_cons]
    cases hd : f d with
    | none =>
      obtain ⟨h1, h2, h3⟩ := ih zs hl hid
      refine ⟨h1, h2, fun a => ?_⟩
      rw [h3 a]
      simp [List.filterMap_cons, hd]
    | some dz =>
      by_cases hne : o ≠ dz
      · simp only [if_pos hne]
        obtain ⟨h1, h2, h3⟩ := ih (pushNeighbor zs o (teleporterRecord zs t d dz))
          (by rw [length_pushNeighbor, hl])
          (fun i => by rw [zoneIdOf_pushNeighbor, hid])
        refine ⟨h1, h2, fun a => ?_⟩
        rw [h3 a, neighborsOf_pushNeighbor]
        by_cases hoa : o = a
        · subst hoa
          have hlt : o < zs.length := by rw [hl]; exact ho
          simp only [hlt, and_self, if_true, List.filterMap_cons, hd, if_pos hne,
            teleporterRecord_congr hid, List.append_assoc, List.singleton_append]
        · simp [hoa]
      · simp only [if_neg hne]
        obtain ⟨h1, h2, h3⟩ := ih zs hl hid
        refine ⟨h1, h2, fun a => ?_⟩
        rw [h3 a]
        by_cases hoa : o = a
        · subst hoa
          simp only [if_true, List.filterMap_cons, hd, if_neg hne]
        · simp [hoa]

end PlainBuilder

section PlainBuilder2

variable {α : Type} [LinearOrderedField α]

theorem connectTeleporters_spec (f : Point α → Option Nat) (zones0 : List (BotNavMeshZone α))
    (hf : ∀ p a, f p = some a → a < zones0.length) :
    ∀ (ts : List (Teleporter α)) (zs : List (BotNavMeshZone α)),
      zs.length = zones0.length → (∀ i, zoneIdOf zs i = zoneIdOf zones0 i) →
      ∀ a, neighborsOf (ts.foldl (connectTeleporter f) zs) a =
        neighborsOf zs a ++ teleporterRecordsOf f zones0 ts a := by
  intro ts
  induction ts with
  | nil =>
    intro zs _ _ a
    simp [teleporterRecordsOf]
  | cons t ts ih =>
    intro zs hl hid a
    rw [List.foldl_cons]
    have hrec : teleporterRecordsOf f zones0 (t :: ts) a =
        (if f t.actualPos = some a then
          t.mDest.filterMap (fun d =>
            match f d with
            | some destZone =>
              if a ≠ destZone then some (teleporterRecord zones0 t d destZone) else none
            | none => none)
         else []) ++ teleporterRecordsOf f zones0 ts a := by
      simp only [teleporterRecordsOf, List.flatMap_cons]
    cases ho : f t.actualPos with
    | none =>
      have hc : connectTeleporter f zs t = zs := by simp only [connectTeleporter, ho]
      rw [hc, ih zs hl hid a, hrec, ho]
      simp
    | some o =>
      have hc : connectTeleporter f zs t =
          t.mDest.foldl (fun zs d =>
            match f d with
            | none => zs
            | some destZone =>
              if o ≠ destZone then pushNeighbor zs o (teleporterRecord zs t d destZone)
              else zs) zs := by
        simp only [connectTeleporter, ho]
      obtain ⟨h1, h2, h3⟩ := connectDests_spec f zones0 t o (hf _ _ ho) t.mDest zs hl hid
      rw [hc, ih _ h1 h2 a, h3 a, hrec, ho, List.append_assoc]
      by_cases hoa : o = a
      · subst hoa
        simp
      · have : ¬ (some o = some a) := fun h => hoa (Option.some.inj h)
        simp [hoa, this]

/-- The zone vector that `buildBotNavMeshZoneConnections` leaves behind: the records of
the loop over the zone pairs, followed in each zone by its teleporter records. -/
theorem buildBotNavMeshZoneConnections_spec (distanceTo : Point α → Point α → α)
    (intersectsOrBorders : Nat → Nat → Bool)
    (zonesTouch : Nat → Nat → Option (Point α × Point α))
    (f : Point α → Option Nat) (teleporters : List (Teleporter α))
    (zones : List (BotNavMeshZone α)) (hn : NoNeighbors zones)
    (hf : ∀ p a, f p = some a → a < zones.length) :
    PlainInv distanceTo zones (connectAllZones distanceTo intersectsOrBorders zonesTouch zones) ∧
    ∀ a, neighborsOf (buildBotNavMeshZoneConnections distanceTo intersectsOrBorders zonesTouch f
        teleporters zones) a =
      neighborsOf (connectAllZones distanceTo intersectsOrBorders zonesTouch zones) a ++
        teleporterRecordsOf f zones teleporters a := by
  have hinv := connectAllZones_inv distanceTo intersectsOrBorders zonesTouch hn
  refine ⟨hinv, fun a => ?_⟩
  unfold buildBotNavMeshZoneConnections
  split_ifs with h0
  · have hz : zones = [] := List.length_eq_zero.mp h0
    subst hz
    have hrec : teleporterRecordsOf f ([] : List (BotNavMeshZone α)) teleporters a = [] := by
      unfold teleporterRecordsOf
      rw [List.flatMap_eq_nil_iff]
      intro t _
      rw [if_neg]
      intro hc
      exact absurd (hf _ _ hc) (by simp)
    rw [hrec]
    simp [connectAllZones, neighborsOf]
  · exact connectTeleporters_spec f zones hf teleporters _ hinv.len hinv.ids a

end PlainBuilder2

section RecastBuilder

variable {α : Type} [LinearOrderedField α]

theorem scale_add_half (s e : Point α) :
    Point.scale (Point.add s e) (1 / 2) = segmentMidpoint s e := by
  simp only [Point.add, Point.scale, segmentMidpoint]
  congr 1 <;> ring

theorem edgeInv_start (neighbor : NeighboringZone α) {zones : List (BotNavMeshZone α)}
    (h : NoNeighbors zones) : EdgeInv neighbor zones zones where
  len := rfl
  recip := by
    intro a nb hnb
    rw [neighborsOf_of_noNeighbors h] at hnb
    cases hnb
  recs := by
    intro a nb hnb
    rw [neighborsOf_of_noNeighbors h] at hnb
    cases hnb

theorem connectEdge_inv (mesh : rcPolyMesh) (polyToZoneMap : Nat → Nat)
    (neighbor : NeighboringZone α) {zones0 zs : List (BotNavMeshZone α)}
    (h : EdgeInv neighbor zones0 zs) (e : rcEdge)
    (h0 : polyToZoneMap e.poly0 < zones0.length) (h1 : polyToZoneMap e.poly1 < zones0.length) :
    EdgeInv neighbor zones0 (connectEdge mesh polyToZoneMap neighbor zs e) := by
  unfold connectEdge
  split_ifs with hp
  · have hi1 : polyToZoneMap e.poly0 < zs.length := by rw [h.len]; exact h0
    have hj1 : polyToZoneMap e.poly1 < zs.length := by rw [h.len]; exact h1
    dsimp only
    refine ⟨?_, ?_, ?_⟩
    · rw [length_pushNeighbor, length_pushNeighbor, h.len]
    · exact reciprocal_push_pair h.recip hi1 hj1 _ _ rfl rfl rfl rfl
    · intro a x hx
      rcases mem_neighborsOf_pushNeighbor hx with hx1 | ⟨rfl, rfl, -⟩
      · rcases mem_neighborsOf_pushNeighbor hx1 with hx2 | ⟨rfl, rfl, -⟩
        · exact h.recs a x hx2
        · exact ⟨scale_add_half _ _, rfl, rfl⟩
      · exact ⟨scale_add_half _ _, rfl, rfl⟩
  · exact h

end RecastBuilder

/-! ### The edge table -/

theorem mem_visits {mesh : rcPolyMesh} {v : Nat × Nat × Nat} (h : v ∈ mesh.visits) :
    PolyPresent mesh v.1 := by
  simp only [rcPolyMesh.visits, List.mem_flatMap, List.mem_filter, List.mem_range,
    List.mem_map] at h
  obtain ⟨i, ⟨hi, hp⟩, s, -, rfl⟩ := h
  exact ⟨hi, by simpa using hp⟩

theorem addEdge_chains {mesh : rcPolyMesh} {t : EdgeTable} (h : ChainsOk mesh t) {i : Nat}
    (hi : PolyPresent mesh i) (v0 v1 : Nat) : ChainsOk mesh (addEdge t i v0 v1) := by
  unfold addEdge
  split_ifs with hv
  · refine ⟨?_, ?_, ?_⟩
    · intro v
      simp only [setAt, List.length_append, List.length_singleton]
      split_ifs
      · right
        exact Nat.lt_succ_of_le (Nat.mod_le _ _)
      · rcases h.first v with h1 | h1
        · exact Or.inl h1
        · exact Or.inr (Nat.lt_succ_of_lt h1)
    · intro e he
      simp only [List.length_append, List.length_singleton] at he
      simp only [setAt]
      split_ifs with hc
      · subst hc
        exact h.first v0
      · exact h.next e (by omega)
    · intro e he
      rcases List.mem_append.mp he with he1 | he1
      · exact h.polys e he1
      · rw [List.mem_singleton] at he1
        subst he1
        exact ⟨⟨i, hi, rfl⟩, ⟨i, hi, rfl⟩⟩
  · exact h

theorem matchEdge_total (nextEdge : Nat → Nat) (i v0 : Nat) (edges : List rcEdge)
    (hnext : ∀ e, e < edges.length → nextEdge e = RC_MESH_NULL_IDX ∨ nextEdge e < e) :
    ∀ (fuel e : Nat), 1 ≤ fuel → (e = RC_MESH_NULL_IDX ∨ e + 1 < fuel) →
      ∃ r, matchEdge nextEdge i v0 fuel e edges = some r ∧ r.length = edges.length ∧
        ∀ x ∈ r, x ∈ edges ∨ ∃ y ∈ edges, x = { y with poly1 := i % 65536 } := by
  intro fuel
  induction fuel with
  | zero => intro e h; omega
  | succ k ih =>
    intro e _ he
    rw [matchEdge]
    split_ifs with hnull
    · exact ⟨edges, rfl, rfl, fun x hx => Or.inl hx⟩
    · cases hg : edges.get? e with
      | none => exact ⟨edges, rfl, rfl, fun x hx => Or.inl hx⟩
      | some edge =>
        dsimp only
        have hlt : e < edges.length := by
          by_contra hc
          rw [List.get?_eq_none.mpr (not_lt.mp hc)] at hg
          cases hg
        split_ifs with hm
        · refine ⟨_, rfl, by simp, ?_⟩
          intro x hx
          rcases List.mem_or_eq_of_mem_set hx with hx1 | hx1
          · exact Or.inl hx1
          · exact Or.inr ⟨edge, List.get?_mem hg, hx1⟩
        · have hk : e + 1 < k + 1 := by
            rcases he with he | he
            · exact absurd he hnull
            · exact he
          apply ih (nextEdge e) (by omega)
          rcases hnext e hlt with h1 | h1
          · exact Or.inl h1
          · right; omega

theorem closeEdge_total {mesh : rcPolyMesh} {t : EdgeTable} (h : ChainsOk mesh t) {i : Nat}
    (hi : PolyPresent mesh i) (v0 v1 : Nat) :
    ∃ t1, closeEdge t i v0 v1 = some t1 ∧ ChainsOk mesh t1 := by
  unfold closeEdge
  split_ifs with hv
  · obtain ⟨r, hr, hlen, hmem⟩ := matchEdge_total t.nextEdge i v0 t.edges h.next
      (t.edges.length + 1) (t.firstEdge v1) (by omega)
      (by rcases h.first v1 with h1 | h1
          · exact Or.inl h1
          · right; omega)
    rw [hr]
    refine ⟨_, rfl, ?_, ?_, ?_⟩
    · intro v
      simp only [hlen]
      exact h.first v
    · intro e he
      simp only [hlen] at he
      exact h.next e he
    · intro e he
      rcases hmem e he with h1 | ⟨y, hy, rfl⟩
      · exact h.polys e h1
      · exact ⟨(h.polys y hy).1, ⟨i, hi, rfl⟩⟩
  · exact ⟨t, rfl, h⟩

theorem buildEdges_total (mesh : rcPolyMesh) :
    ∃ t, buildEdges mesh = some t ∧ ChainsOk mesh t := by
  unfold buildEdges
  have h0 : ChainsOk mesh
      { edges := [], firstEdge := fun _ => RC_MESH_NULL_IDX,
        nextEdge := fun _ => RC_MESH_NULL_IDX } :=
    ⟨fun _ => Or.inl rfl, fun _ _ => Or.inl rfl, fun e he => by cases he⟩
  have h1 : ∀ (l : List (Nat × Nat × Nat)) (t : EdgeTable), (∀ v ∈ l, PolyPresent mesh v.1) →
      ChainsOk mesh t → ChainsOk mesh (l.foldl (fun t v => addEdge t v.1 v.2.1 v.2.2) t) := by
    intro l
    induction l with
    | nil => intro t _ ht; exact ht
    | cons v l ih =>
      intro t hl ht
      exact ih _ (fun w hw => hl w (List.mem_cons_of_mem _ hw))
        (addEdge_chains ht (hl v (List.mem_cons_self _ _)) _ _)
  have h2 : ∀ (l : List (Nat × Nat × Nat)) (t : EdgeTable), (∀ v ∈ l, PolyPresent mesh v.1) →
      ChainsOk mesh t →
      ∃ t1, l.foldl (fun t v =>
          match t with
          | some t2 => closeEdge t2 v.1 v.2.1 v.2.2
          | none => none) (some t) = some t1 ∧ ChainsOk mesh t1 := by
    intro l
    induction l with
    | nil => intro t _ ht; exact ⟨t, rfl, ht⟩
    | cons v l ih =>
      intro t hl ht
      obtain ⟨t1, ht1, hc1⟩ := closeEdge_total ht (hl v (List.mem_cons_self _ _)) v.2.1 v.2.2
      rw [List.foldl_cons]
      simp only [ht1]
      exact ih t1 (fun w hw => hl w (List.mem_cons_of_mem _ hw)) hc1
  exact h2 _ _ (fun v hv => mem_visits hv) (h1 _ _ (fun v hv => mem_visits hv) h0)


/-! ## Adjacency builders: theorems -/

section BuilderThms

variable {α : Type} [LinearOrderedField α]

/-- The zone vector that `buildBotNavMeshZoneConnectionsRecastStyle` leaves behind. -/
theorem recastStyle_spec (mesh : rcPolyMesh) (polyToZoneMap : Nat → Nat)
    (neighbor : NeighboringZone α) (zones : List (BotNavMeshZone α)) (hn : NoNeighbors zones)
    (hmap : ∀ i, PolyPresent mesh i → polyToZoneMap (i % 65536) < zones.length) :
    ∃ out, buildBotNavMeshZoneConnectionsRecastStyle mesh polyToZoneMap neighbor zones =
      some out ∧ EdgeInv neighbor zones out := by
  unfold buildBotNavMeshZoneConnectionsRecastStyle
  split_ifs with h0
  · exact ⟨zones, rfl, edgeInv_start neighbor hn⟩
  · obtain ⟨t, ht, hc⟩ := buildEdges_total mesh
    rw [ht]
    refine ⟨_, rfl, ?_⟩
    refine foldl_inv (EdgeInv neighbor zones) _ _ _ (edgeInv_start neighbor hn) ?_
    intro e he s hs
    obtain ⟨⟨i0, hi0, he0⟩, ⟨i1, hi1, he1⟩⟩ := hc.polys e he
    exact connectEdge_inv mesh polyToZoneMap neighbor hs e
      (by rw [he0]; exact hmap i0 hi0) (by rw [he1]; exact hmap i1 hi1)

theorem noNeighbors_exampleRowZones : NoNeighbors exampleRowZones := by
  intro z hz
  simp only [exampleRowZones, List.mem_cons, List.mem_singleton, List.not_mem_nil, or_false] at hz
  rcases hz with rfl | rfl | rfl <;> rfl

theorem exampleRowFind_lt (p : Point Rat) (a : Nat) (h : exampleRowFind p = some a) :
    a < exampleRowZones.length := by
  unfold exampleRowFind at h
  split_ifs at h <;> cases h <;> decide

theorem exampleRowMesh_present (i : Nat) (h : PolyPresent exampleRowMesh i) :
    (fun k : Nat => k) (i % 65536) < exampleRowZones.length := by
  have h1 : i < 3 := h.1
  show i % 65536 < 3
  omega

/-- C14: after either adjacency builder has run on zones that have just been created,
every neighbour record that is not a teleporter record has a counterpart in the zone it
leads to, which leads back and has the same `borderStart` and `borderEnd`.  For the
aggregated builder (which makes no teleporter records) this is every record, provided the
polygon-to-zone map names an existing zone for every present polygon.  For the builder over
zone pairs the records of a zone are those of the pair loop followed by its teleporter
records, and every record of the pair loop has its counterpart. -/
theorem C14_reciprocal_records (distanceTo : Point α → Point α → α)
    (intersectsOrBorders : Nat → Nat → Bool)
    (zonesTouch : Nat → Nat → Option (Point α × Point α))
    (findZoneContainingPoint : Point α → Option Nat) (teleporters : List (Teleporter α))
    (mesh : rcPolyMesh) (polyToZoneMap : Nat → Nat) (neighbor : NeighboringZone α)
    (zones : List (BotNavMeshZone α)) (hn : NoNeighbors zones)
    (hf : ∀ p a, findZoneContainingPoint p = some a → a < zones.length)
    (hmap : ∀ i, PolyPresent mesh i → polyToZoneMap (i % 65536) < zones.length) :
    (∃ out, buildBotNavMeshZoneConnectionsRecastStyle mesh polyToZoneMap neighbor zones =
        some out ∧
      ∀ a nb, nb ∈ neighborsOf out a →
        ∃ nb1 ∈ neighborsOf out nb.zoneID,
          nb1.zoneID = a ∧ nb1.borderStart = nb.borderStart ∧ nb1.borderEnd = nb.borderEnd) ∧
    (∀ a, neighborsOf (buildBotNavMeshZoneConnections distanceTo intersectsOrBorders zonesTouch
          findZoneContainingPoint teleporters zones) a =
        neighborsOf (connectAllZones distanceTo intersectsOrBorders zonesTouch zones) a ++
          teleporterRecordsOf findZoneContainingPoint zones teleporters a) ∧
    ∀ a nb, nb ∈ neighborsOf (connectAllZones distanceTo intersectsOrBorders zonesTouch zones) a →
      ∃ nb1 ∈ neighborsOf (buildBotNavMeshZoneConnections distanceTo intersectsOrBorders
          zonesTouch findZoneContainingPoint teleporters zones) nb.zoneID,
        nb1.zoneID = a ∧ nb1.borderStart = nb.borderStart ∧ nb1.borderEnd = nb.borderEnd := by
  obtain ⟨out, hout, hinv⟩ := recastStyle_spec mesh polyToZoneMap neighbor zones hn hmap
  obtain ⟨hp, hrec⟩ := buildBotNavMeshZoneConnections_spec distanceTo intersectsOrBorders
    zonesTouch findZoneContainingPoint teleporters zones hn hf
  refine ⟨⟨out, hout, hinv.recip⟩, hrec, ?_⟩
  intro a nb hnb
  obtain ⟨nb1, h1, h2⟩ := hp.recip a nb hnb
  refine ⟨nb1, ?_, h2⟩
  rw [hrec]
  exact List.mem_append_left _ h1

/-- Instance of C14: the row of three zones with its mesh and its teleporter. -/
theorem C14_reciprocal_records_witness :
    (∃ out, buildBotNavMeshZoneConnectionsRecastStyle exampleRowMesh (fun k => k)
        exampleNeighbor exampleRowZones = some out ∧
      ∀ a nb, nb ∈ neighborsOf out a →
        ∃ nb1 ∈ neighborsOf out nb.zoneID,
          nb1.zoneID = a ∧ nb1.borderStart = nb.borderStart ∧ nb1.borderEnd = nb.borderEnd) ∧
    (∀ a, neighborsOf (buildBotNavMeshZoneConnections exampleEuclid exampleRowBorders
          exampleRowTouch exampleRowFind exampleRowTeleporters exampleRowZones) a =
        neighborsOf (connectAllZones exampleEuclid exampleRowBorders exampleRowTouch
          exampleRowZones) a ++
          teleporterRecordsOf exampleRowFind exampleRowZones exampleRowTeleporters a) ∧
    ∀ a nb, nb ∈ neighborsOf (connectAllZones exampleEuclid exampleRowBorders exampleRowTouch
        exampleRowZones) a →
      ∃ nb1 ∈ neighborsOf (buildBotNavMeshZoneConnections exampleEuclid exampleRowBorders
          exampleRowTouch exampleRowFind exampleRowTeleporters exampleRowZones) nb.zoneID,
        nb1.zoneID = a ∧ nb1.borderStart = nb.borderStart ∧ nb1.borderEnd = nb.borderEnd :=
  C14_reciprocal_records exampleEuclid exampleRowBorders exampleRowTouch exampleRowFind
    exampleRowTeleporters exampleRowMesh (fun k => k) exampleNeighbor exampleRowZones
    noNeighbors_exampleRowZones exampleRowFind_lt exampleRowMesh_present

/-- C15 (the code departs from the claim): a level with three zones in a row and a
teleporter whose entry (5,5) lies in zone 0 and whose destination (25,5) lies in zone 2.
The aggregated builder `buildBotNavMeshZoneConnectionsRecastStyle`, the one that generator
mode 6 runs, leaves zone 0 with its mesh record to zone 1 only: there is no record with
target 2, start (5,5), end (25,5) and cost 0.  The builder over zone pairs
`buildBotNavMeshZoneConnections` does add that record to zone 0, and none to zone 2. -/
theorem C15_no_teleporter_record_in_aggregated_build :
    exampleRowFind ⟨5, 5⟩ = some 0 ∧ exampleRowFind ⟨25, 5⟩ = some 2 ∧
    buildBotNavMeshZoneConnectionsRecastStyle exampleRowMesh (fun k => k) exampleNeighbor
      exampleRowZones = some exampleRowAggregated ∧
    (∀ nb ∈ neighborsOf exampleRowAggregated 0, nb.zoneID ≠ 2) ∧
    buildBotNavMeshZoneConnections exampleEuclid exampleRowBorders exampleRowTouch
      exampleRowFind exampleRowTeleporters exampleRowZones = exampleRowBuilt ∧
    ({ zoneID := 2, borderStart := ⟨5, 5⟩, borderEnd := ⟨25, 5⟩, borderCenter := ⟨5, 5⟩,
       center := ⟨5, 5⟩, distTo := 0 } : NeighboringZone Rat) ∈ neighborsOf exampleRowBuilt 0 ∧
    ∀ nb ∈ neighborsOf exampleRowBuilt 2, nb.zoneID ≠ 0 := by
  decide!

/-- C19, the claim as stated fails: two triangular zones that share the side from (0,0)
to (18,0).  Zone 0 has centroid (6,4), and the centre of its extent is (9,6).  The builder
over zone pairs gives the record from zone 0 to zone 1 the border centre (9,0) and the cost
6, the distance from the extent centre; the distance from the centroid is 5. -/
theorem C19_counterexample :
    neighborsOf (buildBotNavMeshZoneConnections exampleEuclid (fun _ _ => true)
        exampleTriangleTouch (fun _ => none) [] exampleTriangleZones) 0 =
      [{ zoneID := 1, borderStart := ⟨0, 0⟩, borderEnd := ⟨18, 0⟩, borderCenter := ⟨9, 0⟩,
         center := ⟨9, -6⟩, distTo := 6 }] ∧
    exampleTriangleZones.map (fun z => z.mCentroid) = [⟨6, 4⟩, ⟨12, -4⟩] ∧
    exampleEuclid ⟨6, 4⟩ ⟨9, 0⟩ = 5 ∧ exampleEuclid ⟨9, 6⟩ ⟨9, 0⟩ = 6 := by
  decide!

/-- C19 (as found in the code): on zones that have just been created, every record that
the loop over the zone pairs of `buildBotNavMeshZoneConnections` makes (the records of the
function other than its teleporter records) has as cost the distance from the centre of
the extent of its zone to its border centre, and its border centre is the midpoint of
`borderStart` and `borderEnd`.  Every record of the aggregated builder has the midpoint as
border centre as well. -/
theorem C19_cost_and_border_center (distanceTo : Point α → Point α → α)
    (intersectsOrBorders : Nat → Nat → Bool)
    (zonesTouch : Nat → Nat → Option (Point α × Point α))
    (findZoneContainingPoint : Point α → Option Nat) (teleporters : List (Teleporter α))
    (mesh : rcPolyMesh) (polyToZoneMap : Nat → Nat) (neighbor : NeighboringZone α)
    (zones : List (BotNavMeshZone α)) (hn : NoNeighbors zones)
    (hf : ∀ p a, findZoneContainingPoint p = some a → a < zones.length)
    (hmap : ∀ i, PolyPresent mesh i → polyToZoneMap (i % 65536) < zones.length) :
    (∀ a, neighborsOf (buildBotNavMeshZoneConnections distanceTo intersectsOrBorders zonesTouch
          findZoneContainingPoint teleporters zones) a =
        neighborsOf (connectAllZones distanceTo intersectsOrBorders zonesTouch zones) a ++
          teleporterRecordsOf findZoneContainingPoint zones teleporters a) ∧
    (∀ a nb, nb ∈ neighborsOf (connectAllZones distanceTo intersectsOrBorders zonesTouch zones) a →
      nb.distTo = distanceTo (getCenter zones a) nb.borderCenter ∧
      nb.borderCenter = segmentMidpoint nb.borderStart nb.borderEnd) ∧
    ∃ out, buildBotNavMeshZoneConnectionsRecastStyle mesh polyToZoneMap neighbor zones =
        some out ∧
      ∀ a nb, nb ∈ neighborsOf out a →
        nb.borderCenter = segmentMidpoint nb.borderStart nb.borderEnd := by
  obtain ⟨out, hout, hinv⟩ := recastStyle_spec mesh polyToZoneMap neighbor zones hn hmap
  obtain ⟨hp, hrec⟩ := buildBotNavMeshZoneConnections_spec distanceTo intersectsOrBorders
    zonesTouch findZoneContainingPoint teleporters zones hn hf
  refine ⟨hrec, ?_, ⟨out, hout, fun a nb hnb => (hinv.recs a nb hnb).1⟩⟩
  intro a nb hnb
  obtain ⟨h1, h2, -⟩ := hp.costs a nb hnb
  rw [hp.centers] at h1
  exact ⟨h1, h2⟩

/-- Instance of C19 (as found in the code): the row of three zones. -/
theorem C19_cost_and_border_center_witness :
    (∀ a, neighborsOf (buildBotNavMeshZoneConnections exampleEuclid exampleRowBorders
          exampleRowTouch exampleRowFind exampleRowTeleporters exampleRowZones) a =
        neighborsOf (connectAllZones exampleEuclid exampleRowBorders exampleRowTouch
          exampleRowZones) a ++
          teleporterRecordsOf exampleRowFind exampleRowZones exampleRowTeleporters a) ∧
    (∀ a nb, nb ∈ neighborsOf (connectAllZones exampleEuclid exampleRowBorders exampleRowTouch
        exampleRowZones) a →
      nb.distTo = exampleEuclid (getCenter exampleRowZones a) nb.borderCenter ∧
      nb.borderCenter = segmentMidpoint nb.borderStart nb.borderEnd) ∧
    ∃ out, buildBotNavMeshZoneConnectionsRecastStyle exampleRowMesh (fun k => k)
        exampleNeighbor exampleRowZones = some out ∧
      ∀ a nb, nb ∈ neighborsOf out a →
        nb.borderCenter = segmentMidpoint nb.borderStart nb.borderEnd :=
  C19_cost_and_border_center exampleEuclid exampleRowBorders exampleRowTouch exampleRowFind
    exampleRowTeleporters exampleRowMesh (fun k => k) exampleNeighbor exampleRowZones
    noNeighbors_exampleRowZones exampleRowFind_lt exampleRowMesh_present

/-- Instance of C20: in the row of three zones, the gateway from zone 1 to zone 2 is the
midpoint (20,5) of the border of the second record of zone 1. -/
theorem C20_gateway_from_zone_to_zone_witness :
    getGatewayFromZoneToZone exampleRowBuilt 1 2 =
      some (segmentMidpoint (⟨20, 0⟩ : Point Rat) ⟨20, 10⟩) :=
  (C20_gateway_from_zone_to_zone exampleRowBuilt 1 2).2.2.2
    ⟨by decide, by decide, by decide, by decide⟩
    [{ zoneID := 0, borderStart := ⟨10, 0⟩, borderEnd := ⟨10, 10⟩, borderCenter := ⟨10, 5⟩,
       center := ⟨5, 5⟩, distTo := 5 }] []
    { zoneID := 2, borderStart := ⟨20, 0⟩, borderEnd := ⟨20, 10⟩, borderCenter := ⟨20, 5⟩,
      center := ⟨25, 5⟩, distTo := 5 } rfl (by simp) rfl

end BuilderThms
/-! ## Removal of unused zones: lemmas -/

set_option linter.unusedSectionVars false

section PruneLemmas

variable {α : Type}

theorem length_setFlag (zs : List (BotNavMeshZone α)) (i : Nat) (v : Bool) :
    (setFlag zs i v).length = zs.length := by
  simp [setFlag]

theorem get?_setFlag (zs : List (BotNavMeshZone α)) (i a : Nat) (v : Bool) :
    (setFlag zs i v).get? a =
      if i = a then (zs.get? a).map (fun z => { z with flag := v }) else zs.get? a := by
  simp only [setFlag, List.get?_eq_getElem?, List.getElem?_modify]
  split <;> simp

theorem get?_map_eq {β γ : Type} (f : β → γ) (l : List β) (i : Nat) :
    (l.map f).get? i = (l.get? i).map f := by
  simp [List.get?_eq_getElem?]

theorem get?_lt {β : Type} {l : List β} {i : Nat} {z : β} (h : l.get? i = some z) :
    i < l.length := by
  by_contra hc
  rw [List.get?_eq_none.mpr (not_lt.mp hc)] at h
  cases h

theorem flagOf_lt {zs : List (BotNavMeshZone α)} {i : Nat} (h : flagOf zs i = true) :
    i < zs.length := by
  unfold flagOf at h
  cases hz : zs.get? i with
  | none => rw [hz] at h; cases h
  | some z => exact get?_lt hz

theorem flagOf_setFlag (zs : List (BotNavMeshZone α)) (i a : Nat) :
    flagOf (setFlag zs i true) a = (decide (i = a ∧ a < zs.length) || flagOf zs a) := by
  unfold flagOf
  rw [get?_setFlag]
  by_cases h : i = a
  · subst h
    cases hz : zs.get? i with
    | none =>
      have hl : ¬ i < zs.length := not_lt.mpr (List.get?_eq_none.mp hz)
      simp [hl]
    | some z =>
      have hl : i < zs.length := get?_lt hz
      simp [hl]
  · simp [h]

theorem clearFlags_setFlag (zs : List (BotNavMeshZone α)) (i : Nat) (v : Bool) :
    clearFlags (setFlag zs i v) = clearFlags zs := by
  apply List.ext_get?
  intro a
  simp only [clearFlags, get?_map_eq, get?_setFlag]
  split
  · cases zs.get? a <;> rfl
  · rfl

theorem clearFlags_clearFlags (zs : List (BotNavMeshZone α)) :
    clearFlags (clearFlags zs) = clearFlags zs := by
  simp [clearFlags, List.map_map, Function.comp_def]

theorem length_clearFlags (zs : List (BotNavMeshZone α)) :
    (clearFlags zs).length = zs.length := by
  simp [clearFlags]

theorem flagOf_clearFlags (zs : List (BotNavMeshZone α)) (i : Nat) :
    flagOf (clearFlags zs) i = false := by
  unfold flagOf clearFlags
  rw [get?_map_eq]
  cases zs.get? i <;> rfl

theorem length_eq_of_clearFlags {zs zs1 : List (BotNavMeshZone α)}
    (h : clearFlags zs = clearFlags zs1) : zs.length = zs1.length := by
  rw [← length_clearFlags zs, h, length_clearFlags]

/-- Two zone vectors that differ in their marks only hold, slot by slot, zones of the same
id, extent centre and neighbour records. -/
theorem get?_of_clearFlags {zs zs1 : List (BotNavMeshZone α)}
    (h : clearFlags zs = clearFlags zs1) {i : Nat} {z : BotNavMeshZone α}
    (hz : zs.get? i = some z) :
    ∃ z1, zs1.get? i = some z1 ∧ z.mZoneId = z1.mZoneId ∧ z.extentCenter = z1.extentCenter ∧
      z.mNeighbors = z1.mNeighbors := by
  have h1 : (clearFlags zs).get? i = (clearFlags zs1).get? i := by rw [h]
  simp only [clearFlags, get?_map_eq, hz, Option.map_some'] at h1
  cases hz1 : zs1.get? i with
  | none => rw [hz1] at h1; cases h1
  | some z1 =>
    rw [hz1] at h1
    simp only [Option.map_some', Option.some.injEq, BotNavMeshZone.mk.injEq] at h1
    exact ⟨z1, rfl, h1.1, h1.2.1, h1.2.2.1⟩

theorem findZoneContaining_congr (fillVector : Point α → List Nat)
    (contains : Nat → Point α → Bool) {zs zs1 : List (BotNavMeshZone α)}
    (h : clearFlags zs = clearFlags zs1) (p : Point α) :
    findZoneContaining fillVector contains zs p = findZoneContaining fillVector contains zs1 p := by
  unfold findZoneContaining
  cases (fillVector p).find? (fun i => contains i p) with
  | none => rfl
  | some i =>
    dsimp only
    cases hz : zs.get? i with
    | none =>
      have : zs1.get? i = none := by
        rw [List.get?_eq_none] at hz ⊢
        rw [← length_eq_of_clearFlags h]
        exact hz
      rw [this]
    | some z =>
      obtain ⟨z1, hz1, hid, -, -⟩ := get?_of_clearFlags h hz
      rw [hz1]
      simp only [hid]

end PruneLemmas

section PruneLemmas2

variable {α : Type}

theorem seeds_spec (fillVector : Point α → List Nat) (contains : Nat → Point α → Bool)
    (zones : List (BotNavMeshZone α)) :
    ∀ (ps : List (Point α)) (st : List (BotNavMeshZone α) × List Nat),
      clearFlags st.1 = clearFlags zones →
      clearFlags (ps.foldl (seedZone fillVector contains) st).1 = clearFlags zones ∧
      (ps.foldl (seedZone fillVector contains) st).2 =
        st.2 ++ (ps.map (findZoneContaining fillVector contains zones)).filter
          (fun s => decide (s < U16_MAX)) ∧
      ∀ i, flagOf (ps.foldl (seedZone fillVector contains) st).1 i = true ↔
        flagOf st.1 i = true ∨
          (i < zones.length ∧
            i ∈ (ps.map (findZoneContaining fillVector contains zones)).filter
              (fun s => decide (s < U16_MAX))) := by
  intro ps
  induction ps with
  | nil =>
    intro st h
    refine ⟨h, by simp, fun i => by simp⟩
  | cons p ps ih =>
    intro st h
    rw [List.foldl_cons]
    have hfind : findZoneContaining fillVector contains st.1 p =
        findZoneContaining fillVector contains zones p :=
      findZoneContaining_congr fillVector contains h p
    have hlen : st.1.length = zones.length := length_eq_of_clearFlags h
    by_cases hs : findZoneContaining fillVector contains zones p < U16_MAX
    · have hst : seedZone fillVector contains st p =
          (setFlag st.1 (findZoneContaining fillVector contains zones p) true,
            st.2 ++ [findZoneContaining fillVector contains zones p]) := by
        simp only [seedZone, hfind, if_pos hs]
      obtain ⟨h1, h2, h3⟩ := ih (seedZone fillVector contains st p)
        (by rw [hst]; simp only [clearFlags_setFlag]; exact h)
      refine ⟨h1, ?_, ?_⟩
      · rw [h2, hst]
        simp [List.filter_cons, hs]
      · intro i
        rw [h3 i, hst]
        simp only [flagOf_setFlag, Bool.or_eq_true, decide_eq_true_eq, List.map_cons,
          List.filter_cons, hs, decide_True, if_true, List.mem_cons, hlen]
        constructor
        · rintro (⟨⟨rfl, h5⟩ | h5⟩ | ⟨h5, h6⟩)
          · exact Or.inr ⟨h5, Or.inl rfl⟩
          · exact Or.inl h5
          · exact Or.inr ⟨h5, Or.inr h6⟩
        · rintro (h5 | ⟨h5, rfl | h6⟩)
          · exact Or.inl (Or.inr h5)
          · exact Or.inl (Or.inl ⟨rfl, h5⟩)
          · exact Or.inr ⟨h5, h6⟩
    · have hst : seedZone fillVector contains st p = st := by
        simp only [seedZone, hfind, if_neg hs]
      rw [hst]
      obtain ⟨h1, h2, h3⟩ := ih st h
      refine ⟨h1, ?_, ?_⟩
      · rw [h2]
        simp [List.filter_cons, hs]
      · intro i
        rw [h3 i]
        simp [List.filter_cons, hs]

theorem visitZone_cases (intersectsOrBorders zonesTouch : Nat → Nat → Bool) (z : Nat)
    (st : List (BotNavMeshZone α) × List Nat) (i : Nat) :
    (visitZone intersectsOrBorders zonesTouch z st i = st ∧
      (¬ (z ≠ i ∧ intersectsOrBorders z i = true ∧ zonesTouch z i = true) ∨
        flagOf st.1 i = true)) ∨
    (z ≠ i ∧ intersectsOrBorders z i = true ∧ zonesTouch z i = true ∧ flagOf st.1 i = false ∧
      visitZone intersectsOrBorders zonesTouch z st i =
        (setFlag st.1 i true, st.2 ++ [i % 65536])) := by
  unfold visitZone
  by_cases h1 : i = z
  · left
    rw [if_pos h1]
    exact ⟨rfl, Or.inl (fun h => h.1 h1.symm)⟩
  · rw [if_neg h1]
    by_cases h2 : intersectsOrBorders z i = true
    · by_cases h3 : zonesTouch z i = true
      · by_cases h4 : flagOf st.1 i = true
        · left
          simp [h2, h3, h4]
        · right
          have h5 : flagOf st.1 i = false := by simpa using h4
          refine ⟨fun h => h1 h.symm, h2, h3, h5, ?_⟩
          simp [h2, h3, h5]
      · left
        simp [h2, h3]
    · left
      simp [h2]

theorem countP_drop_one (p q : Nat → Bool) (i : Nat) (hp : p i = true) (hq : q i = false) :
    ∀ l : List Nat, l.Nodup → i ∈ l → (∀ j, j ≠ i → q j = p j) →
      l.countP q + 1 = l.countP p
  | [], _, h, _ => by cases h
  | x :: l, hnd, hmem, hpq => by
    have hnd1 := List.nodup_cons.mp hnd
    by_cases hx : x = i
    · subst hx
      have hrest : l.countP q = l.countP p := by
        apply List.countP_congr
        intro j hj
        have : j ≠ x := fun h => hnd1.1 (h ▸ hj)
        rw [hpq j this]
      simp [List.countP_cons, hp, hq, hrest]
    · have hmem1 : i ∈ l := by
        rcases List.mem_cons.mp hmem with h | h
        · exact absurd h.symm hx
        · exact h
      have ih := countP_drop_one p q i hp hq l hnd1.2 hmem1 hpq
      simp only [List.countP_cons, hpq x hx]
      omega

theorem visitZone_length (intersectsOrBorders zonesTouch : Nat → Nat → Bool) (z : Nat)
    (st : List (BotNavMeshZone α) × List Nat) (i : Nat) :
    (visitZone intersectsOrBorders zonesTouch z st i).1.length = st.1.length := by
  rcases visitZone_cases intersectsOrBorders zonesTouch z st i with ⟨h, -⟩ | ⟨-, -, -, -, h⟩
  · rw [h]
  · rw [h]
    exact length_setFlag _ _ _

theorem visitZone_measure (intersectsOrBorders zonesTouch : Nat → Nat → Bool) (z : Nat)
    (st : List (BotNavMeshZone α) × List Nat) (i : Nat) (hi : i < st.1.length) :
    pruneMeasure (visitZone intersectsOrBorders zonesTouch z st i) ≤ pruneMeasure st := by
  rcases visitZone_cases intersectsOrBorders zonesTouch z st i with ⟨h, -⟩ | ⟨-, -, -, hf, h⟩
  · rw [h]
  · rw [h]
    have hc := countP_drop_one (fun j => !flagOf st.1 j)
      (fun j => !flagOf (setFlag st.1 i true) j) i (by simp [hf])
      (by simp [flagOf_setFlag, hi]) (List.range st.1.length) (List.nodup_range _)
      (List.mem_range.mpr hi)
      (by
        intro j hj
        have : ¬ i = j := fun h => hj h.symm
        simp [flagOf_setFlag, this])
    simp only [pruneMeasure, length_setFlag, List.length_append, List.length_singleton]
    omega

theorem foldl_visitZone_measure (intersectsOrBorders zonesTouch : Nat → Nat → Bool) (z : Nat) :
    ∀ (js : List Nat) (st : List (BotNavMeshZone α) × List Nat),
      (∀ j ∈ js, j < st.1.length) →
      pruneMeasure (js.foldl (visitZone intersectsOrBorders zonesTouch z) st) ≤ pruneMeasure st
  | [], _, _ => le_refl _
  | j :: js, st, h => by
    rw [List.foldl_cons]
    have h1 := visitZone_measure intersectsOrBorders zonesTouch z st j
      (h j (List.mem_cons_self _ _))
    have h2 := foldl_visitZone_measure intersectsOrBorders zonesTouch z js
      (visitZone intersectsOrBorders zonesTouch z st j)
      (fun k hk => by
        rw [visitZone_length]
        exact h k (List.mem_cons_of_mem _ hk))
    exact le_trans h2 h1

/-- The loop over `inProcessList` ends within `pruneMeasure` rounds, and what every round
keeps true holds at its end, when the list is empty. -/
theorem processZones_induct (intersectsOrBorders zonesTouch : Nat → Nat → Bool)
    (P : List (BotNavMeshZone α) × List Nat → Prop)
    (hstep : ∀ st z, P st → st.2.getLast? = some z →
      P ((List.range st.1.length).foldl (visitZone intersectsOrBorders zonesTouch z)
        (st.1, st.2.dropLast))) :
    ∀ (fuel : Nat) (st : List (BotNavMeshZone α) × List Nat), pruneMeasure st < fuel → P st →
      ∃ zs, processZones intersectsOrBorders zonesTouch fuel st = some zs ∧ P (zs, []) := by
  intro fuel
  induction fuel with
  | zero => intro st h; omega
  | succ k ih =>
    intro st hm hP
    rw [processZones]
    cases hl : st.2.getLast? with
    | none =>
      have hnil : st.2 = [] := List.getLast?_eq_none_iff.mp hl
      refine ⟨st.1, rfl, ?_⟩
      rw [← hnil]
      exact hP
    | some z =>
      dsimp only
      apply ih _ _ (hstep st z hP hl)
      have h1 := foldl_visitZone_measure intersectsOrBorders zonesTouch z
        (List.range st.1.length) (st.1, st.2.dropLast) (fun j hj => List.mem_range.mp hj)
      have hne : st.2 ≠ [] := by
        intro h0
        rw [h0] at hl
        cases hl
      have h2 : pruneMeasure (st.1, st.2.dropLast) + 1 = pruneMeasure st := by
        simp only [pruneMeasure, List.length_dropLast]
        have : 0 < st.2.length := List.length_pos.mpr hne
        omega
      omega

end PruneLemmas2

section PruneLemmas3

variable {α : Type}

theorem flagOf_setFlag_mono {zs : List (BotNavMeshZone α)} {i : Nat} (j : Nat)
    (h : flagOf zs i = true) : flagOf (setFlag zs j true) i = true := by
  rw [flagOf_setFlag, h, Bool.or_true]

theorem visitZone_inv (fillVector : Point α → List Nat) (contains : Nat → Point α → Bool)
    (intersectsOrBorders zonesTouch : Nat → Nat → Bool)
    (zones : List (BotNavMeshZone α)) (gameType : GameType α) (teleporters : List (Teleporter α))
    (hn : zones.length ≤ U16_MAX) (z : Nat)
    (hz : Appears fillVector contains intersectsOrBorders zonesTouch zones gameType teleporters z)
    (done : List Nat) (st : List (BotNavMeshZone α) × List Nat)
    (h : VisitInv fillVector contains intersectsOrBorders zonesTouch zones gameType teleporters
      z done st) (j : Nat) (hj : j < zones.length) :
    VisitInv fillVector contains intersectsOrBorders zonesTouch zones gameType teleporters
      z (done ++ [j]) (visitZone intersectsOrBorders zonesTouch z st j) := by
  rcases visitZone_cases intersectsOrBorders zonesTouch z st j with
    ⟨heq, hc⟩ | ⟨h1, h2, h3, h4, heq⟩
  · rw [heq]
    refine ⟨h.same, h.sound, h.seeds, h.closed, h.listed, ?_⟩
    intro k hk ht
    rcases List.mem_append.mp hk with hk1 | hk1
    · exact h.seen k hk1 ht
    · rw [List.mem_singleton] at hk1
      subst hk1
      rcases hc with hc | hc
      · exact absurd ⟨ht.1, ht.2.2.1, ht.2.2.2⟩ hc
      · exact hc
  · have hmod : j % 65536 = j := Nat.mod_eq_of_lt (by unfold U16_MAX at hn; omega)
    have hlen : st.1.length = zones.length := length_eq_of_clearFlags h.same
    have hjf : flagOf (setFlag st.1 j true) j = true := by
      rw [flagOf_setFlag]
      simp [hlen, hj]
    rw [heq, hmod]
    refine ⟨?_, ?_, ?_, ?_, ?_, ?_⟩
    · show clearFlags (setFlag st.1 j true) = clearFlags zones
      rw [clearFlags_setFlag]
      exact h.same
    · intro i hi
      change flagOf (setFlag st.1 j true) i = true at hi
      rw [flagOf_setFlag, Bool.or_eq_true, decide_eq_true_eq] at hi
      rcases hi with ⟨rfl, -⟩ | hi
      · obtain ⟨s, hs, hr⟩ := hz
        exact ⟨s, hs, hr.tail ⟨h1, hj, h2, h3⟩⟩
      · exact h.sound i hi
    · intro s hs
      exact flagOf_setFlag_mono j (h.seeds s hs)
    · intro i hi
      change flagOf (setFlag st.1 j true) i = true at hi
      show i ∈ st.2 ++ [j] ∨ i = z ∨ ∀ k, TouchStep intersectsOrBorders zonesTouch zones.length i k →
        flagOf (setFlag st.1 j true) k = true
      rw [flagOf_setFlag, Bool.or_eq_true, decide_eq_true_eq] at hi
      rcases hi with ⟨rfl, -⟩ | hi
      · exact Or.inl (List.mem_append_right _ (List.mem_singleton_self _))
      · rcases h.closed i hi with h5 | h5 | h5
        · exact Or.inl (List.mem_append_left _ h5)
        · exact Or.inr (Or.inl h5)
        · exact Or.inr (Or.inr (fun k hk => flagOf_setFlag_mono j (h5 k hk)))
    · intro i hi
      show flagOf (setFlag st.1 j true) i = true
      rcases List.mem_append.mp hi with hi1 | hi1
      · exact flagOf_setFlag_mono j (h.listed i hi1)
      · rw [List.mem_singleton] at hi1
        subst hi1
        exact hjf
    · intro k hk ht
      show flagOf (setFlag st.1 j true) k = true
      rcases List.mem_append.mp hk with hk1 | hk1
      · exact flagOf_setFlag_mono j (h.seen k hk1 ht)
      · rw [List.mem_singleton] at hk1
        subst hk1
        exact hjf

theorem foldl_visitZone_inv (fillVector : Point α → List Nat) (contains : Nat → Point α → Bool)
    (intersectsOrBorders zonesTouch : Nat → Nat → Bool)
    (zones : List (BotNavMeshZone α)) (gameType : GameType α) (teleporters : List (Teleporter α))
    (hn : zones.length ≤ U16_MAX) (z : Nat)
    (hz : Appears fillVector contains intersectsOrBorders zonesTouch zones gameType teleporters z) :
    ∀ (js done : List Nat) (st : List (BotNavMeshZone α) × List Nat),
      VisitInv fillVector contains intersectsOrBorders zonesTouch zones gameType teleporters
        z done st → (∀ j ∈ js, j < zones.length) →
      VisitInv fillVector contains intersectsOrBorders zonesTouch zones gameType teleporters
        z (done ++ js) (js.foldl (visitZone intersectsOrBorders zonesTouch z) st)
  | [], done, st, h, _ => by
    rw [List.append_nil]
    exact h
  | j :: js, done, st, h, hjs => by
    rw [List.foldl_cons]
    have h1 := visitZone_inv fillVector contains intersectsOrBorders zonesTouch zones gameType
      teleporters hn z hz done st h j (hjs j (List.mem_cons_self _ _))
    have h2 := foldl_visitZone_inv fillVector contains intersectsOrBorders zonesTouch zones
      gameType teleporters hn z hz js (done ++ [j]) _ h1
      (fun k hk => hjs k (List.mem_cons_of_mem _ hk))
    rw [List.append_assoc, List.singleton_append] at h2
    exact h2

theorem pruneInv_step (fillVector : Point α → List Nat) (contains : Nat → Point α → Bool)
    (intersectsOrBorders zonesTouch : Nat → Nat → Bool)
    (zones : List (BotNavMeshZone α)) (gameType : GameType α) (teleporters : List (Teleporter α))
    (hn : zones.length ≤ U16_MAX) (st : List (BotNavMeshZone α) × List Nat) (z : Nat)
    (h : PruneInv fillVector contains intersectsOrBorders zonesTouch zones gameType teleporters st)
    (hl : st.2.getLast? = some z) :
    PruneInv fillVector contains intersectsOrBorders zonesTouch zones gameType teleporters
      ((List.range st.1.length).foldl (visitZone intersectsOrBorders zonesTouch z)
        (st.1, st.2.dropLast)) := by
  have hsplit : st.2.dropLast ++ [z] = st.2 := List.dropLast_append_getLast? z hl
  have hzmem : z ∈ st.2 := by
    rw [← hsplit]
    exact List.mem_append_right _ (List.mem_singleton_self _)
  have hz := h.sound z (h.listed z hzmem)
  have hlen : st.1.length = zones.length := length_eq_of_clearFlags h.same
  have hstart : VisitInv fillVector contains intersectsOrBorders zonesTouch zones gameType
      teleporters z [] (st.1, st.2.dropLast) := by
    refine ⟨h.same, h.sound, h.seeds, ?_, ?_, ?_⟩
    · intro i hi
      rcases h.closed i hi with h1 | h1
      · rw [← hsplit] at h1
        rcases List.mem_append.mp h1 with h2 | h2
        · exact Or.inl h2
        · exact Or.inr (Or.inl (List.mem_singleton.mp h2))
      · exact Or.inr (Or.inr h1)
    · intro i hi
      exact h.listed i (List.mem_of_mem_dropLast hi)
    · intro j hj
      cases hj
  have hend := foldl_visitZone_inv fillVector contains intersectsOrBorders zonesTouch zones
    gameType teleporters hn z hz (List.range st.1.length) [] _ hstart
    (fun j hj => by rw [← hlen]; exact List.mem_range.mp hj)
  rw [List.nil_append] at hend
  refine ⟨hend.same, hend.sound, hend.seeds, ?_, hend.listed⟩
  intro i hi
  rcases hend.closed i hi with h1 | h1 | h1
  · exact Or.inl h1
  · right
    subst h1
    intro j hj
    exact hend.seen j (List.mem_range.mpr (by rw [hlen]; exact hj.2.1)) hj
  · exact Or.inr h1

/-- When the list is empty, the marked zones are exactly those that can be reached from a
seed zone. -/
theorem pruneInv_final (fillVector : Point α → List Nat) (contains : Nat → Point α → Bool)
    (intersectsOrBorders zonesTouch : Nat → Nat → Bool)
    (zones : List (BotNavMeshZone α)) (gameType : GameType α) (teleporters : List (Teleporter α))
    (zs : List (BotNavMeshZone α))
    (h : PruneInv fillVector contains intersectsOrBorders zonesTouch zones gameType teleporters
      (zs, [])) (i : Nat) :
    flagOf zs i = true ↔
      Appears fillVector contains intersectsOrBorders zonesTouch zones gameType teleporters i := by
  constructor
  · exact h.sound i
  · rintro ⟨s, hs, hr⟩
    induction hr with
    | refl => exact h.seeds s hs
    | tail _ hbc ih =>
      rcases h.closed _ ih with h1 | h1
      · cases h1
      · exact h1 _ hbc

/-- When ids equal indices and the object database names zones of the vector, the zone
found for a point is a zone of the vector or `U16_MAX`. -/
theorem findZoneContaining_lt (fillVector : Point α → List Nat) (contains : Nat → Point α → Bool)
    (zones : List (BotNavMeshZone α)) (hn : zones.length ≤ U16_MAX)
    (hid : ∀ i z, zones.get? i = some z → z.mZoneId = i)
    (hfv : ∀ p, ∀ i ∈ fillVector p, i < zones.length) (p : Point α)
    (h : findZoneContaining fillVector contains zones p < U16_MAX) :
    findZoneContaining fillVector contains zones p < zones.length := by
  unfold findZoneContaining at h ⊢
  cases hf : (fillVector p).find? (fun i => contains i p) with
  | none =>
    rw [hf] at h
    exact absurd h (lt_irrefl _)
  | some i =>
    have hi : i < zones.length := hfv p i (List.mem_of_find?_eq_some hf)
    dsimp only
    rw [List.get?_eq_get hi]
    dsimp only
    rw [hid i _ (List.get?_eq_get hi)]
    have : i % 65536 = i := Nat.mod_eq_of_lt (by unfold U16_MAX at hn; omega)
    rw [this]
    exact hi

theorem pruneInv_start (fillVector : Point α → List Nat) (contains : Nat → Point α → Bool)
    (intersectsOrBorders zonesTouch : Nat → Nat → Bool)
    (zones : List (BotNavMeshZone α)) (gameType : GameType α) (teleporters : List (Teleporter α))
    (hseed : ∀ p, findZoneContaining fillVector contains zones p < U16_MAX →
      findZoneContaining fillVector contains zones p < zones.length) :
    PruneInv fillVector contains intersectsOrBorders zonesTouch zones gameType teleporters
      ((seedPoints gameType teleporters).foldl (seedZone fillVector contains)
        (clearFlags zones, [])) := by
  obtain ⟨h1, h2, h3⟩ := seeds_spec fillVector contains zones (seedPoints gameType teleporters)
    (clearFlags zones, []) (clearFlags_clearFlags zones)
  have hmem : ∀ i, i ∈ ((seedPoints gameType teleporters).map
      (findZoneContaining fillVector contains zones)).filter (fun s => decide (s < U16_MAX)) ↔
      SeedZone fillVector contains zones gameType teleporters i := by
    intro i
    simp only [List.mem_filter, List.mem_map, decide_eq_true_eq, SeedZone]
    constructor
    · rintro ⟨⟨p, hp, rfl⟩, hlt⟩
      exact ⟨p, hp, rfl, hlt⟩
    · rintro ⟨p, hp, rfl, hlt⟩
      exact ⟨⟨p, hp, rfl⟩, hlt⟩
  have hlt : ∀ i, SeedZone fillVector contains zones gameType teleporters i → i < zones.length := by
    rintro i ⟨p, -, rfl, hlt⟩
    exact hseed p hlt
  have hflag : ∀ i, flagOf ((seedPoints gameType teleporters).foldl
      (seedZone fillVector contains) (clearFlags zones, [])).1 i = true ↔
      SeedZone fillVector contains zones gameType teleporters i := by
    intro i
    rw [h3 i, hmem i]
    simp only [flagOf_clearFlags, Bool.false_eq_true, false_or]
    exact ⟨fun h => h.2, fun h => ⟨hlt i h, h⟩⟩
  refine ⟨h1, ?_, ?_, ?_, ?_⟩
  · intro i hi
    exact ⟨i, (hflag i).mp hi, Relation.ReflTransGen.refl⟩
  · intro s hs
    exact (hflag s).mpr hs
  · intro i hi
    left
    rw [h2, List.nil_append, hmem]
    exact (hflag i).mp hi
  · intro i hi
    rw [h2, List.nil_append, hmem] at hi
    exact (hflag i).mpr hi

end PruneLemmas3

section PruneLemmas4

variable {α : Type}

theorem erase_fast_cons_succ {β : Type} (x : β) (l : List β) (i : Nat) (h : i < l.length) :
    erase_fast (x :: l) (i + 1) = x :: erase_fast l i := by
  cases l with
  | nil => simp at h
  | cons y t =>
    obtain ⟨last, hlast⟩ : ∃ last, (y :: t).getLast? = some last :=
      Option.isSome_iff_exists.mp (by simp [List.getLast?_isSome])
    have h1 : (x :: y :: t).getLast? = some last := by
      rw [List.getLast?_cons_cons]
      exact hlast
    have hne : (y :: t).set i last ≠ [] := by
      intro hc
      have := congrArg List.length hc
      simp at this
    simp only [erase_fast, h1, hlast, List.set_cons_succ]
    exact List.dropLast_cons_of_ne_nil hne

theorem erase_fast_append {β : Type} (z : β) (t : List β) : ∀ pre : List β,
    erase_fast (pre ++ z :: t) pre.length = pre ++ erase_fast (z :: t) 0
  | [] => rfl
  | x :: pre => by
    rw [List.cons_append, List.length_cons, erase_fast_cons_succ _ _ _ (by simp),
      erase_fast_append z t pre, List.cons_append]

theorem erase_fast_zero_perm {β : Type} (z : β) (t : List β) : (erase_fast (z :: t) 0).Perm t := by
  have := EventManager.erase_fast_perm (z :: t) 0 (by simp)
  simpa using this

theorem erase_fast_map {β γ : Type} (f : β → γ) (l : List β) (i : Nat) :
    (erase_fast l i).map f = erase_fast (l.map f) i := by
  unfold erase_fast
  rw [List.getLast?_map]
  cases l.getLast? with
  | none => rfl
  | some last => simp [List.map_dropLast, List.map_set]

/-- The deletion loop, started at the slot after `pre`, leaves `pre` in place and keeps of
the rest exactly the marked elements, in some order. -/
theorem removeLoop_spec {β : Type} (keep : β → Bool) :
    ∀ (k : Nat) (pre rest : List β), rest.length ≤ k →
      ∃ kept, removeLoop keep k pre.length (pre ++ rest) = pre ++ kept ∧
        kept.Perm (rest.filter keep) := by
  intro k
  induction k with
  | zero =>
    intro pre rest h
    have : rest = [] := List.length_eq_zero.mp (Nat.le_zero.mp h)
    subst this
    exact ⟨[], rfl, List.Perm.refl _⟩
  | succ k ih =>
    intro pre rest h
    cases rest with
    | nil =>
      refine ⟨[], ?_, List.Perm.refl _⟩
      rw [removeLoop]
      have : (pre ++ []).get? pre.length = none := by simp
      rw [this]
    | cons z t =>
      have hget : (pre ++ z :: t).get? pre.length = some z := by
        rw [List.get?_eq_getElem?, List.getElem?_append_right (le_refl _)]
        simp
      have ht : t.length ≤ k := by simpa using h
      rw [removeLoop, hget]
      dsimp only
      by_cases hk : keep z = true
      · simp only [hk, Bool.not_true, Bool.false_eq_true, if_false]
        obtain ⟨kept, h1, h2⟩ := ih (pre ++ [z]) t ht
        refine ⟨z :: kept, ?_, ?_⟩
        · have e1 : pre.length + 1 = (pre ++ [z]).length := by simp
          have e2 : pre ++ z :: t = (pre ++ [z]) ++ t := by simp
          rw [e1, e2, h1]
          simp
        · rw [List.filter_cons, if_pos hk]
          exact List.Perm.cons z h2
      · have hk1 : keep z = false := by simpa using hk
        simp only [hk1, Bool.not_false, if_true]
        rw [erase_fast_append]
        have hp := erase_fast_zero_perm z t
        obtain ⟨kept, h1, h2⟩ := ih pre (erase_fast (z :: t) 0) (by rw [hp.length_eq]; exact ht)
        refine ⟨kept, h1, ?_⟩
        rw [List.filter_cons, if_neg hk]
        exact h2.trans (hp.filter keep)

theorem removeLoop_map {β γ : Type} (f : β → γ) (keep : γ → Bool) :
    ∀ (k i : Nat) (l : List β),
      (removeLoop (fun x => keep (f x)) k i l).map f = removeLoop keep k i (l.map f) := by
  intro k
  induction k with
  | zero => intro i l; rfl
  | succ k ih =>
    intro i l
    rw [removeLoop, removeLoop]
    have hg : (l.map f).get? i = (l.get? i).map f := by
      simp [List.get?_eq_getElem?]
    rw [hg]
    cases l.get? i with
    | none => rfl
    | some z =>
      dsimp only [Option.map_some']
      by_cases hk : keep (f z) = true
      · simp only [hk, Bool.not_true, Bool.false_eq_true, if_false]
        exact ih (i + 1) l
      · have hk1 : keep (f z) = false := by simpa using hk
        simp only [hk1, Bool.not_false, if_true]
        rw [← erase_fast_map]
        exact ih i (erase_fast l i)

/-- The zones that the deletion loop leaves, each with the index it had before: exactly the
marked ones, each once. -/
theorem removeUnflagged_spec (zs : List (BotNavMeshZone α)) :
    ∃ pairs : List (Nat × BotNavMeshZone α),
      removeUnflagged zs = pairs.map Prod.snd ∧ (pairs.map Prod.fst).Nodup ∧
      ∀ x, x ∈ pairs ↔ zs.get? x.1 = some x.2 ∧ x.2.flag = true := by
  obtain ⟨kept, h1, h2⟩ := removeLoop_spec (fun x : Nat × BotNavMeshZone α => x.2.flag)
    zs.enum.length [] zs.enum (le_refl _)
  refine ⟨kept, ?_, ?_, ?_⟩
  · have h3 := removeLoop_map (Prod.snd : Nat × BotNavMeshZone α → BotNavMeshZone α)
      (fun z => z.flag) zs.enum.length 0 zs.enum
    rw [List.enum_map_snd, List.enum_length] at h3
    simp only [List.nil_append, List.length_nil, List.enum_length] at h1
    rw [removeUnflagged, ← h3, h1]
  · have h4 : (kept.map Prod.fst).Perm ((zs.enum.filter (fun x => x.2.flag)).map Prod.fst) :=
      h2.map _
    rw [h4.nodup_iff]
    exact ((List.filter_sublist _).map _).nodup (List.nodup_enum_map_fst zs)
  · intro x
    rw [h2.mem_iff, List.mem_filter, List.mem_enum_iff_getElem?, List.get?_eq_getElem?]

theorem renumberFrom_get? : ∀ (l : List (BotNavMeshZone α)) (k j : Nat),
    (renumberFrom k l).get? j =
      (l.get? j).map (fun z => { z with mZoneId := k + j, mCentroid := z.extentCenter })
  | [], _, _ => rfl
  | z :: l, k, 0 => rfl
  | z :: l, k, j + 1 => by
    rw [renumberFrom, List.get?_cons_succ, List.get?_cons_succ, renumberFrom_get? l (k + 1) j]
    have : k + 1 + j = k + (j + 1) := by omega
    rw [this]

theorem renumberFrom_sameZone (zones : List (BotNavMeshZone α)) :
    ∀ (pairs : List (Nat × BotNavMeshZone α)) (k : Nat),
      (∀ x ∈ pairs, SameZone zones x.1 x.2) →
      List.Forall₂ (SameZone zones) (pairs.map Prod.fst) (renumberFrom k (pairs.map Prod.snd))
  | [], _, _ => List.Forall₂.nil
  | x :: pairs, k, h => by
    rw [List.map_cons, List.map_cons, renumberFrom]
    refine List.Forall₂.cons ?_
      (renumberFrom_sameZone zones pairs (k + 1) (fun y hy => h y (List.mem_cons_of_mem _ hy)))
    obtain ⟨z0, h1, h2, h3⟩ := h x (List.mem_cons_self _ _)
    exact ⟨z0, h1, h2, h3⟩

theorem visitZone_clearFlags (intersectsOrBorders zonesTouch : Nat → Nat → Bool) (z : Nat)
    (st : List (BotNavMeshZone α) × List Nat) (i : Nat) :
    clearFlags (visitZone intersectsOrBorders zonesTouch z st i).1 = clearFlags st.1 := by
  rcases visitZone_cases intersectsOrBorders zonesTouch z st i with ⟨h, -⟩ | ⟨-, -, -, -, h⟩
  · rw [h]
  · rw [h]
    exact clearFlags_setFlag _ _ _

theorem foldl_visitZone_clearFlags (intersectsOrBorders zonesTouch : Nat → Nat → Bool) (z : Nat) :
    ∀ (js : List Nat) (st : List (BotNavMeshZone α) × List Nat),
      clearFlags (js.foldl (visitZone intersectsOrBorders zonesTouch z) st).1 = clearFlags st.1
  | [], _ => rfl
  | j :: js, st => by
    rw [List.foldl_cons, foldl_visitZone_clearFlags intersectsOrBorders zonesTouch z js,
      visitZone_clearFlags]

/-- The zone vector that `removeUnusedNavMeshZones` leaves behind when there is a game type:
the function returns; the zones it keeps (`kept` lists the indices they had before, each
once) are those marked when the loop over `inProcessList` has ended, with extent centres
and neighbour records as before and with ids equal to their new indices.  When the zone ids
equal the indices before the call and the zone found for a point is always a zone of the
vector, the marked zones are those that can be reached from a seed zone. -/
theorem removeUnusedNavMeshZones_spec (fillVector : Point α → List Nat)
    (contains : Nat → Point α → Bool) (intersectsOrBorders zonesTouch : Nat → Nat → Bool)
    (gameType : GameType α) (teleporters : List (Teleporter α))
    (zones : List (BotNavMeshZone α)) :
    ∃ (result : List (BotNavMeshZone α)) (kept : List Nat),
      removeUnusedNavMeshZones fillVector contains intersectsOrBorders zonesTouch
        (some gameType) teleporters zones = some result ∧
      kept.Nodup ∧ List.Forall₂ (SameZone zones) kept result ∧
      (∀ k z, result.get? k = some z → z.mZoneId = k) ∧
      (zones.length ≤ U16_MAX →
        (∀ p, findZoneContaining fillVector contains zones p < U16_MAX →
          findZoneContaining fillVector contains zones p < zones.length) →
        ∀ i, i ∈ kept ↔ Appears fillVector contains intersectsOrBorders zonesTouch zones
          gameType teleporters i) := by
  obtain ⟨hsame0, -, -⟩ := seeds_spec fillVector contains zones (seedPoints gameType teleporters)
    (clearFlags zones, []) (clearFlags_clearFlags zones)
  have hfuel : pruneMeasure ((seedPoints gameType teleporters).foldl
      (seedZone fillVector contains) (clearFlags zones, [])) <
      ((seedPoints gameType teleporters).foldl (seedZone fillVector contains)
          (clearFlags zones, [])).2.length +
        ((seedPoints gameType teleporters).foldl (seedZone fillVector contains)
          (clearFlags zones, [])).1.length + 1 := by
    unfold pruneMeasure
    have := List.countP_le_length (fun i => !flagOf ((seedPoints gameType teleporters).foldl
      (seedZone fillVector contains) (clearFlags zones, [])).1 i)
      (l := List.range ((seedPoints gameType teleporters).foldl
      (seedZone fillVector contains) (clearFlags zones, [])).1.length)
    rw [List.length_range] at this
    omega
  obtain ⟨zones1, hz1, hsame⟩ := processZones_induct intersectsOrBorders zonesTouch
    (fun st => clearFlags st.1 = clearFlags zones)
    (fun st z h _ => by
      show clearFlags _ = clearFlags zones
      rw [foldl_visitZone_clearFlags]
      exact h) _ _ hfuel hsame0
  have hsame1 : clearFlags zones1 = clearFlags zones := hsame
  obtain ⟨pairs, hp1, hp2, hp3⟩ := removeUnflagged_spec zones1
  have hpairs : ∀ x ∈ pairs, SameZone zones x.1 x.2 := by
    intro x hx
    obtain ⟨hx1, -⟩ := (hp3 x).mp hx
    obtain ⟨z0, h1, -, h2, h3⟩ := get?_of_clearFlags hsame1 hx1
    exact ⟨z0, h1, h2, h3⟩
  refine ⟨renumberFrom 0 (pairs.map Prod.snd), pairs.map Prod.fst, ?_, hp2,
    renumberFrom_sameZone zones pairs 0 hpairs, ?_, ?_⟩
  · unfold removeUnusedNavMeshZones
    dsimp only
    rw [show zones.map (fun z => { z with flag := false }) = clearFlags zones from rfl, hz1]
    dsimp only
    rw [hp1]
  · intro k z hk
    rw [renumberFrom_get?] at hk
    cases hg : (pairs.map Prod.snd).get? k with
    | none => rw [hg] at hk; cases hk
    | some z1 =>
      rw [hg] at hk
      simp only [Option.map_some', Option.some.injEq] at hk
      rw [← hk]
      simp
  · intro hn hseed i
    obtain ⟨zones2, hz2, hinv⟩ := processZones_induct intersectsOrBorders zonesTouch
      (PruneInv fillVector contains intersectsOrBorders zonesTouch zones gameType teleporters)
      (fun st z h hl => pruneInv_step fillVector contains intersectsOrBorders zonesTouch zones
        gameType teleporters hn st z h hl) _ _ hfuel
      (pruneInv_start fillVector contains intersectsOrBorders zonesTouch zones gameType
        teleporters hseed)
    have he : zones2 = zones1 := Option.some.inj (hz2.symm.trans hz1)
    subst he
    rw [← pruneInv_final fillVector contains intersectsOrBorders zonesTouch zones gameType
      teleporters zones2 hinv i]
    constructor
    · intro hi
      obtain ⟨x, hx, rfl⟩ := List.mem_map.mp hi
      obtain ⟨hx1, hx2⟩ := (hp3 x).mp hx
      unfold flagOf
      rw [hx1]
      exact hx2
    · intro hi
      unfold flagOf at hi
      cases hg : zones2.get? i with
      | none => rw [hg] at hi; cases hi
      | some z =>
        rw [hg] at hi
        exact List.mem_map.mpr ⟨(i, z), (hp3 (i, z)).mpr ⟨hg, hi⟩, rfl⟩

end PruneLemmas4

/-! ## Removal of unused zones: theorems -/

section PruneThms

variable {α : Type}

/-- C16, the claim as stated fails: two zones whose polygons touch and that hold no
neighbour records, with the only spawn point in zone 0.  Both zones remain after the
pruning, although no path of neighbour records leads from zone 0 to zone 1: the function
goes from zone to touching zone and never reads a neighbour record. -/
theorem C16_counterexample :
    seedPoints exampleGameType ([] : List (Teleporter Int)) = [⟨5, 5⟩] ∧
    findZoneContaining exampleFill (fun _ _ => true) exampleTouchingZones ⟨5, 5⟩ = 0 ∧
    removeUnusedNavMeshZones exampleFill (fun _ _ => true) (fun _ _ => true) (fun _ _ => true)
      (some exampleGameType) [] exampleTouchingZones =
      some [ { mZoneId := 0, extentCenter := ⟨5, 5⟩, mNeighbors := [], flag := true },
             { mZoneId := 1, extentCenter := ⟨15, 5⟩, mNeighbors := [], flag := true } ] ∧
    ¬ Reach exampleTouchingZones 0 1 := by
  refine ⟨by decide, by decide, by decide, ?_⟩
  intro h
  rcases Relation.ReflTransGen.cases_head h with h1 | ⟨c, ⟨nb, hnb, -⟩, -⟩
  · exact absurd h1 (by decide)
  · simp [neighborsOf, exampleTouchingZones] at hnb

/-- C16 (as found in the code): when the zone ids equal the indices before the call, the
vector has at most 65535 zones and the object database names zones of the vector, the
pruning returns, and a zone remains in the zone store if and only if it can be reached from
a zone found to contain a team spawn point or a teleporter destination by going from zone to
touching zone (extents meet and polygons touch).  `kept` lists the former indices of the
remaining zones in their new order. -/
theorem C16_kept_iff_reachable_by_touch (fillVector : Point α → List Nat)
    (contains : Nat → Point α → Bool) (intersectsOrBorders zonesTouch : Nat → Nat → Bool)
    (gameType : GameType α) (teleporters : List (Teleporter α))
    (zones : List (BotNavMeshZone α)) (hn : zones.length ≤ U16_MAX)
    (hid : ∀ i z, zones.get? i = some z → z.mZoneId = i)
    (hfv : ∀ p, ∀ i ∈ fillVector p, i < zones.length) :
    ∃ (result : List (BotNavMeshZone α)) (kept : List Nat),
      removeUnusedNavMeshZones fillVector contains intersectsOrBorders zonesTouch
        (some gameType) teleporters zones = some result ∧
      kept.Nodup ∧ List.Forall₂ (SameZone zones) kept result ∧
      ∀ i, i ∈ kept ↔ Appears fillVector contains intersectsOrBorders zonesTouch zones
        gameType teleporters i := by
  obtain ⟨result, kept, h1, h2, h3, -, h5⟩ := removeUnusedNavMeshZones_spec fillVector contains
    intersectsOrBorders zonesTouch gameType teleporters zones
  exact ⟨result, kept, h1, h2, h3,
    h5 hn (findZoneContaining_lt fillVector contains zones hn hid hfv)⟩

theorem exampleLooseZones_ids (i : Nat) (z : BotNavMeshZone Int)
    (h : exampleLooseZones.get? i = some z) : z.mZoneId = i := by
  rcases i with _ | _ | _ | _ | i <;>
    simp only [exampleLooseZones, List.get?_cons_zero, List.get?_cons_succ, List.get?_nil,
      Option.some.injEq] at h
  all_goals first
    | (subst h; rfl)
    | cases h

theorem exampleFill_lt (p : Point Int) (i : Nat) (h : i ∈ exampleFill p) :
    i < exampleLooseZones.length := by
  unfold exampleFill at h
  split_ifs at h
  · rw [List.mem_singleton] at h
    subst h
    decide
  · cases h

/-- Instance of C16 (as found in the code): the four zones of `exampleLooseZones`. -/
theorem C16_kept_iff_reachable_by_touch_witness :
    ∃ (result : List (BotNavMeshZone Int)) (kept : List Nat),
      removeUnusedNavMeshZones exampleFill (fun _ _ => true) (fun _ _ => true)
        exampleLooseTouch (some exampleGameType) [] exampleLooseZones = some result ∧
      kept.Nodup ∧ List.Forall₂ (SameZone exampleLooseZones) kept result ∧
      ∀ i, i ∈ kept ↔ Appears exampleFill (fun _ _ => true) (fun _ _ => true)
        exampleLooseTouch exampleLooseZones exampleGameType [] i :=
  C16_kept_iff_reachable_by_touch exampleFill (fun _ _ => true) (fun _ _ => true)
    exampleLooseTouch exampleGameType [] exampleLooseZones (by decide) exampleLooseZones_ids
    exampleFill_lt

/-- C17, the claim as stated fails: of the four zones of `exampleLooseZones`, zone 1 is
removed; the former zone 3 takes slot 1 and gets id 1.  The former zone 2 keeps its record
with target 3, which after the pruning is the id of no zone, while the zone the record
led to has id 1. -/
theorem C17_counterexample :
    removeUnusedNavMeshZones exampleFill (fun _ _ => true) (fun _ _ => true)
      exampleLooseTouch (some exampleGameType) [] exampleLooseZones = some exampleLoosePruned ∧
    exampleLoosePruned.length = 3 ∧
    (neighborsOf exampleLoosePruned 2).map (fun nb => nb.zoneID) = [0, 3] ∧
    (neighborsOf exampleLooseZones 2).map (fun nb => nb.zoneID) = [0, 3] ∧
    getCenter exampleLooseZones 3 = getCenter exampleLoosePruned 1 := by
  decide

/-- C17 (as found in the code): the pruning returns; afterwards the id of every remaining
zone equals its index in the zone list, and every remaining zone has the neighbour records
it had before, target ids included (`kept` lists the former indices of the remaining zones
in their new order). -/
theorem C17_ids_renumbered_records_kept (fillVector : Point α → List Nat)
    (contains : Nat → Point α → Bool) (intersectsOrBorders zonesTouch : Nat → Nat → Bool)
    (gameType : GameType α) (teleporters : List (Teleporter α))
    (zones : List (BotNavMeshZone α)) :
    ∃ (result : List (BotNavMeshZone α)) (kept : List Nat),
      removeUnusedNavMeshZones fillVector contains intersectsOrBorders zonesTouch
        (some gameType) teleporters zones = some result ∧
      (∀ k z, result.get? k = some z → z.mZoneId = k) ∧
      kept.Nodup ∧
      List.Forall₂ (fun i z => i < zones.length ∧ z.mNeighbors = neighborsOf zones i)
        kept result := by
  obtain ⟨result, kept, h1, h2, h3, h4, -⟩ := removeUnusedNavMeshZones_spec fillVector contains
    intersectsOrBorders zonesTouch gameType teleporters zones
  refine ⟨result, kept, h1, h4, h2, ?_⟩
  refine h3.imp ?_
  rintro i z ⟨z0, hz0, -, hnb⟩
  refine ⟨get?_lt hz0, ?_⟩
  rw [hnb]
  unfold neighborsOf
  rw [hz0]

end PruneThms
/-! ## Teleporter: theorems -/

section TeleporterThms

variable {α : Type} [LinearOrderedRing α]

namespace TeleporterObj

theorem coordinateArgs_length (argv2 : List (List Char)) :
    (coordinateArgs argv2).length = 4 ↔
      argv2.countP (fun arg => !startsWithLetter arg) = 4 := by
  unfold coordinateArgs
  rw [List.length_take, List.countP_eq_length_filter]
  omega

theorem addToExisting_spec (db : List (TeleporterObj α)) (pos dest : Point α) :
    ∀ (found : List Nat) (db1 : List (TeleporterObj α)),
      addToExisting db pos dest found = some db1 →
      ∃ i tel, db.get? i = some tel ∧ tel.vert0.distSquared pos < 1 ∧
        db1 = db.set i { tel with mDests := tel.mDests ++ [dest] }
  | [], db1, h => by simp [addToExisting] at h
  | i :: rest, db1, h => by
    unfold addToExisting at h
    cases hg : db.get? i with
    | none =>
      rw [hg] at h
      exact addToExisting_spec db pos dest rest db1 h
    | some tel =>
      rw [hg] at h
      dsimp only at h
      split_ifs at h with hc
      · exact ⟨i, tel, hg, hc, (Option.some.inj h).symm⟩
      · exact addToExisting_spec db pos dest rest db1 h

/-- C21, the claim as stated fails: an engineered teleporter of health 1 that has not
exploded and whose resource pointer is not valid takes damage 2.  Its health is then -1,
and it has not exploded. -/
theorem C21_counterexample :
    ((exampleEngineered false).damageObject 2).mStartingHealth = -1 ∧
    ((exampleEngineered false).damageObject 2).mHasExploded = false := by
  decide

/-- C21 (as found in the code): for an engineered teleporter that has not exploded, a
damage event lowers the health by the damage amount; the teleporter has exploded afterwards
if and only if the new health is 0 or below and its resource pointer `mResource` is valid.
A teleporter that is not engineered, or has exploded, is left as it is. -/
theorem C21_damage_explodes (t : TeleporterObj α) (damageAmount : α) :
    (t.mEngineered = true → t.mHasExploded = false →
      (t.damageObject damageAmount).mStartingHealth = t.mStartingHealth - damageAmount ∧
      ((t.damageObject damageAmount).mHasExploded = true ↔
        (t.mStartingHealth - damageAmount ≤ 0 ∧ t.mResourceValid = true))) ∧
    (t.mEngineered = false ∨ t.mHasExploded = true → t.damageObject damageAmount = t) := by
  constructor
  · intro he hx
    unfold damageObject
    simp only [he, hx, Bool.not_true, Bool.false_eq_true, if_false]
    split_ifs with hc
    · exact ⟨rfl, by simpa using hc⟩
    · refine ⟨rfl, ?_⟩
      simp only [hx, Bool.false_eq_true, false_iff]
      exact hc
  · rintro (he | hx)
    · simp [damageObject, he]
    · unfold damageObject
      split_ifs <;> rfl

/-- Instance of C21 (as found in the code): health 1, damage 2, valid resource. -/
theorem C21_damage_explodes_witness :
    ((exampleEngineered true).damageObject 2).mStartingHealth =
      (exampleEngineered true).mStartingHealth - 2 ∧
    (((exampleEngineered true).damageObject 2).mHasExploded = true ↔
      ((exampleEngineered true).mStartingHealth - 2 ≤ 0 ∧
        (exampleEngineered true).mResourceValid = true)) :=
  (C21_damage_explodes (exampleEngineered true) 2).1 rfl rfl


theorem processArguments_ok (atof : List Char → α) (delayOf : List Char → Nat) (gridSize : α)
    (isClientGame : Bool) (findObjects : Point α → List Nat) (db : List (TeleporterObj α))
    (t : TeleporterObj α) (argv2 : List (List Char)) :
    ((processArguments atof delayOf gridSize isClientGame findObjects db t argv2).1 = true ↔
      (coordinateArgs argv2).length = 4) ∧
    ((processArguments atof delayOf gridSize isClientGame findObjects db t argv2).1 = false →
      ∃ t1, (processArguments atof delayOf gridSize isClientGame findObjects db t argv2).2.1 =
          some t1 ∧ t1.mDests = t.mDests ∧
        (processArguments atof delayOf gridSize isClientGame findObjects db t argv2).2.2 = db) ∧
    ((processArguments atof delayOf gridSize isClientGame findObjects db t argv2).1 = true →
      (∀ t1, (processArguments atof delayOf gridSize isClientGame findObjects db t argv2).2.1 =
          some t1 → t1.mDests ≠ []) ∧
      ((∀ tel ∈ db, tel.mDests ≠ []) →
        ∀ tel ∈ (processArguments atof delayOf gridSize isClientGame findObjects db t
          argv2).2.2, tel.mDests ≠ [])) := by
  unfold processArguments
  dsimp only
  generalize coordinateArgs argv2 = argv
  rcases argv with _ | ⟨a0, _ | ⟨a1, _ | ⟨a2, _ | ⟨a3, _ | ⟨a4, rest⟩⟩⟩⟩⟩
  · simp
  · simp
  · simp
  · simp
  · cases hadd : addToExisting db (⟨atof a0 * gridSize, atof a1 * gridSize⟩ : Point α)
        ⟨atof a2 * gridSize, atof a3 * gridSize⟩
        (findObjects ⟨atof a0 * gridSize, atof a1 * gridSize⟩) with
    | none =>
      cases isClientGame <;> simp [hadd]
    | some db1 =>
      cases isClientGame
      · simp only [hadd, Bool.not_false, if_true, List.length_cons, List.length_nil, true_iff,
          Bool.true_eq_false, false_implies, true_and, forall_true_left, reduceCtorEq]
        refine ⟨by norm_num, ?_⟩
        intro hdb tel htel
        obtain ⟨i, tel0, -, -, rfl⟩ := addToExisting_spec db _ _ _ db1 hadd
        rcases List.mem_or_eq_of_mem_set htel with h1 | h1
        · exact hdb tel h1
        · rw [h1]
          simp
      · simp
  · simp

/-- C22: `processArguments` returns true if and only if exactly four of its arguments do not
start with a letter (arguments that start with a letter, such as `Delay=`, are skipped);
when it returns false it adds no destination, neither to the teleporter nor to a teleporter
of the database.  When it returns true, the teleporter, if it survives, has a destination,
and so has every teleporter of the database if each had one before (the destination goes
to an earlier teleporter with the same entry, and the new one is destroyed, or it goes to
the new one).  After `onConstructed` the teleporter has a destination; `setEndpoint` leaves
a teleporter that has one, or needs its endpoint, with a destination.  For a teleporter
with a destination, the index that the relocation in `idle` draws between 0 and
`mDests.size() - 1` is an index of `mDests`. -/
theorem C22_teleporter_has_destination (atof : List Char → α) (delayOf : List Char → Nat)
    (gridSize : α) (isClientGame : Bool) (findObjects : Point α → List Nat)
    (db : List (TeleporterObj α)) (t : TeleporterObj α) (argv2 : List (List Char))
    (readI : Int → Int → Int) (point shipPos : Point α) :
    ((processArguments atof delayOf gridSize isClientGame findObjects db t argv2).1 = true ↔
      argv2.countP (fun arg => !startsWithLetter arg) = 4) ∧
    ((processArguments atof delayOf gridSize isClientGame findObjects db t argv2).1 = false →
      ∃ t1, (processArguments atof delayOf gridSize isClientGame findObjects db t argv2).2.1 =
          some t1 ∧ t1.mDests = t.mDests ∧
        (processArguments atof delayOf gridSize isClientGame findObjects db t argv2).2.2 = db) ∧
    ((processArguments atof delayOf gridSize isClientGame findObjects db t argv2).1 = true →
      (∀ t1, (processArguments atof delayOf gridSize isClientGame findObjects db t argv2).2.1 =
          some t1 → t1.mDests ≠ []) ∧
      ((∀ tel ∈ db, tel.mDests ≠ []) →
        ∀ tel ∈ (processArguments atof delayOf gridSize isClientGame findObjects db t
          argv2).2.2, tel.mDests ≠ [])) ∧
    t.onConstructed.mDests ≠ [] ∧
    (t.mDests ≠ [] ∨ t.mNeedsEndpoint = true → (t.setEndpoint point).mDests ≠ []) ∧
    (t.mDests ≠ [] →
      (0 ≤ readI 0 ((t.mDests.length : Int) - 1) ∧
        readI 0 ((t.mDests.length : Int) - 1) ≤ (t.mDests.length : Int) - 1) →
      ∃ d, t.mDests.get? (relocateShip readI t shipPos).1.mLastDest.toNat = some d ∧
        0 ≤ (relocateShip readI t shipPos).1.mLastDest ∧
        (relocateShip readI t shipPos).2 =
          some ⟨shipPos.x - t.vert0.x + d.x, shipPos.y - t.vert0.y + d.y⟩) := by
  obtain ⟨h1, h2, h3⟩ := processArguments_ok atof delayOf gridSize isClientGame findObjects db t
    argv2
  refine ⟨h1.trans (coordinateArgs_length argv2), h2, h3, ?_, ?_, ?_⟩
  · simp [onConstructed]
  · intro h
    unfold setEndpoint
    split_ifs with hn
    · simp
    · rcases h with h | h
      · exact h
      · exact absurd h hn
  · intro hne ⟨hlo, hhi⟩
    have hlt : (readI 0 ((t.mDests.length : Int) - 1)).toNat < t.mDests.length := by
      omega
    refine ⟨t.mDests.get ⟨_, hlt⟩, ?_, hlo, ?_⟩
    · exact List.get?_eq_get hlt
    · unfold relocateShip
      simp only [if_neg (not_lt.mpr hlo), List.get?_eq_get hlt]

/-- Instance of C22: a level line with the entry (1,2), the destination (30,4) and a delay,
read on the server into an empty database; the random number generator returns its lower
bound. -/
theorem C22_teleporter_has_destination_witness :
    (processArguments exampleAtof (fun _ => 3000) 1 false (fun _ => []) []
        (TeleporterObj.new 1500 false false ⟨0, 0⟩ ⟨0, 0⟩)
        [['1'], ['2'], ['D', 'e', 'l', 'a', 'y', '=', '3'], ['3', '0'], ['4']]) =
      (true, some { vert0 := ⟨1, 2⟩, vert1 := ⟨30, 4⟩, mDests := [⟨30, 4⟩],
                    mTeleporterDelay := 3000, mNeedsEndpoint := false, mHasExploded := false,
                    mStartingHealth := 1, mEngineered := false, mResourceValid := false,
                    mLastDest := 0 }, []) ∧
    ∃ d, (exampleEngineered true).mDests.get?
        (relocateShip (fun lo _ => lo) (exampleEngineered true) ⟨1, 1⟩).1.mLastDest.toNat =
          some d ∧
      0 ≤ (relocateShip (fun lo _ => lo) (exampleEngineered true) ⟨1, 1⟩).1.mLastDest ∧
      (relocateShip (fun lo _ => lo) (exampleEngineered true) ⟨1, 1⟩).2 =
        some ⟨1 - (exampleEngineered true).vert0.x + d.x,
          1 - (exampleEngineered true).vert0.y + d.y⟩ :=
  ⟨by decide,
    (C22_teleporter_has_destination exampleAtof (fun _ => 3000) 1 false (fun _ => []) []
      (exampleEngineered true) [] (fun lo _ => lo) ⟨0, 0⟩ ⟨1, 1⟩).2.2.2.2.2
      (by decide) (by decide)⟩

end TeleporterObj

end TeleporterThms
section QuantiseThms

variable {α : Type} [LinearOrderedField α] [FloorRing α]

theorem quantise_eq_round (x : α) : quantise x = roundHalfAway x + S16_MAX := by
  unfold quantise roundHalfAway truncS32
  by_cases hx : x < 0
  · have h1 : ¬ (0 : α) ≤ x - 1 / 2 := by
      have : (0 : α) < 1 / 2 := by norm_num
      intro h
      linarith
    simp only [hx, if_true, h1, if_false]
    have : -x + 1 / 2 = -(x - 1 / 2) := by ring
    rw [this, Int.floor_neg, neg_neg]
  · have h1 : (0 : α) ≤ x + 1 / 2 := by
      have : (0 : α) < 1 / 2 := by norm_num
      push_neg at hx
      linarith
    simp only [hx, if_false, h1, if_true]

theorem roundHalfAway_bounds (x : α) (hlo : ((S16_MIN : Int) : α) + 1 / 2 < x)
    (hhi : x < ((S16_MAX : Int) : α)) :
    -32767 ≤ roundHalfAway x ∧ roundHalfAway x ≤ 32767 := by
  have hmin : ((S16_MIN : Int) : α) = -32768 := by simp [S16_MIN]
  have hmax : ((S16_MAX : Int) : α) = 32767 := by simp [S16_MAX]
  rw [hmin] at hlo
  rw [hmax] at hhi
  unfold roundHalfAway
  by_cases hx : x < 0
  · simp only [hx, if_true]
    have h1 : Int.floor (-x + 1 / 2) < 32768 := by
      rw [Int.floor_lt]
      push_cast
      linarith
    have h2 : 0 ≤ Int.floor (-x + 1 / 2) := by
      rw [Int.le_floor]
      push_cast
      linarith
    omega
  · simp only [hx, if_false]
    push_neg at hx
    have h1 : Int.floor (x + 1 / 2) < 32768 := by
      rw [Int.floor_lt]
      push_cast
      linarith
    have h2 : 0 ≤ Int.floor (x + 1 / 2) := by
      rw [Int.le_floor]
      push_cast
      linarith
    omega

theorem roundHalfAway_low (x : α) (hlo : ((S16_MIN : Int) : α) < x)
    (hhi : x ≤ ((S16_MIN : Int) : α) + 1 / 2) : roundHalfAway x = -32768 := by
  have hmin : ((S16_MIN : Int) : α) = -32768 := by simp [S16_MIN]
  rw [hmin] at hlo hhi
  unfold roundHalfAway
  have hx : x < 0 := by linarith
  simp only [hx, if_true]
  have h1 : Int.floor (-x + 1 / 2) = 32768 := by
    rw [Int.floor_eq_iff]
    push_cast
    constructor <;> linarith
  omega

/-- C25: a coordinate `x` with `S16_MIN < x < S16_MAX` passes the bounds check of
`makeBotMeshZones3`.  Above `S16_MIN + 1/2` its quantised value, the rounding of `x` plus
32767, lies in 0..65534, is stored unchanged in 16 bits, is not the sentinel, and the
materialised coordinate is the rounding of `x`.  From `S16_MIN` up to `S16_MIN + 1/2` the
quantised value is -1: it is stored as the sentinel `0xFFFF`, and the materialised
coordinate is 32768 while `x` rounds to -32768. -/
theorem C25_quantised_coordinate (x : α) (hlo : ((S16_MIN : Int) : α) < x)
    (hhi : x < ((S16_MAX : Int) : α)) :
    quantise x = roundHalfAway x + 32767 ∧
      (((S16_MIN : Int) : α) + 1 / 2 < x →
        0 ≤ quantise x ∧ quantise x ≤ 65534 ∧ (storeU16 (quantise x) : Int) = quantise x ∧
          storeU16 (quantise x) ≠ U16_MAX ∧
          materialise (storeU16 (quantise x)) = roundHalfAway x) ∧
      (x ≤ ((S16_MIN : Int) : α) + 1 / 2 →
        quantise x = -1 ∧ storeU16 (quantise x) = U16_MAX ∧
          materialise (storeU16 (quantise x)) = 32768 ∧ roundHalfAway x = -32768) := by
  have hq := quantise_eq_round x
  simp only [S16_MAX] at hq
  refine ⟨hq, ?_, ?_⟩
  · intro h
    obtain ⟨h1, h2⟩ := roundHalfAway_bounds x h hhi
    have hs : (storeU16 (quantise x) : Int) = quantise x := by
      unfold storeU16
      rw [Int.toNat_of_nonneg (Int.emod_nonneg _ (by norm_num))]
      exact Int.emod_eq_of_lt (by omega) (by omega)
    refine ⟨by omega, by omega, hs, ?_, ?_⟩
    · intro hu
      rw [hu] at hs
      simp only [U16_MAX] at hs
      omega
    · unfold materialise
      rw [hs, hq]
      simp [S16_MAX]
  · intro h
    have hr := roundHalfAway_low x hlo h
    have hq1 : quantise x = -1 := by omega
    rw [hq1]
    exact ⟨rfl, by decide, by decide, hr⟩

/-- The coordinate -32767.5 is accepted, is stored as the sentinel and comes back as
32768. -/
theorem C25_quantised_coordinate_witness :
    ((S16_MIN : Int) : ℚ) < -65535 / 2 ∧ (-65535 / 2 : ℚ) < ((S16_MAX : Int) : ℚ) ∧
      quantise (-65535 / 2 : ℚ) = -1 ∧ storeU16 (quantise (-65535 / 2 : ℚ)) = U16_MAX ∧
      materialise (storeU16 (quantise (-65535 / 2 : ℚ))) = 32768 ∧
      roundHalfAway (-65535 / 2 : ℚ) = -32768 :=
  ⟨by decide!, by decide!,
    ((C25_quantised_coordinate (-65535 / 2 : ℚ) (by decide!) (by decide!)).2.2 (by decide!))⟩

end QuantiseThms
section ClosestZoneThms

variable {α : Type} [LinearOrderedRing α] [FloorRing α]

/-- The result of the scan of the first `n` zones by `findClosestZone`: either nothing
visible lies below the bound and the state is as before, or the state is the first
visible zone of least squared distance. -/
theorem closestScan_spec (pointCanSeePoint : Point α → Point α → Bool)
    (zones : List (BotNavMeshZone α)) (point : Point α) (st : Int × α) (n : Nat) :
    let r := (List.range n).foldl
      (fun st i =>
        let center := getCenter zones i
        let d := center.distSquared point
        if d < st.2 then
          if pointCanSeePoint center point then ((i : Int), d) else st
        else st)
      st
    ((∀ j, j < n → pointCanSeePoint (getCenter zones j) point = true →
          st.2 ≤ (getCenter zones j).distSquared point) ∧ r = st) ∨
      ∃ i, i < n ∧ r = ((i : Int), (getCenter zones i).distSquared point) ∧
        pointCanSeePoint (getCenter zones i) point = true ∧
        (getCenter zones i).distSquared point < st.2 ∧
        (∀ j, j < n → pointCanSeePoint (getCenter zones j) point = true →
          (getCenter zones i).distSquared point ≤ (getCenter zones j).distSquared point) ∧
        (∀ j, j < i → pointCanSeePoint (getCenter zones j) point = true →
          (getCenter zones i).distSquared point < (getCenter zones j).distSquared point) := by
  induction n with
  | zero =>
    left
    exact ⟨fun j hj => absurd hj (Nat.not_lt_zero j), rfl⟩
  | succ n ih =>
    simp only [List.range_succ, List.foldl_append, List.foldl_cons, List.foldl_nil]
    simp only at ih
    rcases ih with ⟨hall, hr⟩ | ⟨i, hi, hr, hvis, hlt, hmin, hfirst⟩
    · rw [hr]
      by_cases hd : (getCenter zones n).distSquared point < st.2
      · by_cases hv : pointCanSeePoint (getCenter zones n) point = true
        · right
          refine ⟨n, Nat.lt_succ_self n, by simp [hd, hv], hv, hd, ?_, ?_⟩
          · intro j hj hvj
            rcases Nat.lt_succ_iff_lt_or_eq.mp hj with h | h
            · exact le_of_lt (lt_of_lt_of_le hd (hall j h hvj))
            · rw [h]
          · intro j hj hvj
            exact lt_of_lt_of_le hd (hall j hj hvj)
        · left
          refine ⟨?_, by simp [hd, hv]⟩
          intro j hj hvj
          rcases Nat.lt_succ_iff_lt_or_eq.mp hj with h | h
          · exact hall j h hvj
          · rw [h] at hvj
            exact absurd hvj hv
      · left
        refine ⟨?_, by simp [hd]⟩
        intro j hj hvj
        rcases Nat.lt_succ_iff_lt_or_eq.mp hj with h | h
        · exact hall j h hvj
        · rw [h]
          exact not_lt.mp hd
    · rw [hr]
      right
      by_cases hd : (getCenter zones n).distSquared point < (getCenter zones i).distSquared point
      · by_cases hv : pointCanSeePoint (getCenter zones n) point = true
        · refine ⟨n, Nat.lt_succ_self n, by simp [hd, hv], hv, lt_trans hd hlt, ?_, ?_⟩
          · intro j hj hvj
            rcases Nat.lt_succ_iff_lt_or_eq.mp hj with h | h
            · exact le_of_lt (lt_of_lt_of_le hd (hmin j h hvj))
            · rw [h]
          · intro j hj hvj
            exact lt_of_lt_of_le hd (hmin j hj hvj)
        · refine ⟨i, Nat.lt_succ_of_lt hi, by simp [hd, hv], hvis, hlt, ?_, hfirst⟩
          intro j hj hvj
          rcases Nat.lt_succ_iff_lt_or_eq.mp hj with h | h
          · exact hmin j h hvj
          · rw [h] at hvj
            exact absurd hvj hv
      · refine ⟨i, Nat.lt_succ_of_lt hi, by simp [hd], hvis, hlt, ?_, hfirst⟩
        intro j hj hvj
        rcases Nat.lt_succ_iff_lt_or_eq.mp hj with h | h
        · exact hmin j h hvj
        · rw [h]
          exact not_lt.mp hd

end ClosestZoneThms

/-- C23 fails after a removal: in the search from zone 0 to zone 4 of `exampleHeapZones`
the first round opens zones 1, 2, 3 with F costs 1, 2, 3; the second round removes the top
item (zone 1) and moves the last item (zone 3) to slot 1, and the sink loop, whose tests
`2 * u + 1 < n` and `2 * u < n` leave out the last slot, does not compare it with the item
in slot 2.  Two items are then open, slot 1 holds zone 3 with F cost 3 and slot 2 holds
zone 2 with F cost 2, and the third round of the search takes zone 3 from slot 1 and makes it
the parent of the target. -/
theorem C23_heap_order_broken_after_removal :
    exampleHeapState.numberOfOpenListItems = 2 ∧
      exampleHeapState.openZone (exampleHeapState.openList 1) = 3 ∧
      exampleHeapState.Fcost (exampleHeapState.openList 1) = 3 ∧
      exampleHeapState.openZone (exampleHeapState.openList 2) = 2 ∧
      exampleHeapState.Fcost (exampleHeapState.openList 2) = 2 ∧
      ¬ exampleHeapState.Fcost (exampleHeapState.openList 1) ≤
          exampleHeapState.Fcost (exampleHeapState.openList 2) ∧
      (searchLoop exampleDistance exampleHeapZones 4 3
          (startSearch exampleDistance exampleHeapZones AStar.init 0 4)).map
          (fun r => (r.1, r.2.parentZones 4)) = some (true, 3) := by
  decide
section AStarTermination

set_option linter.unusedSectionVars false

variable {α : Type} [LinearOrderedRing α] [FloorRing α]

/-- A mark of the current search stays when the top item is closed. -/
theorem closeTop_marked (s : AStar α) (z : Nat) (h : Marked s z) : Marked (closeTop s) z := by
  show setAt s.whichList (s.openZone (s.openList 1)) s.onClosedList z = s.onOpenList ∨
    setAt s.whichList (s.openZone (s.openList 1)) s.onClosedList z = s.onClosedList
  by_cases hz : z = s.openZone (s.openList 1)
  · right
    rw [hz, setAt_same]
  · rw [setAt_ne _ _ hz]
    exact h

/-- A mark of the current search stays when a neighbour record is processed. -/
theorem visitNeighbor_marked (distanceTo : Point α → Point α → α)
    (zones : List (BotNavMeshZone α)) (P T : Nat) (s : AStar α) (zone : NeighboringZone α)
    (z : Nat) (h : Marked s z) : Marked (visitNeighbor distanceTo zones P T s zone) z := by
  rcases visitNeighbor_cases distanceTo zones P T s zone with ⟨h1, -⟩ | op | rl
  · rw [h1]
    exact h
  · unfold Marked
    rw [op.whichList, op.onOpenList, op.onClosedList]
    by_cases hz : z = zone.zoneID
    · left
      rw [hz, setAt_same]
    · rw [setAt_ne _ _ hz]
      exact h
  · unfold Marked
    rw [rl.whichList, rl.onOpenList, rl.onClosedList]
    exact h

/-- A neighbour record adds an item to the open list only for a zone without a mark, which
gets the mark with it. -/
theorem visitNeighbor_opens_unmarked (distanceTo : Point α → Point α → α)
    (zones : List (BotNavMeshZone α)) (P T : Nat) (s : AStar α) (zone : NeighboringZone α) :
    ((visitNeighbor distanceTo zones P T s zone).numberOfOpenListItems =
        s.numberOfOpenListItems ∧
      (visitNeighbor distanceTo zones P T s zone).newOpenListItemID = s.newOpenListItemID) ∨
    (¬ Marked s zone.zoneID ∧ Marked (visitNeighbor distanceTo zones P T s zone) zone.zoneID ∧
      (visitNeighbor distanceTo zones P T s zone).numberOfOpenListItems =
        s.numberOfOpenListItems + 1 ∧
      (visitNeighbor distanceTo zones P T s zone).newOpenListItemID =
        s.newOpenListItemID + 1) := by
  rcases visitNeighbor_cases distanceTo zones P T s zone with ⟨h1, -⟩ | op | rl
  · rw [h1]
    exact Or.inl ⟨rfl, rfl⟩
  · right
    refine ⟨?_, ?_, op.numberOfOpenListItems, op.newOpenListItemID⟩
    · rintro (h | h)
      · exact op.notOpen h
      · exact op.notClosed h
    · left
      rw [op.whichList, op.onOpenList, setAt_same]
  · exact Or.inl ⟨rl.numberOfOpenListItems, rl.newOpenListItemID⟩

/-- C30: on a graph of at most `MAX_ZONES` zones with valid neighbour ids, called with
fresh statics and zones of the graph, `findPath` returns; it has issued fewer open list
items than there are zones; when the path is not empty, the walk over `parentZones` from
the target has reached the start zone along a chain of neighbour records.  Each round of
the search takes one item off the open list; a neighbour record adds an item only for a
zone without a mark, which then carries a mark, and marks are never lost within a search;
the sinking loop and the two rising loops end before their fuel is used up. -/
theorem C30_find_path_terminates (distanceTo : Point α → Point α → α)
    {zones : List (BotNavMeshZone α)} (hv : ValidGraph zones) (st : AStar α) (hf : Fresh st)
    {S T : Nat} (hS : S < zones.length) (hT : T < zones.length) (target : Point α) :
    (∃ path s1, findPath distanceTo zones st S T target = some (path, s1) ∧
      s1.newOpenListItemID + 1 ≤ zones.length ∧
      (path ≠ [] → ∃ recs, ParentChain zones s1.parentZones S T recs ∧
        walkBack zones s1.parentZones S (MAX_ZONES + 1) T [target, getCenter zones T] =
          some ([target, getCenter zones T] ++ chainPoints zones (chainOf S recs)))) ∧
    (∀ s : AStar α, (closeTop s).numberOfOpenListItems = s.numberOfOpenListItems - 1 ∧
      (closeTop s).newOpenListItemID = s.newOpenListItemID ∧
      ∀ z, Marked s z → Marked (closeTop s) z) ∧
    (∀ (P : Nat) (s : AStar α) (zone : NeighboringZone α),
      (((visitNeighbor distanceTo zones P T s zone).numberOfOpenListItems =
          s.numberOfOpenListItems ∧
        (visitNeighbor distanceTo zones P T s zone).newOpenListItemID = s.newOpenListItemID) ∨
      (¬ Marked s zone.zoneID ∧
        Marked (visitNeighbor distanceTo zones P T s zone) zone.zoneID ∧
        (visitNeighbor distanceTo zones P T s zone).numberOfOpenListItems =
          s.numberOfOpenListItems + 1 ∧
        (visitNeighbor distanceTo zones P T s zone).newOpenListItemID =
          s.newOpenListItemID + 1)) ∧
      ∀ z, Marked s z → Marked (visitNeighbor distanceTo zones P T s zone) z) ∧
    (∀ (Fcost : Nat → α) (n : Nat) (ol : Nat → Nat) (k : Nat),
      siftDown Fcost n (n + 1 + k) 1 ol = siftDown Fcost n (n + 1) 1 ol) ∧
    (∀ (Fcost : Nat → α) (m : Nat) (ol : Nat → Nat) (k : Nat),
      bubbleUpLE Fcost (m + k) m ol = bubbleUpLE Fcost m m ol ∧
      bubbleUpLT Fcost (m + k) m ol = bubbleUpLT Fcost m m ol) := by
  refine ⟨?_, fun s => ⟨rfl, rfl, closeTop_marked s⟩,
    fun P s zone => ⟨visitNeighbor_opens_unmarked distanceTo zones P T s zone,
      visitNeighbor_marked distanceTo zones P T s zone⟩,
    fun Fcost n ol k => siftDown_fuel_enough Fcost n ol k,
    fun Fcost m ol k => ⟨bubbleUpLE_fuel_enough Fcost m ol k, bubbleUpLT_fuel_enough Fcost m ol k⟩⟩
  have hst := startSearch_start distanceTo zones st S T hf
  obtain ⟨b, s1, hloop, -⟩ := searchLoop_total distanceTo zones T (MAX_ZONES + 2)
    (startSearch distanceTo zones st S T) (by rw [hst.noId]; exact Nat.zero_le _)
    (by rw [hst.one, hst.noId]; omega)
  obtain ⟨hfalse, htrue⟩ := searchLoop_result distanceTo hv hS hT _ _ b s1 (Or.inl hst) hloop
  have hid : s1.newOpenListItemID + 1 ≤ zones.length := by
    by_cases hST : S = T
    · have h0 : searchLoop distanceTo zones T (MAX_ZONES + 2)
          (startSearch distanceTo zones st S T) =
          some (true, startSearch distanceTo zones st S T) := by
        rw [searchLoop]
        rw [if_neg (by rw [hst.one]; exact Nat.one_ne_zero), if_pos (by rw [hst.top]; exact hST)]
      rw [h0] at hloop
      simp only [Option.some.injEq, Prod.mk.injEq] at hloop
      rw [← hloop.2, hst.noId]
      omega
    · cases b with
      | false => exact (hfalse rfl).1.1.id_le
      | true =>
        rcases htrue rfl with ⟨h, -⟩ | ⟨inv, -⟩
        · exact absurd h hST
        · exact inv.id_le
  cases b with
  | false =>
    refine ⟨[], s1, by simp only [findPath, hloop], hid, fun h => absurd rfl h⟩
  | true =>
    have hwalk : ∃ recs, ParentChain zones s1.parentZones S T recs ∧
        walkBack zones s1.parentZones S (MAX_ZONES + 1) T [target, getCenter zones T] =
          some ([target, getCenter zones T] ++ chainPoints zones (chainOf S recs)) := by
      rcases htrue rfl with ⟨hST, -⟩ | ⟨inv, hm⟩
      · subst hST
        exact ⟨[], ParentChain.start, by simp [walkBack_start, chainOf, chainPoints]⟩
      · obtain ⟨recs, h1, h2, -⟩ := walkBack_marked hv inv hT hm [target, getCenter zones T]
        exact ⟨recs, h1, h2⟩
    obtain ⟨recs, hchain, hw⟩ := hwalk
    exact ⟨[target, getCenter zones T] ++ chainPoints zones (chainOf S recs) ++
      [getCenter zones S], s1, by simp only [findPath, hloop, hw], hid,
      fun _ => ⟨recs, hchain, hw⟩⟩

/-- The search from zone 0 to zone 2 of the example graph, started on zeroed statics. -/
theorem C30_find_path_terminates_witness :
    ValidGraph exampleZones ∧ Fresh (AStar.init : AStar Int) ∧
      ∃ path s1, findPath exampleDistance exampleZones AStar.init 0 2 ⟨9, 1⟩ = some (path, s1) ∧
        s1.newOpenListItemID + 1 ≤ exampleZones.length ∧
        (path ≠ [] → ∃ recs, ParentChain exampleZones s1.parentZones 0 2 recs ∧
          walkBack exampleZones s1.parentZones 0 (MAX_ZONES + 1) 2
              [⟨9, 1⟩, getCenter exampleZones 2] =
            some ([⟨9, 1⟩, getCenter exampleZones 2] ++
              chainPoints exampleZones (chainOf 0 recs))) :=
  ⟨validGraph_exampleZones, fresh_init,
    (C30_find_path_terminates exampleDistance validGraph_exampleZones AStar.init fresh_init
      (by decide) (by decide) ⟨9, 1⟩).1⟩

end AStarTermination
section WaypointThms

set_option linter.unusedSectionVars false

variable {α : Type} [LinearOrderedRing α] [FloorRing α]

/-- The popping loop of `getWaypoint` after its first round: it takes the visible entries
off the back of the plan, stops at the first entry that is not visible, and `dest` is the
entry taken last. -/
theorem popVisible_spec (canSeePoint : Point α → Bool) : ∀ (l : List (Point α)) (d : Point α),
    ∃ popped rest dest, l = popped ++ rest ∧
      popVisible canSeePoint false l (some d) = (rest, some dest) ∧
      (d :: popped).getLast? = some dest ∧
      (∀ p ∈ popped, canSeePoint p = true) ∧
      (∀ q, rest.head? = some q → canSeePoint q = false)
  | [], d => ⟨[], [], d, rfl, rfl, rfl, fun _ h => absurd h (List.not_mem_nil _),
      fun _ h => by simp at h⟩
  | a :: l, d => by
    by_cases ha : canSeePoint a = true
    · obtain ⟨popped, rest, dest, h1, h2, h3, h4, h5⟩ := popVisible_spec canSeePoint l a
      refine ⟨a :: popped, rest, dest, by rw [h1]; rfl, ?_, ?_, ?_, h5⟩
      · rw [popVisible]
        simp only [ha, Bool.false_or, if_true]
        exact h2
      · rw [List.getLast?_cons_cons]
        exact h3
      · intro p hp
        rcases List.mem_cons.mp hp with h | h
        · rw [h]; exact ha
        · exact h4 p h
    · refine ⟨[], a :: l, d, rfl, ?_, rfl, fun _ h => absurd h (List.not_mem_nil _), ?_⟩
      · rw [popVisible]
        simp only [ha, Bool.false_or]
        rfl
      · intro q hq
        simp only [List.head?_cons, Option.some.injEq] at hq
        rw [← hq]
        simpa using ha

/-- The cached branch of `getWaypoint` on a plan that is not empty. -/
theorem reuse_spec (canSeePoint : Point α → Bool) (plan : List (Point α)) (hplan : plan ≠ []) :
    ∃ kept dest discarded, plan = kept ++ dest :: discarded ∧
      popVisible canSeePoint true plan.reverse none = (kept.reverse, some dest) ∧
      (∀ p ∈ discarded.dropLast, canSeePoint p = true) ∧
      (discarded ≠ [] → canSeePoint dest = true) ∧
      (∀ q, kept.getLast? = some q → canSeePoint q = false) := by
  cases hrev : plan.reverse with
  | nil =>
    rw [List.reverse_eq_nil_iff] at hrev
    exact absurd hrev hplan
  | cons a l =>
    obtain ⟨popped, rest, dest, h1, h2, h3, h4, h5⟩ := popVisible_spec canSeePoint l a
    obtain ⟨init, hinit⟩ := List.getLast?_eq_some_iff.mp h3
    have hp : plan = rest.reverse ++ dest :: init.reverse := by
      have : plan = (a :: l).reverse := by rw [← hrev, List.reverse_reverse]
      rw [this, h1, ← List.cons_append, hinit]
      simp
    refine ⟨rest.reverse, dest, init.reverse, hp, ?_, ?_, ?_, ?_⟩
    · rw [popVisible]
      simp only [Bool.true_or, if_true, List.reverse_reverse]
      exact h2
    · intro p hp1
      cases init with
      | nil => simp at hp1
      | cons b init1 =>
        simp only [List.cons_append, List.cons.injEq] at hinit
        apply h4
        rw [hinit.2]
        simp only [List.reverse_cons, List.dropLast_concat, List.mem_reverse] at hp1
        exact List.mem_append_left _ hp1
    · intro hne
      cases init with
      | nil => simp at hne
      | cons b init1 =>
        simp only [List.cons_append, List.cons.injEq] at hinit
        apply h4
        rw [hinit.2]
        simp
    · intro q hq
      apply h5
      rw [← hq, List.getLast?_reverse]

/-- C27: when the target is not directly visible and the bot has a plan that is not empty
and leads to the zone of the target, `getWaypoint` replaces entry 0 of the plan by the
target and cuts the updated plan after one of its entries, `dest`, which it returns: the
plan afterwards is the part of the updated plan up to `dest`.  Of the entries cut off, the
last one of the plan was taken without a test, the others were visible to the bot, and so
was `dest` when anything was cut off; the entry before `dest` is not visible.  When the
whole plan is cut, `dest` is the target.  The statics of the pathfinder and the other
members of the bot are as before: no search is run. -/
theorem C27_cached_plan_reused (distanceTo : Point α → Point α → α)
    (zones : List (BotNavMeshZone α)) (pointCanSeePoint : Point α → Point α → Bool)
    (canSeePoint : Point α → Bool) (findZoneContaining : Point α → Int) (F32_MAX : α)
    (actualPos : Point α) (st : AStar α) (robot : Robot α) (target : Point α)
    (hvis : pointCanSeePoint actualPos target = false)
    (hplan : robot.flightPlan ≠ [])
    (hzone : targetZoneOf pointCanSeePoint findZoneContaining zones F32_MAX target =
      some robot.flightPlanTo)
    (hne : robot.flightPlanTo ≠ -1) :
    ∃ kept dest discarded,
      robot.flightPlan.set 0 target = kept ++ dest :: discarded ∧
      getWaypoint distanceTo zones pointCanSeePoint canSeePoint findZoneContaining F32_MAX
          actualPos st robot target =
        some (some dest, { robot with flightPlan := kept ++ [dest] }, st) ∧
      (∀ p ∈ discarded.dropLast, canSeePoint p = true) ∧
      (discarded ≠ [] → canSeePoint dest = true) ∧
      (∀ q, kept.getLast? = some q → canSeePoint q = false) ∧
      (kept = [] → dest = target) := by
  have hset : robot.flightPlan.set 0 target ≠ [] := by
    cases hfp : robot.flightPlan with
    | nil => exact absurd hfp hplan
    | cons p ps => simp
  obtain ⟨kept, dest, discarded, h1, h2, h3, h4, h5⟩ := reuse_spec canSeePoint _ hset
  refine ⟨kept, dest, discarded, h1, ?_, h3, h4, h5, ?_⟩
  · have hlen : robot.flightPlan.length > 0 := List.length_pos.mpr hplan
    simp only [getWaypoint, hvis, hzone, hne, hlen, h2, List.reverse_reverse]
    simp
  · intro hk
    rw [hk] at h1
    cases hfp : robot.flightPlan with
    | nil => exact absurd hfp hplan
    | cons p ps =>
      rw [hfp] at h1
      simp only [List.set_cons_zero, List.nil_append, List.cons.injEq] at h1
      exact h1.1.symm

end WaypointThms
section WaypointThms2

set_option linter.unusedSectionVars false

variable {α : Type} [LinearOrderedRing α] [FloorRing α]

/-- The method `findClosestZone` returns within its two passes, and what it returns is -1
or a zone of the graph. -/
theorem findClosestZone_range (pointCanSeePoint : Point α → Point α → Bool)
    (zones : List (BotNavMeshZone α)) (F32_MAX : α) (point : Point α) :
    ∃ r, findClosestZone pointCanSeePoint zones F32_MAX point = some r ∧
      (r = -1 ∨ (0 ≤ r ∧ r < zones.length)) := by
  have h1 := closestScan_spec pointCanSeePoint zones point (-3, 262144) zones.length
  simp only at h1
  rcases h1 with ⟨-, hr⟩ | ⟨i, hi, hr, -⟩
  · have h2 := closestScan_spec pointCanSeePoint zones point (-2, F32_MAX) zones.length
    simp only at h2
    rcases h2 with ⟨-, hr2⟩ | ⟨i, hi, hr2, -⟩
    · exact ⟨-1, by simp [findClosestZone, closestLoop, closestPass, hr, hr2], Or.inl rfl⟩
    · have hm1 : ¬ ((i : Int) < -1) := by omega
      have h0 : ¬ ((i : Int) < 0) := by omega
      exact ⟨(i : Int), by simp [findClosestZone, closestLoop, closestPass, hr, hr2, hm1, h0],
        Or.inr ⟨by omega, by omega⟩⟩
  · have hm1 : ¬ ((i : Int) < -1) := by omega
    have h0 : ¬ ((i : Int) < 0) := by omega
    exact ⟨(i : Int), by simp [findClosestZone, closestLoop, closestPass, hr, hm1, h0],
      Or.inr ⟨by omega, by omega⟩⟩

/-- The computation of the target zone returns -1 or a zone of the graph. -/
theorem targetZoneOf_total (pointCanSeePoint : Point α → Point α → Bool)
    (findZoneContaining : Point α → Int) (zones : List (BotNavMeshZone α)) (F32_MAX : α)
    (target : Point α)
    (hfind : ∀ p, findZoneContaining p = -1 ∨
      (0 ≤ findZoneContaining p ∧ findZoneContaining p < zones.length)) :
    ∃ tz, targetZoneOf pointCanSeePoint findZoneContaining zones F32_MAX target = some tz ∧
      (tz = -1 ∨ (0 ≤ tz ∧ tz < zones.length)) := by
  unfold targetZoneOf
  by_cases h : findZoneContaining target = -1
  · rw [if_pos h]
    exact findClosestZone_range pointCanSeePoint zones F32_MAX target
  · rw [if_neg h]
    exact ⟨_, rfl, hfind target⟩

/-- The computation of the current zone returns -1 or a zone of the graph, and leaves the
plan of the bot and its goal zone alone. -/
theorem currentZoneOf_total (pointCanSeePoint : Point α → Point α → Bool)
    (findZoneContaining : Point α → Int) (zones : List (BotNavMeshZone α)) (F32_MAX : α)
    (actualPos : Point α) (robot : Robot α)
    (hfind : ∀ p, findZoneContaining p = -1 ∨
      (0 ≤ findZoneContaining p ∧ findZoneContaining p < zones.length))
    (hcur : robot.mCurrentZone = -1 ∨
      (0 ≤ robot.mCurrentZone ∧ robot.mCurrentZone < zones.length)) :
    ∃ cz r2, currentZoneOf pointCanSeePoint findZoneContaining zones F32_MAX actualPos robot =
        some (cz, r2) ∧
      (cz = -1 ∨ (0 ≤ cz ∧ cz < zones.length)) ∧
      r2.flightPlan = robot.flightPlan ∧ r2.flightPlanTo = robot.flightPlanTo := by
  have hg : ((robot.getCurrentZone findZoneContaining actualPos).1 = -1 ∨
      (0 ≤ (robot.getCurrentZone findZoneContaining actualPos).1 ∧
        (robot.getCurrentZone findZoneContaining actualPos).1 < zones.length)) ∧
      (robot.getCurrentZone findZoneContaining actualPos).2.flightPlan = robot.flightPlan ∧
      (robot.getCurrentZone findZoneContaining actualPos).2.flightPlanTo =
        robot.flightPlanTo := by
    unfold Robot.getCurrentZone
    by_cases h : robot.mCurrentZone = -1
    · rw [if_pos h]
      exact ⟨hfind actualPos, rfl, rfl⟩
    · rw [if_neg h]
      exact ⟨hcur, rfl, rfl⟩
  unfold currentZoneOf
  dsimp only
  by_cases h : (robot.getCurrentZone findZoneContaining actualPos).1 = -1
  · rw [if_pos h]
    obtain ⟨r, h1, h2⟩ := findClosestZone_range pointCanSeePoint zones F32_MAX actualPos
    rw [h1]
    exact ⟨r, _, rfl, h2, hg.2⟩
  · rw [if_neg h]
    exact ⟨_, _, rfl, hg.1, hg.2⟩

/-- The second half of `getWaypoint` returns; when the current zone differs from the target
zone, a plan that is not empty starts with the target, ends with the returned point and
leads to the target zone. -/
theorem newFlightPlan_spec (distanceTo : Point α → Point α → α)
    {zones : List (BotNavMeshZone α)} (hv : ValidGraph zones)
    (pointCanSeePoint : Point α → Point α → Bool) (canSeePoint : Point α → Bool)
    (findZoneContaining : Point α → Int) (F32_MAX : α) (actualPos : Point α) (st : AStar α)
    (hf : Fresh st) (robot : Robot α) (tz : Int) (target : Point α)
    (hfind : ∀ p, findZoneContaining p = -1 ∨
      (0 ≤ findZoneContaining p ∧ findZoneContaining p < zones.length))
    (hcur : robot.mCurrentZone = -1 ∨
      (0 ≤ robot.mCurrentZone ∧ robot.mCurrentZone < zones.length))
    (htz : 0 ≤ tz ∧ tz < zones.length) :
    ∃ cz r2 ret robot1 st1,
      currentZoneOf pointCanSeePoint findZoneContaining zones F32_MAX actualPos
          { robot with flightPlan := [] } = some (cz, r2) ∧
      newFlightPlan distanceTo zones pointCanSeePoint canSeePoint findZoneContaining F32_MAX
          actualPos st robot tz target = some (ret, robot1, st1) ∧
      (cz ≠ tz → robot1.flightPlan ≠ [] →
        robot1.flightPlan.head? = some target ∧ robot1.flightPlan.getLast? = ret ∧
          robot1.flightPlanTo = tz) := by
  obtain ⟨cz, r2, h1, h2, h3, -⟩ := currentZoneOf_total pointCanSeePoint findZoneContaining zones
    F32_MAX actualPos { robot with flightPlan := [] } hfind hcur
  unfold newFlightPlan
  simp only [h1]
  by_cases hc1 : cz = -1
  · rw [if_pos hc1]
    exact ⟨cz, r2, _, _, _, rfl, rfl, fun _ h => absurd h3 h⟩
  · rw [if_neg hc1]
    by_cases hc2 : cz = tz
    · rw [if_pos hc2]
      by_cases hc3 : (!canSeePoint target) = true
      · rw [if_pos hc3]
        exact ⟨cz, r2, _, _, _, rfl, rfl, fun h => absurd hc2 h⟩
      · rw [if_neg hc3]
        exact ⟨cz, r2, _, _, _, rfl, rfl, fun h => absurd hc2 h⟩
    · rw [if_neg hc2]
      have hcz : cz.toNat < zones.length := by
        rcases h2 with h | h
        · exact absurd h hc1
        · omega
      have htz1 : tz.toNat < zones.length := by omega
      obtain ⟨s1, hp⟩ := findPath_spec distanceTo hv st hf hcz htz1 target
      rcases hp with ⟨hp, -⟩ | ⟨recs, -, hp, -⟩
      · rw [hp]
        exact ⟨cz, r2, _, _, _, rfl, rfl, fun _ h => absurd rfl h⟩
      · rw [hp]
        refine ⟨cz, r2, _, _, _, rfl, rfl, fun _ _ => ⟨rfl, rfl, rfl⟩⟩

/-- C29: with a zone graph that fits the statics, fresh statics, and zone lookups that give
-1 or a zone of the graph, `getWaypoint` returns.  A call whose target is directly visible
from the bot, or for whose target no zone is found, leaves the plan, its goal zone and the
statics as they were.  Otherwise, when the call reuses the plan (which is not empty and
leads to the zone of the target), or when the current zone of the bot differs from the zone
of the target (the pathfinder is run), a plan that is not empty afterwards has the target at
index 0 and the returned waypoint at its end, and `flightPlanTo` is the zone of the target:
the zone that holds it or, failing that, the closest zone whose centre sees it. -/
theorem C29_plan_arrangement (distanceTo : Point α → Point α → α)
    {zones : List (BotNavMeshZone α)} (hv : ValidGraph zones)
    (pointCanSeePoint : Point α → Point α → Bool) (canSeePoint : Point α → Bool)
    (findZoneContaining : Point α → Int) (F32_MAX : α) (actualPos : Point α) (st : AStar α)
    (hf : Fresh st) (robot : Robot α) (target : Point α)
    (hfind : ∀ p, findZoneContaining p = -1 ∨
      (0 ≤ findZoneContaining p ∧ findZoneContaining p < zones.length))
    (hcur : robot.mCurrentZone = -1 ∨
      (0 ≤ robot.mCurrentZone ∧ robot.mCurrentZone < zones.length)) :
    ∃ tz cz r2 ret robot1 st1,
      targetZoneOf pointCanSeePoint findZoneContaining zones F32_MAX target = some tz ∧
      currentZoneOf pointCanSeePoint findZoneContaining zones F32_MAX actualPos
          { robot with flightPlan := [] } = some (cz, r2) ∧
      getWaypoint distanceTo zones pointCanSeePoint canSeePoint findZoneContaining F32_MAX
          actualPos st robot target = some (ret, robot1, st1) ∧
      (pointCanSeePoint actualPos target = true ∨ tz = -1 → robot1 = robot ∧ st1 = st) ∧
      (pointCanSeePoint actualPos target = false → tz ≠ -1 →
        (robot.flightPlan ≠ [] ∧ tz = robot.flightPlanTo) ∨ cz ≠ tz →
        robot1.flightPlan ≠ [] →
        robot1.flightPlan.head? = some target ∧ robot1.flightPlan.getLast? = ret ∧
          robot1.flightPlanTo = tz) := by
  obtain ⟨tz, ht1, ht2⟩ := targetZoneOf_total pointCanSeePoint findZoneContaining zones F32_MAX
    target hfind
  obtain ⟨cz, r2, hc1, -⟩ := currentZoneOf_total pointCanSeePoint findZoneContaining zones
    F32_MAX actualPos { robot with flightPlan := [] } hfind hcur
  refine ⟨tz, cz, r2, ?_⟩
  by_cases hvis : pointCanSeePoint actualPos target = true
  · refine ⟨some target, robot, st, ht1, hc1, by simp only [getWaypoint, hvis, if_true],
      fun _ => ⟨rfl, rfl⟩, fun h => ?_⟩
    rw [hvis] at h
    exact absurd h (by simp)
  · have hvis1 : pointCanSeePoint actualPos target = false := by simpa using hvis
    by_cases htz : tz = -1
    · refine ⟨none, robot, st, ht1, hc1, by simp [getWaypoint, hvis1, ht1, htz],
        fun _ => ⟨rfl, rfl⟩, fun _ h => absurd htz h⟩
    · have htz2 : 0 ≤ tz ∧ tz < zones.length := by
        rcases ht2 with h | h
        · exact absurd h htz
        · exact h
      by_cases hcached : robot.flightPlan.length > 0 ∧ tz = robot.flightPlanTo
      · have hplan : robot.flightPlan ≠ [] := List.length_pos.mp hcached.1
        have hzone : targetZoneOf pointCanSeePoint findZoneContaining zones F32_MAX target =
            some robot.flightPlanTo := by rw [ht1, hcached.2]
        have hset : robot.flightPlan.set 0 target ≠ [] := by
          cases hfp : robot.flightPlan with
          | nil => exact absurd hfp hplan
          | cons p ps => simp
        obtain ⟨kept, dest, discarded, h1, h2, -⟩ := reuse_spec canSeePoint _ hset
        have hhead : (kept ++ [dest]).head? = some target := by
          cases hfp : robot.flightPlan with
          | nil => exact absurd hfp hplan
          | cons p ps =>
            rw [hfp] at h1
            simp only [List.set_cons_zero] at h1
            cases kept with
            | nil =>
              simp only [List.nil_append, List.cons.injEq] at h1
              simp [h1.1]
            | cons k ks =>
              simp only [List.cons_append, List.cons.injEq] at h1
              simp [h1.1]
        have hne : robot.flightPlanTo ≠ -1 := by
          rw [← hcached.2]
          exact htz
        refine ⟨some dest, { robot with flightPlan := kept ++ [dest] }, st, ht1, hc1, ?_,
          fun h => ?_, fun _ _ _ _ => ⟨hhead, by simp, hcached.2.symm⟩⟩
        · simp only [getWaypoint, hvis1, hzone, hne, hcached.1, h2, List.reverse_reverse]
          simp
        · rcases h with h | h
          · rw [hvis1] at h
            exact absurd h (by simp)
          · exact absurd h htz
      · obtain ⟨cz1, r21, ret, robot1, st1, hn1, hn2, hn3⟩ := newFlightPlan_spec distanceTo hv
          pointCanSeePoint canSeePoint findZoneContaining F32_MAX actualPos st hf robot tz target
          hfind hcur htz2
        rw [hc1] at hn1
        simp only [Option.some.injEq, Prod.mk.injEq] at hn1
        refine ⟨ret, robot1, st1, ht1, hc1, ?_, fun h => ?_, fun _ _ hb hne => ?_⟩
        · simp only [getWaypoint, hvis1, ht1, htz, hcached]
          simpa using hn2
        · rcases h with h | h
          · rw [hvis1] at h
            exact absurd h (by simp)
          · exact absurd h htz
        · rcases hb with hb | hb
          · exact absurd ⟨List.length_pos.mpr hb.1, hb.2⟩ hcached
          · exact hn3 (by rw [← hn1.1]; exact hb) hne

end WaypointThms2
/-- The bot of the example, whose plan leads to zone 2, asks for the waypoint to the
target (9,8) in zone 2: the plan is cut after (4,1), which is returned. -/
theorem C27_cached_plan_reused_witness :
    (getWaypoint exampleDistance exampleZones exampleBlind exampleCanSee exampleZoneOf
        exampleF32Max ⟨0, 0⟩ AStar.init exampleRobot ⟨9, 8⟩).map (fun r => (r.1, r.2.1)) =
      some (some ⟨4, 1⟩,
        { flightPlan := [⟨9, 8⟩, ⟨8, 0⟩, ⟨4, 1⟩], flightPlanTo := 2, mCurrentZone := 0 }) ∧
    ∃ kept dest discarded,
      exampleRobot.flightPlan.set 0 ⟨9, 8⟩ = kept ++ dest :: discarded ∧
      getWaypoint exampleDistance exampleZones exampleBlind exampleCanSee exampleZoneOf
          exampleF32Max ⟨0, 0⟩ AStar.init exampleRobot ⟨9, 8⟩ =
        some (some dest, { exampleRobot with flightPlan := kept ++ [dest] }, AStar.init) ∧
      (∀ p ∈ discarded.dropLast, exampleCanSee p = true) ∧
      (discarded ≠ [] → exampleCanSee dest = true) ∧
      (∀ q, kept.getLast? = some q → exampleCanSee q = false) ∧
      (kept = [] → dest = ⟨9, 8⟩) :=
  ⟨by decide,
    C27_cached_plan_reused exampleDistance exampleZones exampleBlind exampleCanSee exampleZoneOf
      exampleF32Max ⟨0, 0⟩ AStar.init exampleRobot ⟨9, 8⟩ (by decide) (by decide) (by decide)
      (by decide)⟩

/-- C29 (as stated) fails in two ways.  With a target (1,1) that the bot sees directly,
`getWaypoint` returns the target and leaves the plan, which is not empty, as it was: index
0 holds the old target (9,9), and `flightPlanTo` is 2 while the target lies in zone 0.
With a new bot in zone 2 and a target (9,1) in zone 2 that it does not see, the plan
afterwards is the centre (8,0) of the zone followed by the target: the target is the last
entry, the returned waypoint (8,0) is at index 0, and `flightPlanTo` is still -1. -/
theorem C29_counterexample :
    (getWaypoint exampleDistance exampleZones exampleOpen exampleCanSee exampleZoneOf
        exampleF32Max ⟨0, 0⟩ AStar.init exampleRobot ⟨1, 1⟩).map (fun r => (r.1, r.2.1)) =
      some (some ⟨1, 1⟩, exampleRobot) ∧
    exampleRobot.flightPlan.head? = some ⟨9, 9⟩ ∧ exampleRobot.flightPlanTo = 2 ∧
    exampleZoneOf ⟨1, 1⟩ = 0 ∧
    (getWaypoint exampleDistance exampleZones exampleBlind exampleCanSee exampleZoneOf
        exampleF32Max ⟨5, 0⟩ AStar.init exampleNewRobot ⟨9, 1⟩).map (fun r => (r.1, r.2.1)) =
      some (some ⟨8, 0⟩,
        { flightPlan := [⟨8, 0⟩, ⟨9, 1⟩], flightPlanTo := -1, mCurrentZone := 2 }) ∧
    exampleZoneOf ⟨9, 1⟩ = 2 := by
  decide

/-- A new bot in zone 0 of the example graph asks for the waypoint to the target (9,1) in
zone 2, which it does not see: the pathfinder is run, and the plan starts with the target
and ends with the returned centre of zone 0. -/
theorem C29_plan_arrangement_witness :
    (getWaypoint exampleDistance exampleZones exampleBlind exampleCanSee exampleZoneOf
        exampleF32Max ⟨0, 0⟩ AStar.init exampleNewRobot ⟨9, 1⟩).map (fun r => (r.1, r.2.1)) =
      some (some ⟨0, 0⟩,
        { flightPlan := [⟨9, 1⟩, ⟨8, 0⟩, ⟨4, 1⟩, ⟨0, 0⟩, ⟨0, 0⟩],
          flightPlanTo := 2, mCurrentZone := 0 }) ∧
    ∃ tz cz r2 ret robot1 st1,
      targetZoneOf exampleBlind exampleZoneOf exampleZones exampleF32Max ⟨9, 1⟩ = some tz ∧
      currentZoneOf exampleBlind exampleZoneOf exampleZones exampleF32Max ⟨0, 0⟩
          { exampleNewRobot with flightPlan := [] } = some (cz, r2) ∧
      getWaypoint exampleDistance exampleZones exampleBlind exampleCanSee exampleZoneOf
          exampleF32Max ⟨0, 0⟩ AStar.init exampleNewRobot ⟨9, 1⟩ = some (ret, robot1, st1) ∧
      (exampleBlind ⟨0, 0⟩ ⟨9, 1⟩ = true ∨ tz = -1 →
        robot1 = exampleNewRobot ∧ st1 = AStar.init) ∧
      (exampleBlind ⟨0, 0⟩ ⟨9, 1⟩ = false → tz ≠ -1 →
        (exampleNewRobot.flightPlan ≠ [] ∧ tz = exampleNewRobot.flightPlanTo) ∨ cz ≠ tz →
        robot1.flightPlan ≠ [] →
        robot1.flightPlan.head? = some ⟨9, 1⟩ ∧ robot1.flightPlan.getLast? = ret ∧
          robot1.flightPlanTo = tz) :=
  ⟨by decide,
    C29_plan_arrangement exampleDistance validGraph_exampleZones exampleBlind exampleCanSee
      exampleZoneOf exampleF32Max ⟨0, 0⟩ AStar.init fresh_init exampleNewRobot ⟨9, 1⟩
      (fun p => by
        unfold exampleZoneOf
        split_ifs <;> simp [exampleZones])
      (by decide)⟩
section AStarCompare

set_option linter.unusedSectionVars false

variable {α : Type} [LinearOrderedRing α] [FloorRing α]

theorem AgreeOn.exchange {n : Nat} {ol ol1 : Nat → Nat} (h : AgreeOn n ol ol1) {a b : Nat}
    (ha1 : 1 ≤ a) (ha2 : a ≤ n) (hb1 : 1 ≤ b) (hb2 : b ≤ n) :
    AgreeOn n (swapAt ol a b) (swapAt ol1 a b) := by
  intro i hi1 hi2
  by_cases h1 : i = b
  · rw [h1, swapAt_right, swapAt_right]
    exact h a ha1 ha2
  · by_cases h2 : i = a
    · rw [h2, swapAt_left, swapAt_left]
      exact h b hb1 hb2
    · rw [swapAt_other _ h2 h1, swapAt_other _ h2 h1]
      exact h i hi1 hi2

theorem AgreeItems.of_heapPerm {β : Type} {n : Nat} {ol ol2 : Nat → Nat} {a a1 : Nat → β}
    (h : AgreeItems n ol a a1) (hp : HeapPerm n ol ol2) : AgreeItems n ol2 a a1 := by
  intro i hi1 hi2
  obtain ⟨j, hj1, hj2, hj⟩ := hp.1 i hi1 hi2
  rw [hj]
  exact h j hj1 hj2

theorem AgreeItems.setAt {β : Type} {n : Nat} {ol : Nat → Nat} {a a1 : Nat → β}
    (h : AgreeItems n ol a a1) (k : Nat) (v : β) :
    AgreeItems n ol (setAt a k v) (setAt a1 k v) := by
  intro i hi1 hi2
  by_cases hk : ol i = k
  · rw [hk, setAt_same, setAt_same]
  · rw [setAt_ne _ _ hk, setAt_ne _ _ hk]
    exact h i hi1 hi2

theorem agree_key {n : Nat} {ol ol1 : Nat → Nat} {F F1 : Nat → α} (ha : AgreeOn n ol ol1)
    (hF : AgreeItems n ol F F1) (x : Nat) (h1 : 1 ≤ x) (h2 : x ≤ n) :
    F1 (ol1 x) = F (ol x) := by
  rw [← ha x h1 h2]
  exact (hF x h1 h2).symm

theorem lowerChild_congr {n : Nat} {ol ol1 : Nat → Nat} {F F1 : Nat → α}
    (ha : AgreeOn n ol ol1) (hF : AgreeItems n ol F F1) (u : Nat) (hu : 1 ≤ u) :
    lowerChild F n ol u = lowerChild F1 n ol1 u := by
  unfold lowerChild
  dsimp only
  by_cases h1 : 2 * u + 1 < n
  · rw [if_pos h1, if_pos h1]
    have k1 := agree_key ha hF u hu (by omega)
    have k2 := agree_key ha hF (2 * u) (by omega) (by omega)
    have k3 := agree_key ha hF (2 * u + 1) (by omega) (by omega)
    rw [k1, k2, k3]
    by_cases c1 : F (ol u) ≥ F (ol (2 * u))
    · simp only [c1, if_true]
      rw [k2]
    · simp only [c1, if_false]
      rw [k1]
  · rw [if_neg h1, if_neg h1]
    by_cases h2 : 2 * u < n
    · rw [if_pos h2, if_pos h2]
      rw [agree_key ha hF u hu (by omega), agree_key ha hF (2 * u) (by omega) (by omega)]
    · rw [if_neg h2, if_neg h2]

theorem siftDown_congr {n : Nat} {F F1 : Nat → α} : ∀ (fuel v : Nat) (ol ol1 : Nat → Nat),
    1 ≤ v → AgreeOn n ol ol1 → AgreeItems n ol F F1 →
    AgreeOn n (siftDown F n fuel v ol) (siftDown F1 n fuel v ol1)
  | 0, _, _, _, _, ha, _ => ha
  | fuel + 1, v, ol, ol1, hv, ha, hF => by
    rw [siftDown_succ, siftDown_succ, ← lowerChild_congr ha hF v hv]
    by_cases hne : v ≠ lowerChild F n ol v
    · rw [if_pos hne, if_pos hne]
      rcases lowerChild_cases F n ol v hv with h | ⟨h1, h2⟩
      · exact absurd h.symm hne
      · have hp := HeapPerm.swap n ol hv (by omega : v ≤ n) (by omega : 1 ≤ lowerChild F n ol v)
          (by omega : lowerChild F n ol v ≤ n)
        exact siftDown_congr fuel _ _ _ (by omega)
          (ha.exchange hv (by omega) (by omega) (by omega)) (hF.of_heapPerm hp)
    · rw [if_neg hne, if_neg hne]
      exact ha

theorem bubbleUpLE_congr {n : Nat} {F F1 : Nat → α} : ∀ (fuel m : Nat) (ol ol1 : Nat → Nat),
    m ≤ n → AgreeOn n ol ol1 → AgreeItems n ol F F1 →
    AgreeOn n (bubbleUpLE F fuel m ol) (bubbleUpLE F1 fuel m ol1)
  | 0, _, _, _, _, ha, _ => ha
  | fuel + 1, m, ol, ol1, hm, ha, hF => by
    rw [bubbleUpLE_succ, bubbleUpLE_succ]
    by_cases hm1 : m > 1
    · have k1 := agree_key ha hF m (by omega) hm
      have k2 := agree_key ha hF (m / 2) (by omega) (by omega)
      rw [k1, k2]
      by_cases hc : m > 1 ∧ F (ol m) ≤ F (ol (m / 2))
      · rw [if_pos hc, if_pos hc]
        have hp := HeapPerm.swap n ol (by omega : 1 ≤ m / 2) (by omega : m / 2 ≤ n)
          (by omega : 1 ≤ m) hm
        exact bubbleUpLE_congr fuel _ _ _ (by omega)
          (ha.exchange (by omega) (by omega) (by omega) hm) (hF.of_heapPerm hp)
      · rw [if_neg hc, if_neg hc]
        exact ha
    · rw [if_neg (fun h => hm1 h.1), if_neg (fun h => hm1 h.1)]
      exact ha

theorem bubbleUpLT_congr {n : Nat} {F F1 : Nat → α} : ∀ (fuel m : Nat) (ol ol1 : Nat → Nat),
    m ≤ n → AgreeOn n ol ol1 → AgreeItems n ol F F1 →
    AgreeOn n (bubbleUpLT F fuel m ol) (bubbleUpLT F1 fuel m ol1)
  | 0, _, _, _, _, ha, _ => ha
  | fuel + 1, m, ol, ol1, hm, ha, hF => by
    rw [bubbleUpLT_succ, bubbleUpLT_succ]
    by_cases hm1 : m > 1
    · have k1 := agree_key ha hF m (by omega) hm
      have k2 := agree_key ha hF (m / 2) (by omega) (by omega)
      rw [k1, k2]
      by_cases hc : m > 1 ∧ F (ol m) < F (ol (m / 2))
      · rw [if_pos hc, if_pos hc]
        have hp := HeapPerm.swap n ol (by omega : 1 ≤ m / 2) (by omega : m / 2 ≤ n)
          (by omega : 1 ≤ m) hm
        exact bubbleUpLT_congr fuel _ _ _ (by omega)
          (ha.exchange (by omega) (by omega) (by omega) hm) (hF.of_heapPerm hp)
      · rw [if_neg hc, if_neg hc]
        exact ha
    · rw [if_neg (fun h => hm1 h.1), if_neg (fun h => hm1 h.1)]
      exact ha

end AStarCompare
section AStarCompare2

set_option linter.unusedSectionVars false

variable {α : Type} [LinearOrderedRing α] [FloorRing α]

theorem find_congr {β : Type} (p q : β → Bool) : ∀ l : List β, (∀ x ∈ l, p x = q x) →
    l.find? p = l.find? q
  | [], _ => rfl
  | a :: l, h => by
    rw [List.find?_cons, List.find?_cons, h a (List.mem_cons_self _ _),
      find_congr p q l (fun x hx => h x (List.mem_cons_of_mem _ hx))]

/-- A new item in slot `n + 1`: the arrays written for it agree on the slots `1..n + 1`. -/
theorem agreeItems_push {β : Type} {n : Nat} {ol : Nat → Nat} {a a1 : Nat → β}
    (h : AgreeItems n ol a a1) (k : Nat) (v : β) :
    AgreeItems (n + 1) (setAt ol (n + 1) k) (setAt a k v) (setAt a1 k v) := by
  intro i hi1 hi2
  by_cases hk : setAt ol (n + 1) k i = k
  · rw [hk, setAt_same, setAt_same]
  · rw [setAt_ne _ _ hk, setAt_ne _ _ hk]
    by_cases hi : i = n + 1
    · rw [hi, setAt_same] at hk
      exact absurd rfl hk
    · rw [setAt_ne _ _ hi]
      exact h i hi1 (by omega)

theorem agreeOn_push {n : Nat} {ol ol1 : Nat → Nat} (h : AgreeOn n ol ol1) (k : Nat) :
    AgreeOn (n + 1) (setAt ol (n + 1) k) (setAt ol1 (n + 1) k) := by
  intro i hi1 hi2
  by_cases hi : i = n + 1
  · rw [hi, setAt_same, setAt_same]
  · rw [setAt_ne _ _ hi, setAt_ne _ _ hi]
    exact h i hi1 (by omega)

/-- Closing the top item keeps two searches alike. -/
theorem closeTop_same {zones : List (BotNavMeshZone α)} {S : Nat} {s s1 : AStar α}
    (sim : SameSearch zones S s s1) (hn : s.numberOfOpenListItems ≠ 0)
    (hgen : s.onOpenList + 1 = s.onClosedList) (hgen1 : s1.onOpenList + 1 = s1.onClosedList)
    (hPm : Marked s (s.openZone (s.openList 1)) ∨ s.openZone (s.openList 1) = S) :
    s1.openZone (s1.openList 1) = s.openZone (s.openList 1) ∧
      SameSearch zones S (closeTop s) (closeTop s1) := by
  have hn1 : 1 ≤ s.numberOfOpenListItems := Nat.one_le_iff_ne_zero.mpr hn
  have hP : s1.openZone (s1.openList 1) = s.openZone (s.openList 1) := by
    rw [← sim.heap 1 (le_refl 1) hn1]
    exact (sim.openZone 1 (le_refl 1) hn1).symm
  refine ⟨hP, ?_⟩
  have hwl : (closeTop s).whichList = setAt s.whichList (s.openZone (s.openList 1))
      s.onClosedList := rfl
  have hwl1 : (closeTop s1).whichList = setAt s1.whichList (s.openZone (s.openList 1))
      s1.onClosedList := by
    rw [← hP]
    rfl
  have hnn : (closeTop s).numberOfOpenListItems = s.numberOfOpenListItems - 1 := rfl
  have hol : (closeTop s).openList = siftDown s.Fcost (s.numberOfOpenListItems - 1)
      (s.numberOfOpenListItems - 1 + 1) 1
      (setAt s.openList 1 (s.openList (s.numberOfOpenListItems - 1 + 1))) := rfl
  have hol1 : (closeTop s1).openList = siftDown s1.Fcost (s.numberOfOpenListItems - 1)
      (s.numberOfOpenListItems - 1 + 1) 1
      (setAt s1.openList 1 (s1.openList (s.numberOfOpenListItems - 1 + 1))) := by
    rw [sim.count]
    rfl
  have hlast : s.numberOfOpenListItems - 1 + 1 = s.numberOfOpenListItems := by omega
  have ha0 : AgreeOn (s.numberOfOpenListItems - 1)
      (setAt s.openList 1 (s.openList (s.numberOfOpenListItems - 1 + 1)))
      (setAt s1.openList 1 (s1.openList (s.numberOfOpenListItems - 1 + 1))) := by
    intro i hi1 hi2
    by_cases hi : i = 1
    · rw [hi, setAt_same, setAt_same, hlast]
      exact sim.heap _ hn1 (le_refl _)
    · rw [setAt_ne _ _ hi, setAt_ne _ _ hi]
      exact sim.heap i hi1 (by omega)
  have hitems : ∀ {β : Type} (a a1 : Nat → β), AgreeItems s.numberOfOpenListItems s.openList a a1 →
      AgreeItems (s.numberOfOpenListItems - 1) (closeTop s).openList a a1 := by
    intro β a a1 h
    refine AgreeItems.of_heapPerm ?_ (closeTop_openList s)
    intro i hi1 hi2
    by_cases hi : i = 1
    · rw [hi, setAt_same, hlast]
      exact h _ hn1 (le_refl _)
    · rw [setAt_ne _ _ hi]
      exact h i hi1 (by omega)
  have hF0 : AgreeItems (s.numberOfOpenListItems - 1)
      (setAt s.openList 1 (s.openList (s.numberOfOpenListItems - 1 + 1))) s.Fcost s1.Fcost := by
    intro i hi1 hi2
    by_cases hi : i = 1
    · rw [hi, setAt_same, hlast]
      exact sim.Fcost _ hn1 (le_refl _)
    · rw [setAt_ne _ _ hi]
      exact sim.Fcost i hi1 (by omega)
  have hmark : ∀ z, Marked (closeTop s) z → z ≠ s.openZone (s.openList 1) → Marked s z := by
    intro z hz hzP
    unfold Marked at hz
    rw [hwl, setAt_ne _ _ hzP] at hz
    exact hz
  exact
    { count := by
        show s.numberOfOpenListItems - 1 = s1.numberOfOpenListItems - 1
        rw [sim.count]
      ids := sim.ids
      onOpen := by
        intro z hz
        rw [hwl, hwl1]
        show _ = s.onOpenList ↔ _ = s1.onOpenList
        by_cases hzP : z = s.openZone (s.openList 1)
        · rw [hzP, setAt_same, setAt_same]
          constructor <;> intro h <;> omega
        · rw [setAt_ne _ _ hzP, setAt_ne _ _ hzP]
          exact sim.onOpen z hz
      onClosed := by
        intro z hz
        rw [hwl, hwl1]
        show _ = s.onClosedList ↔ _ = s1.onClosedList
        by_cases hzP : z = s.openZone (s.openList 1)
        · rw [hzP, setAt_same, setAt_same]
          exact ⟨fun _ => rfl, fun _ => rfl⟩
        · rw [setAt_ne _ _ hzP, setAt_ne _ _ hzP]
          exact sim.onClosed z hz
      heap := by
        rw [hnn, hol, hol1]
        exact siftDown_congr _ _ _ _ (le_refl 1) ha0 hF0
      openZone := hitems _ _ sim.openZone
      Fcost := hitems _ _ sim.Fcost
      Hcost := hitems _ _ sim.Hcost
      Gcost := by
        intro z hz hm
        show s.Gcost z = s1.Gcost z
        by_cases hzP : z = s.openZone (s.openList 1)
        · rw [hzP]
          rw [hzP] at hz
          exact sim.Gcost _ hz hPm
        · rcases hm with hm | hm
          · exact sim.Gcost z hz (Or.inl (hmark z hm hzP))
          · exact sim.Gcost z hz (Or.inr hm)
      parentZones := by
        intro z hz hm hzS
        show s.parentZones z = s1.parentZones z
        by_cases hzP : z = s.openZone (s.openList 1)
        · rcases hPm with h | h
          · rw [hzP]
            rw [hzP] at hz
            exact sim.parentZones _ hz h (by rw [← hzP]; exact hzS)
          · exact absurd (hzP.trans h) hzS
        · exact sim.parentZones z hz (hmark z hm hzP) hzS }

end AStarCompare2
section AStarCompare3

set_option linter.unusedSectionVars false

variable {α : Type} [LinearOrderedRing α] [FloorRing α]

/-- One neighbour record keeps two searches alike. -/
theorem visitNeighbor_same (distanceTo : Point α → Point α → α)
    {zones : List (BotNavMeshZone α)} {S T P : Nat} {s s1 : AStar α}
    {zone : NeighboringZone α} (hlen : zones.length ≤ MAX_ZONES)
    (sim : SameSearch zones S s s1) (inv : SearchInv zones S T s)
    (hgen1 : s1.onOpenList + 1 = s1.onClosedList) (hP : P < zones.length)
    (hPc : s.whichList P = s.onClosedList) (hz : zone.zoneID < zones.length) :
    SameSearch zones S (visitNeighbor distanceTo zones P T s zone)
      (visitNeighbor distanceTo zones P T s1 zone) := by
  have hgen := inv.gen
  have hc1 := sim.onClosed _ hz
  have hc2 := sim.onOpen _ hz
  have hGP : s1.Gcost P = s.Gcost P := (sim.Gcost P hP (Or.inl (Or.inr hPc))).symm
  have hcount := sim.count
  have hids := sim.ids
  unfold visitNeighbor
  dsimp only
  by_cases c1 : s.whichList zone.zoneID = s.onClosedList
  · rw [if_pos c1, if_pos (hc1.mp c1)]
    exact sim
  · rw [if_neg c1, if_neg (fun h => c1 (hc1.mpr h))]
    by_cases c2 : s.whichList zone.zoneID ≠ s.onOpenList ∧ s.newOpenListItemID < MAX_ZONES
    · have c2a : s1.whichList zone.zoneID ≠ s1.onOpenList ∧ s1.newOpenListItemID < MAX_ZONES :=
        ⟨fun h => c2.1 (hc2.mpr h), by rw [← hids]; exact c2.2⟩
      rw [if_pos c2, if_pos c2a, ← hcount, ← hids, hGP]
      simp only [setAt_same]
      have hmark : ∀ z, z ≠ zone.zoneID →
          (setAt s.whichList zone.zoneID s.onOpenList z = s.onOpenList ∨
            setAt s.whichList zone.zoneID s.onOpenList z = s.onClosedList) → Marked s z := by
        intro z hzz hm
        rw [setAt_ne _ _ hzz] at hm
        exact hm
      have ha := agreeOn_push sim.heap (s.newOpenListItemID + 1)
      have hF := agreeItems_push sim.Fcost (s.newOpenListItemID + 1)
        (s.Gcost P + zone.distTo + heuristic distanceTo zones zone.zoneID T)
      have hp := bubbleUpLE_heapPerm
        (setAt s.Fcost (s.newOpenListItemID + 1)
          (s.Gcost P + zone.distTo + heuristic distanceTo zones zone.zoneID T))
        (s.numberOfOpenListItems + 1) (s.numberOfOpenListItems + 1)
        (s.numberOfOpenListItems + 1)
        (setAt s.openList (s.numberOfOpenListItems + 1) (s.newOpenListItemID + 1)) (le_refl _)
      exact
        { count := rfl
          ids := rfl
          onOpen := by
            intro z hzl
            show setAt s.whichList zone.zoneID s.onOpenList z = s.onOpenList ↔
              setAt s1.whichList zone.zoneID s1.onOpenList z = s1.onOpenList
            by_cases hzz : z = zone.zoneID
            · rw [hzz, setAt_same, setAt_same]
              exact ⟨fun _ => rfl, fun _ => rfl⟩
            · rw [setAt_ne _ _ hzz, setAt_ne _ _ hzz]
              exact sim.onOpen z hzl
          onClosed := by
            intro z hzl
            show setAt s.whichList zone.zoneID s.onOpenList z = s.onClosedList ↔
              setAt s1.whichList zone.zoneID s1.onOpenList z = s1.onClosedList
            by_cases hzz : z = zone.zoneID
            · rw [hzz, setAt_same, setAt_same]
              constructor <;> intro h <;> omega
            · rw [setAt_ne _ _ hzz, setAt_ne _ _ hzz]
              exact sim.onClosed z hzl
          heap := bubbleUpLE_congr _ _ _ _ (le_refl _) ha hF
          openZone := (agreeItems_push sim.openZone _ _).of_heapPerm hp
          Fcost := hF.of_heapPerm hp
          Hcost := (agreeItems_push sim.Hcost _ _).of_heapPerm hp
          Gcost := by
            intro z hzl hm
            show setAt s.Gcost zone.zoneID (s.Gcost P + zone.distTo) z =
              setAt s1.Gcost zone.zoneID (s.Gcost P + zone.distTo) z
            by_cases hzz : z = zone.zoneID
            · rw [hzz, setAt_same, setAt_same]
            · rw [setAt_ne _ _ hzz, setAt_ne _ _ hzz]
              rcases hm with hm | hm
              · exact sim.Gcost z hzl (Or.inl (hmark z hzz hm))
              · exact sim.Gcost z hzl (Or.inr hm)
          parentZones := by
            intro z hzl hm hzS
            show setAt s.parentZones zone.zoneID P z = setAt s1.parentZones zone.zoneID P z
            by_cases hzz : z = zone.zoneID
            · rw [hzz, setAt_same, setAt_same]
            · rw [setAt_ne _ _ hzz, setAt_ne _ _ hzz]
              exact sim.parentZones z hzl (hmark z hzz hm) hzS }
    · have c2a : ¬ (s1.whichList zone.zoneID ≠ s1.onOpenList ∧
          s1.newOpenListItemID < MAX_ZONES) :=
        fun h => c2 ⟨fun h1 => h.1 (hc2.mp h1), by rw [hids]; exact h.2⟩
      have hopen : s.whichList zone.zoneID = s.onOpenList := by
        by_contra hno
        have := inv.room hz hno c1
        exact c2 ⟨hno, by omega⟩
      have hGz : s1.Gcost zone.zoneID = s.Gcost zone.zoneID :=
        (sim.Gcost _ hz (Or.inl (Or.inl hopen))).symm
      rw [if_neg c2, if_neg c2a, hGP, hGz]
      by_cases c3 : ((truncS32 (s.Gcost P + zone.distTo) : Int) : α) < s.Gcost zone.zoneID
      · rw [if_pos c3, if_pos c3]
        have hfeq : (List.range' 1 s1.numberOfOpenListItems).find?
              (fun i => s1.openZone (s1.openList i) == zone.zoneID) =
            (List.range' 1 s.numberOfOpenListItems).find?
              (fun i => s.openZone (s.openList i) == zone.zoneID) := by
          rw [← hcount]
          apply find_congr
          intro i hi
          rw [List.mem_range'_1] at hi
          rw [← sim.heap i hi.1 (by omega), ← sim.openZone i hi.1 (by omega)]
        rw [hfeq]
        have hG : ∀ z, z < zones.length → Marked s z ∨ z = S →
            setAt s.Gcost zone.zoneID ((truncS32 (s.Gcost P + zone.distTo) : Int) : α) z =
              setAt s1.Gcost zone.zoneID ((truncS32 (s.Gcost P + zone.distTo) : Int) : α) z := by
          intro z hzl hm
          by_cases hzz : z = zone.zoneID
          · rw [hzz, setAt_same, setAt_same]
          · rw [setAt_ne _ _ hzz, setAt_ne _ _ hzz]
            exact sim.Gcost z hzl hm
        have hPz : ∀ z, z < zones.length → Marked s z → z ≠ S →
            setAt s.parentZones zone.zoneID P z = setAt s1.parentZones zone.zoneID P z := by
          intro z hzl hm hzS
          by_cases hzz : z = zone.zoneID
          · rw [hzz, setAt_same, setAt_same]
          · rw [setAt_ne _ _ hzz, setAt_ne _ _ hzz]
            exact sim.parentZones z hzl hm hzS
        cases hfind : (List.range' 1 s.numberOfOpenListItems).find?
            (fun i => s.openZone (s.openList i) == zone.zoneID) with
        | none =>
          exact
            { count := sim.count, ids := sim.ids, onOpen := sim.onOpen, onClosed := sim.onClosed,
              heap := sim.heap, openZone := sim.openZone, Fcost := sim.Fcost,
              Hcost := sim.Hcost, Gcost := hG, parentZones := hPz }
        | some i =>
          have hmem := List.mem_of_find?_eq_some hfind
          rw [List.mem_range'_1] at hmem
          have hi2 : i ≤ s.numberOfOpenListItems := by omega
          have hH : s1.Hcost (s1.openList i) = s.Hcost (s.openList i) := by
            rw [← sim.heap i hmem.1 hi2]
            exact (sim.Hcost i hmem.1 hi2).symm
          have hoi : s1.openList i = s.openList i := (sim.heap i hmem.1 hi2).symm
          simp only [setAt_same]
          rw [hH, hoi]
          have hF := AgreeItems.setAt sim.Fcost (s.openList i)
            (((truncS32 (s.Gcost P + zone.distTo) : Int) : α) + s.Hcost (s.openList i))
          have hp := bubbleUpLT_heapPerm
            (setAt s.Fcost (s.openList i)
              (((truncS32 (s.Gcost P + zone.distTo) : Int) : α) + s.Hcost (s.openList i)))
            s.numberOfOpenListItems i i s.openList hi2
          exact
            { count := sim.count, ids := sim.ids, onOpen := sim.onOpen, onClosed := sim.onClosed,
              heap := bubbleUpLT_congr _ _ _ _ hi2 sim.heap hF
              openZone := sim.openZone.of_heapPerm hp
              Fcost := hF.of_heapPerm hp
              Hcost := sim.Hcost.of_heapPerm hp
              Gcost := hG, parentZones := hPz }
      · rw [if_neg c3, if_neg c3]
        exact sim

end AStarCompare3
section AStarCompare4

set_option linter.unusedSectionVars false

variable {α : Type} [LinearOrderedRing α] [FloorRing α]

/-- The loop over the neighbour records of the closed zone `P` keeps two searches alike. -/
theorem foldl_visitNeighbor_same (distanceTo : Point α → Point α → α)
    {zones : List (BotNavMeshZone α)} {S T P : Nat} (hv : ValidGraph zones)
    (hP : P < zones.length) : ∀ (L : List (NeighboringZone α)) (s s1 : AStar α),
    (∀ nb ∈ L, nb ∈ neighborsOf zones P) → SameSearch zones S s s1 →
    SearchInv zones S T s → SearchInv zones S T s1 →
    s.whichList P = s.onClosedList → s1.whichList P = s1.onClosedList →
    SameSearch zones S (L.foldl (visitNeighbor distanceTo zones P T) s)
      (L.foldl (visitNeighbor distanceTo zones P T) s1)
  | [], _, _, _, sim, _, _, _, _ => sim
  | zone :: L, s, s1, hL, sim, inv, inv1, hPc, hPc1 => by
    have hzone := hL zone (List.mem_cons_self _ _)
    obtain ⟨h1, -, h3, -⟩ := visitNeighbor_inv distanceTo hv inv hP hPc hzone
    obtain ⟨g1, -, g3, -⟩ := visitNeighbor_inv distanceTo hv inv1 hP hPc1 hzone
    rw [List.foldl_cons, List.foldl_cons]
    exact foldl_visitNeighbor_same distanceTo hv hP L _ _
      (fun nb hnb => hL nb (List.mem_cons_of_mem _ hnb))
      (visitNeighbor_same distanceTo hv.1 sim inv inv1.gen hP hPc (validGraph_nb hv hzone))
      h1 g1 ((h3 P).mpr hPc) ((g3 P).mpr hPc1)

/-- Two searches that are alike at the head of the loop give the same answer and are alike
at the end. -/
theorem searchLoop_same (distanceTo : Point α → Point α → α)
    {zones : List (BotNavMeshZone α)} {S T : Nat} (hv : ValidGraph zones)
    (hS : S < zones.length) (hT : T < zones.length) :
    ∀ (fuel : Nat) (s s1 : AStar α) (b : Bool) (r : AStar α),
    (SearchStart S s ∧ SearchStart S s1) ∨ (SearchHead zones S T s ∧ SearchHead zones S T s1) →
    SameSearch zones S s s1 →
    searchLoop distanceTo zones T fuel s = some (b, r) →
    ∃ r1, searchLoop distanceTo zones T fuel s1 = some (b, r1) ∧ SameSearch zones S r r1
  | 0, s, s1, b, r, _, _, h => by simp [searchLoop] at h
  | fuel + 1, s, s1, b, r, hph, sim, h => by
    unfold searchLoop at h ⊢
    dsimp only at h ⊢
    by_cases h1 : s.numberOfOpenListItems = 0
    · rw [if_pos h1] at h
      rw [if_pos (by rw [← sim.count]; exact h1)]
      simp only [Option.some.injEq, Prod.mk.injEq] at h
      refine ⟨s1, by rw [h.1], ?_⟩
      rw [← h.2]
      exact sim
    · rw [if_neg h1] at h
      rw [if_neg (by rw [← sim.count]; exact h1)]
      have hn1 : 1 ≤ s.numberOfOpenListItems := Nat.one_le_iff_ne_zero.mpr h1
      have hP : s1.openZone (s1.openList 1) = s.openZone (s.openList 1) := by
        rw [← sim.heap 1 (le_refl 1) hn1]
        exact (sim.openZone 1 (le_refl 1) hn1).symm
      rw [hP]
      by_cases h2 : s.openZone (s.openList 1) = T
      · rw [if_pos h2] at h
        rw [if_pos h2]
        simp only [Option.some.injEq, Prod.mk.injEq] at h
        refine ⟨s1, by rw [h.1], ?_⟩
        rw [← h.2]
        exact sim
      · rw [if_neg h2] at h
        rw [if_neg h2]
        have hn11 : s1.numberOfOpenListItems ≠ 0 := by rw [← sim.count]; exact h1
        have h21 : s1.openZone (s1.openList 1) ≠ T := by rw [hP]; exact h2
        have hc : (SearchInv zones S T (closeTop s) ∧
            ClosedExpanded zones (closeTop s) (s.openZone (s.openList 1)) ∧
            (closeTop s).whichList (s.openZone (s.openList 1)) = (closeTop s).onClosedList ∧
            s.openZone (s.openList 1) < zones.length) ∧
            (SearchInv zones S T (closeTop s1) ∧
            ClosedExpanded zones (closeTop s1) (s1.openZone (s1.openList 1)) ∧
            (closeTop s1).whichList (s1.openZone (s1.openList 1)) =
              (closeTop s1).onClosedList ∧
            s1.openZone (s1.openList 1) < zones.length) ∧
            SameSearch zones S (closeTop s) (closeTop s1) := by
          rcases hph with ⟨hst, hst1⟩ | ⟨hd, hd1⟩
          · exact ⟨closeTop_of_start hv.1 hS hT hst (by rw [← hst.top]; exact h2),
              closeTop_of_start hv.1 hS hT hst1 (by rw [← hst1.top]; exact h21),
              (closeTop_same sim h1 hst.gen hst1.gen (Or.inr hst.top)).2⟩
          · exact ⟨closeTop_of_head hS hd h1 h2, closeTop_of_head hS hd1 hn11 h21,
              (closeTop_same sim h1 hd.1.gen hd1.1.gen
                (Or.inl (hd.1.heapMarked 1 (le_refl 1) hn1).2)).2⟩
        obtain ⟨hc0, hc1, hcs⟩ := hc
        have hhead := expandTop_head distanceTo hv hc0
        have hhead1 := expandTop_head distanceTo hv hc1
        have hsame : SameSearch zones S (expandTop distanceTo zones T s)
            (expandTop distanceTo zones T s1) := by
          unfold expandTop
          dsimp only
          rw [hP]
          exact foldl_visitNeighbor_same distanceTo hv hc0.2.2.2 _ _ _ (fun _ h => h) hcs
            hc0.1 hc1.1 hc0.2.2.1 (by rw [← hP]; exact hc1.2.2.1)
        by_cases h3 : (expandTop distanceTo zones T s).whichList T =
            (expandTop distanceTo zones T s).onOpenList
        · rw [if_pos h3] at h
          rw [if_pos ((hsame.onOpen T hT).mp h3)]
          simp only [Option.some.injEq, Prod.mk.injEq] at h
          refine ⟨_, by rw [h.1], ?_⟩
          rw [← h.2]
          exact hsame
        · rw [if_neg h3] at h
          rw [if_neg (fun hh => h3 ((hsame.onOpen T hT).mpr hh))]
          exact searchLoop_same distanceTo hv hS hT fuel _ _ b r (Or.inr ⟨hhead, hhead1⟩)
            hsame h

/-- The walk over two parent arrays that agree on the zones it visits. -/
theorem walkBack_congr (zones : List (BotNavMeshZone α)) (pz pz1 : Nat → Nat) (S : Nat)
    (Q : Nat → Prop) (hQ : ∀ x, Q x → x ≠ S → pz x = pz1 x ∧ Q (pz x)) :
    ∀ (fuel z : Nat) (path : List (Point α)), Q z →
    walkBack zones pz S fuel z path = walkBack zones pz1 S fuel z path
  | 0, z, path, _ => by
    rw [walkBack, walkBack]
  | fuel + 1, z, path, hz => by
    by_cases hzS : z = S
    · rw [hzS, walkBack_start, walkBack_start]
    · obtain ⟨h1, h2⟩ := hQ z hz hzS
      rw [walkBack_step _ _ _ _ _ _ hzS, walkBack_step _ _ _ _ _ _ hzS, ← h1]
      exact walkBack_congr zones pz pz1 S Q hQ fuel _ _ h2

/-- The start of the search from fresh statics is like the start from zeroed statics. -/
theorem startSearch_same (distanceTo : Point α → Point α → α)
    {zones : List (BotNavMeshZone α)} (hlen : zones.length ≤ MAX_ZONES) (st st1 : AStar α)
    (hf : Fresh st) (hf1 : Fresh st1) (S T : Nat) :
    SameSearch zones S (startSearch distanceTo zones st S T)
      (startSearch distanceTo zones st1 S T) := by
  have hst := startSearch_start distanceTo zones st S T hf
  have hst1 := startSearch_start distanceTo zones st1 S T hf1
  have hno : ∀ (s : AStar α), SearchStart S s → ∀ z, z < zones.length → ¬ Marked s z := by
    intro s h z hz hm
    have h1 := h.unmarked z (by omega)
    have h2 := h.gen
    rcases hm with hm | hm <;> omega
  have hol : ∀ st0 : AStar α, (startSearch distanceTo zones st0 S T).openList 1 = 0 := by
    intro st0
    show setAt (nextGeneration st0).openList 1 0 1 = 0
    rw [setAt_same]
  have hone : ∀ i, 1 ≤ i → i ≤ (startSearch distanceTo zones st S T).numberOfOpenListItems →
      i = 1 := by
    intro i h1 h2
    rw [hst.one] at h2
    omega
  exact
    { count := rfl
      ids := rfl
      onOpen := fun z hz =>
        ⟨fun h => absurd (Or.inl h) (hno _ hst z hz), fun h => absurd (Or.inl h) (hno _ hst1 z hz)⟩
      onClosed := fun z hz =>
        ⟨fun h => absurd (Or.inr h) (hno _ hst z hz), fun h => absurd (Or.inr h) (hno _ hst1 z hz)⟩
      heap := by
        intro i h1 h2
        rw [hone i h1 h2, hol, hol]
      openZone := by
        intro i h1 h2
        rw [hone i h1 h2, hol]
        show setAt (nextGeneration st).openZone 0 S 0 = setAt (nextGeneration st1).openZone 0 S 0
        rw [setAt_same, setAt_same]
      Fcost := by
        intro i h1 h2
        rw [hone i h1 h2, hol]
        show setAt (nextGeneration st).Fcost 0 (heuristic distanceTo zones S T) 0 =
          setAt (nextGeneration st1).Fcost 0 (heuristic distanceTo zones S T) 0
        rw [setAt_same, setAt_same]
      Hcost := by
        intro i h1 h2
        rw [hone i h1 h2, hol]
        show setAt (nextGeneration st).Hcost 0 (heuristic distanceTo zones S T) 0 =
          setAt (nextGeneration st1).Hcost 0 (heuristic distanceTo zones S T) 0
        rw [setAt_same, setAt_same]
      Gcost := by
        intro z hz hm
        rcases hm with hm | hm
        · exact absurd hm (hno _ hst z hz)
        · rw [hm, hst.gStart, hst1.gStart]
      parentZones := fun z hz hm _ => absurd hm (hno _ hst z hz) }

/-- The path that `findPath` returns does not depend on what earlier calls have left in
the statics. -/
theorem findPath_same (distanceTo : Point α → Point α → α) {zones : List (BotNavMeshZone α)}
    (hv : ValidGraph zones) (st st1 : AStar α) (hf : Fresh st) (hf1 : Fresh st1) {S T : Nat}
    (hS : S < zones.length) (hT : T < zones.length) (target : Point α) :
    ∃ path s s1, findPath distanceTo zones st S T target = some (path, s) ∧
      findPath distanceTo zones st1 S T target = some (path, s1) := by
  have hst := startSearch_start distanceTo zones st S T hf
  have hst1 := startSearch_start distanceTo zones st1 S T hf1
  obtain ⟨b, r, hloop, -⟩ := searchLoop_total distanceTo zones T (MAX_ZONES + 2)
    (startSearch distanceTo zones st S T) (by rw [hst.noId]; exact Nat.zero_le _)
    (by rw [hst.one, hst.noId]; omega)
  obtain ⟨r1, hloop1, sim⟩ := searchLoop_same distanceTo hv hS hT _ _ _ b r
    (Or.inl ⟨hst, hst1⟩) (startSearch_same distanceTo hv.1 st st1 hf hf1 S T) hloop
  obtain ⟨-, htrue⟩ := searchLoop_result distanceTo hv hS hT _ _ b r (Or.inl hst) hloop
  cases b with
  | false =>
    exact ⟨[], r, r1, by simp only [findPath, hloop], by simp only [findPath, hloop1]⟩
  | true =>
    have hwalk : ∃ p, walkBack zones r.parentZones S (MAX_ZONES + 1) T
          [target, getCenter zones T] = some p ∧
        walkBack zones r1.parentZones S (MAX_ZONES + 1) T [target, getCenter zones T] =
          some p := by
      rcases htrue rfl with ⟨hST, -⟩ | ⟨inv, hm⟩
      · subst hST
        exact ⟨_, walkBack_start _ _ _ _ _, walkBack_start _ _ _ _ _⟩
      · obtain ⟨recs, -, hw, -⟩ := walkBack_marked hv inv hT hm [target, getCenter zones T]
        refine ⟨_, hw, ?_⟩
        rw [← hw]
        symm
        apply walkBack_congr zones r.parentZones r1.parentZones S
          (fun x => x < zones.length ∧ Marked r x)
        · rintro x ⟨hx, hxm⟩ hxS
          obtain ⟨p1, p2, -⟩ := inv.parent x hx hxm hxS
          exact ⟨sim.parentZones x hx hxm hxS, p1, Or.inr p2⟩
        · exact ⟨hT, hm⟩
    obtain ⟨p, hw, hw1⟩ := hwalk
    exact ⟨p ++ [getCenter zones S], r, r1, by simp only [findPath, hloop, hw],
      by simp only [findPath, hloop1, hw1]⟩

end AStarCompare4
section AStarCompare5

set_option linter.unusedSectionVars false

variable {α : Type} [LinearOrderedRing α] [FloorRing α]

/-- A sequence of calls on fresh statics returns, call by call, what the first call on
zeroed statics returns. -/
theorem findPaths_same (distanceTo : Point α → Point α → α) : ∀ (qs : List (Query α))
    (st : AStar α), Fresh st →
    (∀ q ∈ qs, ValidGraph q.zones ∧ q.startZone < q.zones.length ∧
      q.targetZone < q.zones.length) →
    findPaths distanceTo st qs =
        qs.map (fun q =>
          (findPath distanceTo q.zones AStar.init q.startZone q.targetZone q.target).map
            Prod.fst) ∧
      none ∉ findPaths distanceTo st qs
  | [], _, _, _ => ⟨rfl, List.not_mem_nil _⟩
  | q :: qs, st, hf, hqs => by
    obtain ⟨hv, hS, hT⟩ := hqs q (List.mem_cons_self _ _)
    obtain ⟨path, s, s0, h1, h2⟩ := findPath_same distanceTo hv st AStar.init hf fresh_init
      hS hT q.target
    obtain ⟨ih1, ih2⟩ := findPaths_same distanceTo qs s
      (findPath_fresh distanceTo q.zones st hf _ _ _ _ _ h1)
      (fun q1 hq1 => hqs q1 (List.mem_cons_of_mem _ hq1))
    rw [findPaths]
    simp only [h1, List.map_cons, h2, Option.map_some', ih1]
    refine ⟨trivial, ?_⟩
    rw [← ih1]
    intro hmem
    rcases List.mem_cons.mp hmem with h | h
    · exact absurd h (by simp)
    · exact ih2 h

/-- C24: a sequence of calls of `findPath`, each on a graph of at most `MAX_ZONES` zones
with valid neighbour ids and with zones of that graph, started on fresh statics (the
zeroed statics of program start, or any statics that earlier calls have left): every call
returns, and returns the path that the same call returns as the first call on zeroed
statics.  At the start of a search on fresh statics no zone below `MAX_ZONES` carries the
open or the closed mark of that search.  The generation counter never wraps: the new
closed mark is the old one, or 0 after the reset that is made when the old one exceeds
`U16_MAX - 3`, plus two, it is at most 65534, and the open mark is one less. -/
theorem C24_calls_independent_of_history (distanceTo : Point α → Point α → α)
    (qs : List (Query α)) (st : AStar α) (hf : Fresh st)
    (hqs : ∀ q ∈ qs, ValidGraph q.zones ∧ q.startZone < q.zones.length ∧
      q.targetZone < q.zones.length) :
    findPaths distanceTo st qs =
        qs.map (fun q =>
          (findPath distanceTo q.zones AStar.init q.startZone q.targetZone q.target).map
            Prod.fst) ∧
      none ∉ findPaths distanceTo st qs ∧
      (∀ z, z < MAX_ZONES → ¬ Marked (nextGeneration st) z) ∧
      (nextGeneration st).onClosedList =
        (if st.onClosedList > U16_MAX - 3 then 0 else st.onClosedList) + 2 ∧
      (nextGeneration st).onClosedList ≤ 65534 ∧
      (nextGeneration st).onOpenList + 1 = (nextGeneration st).onClosedList ∧
      (st.onClosedList > U16_MAX - 3 →
        ∀ z, z < MAX_ZONES → (nextGeneration st).whichList z = 0) := by
  obtain ⟨h1, h2⟩ := findPaths_same distanceTo qs st hf hqs
  obtain ⟨g1, g2⟩ := nextGeneration_spec st hf
  refine ⟨h1, h2, ?_, ?_, ?_, g1, ?_⟩
  · intro z hz hm
    have := g2 z hz
    rcases hm with hm | hm <;> omega
  · by_cases h : st.onClosedList > U16_MAX - 3
    · rw [if_pos h]
      exact (nextGeneration_reset st h).1
    · rw [if_neg h]
      exact (nextGeneration_advance st h).1
  · by_cases h : st.onClosedList > U16_MAX - 3
    · rw [(nextGeneration_reset st h).1]
      omega
    · rw [(nextGeneration_advance st h).1]
      unfold U16_MAX at h
      omega
  · intro h z hz
    rw [(nextGeneration_reset st h).2.2]
    show (if z < MAX_ZONES then 0 else st.whichList z) = 0
    rw [if_pos hz]

end AStarCompare5

/-- Three calls in a row on the example graph, the first on zeroed statics: each returns
what it returns as a first call. -/
theorem C24_calls_independent_of_history_witness :
    findPaths exampleDistance AStar.init exampleQueries =
      [some [⟨9, 1⟩, ⟨8, 0⟩, ⟨4, 1⟩, ⟨0, 0⟩, ⟨0, 0⟩],
        some [⟨9, 1⟩, ⟨8, 0⟩, ⟨4, 3⟩, ⟨0, 2⟩, ⟨0, 2⟩], some []] ∧
    findPaths exampleDistance AStar.init exampleQueries =
      exampleQueries.map (fun q =>
        (findPath exampleDistance q.zones AStar.init q.startZone q.targetZone q.target).map
          Prod.fst) ∧
    none ∉ findPaths exampleDistance AStar.init exampleQueries :=
  ⟨by decide,
    (C24_calls_independent_of_history exampleDistance exampleQueries AStar.init fresh_init
      (fun q hq => by
        simp only [exampleQueries, List.mem_cons, List.mem_singleton, List.not_mem_nil,
          or_false] at hq
        rcases hq with rfl | rfl | rfl <;>
          exact ⟨validGraph_exampleZones, by decide, by decide⟩)).1,
    (C24_calls_independent_of_history exampleDistance exampleQueries AStar.init fresh_init
      (fun q hq => by
        simp only [exampleQueries, List.mem_cons, List.mem_singleton, List.not_mem_nil,
          or_false] at hq
        rcases hq with rfl | rfl | rfl <;>
          exact ⟨validGraph_exampleZones, by decide, by decide⟩)).2.1⟩
/-! ### The edge table: what the first loop builds -/

theorem chain_start_ne {nextEdge : Nat → Nat} {s e : Nat} (h : Chain nextEdge s e) :
    s ≠ RC_MESH_NULL_IDX := by
  cases h with
  | head h0 => exact h0
  | tail h0 _ => exact h0

/-- A chain that starts below `n` and goes down stays below `n`. -/
theorem chain_lt {nextEdge : Nat → Nat} {n : Nat}
    (hnext : ∀ e, e < n → nextEdge e = RC_MESH_NULL_IDX ∨ nextEdge e < e) :
    ∀ {s e : Nat}, Chain nextEdge s e → s < n → e < n := by
  intro s e h
  induction h with
  | head _ => exact fun hs => hs
  | tail h0 hc ih =>
    intro hs
    rcases hnext _ hs with h1 | h1
    · exact absurd h1 (chain_start_ne hc)
    · exact ih (by omega)

/-- Writing `nextEdge[n]` does not change the chains that start below `n`. -/
theorem chain_setAt {nextEdge : Nat → Nat} {n : Nat} (x : Nat)
    (hnext : ∀ e, e < n → nextEdge e = RC_MESH_NULL_IDX ∨ nextEdge e < e) :
    ∀ {s e : Nat}, Chain nextEdge s e → s < n → Chain (setAt nextEdge n x) s e := by
  intro s e h
  induction h with
  | head h0 => exact fun _ => Chain.head h0
  | tail h0 hc ih =>
    intro hs
    rename_i s1 e1
    rcases hnext _ hs with h1 | h1
    · exact absurd h1 (chain_start_ne hc)
    · refine Chain.tail h0 ?_
      rw [setAt_ne _ _ (by omega : s1 ≠ n)]
      exact ih (by omega)

theorem chain_of_setAt {nextEdge : Nat → Nat} {n : Nat} (x : Nat)
    (hnext : ∀ e, e < n → nextEdge e = RC_MESH_NULL_IDX ∨ nextEdge e < e) :
    ∀ {s e : Nat}, Chain (setAt nextEdge n x) s e → s < n → Chain nextEdge s e := by
  intro s e h
  induction h with
  | head h0 => exact fun _ => Chain.head h0
  | tail h0 hc ih =>
    intro hs
    rename_i s1 e1
    rw [setAt_ne _ _ (by omega : s1 ≠ n)] at hc ih
    rcases hnext _ hs with h1 | h1
    · exact absurd h1 (chain_start_ne hc)
    · exact Chain.tail h0 (ih (by omega))

theorem createdEdges_append (vs ws : List (Nat × Nat × Nat)) :
    createdEdges (vs ++ ws) = createdEdges vs ++ createdEdges ws := by
  simp [createdEdges]

theorem createdEdges_one_lt {i v0 v1 : Nat} (h : v0 < v1) :
    createdEdges [(i, v0, v1)] =
      [{ vert0 := v0, vert1 := v1, poly0 := i % 65536, poly1 := i % 65536 }] := by
  simp [createdEdges, h]

theorem createdEdges_one_ge {i v0 v1 : Nat} (h : ¬ v0 < v1) : createdEdges [(i, v0, v1)] = [] := by
  simp [createdEdges, h]

/-- One visit of the first loop. -/
theorem addEdge_created {done : List (Nat × Nat × Nat)} {t : EdgeTable}
    (h : EdgesCreated done t) (i v0 v1 : Nat)
    (hcap : (createdEdges (done ++ [(i, v0, v1)])).length < RC_MESH_NULL_IDX) :
    EdgesCreated (done ++ [(i, v0, v1)]) (addEdge t i v0 v1) := by
  unfold addEdge
  by_cases hv : v0 < v1
  · rw [if_pos hv]
    rw [createdEdges_append, createdEdges_one_lt hv, ← h.edges, List.length_append,
      List.length_singleton] at hcap
    unfold RC_MESH_NULL_IDX at hcap
    have hmod : t.edges.length % 65536 = t.edges.length := Nat.mod_eq_of_lt (by omega)
    have hnull : t.edges.length ≠ RC_MESH_NULL_IDX := by
      unfold RC_MESH_NULL_IDX
      omega
    have hget : ∀ e x, t.edges.get? e = some x →
        (t.edges ++ [(⟨v0, v1, i % 65536, i % 65536⟩ : rcEdge)]).get? e = some x := by
      intro e x hx
      have hlt : e < t.edges.length := by
        by_contra hc
        rw [List.get?_eq_none.mpr (not_lt.mp hc)] at hx
        cases hx
      rw [List.get?_eq_getElem?, List.getElem?_append_left hlt, ← List.get?_eq_getElem?]
      exact hx
    have hlast : (t.edges ++ [(⟨v0, v1, i % 65536, i % 65536⟩ : rcEdge)]).get? t.edges.length =
        some { vert0 := v0, vert1 := v1, poly0 := i % 65536, poly1 := i % 65536 } := by
      simp
    have hold : ∀ v, t.firstEdge v ≠ RC_MESH_NULL_IDX → t.firstEdge v < t.edges.length := by
      intro v hne
      rcases h.first v with h1 | h1
      · exact absurd h1 hne
      · exact h1
    refine
      { edges := by rw [createdEdges_append, createdEdges_one_lt hv, ← h.edges]
        sound := ?_, complete := ?_, first := ?_, next := ?_ }
    · intro v e hc
      dsimp only at hc ⊢
      rw [hmod] at hc
      by_cases hvv : v = v0
      · rw [hvv, setAt_same] at hc
        cases hc with
        | head _ => exact ⟨_, hlast, hvv.symm⟩
        | tail _ hc1 =>
          rw [setAt_same] at hc1
          have hs := hold v0 (chain_start_ne hc1)
          obtain ⟨x, hx1, hx2⟩ := h.sound v0 e (chain_of_setAt _ h.next hc1 hs)
          exact ⟨x, hget e x hx1, by rw [hx2, hvv]⟩
      · rw [setAt_ne _ _ hvv] at hc
        have hs := hold v (chain_start_ne hc)
        obtain ⟨x, hx1, hx2⟩ := h.sound v e (chain_of_setAt _ h.next hc hs)
        exact ⟨x, hget e x hx1, hx2⟩
    · intro e x hx
      dsimp only at hx ⊢
      rw [hmod]
      by_cases he : e < t.edges.length
      · rw [List.get?_eq_getElem?, List.getElem?_append_left he, ← List.get?_eq_getElem?] at hx
        have hc := h.complete e x hx
        have hs := hold _ (chain_start_ne hc)
        by_cases hvv : x.vert0 = v0
        · rw [hvv, setAt_same]
          refine Chain.tail hnull ?_
          rw [setAt_same]
          rw [hvv] at hc hs
          exact chain_setAt _ h.next hc hs
        · rw [setAt_ne _ _ hvv]
          exact chain_setAt _ h.next hc hs
      · have hlen : e = t.edges.length := by
          have h1 : e < (t.edges ++ [(⟨v0, v1, i % 65536, i % 65536⟩ : rcEdge)]).length := by
            by_contra hc
            rw [List.get?_eq_none.mpr (not_lt.mp hc)] at hx
            cases hx
          rw [List.length_append, List.length_singleton] at h1
          omega
        rw [hlen, hlast] at hx
        simp only [Option.some.injEq] at hx
        rw [← hx, hlen]
        dsimp only
        rw [setAt_same]
        exact Chain.head hnull
    · intro v
      dsimp only
      rw [hmod, List.length_append, List.length_singleton]
      by_cases hvv : v = v0
      · rw [hvv, setAt_same]
        right
        omega
      · rw [setAt_ne _ _ hvv]
        rcases h.first v with h1 | h1
        · exact Or.inl h1
        · right
          omega
    · intro e he
      dsimp only at he ⊢
      rw [List.length_append, List.length_singleton] at he
      by_cases hee : e = t.edges.length
      · rw [hee, setAt_same]
        rcases h.first v0 with h1 | h1
        · exact Or.inl h1
        · exact Or.inr h1
      · rw [setAt_ne _ _ hee]
        exact h.next e (by omega)
  · rw [if_neg hv]
    exact
      { edges := by rw [createdEdges_append, createdEdges_one_ge hv, List.append_nil, h.edges]
        sound := h.sound, complete := h.complete, first := h.first, next := h.next }

theorem createdEdges_length_le (vs ws : List (Nat × Nat × Nat)) :
    (createdEdges vs).length ≤ (createdEdges (vs ++ ws)).length := by
  rw [createdEdges_append, List.length_append]
  omega

/-- The first loop. -/
theorem foldl_addEdge_created : ∀ (vs done : List (Nat × Nat × Nat)) (t : EdgeTable),
    EdgesCreated done t → (createdEdges (done ++ vs)).length < RC_MESH_NULL_IDX →
    EdgesCreated (done ++ vs) (vs.foldl (fun t v => addEdge t v.1 v.2.1 v.2.2) t)
  | [], done, t, h, _ => by
    rw [List.append_nil]
    exact h
  | v :: vs, done, t, h, hcap => by
    rw [List.foldl_cons]
    have h1 : done ++ v :: vs = (done ++ [v]) ++ vs := by simp
    rw [h1] at hcap ⊢
    exact foldl_addEdge_created vs (done ++ [v]) _
      (addEdge_created h v.1 v.2.1 v.2.2
        (lt_of_le_of_lt (createdEdges_length_le _ vs) hcap)) hcap

theorem edgesCreated_start :
    EdgesCreated []
      { edges := [], firstEdge := fun _ => RC_MESH_NULL_IDX,
        nextEdge := fun _ => RC_MESH_NULL_IDX } :=
  { edges := rfl
    sound := fun _ _ hc => absurd rfl (chain_start_ne hc)
    complete := fun e x hx => by simp at hx
    first := fun _ => Or.inl rfl
    next := fun _ _ => Or.inl rfl }
/-! ### The edge table: what the second loop does -/

/-- The walk of the second loop along the chain of `v1`, on a table whose edges have
distinct vertex pairs: the edge from `v1` to `v0`, if it is on the chain and still has two
equal polygons, gets its right polygon; when no edge of the chain ends in `v0` with two
equal polygons, nothing changes. -/
theorem matchEdge_spec (nextEdge : Nat → Nat) (j v0 v1 : Nat) (edges : List rcEdge)
    (hnext : ∀ e, e < edges.length → nextEdge e = RC_MESH_NULL_IDX ∨ nextEdge e < e)
    (hU : ∀ a b xa xb, edges.get? a = some xa → edges.get? b = some xb →
      xa.vert0 = xb.vert0 → xa.vert1 = xb.vert1 → a = b) :
    ∀ (fuel s : Nat), 1 ≤ fuel → (s = RC_MESH_NULL_IDX ∨ s + 1 < fuel) →
      (∀ e, Chain nextEdge s e → ∃ x, edges.get? e = some x ∧ x.vert0 = v1) →
      (∀ e0 x0, Chain nextEdge s e0 → edges.get? e0 = some x0 → x0.vert1 = v0 →
          x0.poly0 = x0.poly1 →
          matchEdge nextEdge j v0 fuel s edges =
            some (edges.set e0 { x0 with poly1 := j % 65536 })) ∧
      ((∀ e x, Chain nextEdge s e → edges.get? e = some x →
          ¬ (x.vert1 = v0 ∧ x.poly0 = x.poly1)) →
        matchEdge nextEdge j v0 fuel s edges = some edges) := by
  intro fuel
  induction fuel with
  | zero => intro s h; omega
  | succ k ih =>
    intro s _ hs hsound
    rw [matchEdge]
    by_cases hnull : s = RC_MESH_NULL_IDX
    · rw [if_pos hnull]
      exact ⟨fun e0 x0 hc _ _ _ => absurd hnull (chain_start_ne hc), fun _ => rfl⟩
    · rw [if_neg hnull]
      obtain ⟨x, hx, hxv⟩ := hsound s (Chain.head hnull)
      have hlt : s < edges.length := by
        by_contra hc
        rw [List.get?_eq_none.mpr (not_lt.mp hc)] at hx
        cases hx
      have hk : s + 1 < k + 1 := by
        rcases hs with h | h
        · exact absurd h hnull
        · exact h
      simp only [hx]
      by_cases hm : x.vert1 = v0 ∧ x.poly0 = x.poly1
      · rw [if_pos hm]
        refine ⟨?_, fun h => absurd hm (h s x (Chain.head hnull) hx)⟩
        intro e0 x0 hc hx0 h1 _
        obtain ⟨y, hy, hyv⟩ := hsound e0 hc
        rw [hx0] at hy
        simp only [Option.some.injEq] at hy
        have hes : s = e0 := hU s e0 x x0 hx hx0 (by rw [hxv, hy, hyv]) (by rw [hm.1, h1])
        rw [← hes] at hx0
        rw [hx] at hx0
        simp only [Option.some.injEq] at hx0
        rw [← hes, ← hx0]
      · rw [if_neg hm]
        have hrec := ih (nextEdge s) (by omega)
          (by
            rcases hnext s hlt with h | h
            · exact Or.inl h
            · right
              omega)
          (fun e hc => hsound e (Chain.tail hnull hc))
        refine ⟨?_, fun h => hrec.2 (fun e y hc hy => h e y (Chain.tail hnull hc) hy)⟩
        intro e0 x0 hc hx0 h1 h2
        cases hc with
        | head _ =>
          rw [hx] at hx0
          simp only [Option.some.injEq] at hx0
          rw [← hx0] at h1 h2
          exact absurd ⟨h1, h2⟩ hm
        | tail _ hc1 => exact hrec.1 e0 x0 hc1 hx0 h1 h2

theorem mem_createdEdges {vs : List (Nat × Nat × Nat)} {x : rcEdge} (h : x ∈ createdEdges vs) :
    x.vert0 < x.vert1 ∧ x.poly1 = x.poly0 ∧
      ∃ i, (i, x.vert0, x.vert1) ∈ vs ∧ x.poly0 = i % 65536 := by
  simp only [createdEdges, List.mem_map, List.mem_filter, decide_eq_true_eq] at h
  obtain ⟨v, ⟨hv, hlt⟩, rfl⟩ := h
  exact ⟨hlt, rfl, v.1, hv, rfl⟩

theorem createdEdges_pairs (vs : List (Nat × Nat × Nat)) :
    (createdEdges vs).map (fun x => (x.vert0, x.vert1)) =
      (vs.filter (fun v => decide (v.2.1 < v.2.2))).map (fun v => (v.2.1, v.2.2)) := by
  simp [createdEdges, Function.comp_def]

/-- The created edges have distinct vertex pairs when every directed pair is visited once
at most. -/
theorem createdEdges_unique {vs : List (Nat × Nat × Nat)}
    (hnd : (vs.map (fun v => (v.2.1, v.2.2))).Nodup) (a b : Nat) (xa xb : rcEdge)
    (ha : (createdEdges vs).get? a = some xa) (hb : (createdEdges vs).get? b = some xb)
    (h0 : xa.vert0 = xb.vert0) (h1 : xa.vert1 = xb.vert1) : a = b := by
  have hnd1 : ((createdEdges vs).map (fun x => (x.vert0, x.vert1))).Nodup := by
    rw [createdEdges_pairs]
    exact hnd.sublist (List.Sublist.map _ (List.filter_sublist _))
  have hpa : ((createdEdges vs).map (fun x => (x.vert0, x.vert1)))[a]? =
      some (xa.vert0, xa.vert1) := by
    rw [List.getElem?_map, ← List.get?_eq_getElem?, ha]
    rfl
  have hpb : ((createdEdges vs).map (fun x => (x.vert0, x.vert1)))[b]? =
      some (xa.vert0, xa.vert1) := by
    rw [List.getElem?_map, ← List.get?_eq_getElem?, hb, h0, h1]
    rfl
  have hla : a < ((createdEdges vs).map (fun x => (x.vert0, x.vert1))).length := by
    by_contra hc
    rw [List.getElem?_eq_none (not_lt.mp hc)] at hpa
    cases hpa
  have hlb : b < ((createdEdges vs).map (fun x => (x.vert0, x.vert1))).length := by
    by_contra hc
    rw [List.getElem?_eq_none (not_lt.mp hc)] at hpb
    cases hpb
  rw [List.nodup_iff_getElem?_ne_getElem?] at hnd1
  rcases Nat.lt_trichotomy a b with h | h | h
  · exact absurd (hpa.trans hpb.symm) (hnd1 a b h hlb)
  · exact h
  · exact absurd (hpb.trans hpa.symm) (hnd1 b a h hla)

theorem matchedEdges_get? (vs done : List (Nat × Nat × Nat)) (e : Nat) :
    (matchedEdges vs done).get? e =
      ((createdEdges vs).get? e).map (fun x => { x with poly1 := rightPoly done x }) := by
  simp only [matchedEdges, List.get?_eq_getElem?, List.getElem?_map]

/-- A visit that is no reverse of the edge leaves its right polygon as it is. -/
theorem rightPoly_append_of_ne (done : List (Nat × Nat × Nat)) (w : Nat × Nat × Nat)
    (x : rcEdge) (h : ¬ (w.2.1 = x.vert1 ∧ w.2.2 = x.vert0)) :
    rightPoly (done ++ [w]) x = rightPoly done x := by
  unfold rightPoly
  rw [List.find?_append]
  have h1 : [w].find? (fun w => decide (w.2.1 = x.vert1 ∧ w.2.2 = x.vert0)) = none := by
    simp [h]
  rw [h1]
  cases done.find? (fun w => decide (w.2.1 = x.vert1 ∧ w.2.2 = x.vert0)) <;> rfl

/-- The first visit in the reverse direction of an edge gives the edge its right polygon. -/
theorem rightPoly_append_of_eq (done : List (Nat × Nat × Nat)) (w : Nat × Nat × Nat)
    (x : rcEdge) (h : w.2.1 = x.vert1 ∧ w.2.2 = x.vert0)
    (hdone : ∀ u ∈ done, ¬ (u.2.1 = x.vert1 ∧ u.2.2 = x.vert0)) :
    rightPoly done x = x.poly0 ∧ rightPoly (done ++ [w]) x = w.1 % 65536 := by
  have h0 : done.find? (fun w => decide (w.2.1 = x.vert1 ∧ w.2.2 = x.vert0)) = none := by
    rw [List.find?_eq_none]
    intro u hu
    simpa using hdone u hu
  have h1 : [w].find? (fun w => decide (w.2.1 = x.vert1 ∧ w.2.2 = x.vert0)) = some w := by
    simp [h]
  unfold rightPoly
  rw [List.find?_append, h0, h1]
  exact ⟨rfl, rfl⟩
theorem matchedEdges_congr (vs d1 d2 : List (Nat × Nat × Nat))
    (h : ∀ x ∈ createdEdges vs, rightPoly d1 x = rightPoly d2 x) :
    matchedEdges vs d1 = matchedEdges vs d2 := by
  unfold matchedEdges
  apply List.map_congr_left
  intro x hx
  rw [h x hx]

/-- One visit of the second loop. -/
theorem closeEdge_matched {vs done rest : List (Nat × Nat × Nat)} {w : Nat × Nat × Nat}
    {t : EdgeTable} (hvs : vs = done ++ w :: rest)
    (hnd : (vs.map (fun v => (v.2.1, v.2.2))).Nodup) (h : EdgesMatched vs done t) :
    ∃ t1, closeEdge t w.1 w.2.1 w.2.2 = some t1 ∧ EdgesMatched vs (done ++ [w]) t1 := by
  have hlen : t.edges.length = (createdEdges vs).length := by
    rw [h.edges, matchedEdges, List.length_map]
  have hcur : ∀ e x, t.edges.get? e = some x →
      ∃ y, (createdEdges vs).get? e = some y ∧ x = { y with poly1 := rightPoly done y } := by
    intro e x hx
    rw [h.edges, matchedEdges_get?] at hx
    cases hy : (createdEdges vs).get? e with
    | none =>
      rw [hy] at hx
      cases hx
    | some y =>
      rw [hy] at hx
      simp only [Option.map_some', Option.some.injEq] at hx
      exact ⟨y, rfl, hx.symm⟩
  have hnotdone : ∀ u ∈ done, ¬ (u.2.1 = w.2.1 ∧ u.2.2 = w.2.2) := by
    intro u hu hc
    rw [hvs, List.map_append, List.map_cons] at hnd
    have hdis := (List.nodup_append.mp hnd).2.2
    have hmem : (w.2.1, w.2.2) ∈ done.map (fun v => (v.2.1, v.2.2)) := by
      rw [← hc.1, ← hc.2]
      exact List.mem_map_of_mem (fun v => (v.2.1, v.2.2)) hu
    exact hdis hmem (List.mem_cons_self _ _)
  unfold closeEdge
  by_cases hv : w.2.1 > w.2.2
  · rw [if_pos hv]
    have hspec := matchEdge_spec t.nextEdge w.1 w.2.1 w.2.2 t.edges
      (by rw [hlen]; exact h.next)
      (by
        intro a b xa xb ha hb h0 h1
        obtain ⟨ya, hya, rfl⟩ := hcur a xa ha
        obtain ⟨yb, hyb, rfl⟩ := hcur b xb hb
        exact createdEdges_unique hnd a b ya yb hya hyb h0 h1)
      (t.edges.length + 1) (t.firstEdge w.2.2) (by omega)
      (by
        rcases h.first w.2.2 with h1 | h1
        · exact Or.inl h1
        · right
          rw [hlen]
          omega)
      (by
        intro e hc
        obtain ⟨y, hy, hyv⟩ := h.sound _ e hc
        refine ⟨{ y with poly1 := rightPoly done y }, ?_, hyv⟩
        rw [h.edges, matchedEdges_get?, hy]
        rfl)
    by_cases hex : ∃ e0 x0, (createdEdges vs).get? e0 = some x0 ∧ x0.vert0 = w.2.2 ∧
        x0.vert1 = w.2.1
    · obtain ⟨e0, x0, hx0, hx1, hx2⟩ := hex
      have hchain := h.complete e0 x0 hx0
      rw [hx1] at hchain
      obtain ⟨hr1, hr2⟩ := rightPoly_append_of_eq done w x0 ⟨hx2.symm, hx1.symm⟩
        (by
          intro u hu hc
          exact hnotdone u hu ⟨by rw [hc.1, hx2], by rw [hc.2, hx1]⟩)
      have hget0 : t.edges.get? e0 = some { x0 with poly1 := rightPoly done x0 } := by
        rw [h.edges, matchedEdges_get?, hx0]
        rfl
      have hm := hspec.1 e0 _ hchain hget0 hx2 hr1.symm
      rw [hm]
      refine ⟨_, rfl,
        { edges := ?_, sound := h.sound, complete := h.complete, first := h.first,
          next := h.next }⟩
      apply List.ext_get?
      intro n
      rw [matchedEdges_get?, List.get?_eq_getElem?, List.getElem?_set]
      by_cases hn : e0 = n
      · have he0 : e0 < t.edges.length := by
          by_contra hc
          rw [List.get?_eq_none.mpr (not_lt.mp hc)] at hget0
          cases hget0
        rw [if_pos hn, if_pos he0, ← hn, hx0]
        simp only [Option.map_some', Option.some.injEq]
        rw [hr2]
      · rw [if_neg hn, ← List.get?_eq_getElem?, h.edges, matchedEdges_get?]
        cases hy : (createdEdges vs).get? n with
        | none => rfl
        | some y =>
          simp only [Option.map_some', Option.some.injEq]
          rw [rightPoly_append_of_ne]
          intro hc
          exact hn (createdEdges_unique hnd e0 n x0 y hx0 hy (by rw [hx1, hc.2])
            (by rw [hx2, hc.1]))
    · have hm := hspec.2 (by
        intro e x hc hx hcon
        obtain ⟨y, hy, hyv⟩ := h.sound _ e hc
        obtain ⟨y1, hy1, hxy⟩ := hcur e x hx
        rw [hy] at hy1
        simp only [Option.some.injEq] at hy1
        apply hex
        refine ⟨e, y, hy, hyv, ?_⟩
        rw [hxy, ← hy1] at hcon
        exact hcon.1)
      rw [hm]
      refine ⟨_, rfl,
        { edges := ?_, sound := h.sound, complete := h.complete, first := h.first,
          next := h.next }⟩
      show t.edges = _
      rw [h.edges]
      apply matchedEdges_congr
      intro x hx
      symm
      apply rightPoly_append_of_ne
      intro hc
      obtain ⟨e, he⟩ := List.get?_of_mem hx
      exact hex ⟨e, x, he, hc.2.symm, hc.1.symm⟩
  · rw [if_neg hv]
    refine ⟨t, rfl,
      { edges := ?_, sound := h.sound, complete := h.complete, first := h.first,
        next := h.next }⟩
    rw [h.edges]
    apply matchedEdges_congr
    intro x hx
    symm
    apply rightPoly_append_of_ne
    intro hc
    have := (mem_createdEdges hx).1
    omega

/-- The second loop. -/
theorem foldl_closeEdge_matched {vs : List (Nat × Nat × Nat)}
    (hnd : (vs.map (fun v => (v.2.1, v.2.2))).Nodup) :
    ∀ (rest done : List (Nat × Nat × Nat)) (t : EdgeTable), vs = done ++ rest →
    EdgesMatched vs done t →
    ∃ t1, rest.foldl
        (fun t v =>
          match t with
          | some t2 => closeEdge t2 v.1 v.2.1 v.2.2
          | none => none)
        (some t) = some t1 ∧ EdgesMatched vs vs t1
  | [], done, t, hvs, h => by
    rw [List.append_nil] at hvs
    rw [← hvs] at h
    exact ⟨t, rfl, h⟩
  | w :: rest, done, t, hvs, h => by
    obtain ⟨t1, ht1, h1⟩ := closeEdge_matched hvs hnd h
    rw [List.foldl_cons]
    simp only [ht1]
    exact foldl_closeEdge_matched hnd rest (done ++ [w]) t1 (by rw [hvs]; simp) h1

theorem rightPoly_nil (x : rcEdge) : rightPoly [] x = x.poly0 := rfl

/-- The edge table that the first two loops build, for a mesh in which every directed pair
is visited once at most and which has fewer edges than the null index. -/
theorem buildEdges_spec (mesh : rcPolyMesh) (hdir : DirectedOnce mesh)
    (hcap : (createdEdges mesh.visits).length < RC_MESH_NULL_IDX) :
    ∃ t, buildEdges mesh = some t ∧ t.edges = matchedEdges mesh.visits mesh.visits := by
  have h1 := foldl_addEdge_created mesh.visits [] _ edgesCreated_start
    (by rw [List.nil_append]; exact hcap)
  rw [List.nil_append] at h1
  have h2 : EdgesMatched mesh.visits []
      (mesh.visits.foldl (fun t v => addEdge t v.1 v.2.1 v.2.2)
        { edges := [], firstEdge := fun _ => RC_MESH_NULL_IDX,
          nextEdge := fun _ => RC_MESH_NULL_IDX }) :=
    { edges := by
        rw [h1.edges, matchedEdges]
        symm
        have hid : ∀ x ∈ createdEdges mesh.visits,
            ({ x with poly1 := rightPoly [] x } : rcEdge) = id x := by
          intro x hx
          have hp := (mem_createdEdges hx).2.1
          cases x
          simp only [rightPoly_nil, id_eq] at hp ⊢
          rw [hp]
        rw [List.map_congr_left hid, List.map_id]
      sound := by
        intro v e hc
        rw [← h1.edges]
        exact h1.sound v e hc
      complete := by
        intro e x hx
        rw [← h1.edges] at hx
        exact h1.complete e x hx
      first := by
        intro v
        rw [← h1.edges]
        exact h1.first v
      next := by
        intro e he
        rw [← h1.edges] at he
        exact h1.next e he }
  obtain ⟨t, ht, hm⟩ := foldl_closeEdge_matched hdir mesh.visits [] _ (by simp) h2
  exact ⟨t, ht, hm.edges⟩
theorem rightPoly_of_visit {vs : List (Nat × Nat × Nat)}
    (hnd : (vs.map (fun v => (v.2.1, v.2.2))).Nodup) {j : Nat} {x : rcEdge}
    (hj : (j, x.vert1, x.vert0) ∈ vs) : rightPoly vs x = j % 65536 := by
  unfold rightPoly
  cases hf : vs.find? (fun w => decide (w.2.1 = x.vert1 ∧ w.2.2 = x.vert0)) with
  | none =>
    rw [List.find?_eq_none] at hf
    exact absurd (by simp) (hf _ hj)
  | some w =>
    have hw := List.find?_some hf
    simp only [decide_eq_true_eq] at hw
    have hmem := List.mem_of_find?_eq_some hf
    have heq : w = (j, x.vert1, x.vert0) :=
      List.inj_on_of_nodup_map hnd hmem hj (by
        show (w.2.1, w.2.2) = (x.vert1, x.vert0)
        rw [hw.1, hw.2])
    rw [heq]

theorem rightPoly_cases (vs : List (Nat × Nat × Nat)) (x : rcEdge) :
    ((∀ w ∈ vs, ¬ (w.2.1 = x.vert1 ∧ w.2.2 = x.vert0)) ∧ rightPoly vs x = x.poly0) ∨
      ∃ q, (q, x.vert1, x.vert0) ∈ vs ∧ rightPoly vs x = q % 65536 := by
  unfold rightPoly
  cases hf : vs.find? (fun w => decide (w.2.1 = x.vert1 ∧ w.2.2 = x.vert0)) with
  | none =>
    left
    rw [List.find?_eq_none] at hf
    exact ⟨fun w hw => by simpa using hf w hw, rfl⟩
  | some w =>
    right
    have hw := List.find?_some hf
    simp only [decide_eq_true_eq] at hw
    have hmem := List.mem_of_find?_eq_some hf
    refine ⟨w.1, ?_, rfl⟩
    rw [← hw.1, ← hw.2]
    exact hmem

theorem present_mod {mesh : rcPolyMesh} (hpolys : mesh.npolys ≤ 65536) {i : Nat}
    (hi : PolyPresent mesh i) : i % 65536 = i :=
  Nat.mod_eq_of_lt (lt_of_lt_of_le hi.1 hpolys)

theorem mem_visits_of_createdEdges {vs : List (Nat × Nat × Nat)} {i v0 v1 : Nat}
    (h : (i, v0, v1) ∈ vs) (hlt : v0 < v1) :
    (⟨v0, v1, i % 65536, i % 65536⟩ : rcEdge) ∈ createdEdges vs := by
  simp only [createdEdges, List.mem_map, List.mem_filter, decide_eq_true_eq]
  exact ⟨(i, v0, v1), ⟨h, hlt⟩, rfl⟩

section EdgeRecordsThms

variable {α : Type} [LinearOrderedField α]

theorem length_connectEdge (mesh : rcPolyMesh) (polyToZoneMap : Nat → Nat)
    (neighbor : NeighboringZone α) (zones : List (BotNavMeshZone α)) (e : rcEdge) :
    (connectEdge mesh polyToZoneMap neighbor zones e).length = zones.length := by
  unfold connectEdge
  split_ifs
  · simp only [length_pushNeighbor]
  · rfl

/-- The records that the third loop gives to zone `a` for one edge. -/
theorem neighborsOf_connectEdge (mesh : rcPolyMesh) (polyToZoneMap : Nat → Nat)
    (neighbor : NeighboringZone α) (zones : List (BotNavMeshZone α)) (e : rcEdge) (a : Nat)
    (h : e.poly0 ≠ e.poly1 →
      polyToZoneMap e.poly0 < zones.length ∧ polyToZoneMap e.poly1 < zones.length) :
    neighborsOf (connectEdge mesh polyToZoneMap neighbor zones e) a =
      neighborsOf zones a ++ edgeRecords mesh polyToZoneMap neighbor a e := by
  unfold connectEdge edgeRecords
  by_cases hp : e.poly0 ≠ e.poly1
  · obtain ⟨h0, h1⟩ := h hp
    rw [if_pos hp, if_pos hp]
    dsimp only
    rw [neighborsOf_pushNeighbor, neighborsOf_pushNeighbor, length_pushNeighbor]
    unfold edgeRecord
    dsimp only
    by_cases c0 : polyToZoneMap e.poly0 = a <;> by_cases c1 : polyToZoneMap e.poly1 = a
    · have ha : a < zones.length := by rw [← c0]; exact h0
      simp [c0, c1, ha]
    · have ha : a < zones.length := by rw [← c0]; exact h0
      simp [c0, c1, ha]
    · have ha : a < zones.length := by rw [← c1]; exact h1
      simp [c0, c1, ha]
    · simp [c0, c1]
  · rw [if_neg hp, if_neg hp, List.append_nil]

/-- The records that the third loop gives to zone `a`. -/
theorem neighborsOf_foldl_connectEdge (mesh : rcPolyMesh) (polyToZoneMap : Nat → Nat)
    (neighbor : NeighboringZone α) (a : Nat) : ∀ (edges : List rcEdge)
    (zones : List (BotNavMeshZone α)),
    (∀ e ∈ edges, e.poly0 ≠ e.poly1 →
      polyToZoneMap e.poly0 < zones.length ∧ polyToZoneMap e.poly1 < zones.length) →
    neighborsOf (edges.foldl (connectEdge mesh polyToZoneMap neighbor) zones) a =
      neighborsOf zones a ++ edges.flatMap (edgeRecords mesh polyToZoneMap neighbor a)
  | [], zones, _ => by simp
  | e :: edges, zones, h => by
    rw [List.foldl_cons, neighborsOf_foldl_connectEdge mesh polyToZoneMap neighbor a edges _
      (by
        intro e1 he1 hp
        rw [length_connectEdge]
        exact h e1 (List.mem_cons_of_mem _ he1) hp),
      neighborsOf_connectEdge mesh polyToZoneMap neighbor zones e a
        (h e (List.mem_cons_self _ _)),
      List.flatMap_cons, List.append_assoc]

end EdgeRecordsThms
section EdgeMatchingThms

variable {α : Type} [LinearOrderedField α]

/-- C26: for a mesh in which every directed vertex pair is the side of one polygon at most
(consistent winding, every undirected pair used by at most two polygons), with fewer edges
than the null index and at most 65536 polygons, and a map that gives the present polygons
distinct zones of the vector: the builder returns; its edge table holds one edge for every
visited pair `v0 < v1`, with the visiting polygon on the left and, on the right, the
polygon that visits `(v1, v0)`, or the left one again when there is none; the records of a
zone are those of the edges, in order: an edge with two polygons gives one record to the
zone of each, leading to the zone of the other, and an edge with one polygon gives none.
So two distinct polygons have records for each other exactly when one visits a pair that
the other visits in the opposite direction; the border of the record runs from the
coordinates of `v0` to those of `v1`, each less 32767. -/
theorem C26_edge_matching_records (mesh : rcPolyMesh) (polyToZoneMap : Nat → Nat)
    (neighbor : NeighboringZone α) (zones : List (BotNavMeshZone α)) (hn : NoNeighbors zones)
    (hdir : DirectedOnce mesh)
    (hcap : (createdEdges mesh.visits).length < RC_MESH_NULL_IDX)
    (hpolys : mesh.npolys ≤ 65536)
    (hmap : ∀ i, PolyPresent mesh i → polyToZoneMap i < zones.length)
    (hinj : ∀ i j, PolyPresent mesh i → PolyPresent mesh j →
      polyToZoneMap i = polyToZoneMap j → i = j) :
    ∃ t out, buildEdges mesh = some t ∧
      buildBotNavMeshZoneConnectionsRecastStyle mesh polyToZoneMap neighbor zones = some out ∧
      t.edges = matchedEdges mesh.visits mesh.visits ∧
      (t.edges.map (fun e => (e.vert0, e.vert1))).Nodup ∧
      (∀ a, neighborsOf out a =
        t.edges.flatMap (edgeRecords mesh polyToZoneMap neighbor a)) ∧
      (∀ i j, PolyPresent mesh i → PolyPresent mesh j → i ≠ j →
        ((∃ nb ∈ neighborsOf out (polyToZoneMap i), nb.zoneID = polyToZoneMap j) ↔
          ∃ v0 v1, (i, v0, v1) ∈ mesh.visits ∧ (j, v1, v0) ∈ mesh.visits)) ∧
      (∀ i j v0 v1, (i, v0, v1) ∈ mesh.visits → (j, v1, v0) ∈ mesh.visits → v0 < v1 →
        i ≠ j →
        (⟨v0, v1, i, j⟩ : rcEdge) ∈ t.edges ∧
        edgeRecords mesh polyToZoneMap neighbor (polyToZoneMap i) ⟨v0, v1, i, j⟩ =
          [edgeRecord mesh neighbor ⟨v0, v1, i, j⟩ (polyToZoneMap j)] ∧
        edgeRecords mesh polyToZoneMap neighbor (polyToZoneMap j) ⟨v0, v1, i, j⟩ =
          [edgeRecord mesh neighbor ⟨v0, v1, i, j⟩ (polyToZoneMap i)] ∧
        ∀ a, a ≠ polyToZoneMap i → a ≠ polyToZoneMap j →
          edgeRecords mesh polyToZoneMap neighbor a ⟨v0, v1, i, j⟩ = []) ∧
      (∀ i v0 v1, (i, v0, v1) ∈ mesh.visits → v0 < v1 →
        (∀ j, (j, v1, v0) ∉ mesh.visits) →
        (⟨v0, v1, i, i⟩ : rcEdge) ∈ t.edges ∧
        ∀ a, edgeRecords mesh polyToZoneMap neighbor a ⟨v0, v1, i, i⟩ = []) := by
  obtain ⟨t, ht, hedges⟩ := buildEdges_spec mesh hdir hcap
  -- the members of the edge table
  have hmem : ∀ e, e ∈ t.edges ↔ ∃ x ∈ createdEdges mesh.visits,
      e = { x with poly1 := rightPoly mesh.visits x } := by
    intro e
    rw [hedges, matchedEdges, List.mem_map]
    exact ⟨fun ⟨x, hx, h⟩ => ⟨x, hx, h.symm⟩, fun ⟨x, hx, h⟩ => ⟨x, hx, h.symm⟩⟩
  have hleft : ∀ x ∈ createdEdges mesh.visits,
      ∃ p, PolyPresent mesh p ∧ x.poly0 = p ∧ (p, x.vert0, x.vert1) ∈ mesh.visits ∧
        x.vert0 < x.vert1 := by
    intro x hx
    obtain ⟨hlt, -, p, hp, hp0⟩ := mem_createdEdges hx
    have hpres : PolyPresent mesh p := mem_visits hp
    exact ⟨p, hpres, by rw [hp0, present_mod hpolys hpres], hp, hlt⟩
  have hright : ∀ x ∈ createdEdges mesh.visits, rightPoly mesh.visits x ≠ x.poly0 →
      ∃ q, PolyPresent mesh q ∧ rightPoly mesh.visits x = q ∧
        (q, x.vert1, x.vert0) ∈ mesh.visits := by
    intro x _ hne
    rcases rightPoly_cases mesh.visits x with ⟨-, h⟩ | ⟨q, hq, h⟩
    · exact absurd h hne
    · have hpres : PolyPresent mesh q := mem_visits hq
      exact ⟨q, hpres, by rw [h, present_mod hpolys hpres], hq⟩
  have hvalid : ∀ e ∈ t.edges, e.poly0 ≠ e.poly1 →
      polyToZoneMap e.poly0 < zones.length ∧ polyToZoneMap e.poly1 < zones.length := by
    intro e he hp
    obtain ⟨x, hx, rfl⟩ := (hmem e).mp he
    obtain ⟨p, hpres, hp0, -⟩ := hleft x hx
    obtain ⟨q, hqres, hq0, -⟩ := hright x hx (fun h => hp h.symm)
    dsimp only
    rw [hp0, hq0]
    exact ⟨hmap p hpres, hmap q hqres⟩
  have hshared : ∀ i j v0 v1, (i, v0, v1) ∈ mesh.visits → (j, v1, v0) ∈ mesh.visits →
      v0 < v1 → (⟨v0, v1, i, j⟩ : rcEdge) ∈ t.edges := by
    intro i j v0 v1 hi hj hlt
    rw [hmem]
    refine ⟨⟨v0, v1, i % 65536, i % 65536⟩, mem_visits_of_createdEdges hi hlt, ?_⟩
    rw [rightPoly_of_visit hdir (j := j) (x := ⟨v0, v1, i % 65536, i % 65536⟩) hj,
      present_mod hpolys (mem_visits hi), present_mod hpolys (mem_visits hj)]
  -- the zone vector
  have hout : ∃ out,
      buildBotNavMeshZoneConnectionsRecastStyle mesh polyToZoneMap neighbor zones = some out ∧
      ∀ a, neighborsOf out a =
        t.edges.flatMap (edgeRecords mesh polyToZoneMap neighbor a) := by
    unfold buildBotNavMeshZoneConnectionsRecastStyle
    by_cases h0 : zones.length = 0
    · rw [if_pos h0]
      refine ⟨zones, rfl, ?_⟩
      have hvis : mesh.visits = [] := by
        rw [List.eq_nil_iff_forall_not_mem]
        intro v hv
        have := hmap v.1 (mem_visits hv)
        omega
      intro a
      rw [hedges, hvis, neighborsOf_of_noNeighbors hn]
      rfl
    · rw [if_neg h0, ht]
      refine ⟨_, rfl, ?_⟩
      intro a
      rw [neighborsOf_foldl_connectEdge mesh polyToZoneMap neighbor a t.edges zones hvalid,
        neighborsOf_of_noNeighbors hn, List.nil_append]
  obtain ⟨out, hbuild, hrec⟩ := hout
  refine ⟨t, out, ht, hbuild, hedges, ?_, hrec, ?_, ?_, ?_⟩
  · rw [hedges, matchedEdges, List.map_map]
    have hnd1 : ((createdEdges mesh.visits).map (fun x => (x.vert0, x.vert1))).Nodup := by
      rw [createdEdges_pairs]
      exact hdir.sublist (List.Sublist.map _ (List.filter_sublist _))
    exact hnd1
  · intro i j hi hj hij
    rw [hrec]
    constructor
    · rintro ⟨nb, hnb, hz⟩
      rw [List.mem_flatMap] at hnb
      obtain ⟨e, he, hnbe⟩ := hnb
      obtain ⟨x, hx, rfl⟩ := (hmem e).mp he
      obtain ⟨p, hpres, hp0, hpv, -⟩ := hleft x hx
      unfold edgeRecords at hnbe
      dsimp only at hnbe
      by_cases hp : x.poly0 ≠ rightPoly mesh.visits x
      · obtain ⟨q, hqres, hq0, hqv⟩ := hright x hx (fun h => hp h.symm)
        rw [if_pos hp, hp0, hq0] at hnbe
        rcases List.mem_append.mp hnbe with h | h
        · by_cases c : polyToZoneMap p = polyToZoneMap i
          · rw [if_pos c, List.mem_singleton] at h
            have hpi := hinj p i hpres hi c
            have hqj : q = j := hinj q j hqres hj (by rw [← hz, h]; rfl)
            rw [hpi] at hpv
            rw [hqj] at hqv
            exact ⟨_, _, hpv, hqv⟩
          · rw [if_neg c] at h
            cases h
        · by_cases c : polyToZoneMap q = polyToZoneMap i
          · rw [if_pos c, List.mem_singleton] at h
            have hqi := hinj q i hqres hi c
            have hpj : p = j := hinj p j hpres hj (by rw [← hz, h]; rfl)
            rw [hqi] at hqv
            rw [hpj] at hpv
            exact ⟨_, _, hqv, hpv⟩
          · rw [if_neg c] at h
            cases h
      · rw [if_neg hp] at hnbe
        cases hnbe
    · rintro ⟨v0, v1, hvi, hvj⟩
      rcases Nat.lt_trichotomy v0 v1 with hlt | heq | hgt
      · refine ⟨edgeRecord mesh neighbor ⟨v0, v1, i, j⟩ (polyToZoneMap j), ?_, rfl⟩
        rw [List.mem_flatMap]
        refine ⟨_, hshared i j v0 v1 hvi hvj hlt, ?_⟩
        unfold edgeRecords
        dsimp only
        rw [if_pos hij, if_pos rfl]
        exact List.mem_append_left _ (List.mem_singleton_self _)
      · subst heq
        have := List.inj_on_of_nodup_map hdir hvi hvj rfl
        simp only [Prod.mk.injEq] at this
        exact absurd this.1 hij
      · refine ⟨edgeRecord mesh neighbor ⟨v1, v0, j, i⟩ (polyToZoneMap j), ?_, rfl⟩
        rw [List.mem_flatMap]
        refine ⟨_, hshared j i v1 v0 hvj hvi hgt, ?_⟩
        unfold edgeRecords
        dsimp only
        rw [if_pos (fun h => hij h.symm), if_pos rfl]
        exact List.mem_append_right _ (List.mem_singleton_self _)
  · intro i j v0 v1 hvi hvj hlt hij
    have hne : polyToZoneMap i ≠ polyToZoneMap j :=
      fun h => hij (hinj i j (mem_visits hvi) (mem_visits hvj) h)
    refine ⟨hshared i j v0 v1 hvi hvj hlt, ?_, ?_, ?_⟩
    · unfold edgeRecords
      dsimp only
      rw [if_pos hij, if_pos rfl, if_neg (fun h => hne h.symm), List.append_nil]
    · unfold edgeRecords
      dsimp only
      rw [if_pos hij, if_neg hne, if_pos rfl, List.nil_append]
    · intro a ha1 ha2
      unfold edgeRecords
      dsimp only
      rw [if_pos hij, if_neg (fun h => ha1 h.symm), if_neg (fun h => ha2 h.symm)]
      rfl
  · intro i v0 v1 hvi hlt hno
    constructor
    · rw [hmem]
      refine ⟨⟨v0, v1, i % 65536, i % 65536⟩, mem_visits_of_createdEdges hvi hlt, ?_⟩
      rcases rightPoly_cases mesh.visits ⟨v0, v1, i % 65536, i % 65536⟩ with ⟨-, h⟩ | ⟨q, hq, -⟩
      · rw [h, present_mod hpolys (mem_visits hvi)]
      · exact absurd hq (hno q)
    · intro a
      unfold edgeRecords
      dsimp only
      rw [if_neg (fun h => h rfl)]

end EdgeMatchingThms
/-- The row of three squares: the first two loops leave six edges, of which the edge from
vertex 1 to vertex 5 lies between the polygons 0 and 1 and the edge from vertex 2 to
vertex 6 between the polygons 1 and 2; the builder gives the zones the records of these
two edges. -/
theorem C26_edge_matching_records_witness :
    (buildEdges exampleRowMesh).map (fun t => t.edges) =
        some [⟨0, 1, 0, 0⟩, ⟨1, 5, 0, 1⟩, ⟨1, 2, 1, 1⟩, ⟨2, 6, 1, 2⟩, ⟨2, 3, 2, 2⟩,
          ⟨3, 7, 2, 2⟩] ∧
      ∃ t out, buildEdges exampleRowMesh = some t ∧
        buildBotNavMeshZoneConnectionsRecastStyle exampleRowMesh (fun k => k) exampleNeighbor
          exampleRowZones = some out ∧
        t.edges = matchedEdges exampleRowMesh.visits exampleRowMesh.visits ∧
        (∀ a, neighborsOf out a =
          t.edges.flatMap (edgeRecords exampleRowMesh (fun k => k) exampleNeighbor a)) ∧
        (∀ i j, PolyPresent exampleRowMesh i → PolyPresent exampleRowMesh j → i ≠ j →
          ((∃ nb ∈ neighborsOf out i, nb.zoneID = j) ↔
            ∃ v0 v1, (i, v0, v1) ∈ exampleRowMesh.visits ∧
              (j, v1, v0) ∈ exampleRowMesh.visits)) :=
  ⟨by decide,
    match C26_edge_matching_records exampleRowMesh (fun k => k) exampleNeighbor exampleRowZones
      noNeighbors_exampleRowZones (by unfold DirectedOnce; decide) (by decide) (by decide)
      (fun _ h => h.1) (fun _ _ _ _ h => h) with
    | ⟨t, out, h1, h2, h3, _, h5, h6, _⟩ => ⟨t, out, h1, h2, h3, h5, h6⟩⟩
end Zap
